import Mathlib

/-!
# VIA NVRAM real-time clock: a shallow embedding of `hw/rtc/via_nvram.c`

The device state `VIANVRAMState` is embedded as a record, every C function as a
Lean function over it.  Bytes of the register file are natural numbers (stores
truncate modulo 256); 32/64-bit quantities are integers with explicit
wrap-around (`u32`, `u64`, `i32`, `i64`).  Everything the device consumes from
its collaborators (the clock, `gmtime_r`, `mktimegm`, the rate table, the
interrupt-delivery feedback) is a field of `Env`, so each theorem holds for
every behaviour of those collaborators.
-/

namespace ViaNvram

/-! ## Machine integers -/

/-- Conversion to `uint8_t`. -/
def u8 (x : Int) : Nat := (x % 256).toNat

/-- Conversion to `uint16_t`. -/
def u16 (x : Int) : Int := x % 65536

/-- Conversion to `uint32_t`. -/
def u32 (x : Int) : Int := x % 4294967296

/-- Conversion to `uint64_t`. -/
def u64 (x : Int) : Int := x % 18446744073709551616

/-- Conversion to `int32_t` (two's complement wrap-around, as with `-fwrapv`). -/
def i32 (x : Int) : Int := (x + 2147483648) % 4294967296 - 2147483648

/-- Conversion to `int64_t` (two's complement wrap-around). -/
def i64 (x : Int) : Int :=
  (x + 9223372036854775808) % 18446744073709551616 - 9223372036854775808

/-! ## Register indices and bit masks -/

/-- Modelled from the spec: register indices of `hw/rtc/mc146818rtc_regs.h`
(the header is not part of the sources); seconds register. -/
abbrev RTC_SECONDS : Nat := 0
/-- Modelled from the spec: `mc146818rtc_regs.h`, seconds alarm register. -/
abbrev RTC_SECONDS_ALARM : Nat := 1
/-- Modelled from the spec: `mc146818rtc_regs.h`, minutes register. -/
abbrev RTC_MINUTES : Nat := 2
/-- Modelled from the spec: `mc146818rtc_regs.h`, minutes alarm register. -/
abbrev RTC_MINUTES_ALARM : Nat := 3
/-- Modelled from the spec: `mc146818rtc_regs.h`, hours register. -/
abbrev RTC_HOURS : Nat := 4
/-- Modelled from the spec: `mc146818rtc_regs.h`, hours alarm register. -/
abbrev RTC_HOURS_ALARM : Nat := 5
/-- Modelled from the spec: `mc146818rtc_regs.h`, day-of-week register. -/
abbrev RTC_DAY_OF_WEEK : Nat := 6
/-- Modelled from the spec: `mc146818rtc_regs.h`, day-of-month register. -/
abbrev RTC_DAY_OF_MONTH : Nat := 7
/-- Modelled from the spec: `mc146818rtc_regs.h`, month register. -/
abbrev RTC_MONTH : Nat := 8
/-- Modelled from the spec: `mc146818rtc_regs.h`, year register. -/
abbrev RTC_YEAR : Nat := 9
/-- Modelled from the spec: `mc146818rtc_regs.h`, control register A. -/
abbrev RTC_REG_A : Nat := 10
/-- Modelled from the spec: `mc146818rtc_regs.h`, control register B. -/
abbrev RTC_REG_B : Nat := 11
/-- Modelled from the spec: `mc146818rtc_regs.h`, status register C. -/
abbrev RTC_REG_C : Nat := 12
/-- Modelled from the spec: `mc146818rtc_regs.h`, register D. -/
abbrev RTC_REG_D : Nat := 13
/-- Modelled from the spec: `mc146818rtc_regs.h`, century register. -/
abbrev RTC_CENTURY : Nat := 0x32
/-- Modelled from the spec: `mc146818rtc_regs.h`, PS/2 century byte, an alias
of the century register. -/
abbrev RTC_IBM_PS2_CENTURY_BYTE : Nat := 0x37

/-- Modelled from the spec: `mc146818rtc_regs.h`, update-in-progress flag of
register A. -/
abbrev REG_A_UIP : Nat := 0x80
/-- Modelled from the spec: `mc146818rtc_regs.h`, set-mode flag of register B. -/
abbrev REG_B_SET : Nat := 0x80
/-- Modelled from the spec: `mc146818rtc_regs.h`, periodic interrupt enable. -/
abbrev REG_B_PIE : Nat := 0x40
/-- Modelled from the spec: `mc146818rtc_regs.h`, alarm interrupt enable. -/
abbrev REG_B_AIE : Nat := 0x20
/-- Modelled from the spec: `mc146818rtc_regs.h`, update-ended interrupt enable. -/
abbrev REG_B_UIE : Nat := 0x10
/-- Modelled from the spec: `mc146818rtc_regs.h`, square-wave enable. -/
abbrev REG_B_SQWE : Nat := 0x08
/-- Modelled from the spec: `mc146818rtc_regs.h`, binary (1) or BCD (0) data mode. -/
abbrev REG_B_DM : Nat := 0x04
/-- Modelled from the spec: `mc146818rtc_regs.h`, 24-hour (1) or 12-hour (0) mode. -/
abbrev REG_B_24H : Nat := 0x02
/-- Modelled from the spec: `mc146818rtc_regs.h`, update-ended flag of register C. -/
abbrev REG_C_UF : Nat := 0x10
/-- Modelled from the spec: `mc146818rtc_regs.h`, summary flag of register C. -/
abbrev REG_C_IRQF : Nat := 0x80
/-- Modelled from the spec: `mc146818rtc_regs.h`, periodic flag of register C. -/
abbrev REG_C_PF : Nat := 0x40
/-- Modelled from the spec: `mc146818rtc_regs.h`, alarm flag of register C. -/
abbrev REG_C_AF : Nat := 0x20
/-- Modelled from the spec: `mc146818rtc_regs.h`, the three source flags of
register C. -/
abbrev REG_C_MASK : Nat := 0x70
/-- Modelled from the spec: `NANOSECONDS_PER_SECOND` of `qemu/timer.h`. -/
abbrev NANOSECONDS_PER_SECOND : Int := 1000000000
/-- Modelled from the spec: `ISA_NUM_IRQS` of `hw/isa/isa.h`. -/
abbrev ISA_NUM_IRQS : Nat := 16

/-! ## Data model -/

/-- Modelled from the spec: the lost-tick policy enumeration (`LostTickPolicy`
of the generated QAPI types); `DELAY` stands for every policy the device does
not recognise. -/
inductive LostTickPolicy where
  | DISCARD
  | DELAY
  | SLEW
  deriving DecidableEq, Repr

/-- Broken-down time, `struct tm` of the C library. -/
structure Tm where
  tm_sec : Int
  tm_min : Int
  tm_hour : Int
  tm_mday : Int
  tm_mon : Int
  tm_year : Int
  tm_wday : Int
  tm_yday : Int
  tm_isdst : Int
  deriving DecidableEq, Repr

/-- What the device consumes from its collaborators during one operation:
the clock value `qemu_clock_get_ns(rtc_clock)`, the answer of
`kvm_get_irq_delivered()` after the line was raised, the C library's
`gmtime_r`, QEMU's `mktimegm`, the rate table `periodic_period_to_clock` of
`mc146818rtc_regs.h`, the host date `qemu_get_timedate`, whether `rtc_clock` is
`QEMU_CLOCK_REALTIME`, whether `replay_mode` is `REPLAY_MODE_NONE`, and the
value of `get_max_clock_jump()`. -/
structure Env where
  now : Int
  irq_delivered : Bool
  gmtime_r : Int → Tm
  mktimegm : Tm → Int
  periodic_period_to_clock : Nat → Int
  host_tm : Tm
  rtc_clock_realtime : Bool
  replay_mode_none : Bool
  max_clock_jump : Int

/-- The device state, `struct VIANVRAMState` of `include/hw/rtc/via_nvram.h`.
A timer is `none` when it is not pending and `some t` when it is armed for
instant `t`; `irq` is the level of the interrupt line. -/
structure VIANVRAMState where
  cmos_data : Nat → Nat
  cmos_index : Nat
  base_year : Int
  base_rtc : Int
  last_update : Int
  offset : Int
  irq : Bool
  periodic_timer : Option Int
  next_periodic_time : Int
  update_timer : Option Int
  next_alarm_time : Int
  irq_reinject_on_ack_count : Int
  irq_coalesced : Int
  period : Int
  coalesced_timer : Option Int
  lost_tick_policy : LostTickPolicy

/-- Store into `cmos_data[i]`: the value is truncated to a byte. -/
def setByte (m : Nat → Nat) (i v : Nat) : Nat → Nat :=
  fun j => if j = i then v % 256 else m j

/-- The state after `s->cmos_data[i] = v`. -/
def VIANVRAMState.store (s : VIANVRAMState) (i v : Nat) : VIANVRAMState :=
  { s with cmos_data := setByte s.cmos_data i v }

/-! ## Timer primitive -/

/-- Modelled from the spec: `timer_mod` of `qemu/timer.h`, arming a one-shot
deadline (negative deadlines are clamped to 0). -/
def timer_mod (expire_time : Int) : Option Int := some (max expire_time 0)

/-- Modelled from the spec: `timer_del` of `qemu/timer.h`, cancelling the
deadline. -/
def timer_del : Option Int := none

/-- Modelled from the spec: `timer_pending` of `qemu/timer.h`. -/
def timer_pending (t : Option Int) : Bool := t.isSome

/-- Modelled from the spec: `timer_expire_time_ns` of `qemu/timer.h`, the
deadline of a pending timer and -1 otherwise. -/
def timer_expire_time_ns (t : Option Int) : Int :=
  match t with
  | some e => e
  | none => -1

/-- Modelled from the spec: `muldiv64` of `qemu/host-utils.h`, `a * b / c`
computed without intermediate overflow and truncated to 64 bits. -/
def muldiv64 (a b c : Int) : Int := u64 (a * b / c)

/-- Modelled from the spec: `periodic_clock_to_ns` of `mc146818rtc_regs.h`,
32.768 kHz ticks to nanoseconds. -/
def periodic_clock_to_ns (clocks : Int) : Int :=
  i64 (muldiv64 (u64 clocks) NANOSECONDS_PER_SECOND 32768)

/-! ## Time base -/

/-- The function `rtc_running`. -/
def rtc_running (s : VIANVRAMState) : Bool :=
  (s.cmos_data RTC_REG_B &&& REG_B_SET == 0) &&
    decide (s.cmos_data RTC_REG_A &&& 0x70 ≤ 0x20)

/-- The function `get_guest_rtc_ns` (unsigned 64-bit arithmetic). -/
def get_guest_rtc_ns (env : Env) (s : VIANVRAMState) : Int :=
  u64 (s.base_rtc * NANOSECONDS_PER_SECOND + env.now - s.last_update + s.offset)

/-! ## Calendar encoding -/

/-- The function `rtc_to_bcd`; the left shift of an `int` is a multiplication
by 16. -/
def rtc_to_bcd (s : VIANVRAMState) (a : Int) : Int :=
  if s.cmos_data RTC_REG_B &&& REG_B_DM ≠ 0 then a
  else Int.lor ((a.tdiv 10) * 16) (a.tmod 10)

/-- The function `rtc_from_bcd`; every caller passes a byte. -/
def rtc_from_bcd (s : VIANVRAMState) (a : Nat) : Int :=
  if a &&& 0xc0 = 0xc0 then -1
  else if s.cmos_data RTC_REG_B &&& REG_B_DM ≠ 0 then (a : Int)
  else (((a >>> 4) * 10 + (a &&& 0x0f) : Nat) : Int)

/-- The function `rtc_get_time`: only the seven calendar fields of `tm` are
written.  Values decoded from bytes are at most 165, so only the arithmetic
with `base_year` can leave the `int` range. -/
def rtc_get_time (s : VIANVRAMState) (tm : Tm) : Tm :=
  let hour0 := rtc_from_bcd s (s.cmos_data RTC_HOURS &&& 0x7f)
  let hour :=
    if s.cmos_data RTC_REG_B &&& REG_B_24H = 0 then
      let h := hour0.tmod 12
      if s.cmos_data RTC_HOURS &&& 0x80 ≠ 0 then h + 12 else h
    else hour0
  { tm with
    tm_sec := rtc_from_bcd s (s.cmos_data RTC_SECONDS)
    tm_min := rtc_from_bcd s (s.cmos_data RTC_MINUTES)
    tm_hour := hour
    tm_wday := rtc_from_bcd s (s.cmos_data RTC_DAY_OF_WEEK) - 1
    tm_mday := rtc_from_bcd s (s.cmos_data RTC_DAY_OF_MONTH)
    tm_mon := rtc_from_bcd s (s.cmos_data RTC_MONTH) - 1
    tm_year :=
      i32 (i32 (i32 (rtc_from_bcd s (s.cmos_data RTC_YEAR) + s.base_year) +
        rtc_from_bcd s (s.cmos_data RTC_CENTURY) * 100) - 1900) }

/-- The function `rtc_set_cmos`. -/
def rtc_set_cmos (s : VIANVRAMState) (tm : Tm) : VIANVRAMState :=
  let s := s.store RTC_SECONDS (u8 (rtc_to_bcd s tm.tm_sec))
  let s := s.store RTC_MINUTES (u8 (rtc_to_bcd s tm.tm_min))
  let s :=
    if s.cmos_data RTC_REG_B &&& REG_B_24H ≠ 0 then
      s.store RTC_HOURS (u8 (rtc_to_bcd s tm.tm_hour))
    else
      let h := if tm.tm_hour.tmod 12 ≠ 0 then tm.tm_hour.tmod 12 else 12
      let s := s.store RTC_HOURS (u8 (rtc_to_bcd s h))
      if tm.tm_hour ≥ 12 then s.store RTC_HOURS (s.cmos_data RTC_HOURS ||| 0x80)
      else s
  let s := s.store RTC_DAY_OF_WEEK (u8 (rtc_to_bcd s (tm.tm_wday + 1)))
  let s := s.store RTC_DAY_OF_MONTH (u8 (rtc_to_bcd s tm.tm_mday))
  let s := s.store RTC_MONTH (u8 (rtc_to_bcd s (tm.tm_mon + 1)))
  let year := i32 (i32 (tm.tm_year + 1900) - s.base_year)
  let s := s.store RTC_YEAR (u8 (rtc_to_bcd s (year.tmod 100)))
  s.store RTC_CENTURY (u8 (rtc_to_bcd s (year.tdiv 100)))

/-- The function `rtc_set_time`; the `RTC_CHANGE` event sent to the monitor is
not part of the device state. -/
def rtc_set_time (env : Env) (s : VIANVRAMState) : VIANVRAMState :=
  let tm := rtc_get_time s ⟨0, 0, 0, 0, 0, 0, 0, 0, 0⟩
  { s with base_rtc := u64 (env.mktimegm tm), last_update := u64 env.now }

/-- The function `rtc_update_time`. -/
def rtc_update_time (env : Env) (s : VIANVRAMState) : VIANVRAMState :=
  let guest_nsec := i64 (get_guest_rtc_ns env s)
  let guest_sec := guest_nsec.tdiv NANOSECONDS_PER_SECOND
  let ret := env.gmtime_r guest_sec
  if s.cmos_data RTC_REG_B &&& REG_B_SET = 0 then rtc_set_cmos s ret else s

/-! ## Lost-tick coalescing and the periodic timer -/

/-- The function `rtc_coalesced_timer_update`. -/
def rtc_coalesced_timer_update (env : Env) (s : VIANVRAMState) : VIANVRAMState :=
  if s.irq_coalesced = 0 then { s with coalesced_timer := timer_del }
  else
    let c := min s.irq_coalesced 7 + 1
    let next_clock := i64 (env.now + periodic_clock_to_ns (s.period / c))
    { s with coalesced_timer := timer_mod next_clock }

/-- The function `via_rtc_reset_reinjection`. -/
def via_rtc_reset_reinjection (s : VIANVRAMState) : VIANVRAMState :=
  { s with irq_coalesced := 0 }

/-- The function `rtc_policy_slew_deliver_irq`: the line is raised and the
host reports whether the edge was observed. -/
def rtc_policy_slew_deliver_irq (env : Env) (s : VIANVRAMState) :
    VIANVRAMState × Bool :=
  ({ s with irq := true }, env.irq_delivered)

/-- The function `rtc_coalesced_timer`, the callback of the catch-up timer. -/
def rtc_coalesced_timer (env : Env) (s : VIANVRAMState) : VIANVRAMState :=
  let s :=
    if s.irq_coalesced ≠ 0 then
      let s := s.store RTC_REG_C (s.cmos_data RTC_REG_C ||| 0xc0)
      let r := rtc_policy_slew_deliver_irq env s
      if r.2 then { r.1 with irq_coalesced := u32 (r.1.irq_coalesced - 1) } else r.1
    else s
  rtc_coalesced_timer_update env s

/-- The function `rtc_periodic_clock_ticks`. -/
def rtc_periodic_clock_ticks (env : Env) (s : VIANVRAMState) : Int :=
  if s.cmos_data RTC_REG_B &&& REG_B_PIE = 0 then 0
  else u32 (env.periodic_period_to_clock (s.cmos_data RTC_REG_A &&& 0x0f))

/-- The function `periodic_timer_update`; `none` when one of its two
assertions fails. -/
def periodic_timer_update (env : Env) (s : VIANVRAMState) (current_time : Int)
    (old_period : Int) (period_change : Bool) : Option VIANVRAMState :=
  let period := rtc_periodic_clock_ticks env s
  let s := { s with period := period }
  if period = 0 then
    some { s with irq_coalesced := 0, periodic_timer := timer_del }
  else
    let cur_clock := i64 (muldiv64 (u64 current_time) 32768 NANOSECONDS_PER_SECOND)
    let lost_clock0 : Option Int :=
      if old_period ≠ 0 ∧ period_change = true then
        let next_periodic_clock :=
          i64 (muldiv64 (u64 s.next_periodic_time) 32768 NANOSECONDS_PER_SECOND)
        let last_periodic_clock := i64 (next_periodic_clock - old_period)
        let lost_clock := i64 (cur_clock - last_periodic_clock)
        if lost_clock ≥ 0 then some lost_clock else none
      else some 0
    match lost_clock0 with
    | none => none
    | some lost_clock =>
      let r : VIANVRAMState × Int :=
        if s.lost_tick_policy = LostTickPolicy.SLEW then
          let old_irq_coalesced := s.irq_coalesced
          let lost_clock := i64 (lost_clock + u32 (old_irq_coalesced * old_period))
          let s := { s with irq_coalesced := u32 (lost_clock.tdiv s.period) }
          let lost_clock := lost_clock.tmod s.period
          if old_irq_coalesced ≠ s.irq_coalesced ∨ old_period ≠ s.period then
            (rtc_coalesced_timer_update env s, lost_clock)
          else (s, lost_clock)
        else (s, min lost_clock period)
      let s := r.1
      let lost_clock := r.2
      if lost_clock ≥ 0 ∧ lost_clock ≤ period then
        let next_irq_clock := i64 (cur_clock + period - lost_clock)
        let s := { s with
          next_periodic_time := i64 (periodic_clock_to_ns next_irq_clock + 1) }
        some { s with periodic_timer := timer_mod s.next_periodic_time }
      else none

/-- The function `rtc_periodic_timer`, the callback of the periodic timer. -/
def rtc_periodic_timer (env : Env) (s : VIANVRAMState) : Option VIANVRAMState :=
  match periodic_timer_update env s s.next_periodic_time s.period false with
  | none => none
  | some s =>
    let s := s.store RTC_REG_C (s.cmos_data RTC_REG_C ||| REG_C_PF)
    if s.cmos_data RTC_REG_B &&& REG_B_PIE ≠ 0 then
      let s := s.store RTC_REG_C (s.cmos_data RTC_REG_C ||| REG_C_IRQF)
      if s.lost_tick_policy = LostTickPolicy.SLEW then
        let s :=
          if s.irq_reinject_on_ack_count ≥ 20 then
            { s with irq_reinject_on_ack_count := 0 }
          else s
        let r := rtc_policy_slew_deliver_irq env s
        if ¬ r.2 then
          let s := { r.1 with irq_coalesced := u32 (r.1.irq_coalesced + 1) }
          some (rtc_coalesced_timer_update env s)
        else some r.1
      else some { s with irq := true }
    else some s

/-! ## Alarm and update-ended timer -/

/-- The function `convert_hour`; the parameter is a `uint8_t`. -/
def convert_hour (s : VIANVRAMState) (hour : Nat) : Nat :=
  if s.cmos_data RTC_REG_B &&& REG_B_24H = 0 then
    let hour := hour % 12
    if s.cmos_data RTC_HOURS &&& 0x80 ≠ 0 then (hour + 12) % 256 else hour
  else hour

/-- Lines 297 to 344 of `get_next_alarm`: the don't-care fields (-1) of the
alarm are resolved against the current time; the result is the triple
(`alarm_hour`, `alarm_min`, `alarm_sec`). -/
def alarm_target (alarm_sec alarm_min alarm_hour cur_sec cur_min cur_hour : Int) :
    Int × Int × Int :=
  if alarm_hour = -1 then
    let alarm_hour := cur_hour
    if alarm_min = -1 then
      let alarm_min := cur_min
      if alarm_sec = -1 then (alarm_hour, alarm_min, cur_sec + 1)
      else if cur_sec > alarm_sec then (alarm_hour, alarm_min + 1, alarm_sec)
      else (alarm_hour, alarm_min, alarm_sec)
    else if cur_min = alarm_min then
      let r2 : Int × Int :=
        if alarm_sec = -1 then (alarm_hour, cur_sec + 1)
        else if cur_sec > alarm_sec then (alarm_hour + 1, alarm_sec)
        else (alarm_hour, alarm_sec)
      if r2.2 = 60 then (r2.1 + 1, alarm_min, 0) else (r2.1, alarm_min, r2.2)
    else if cur_min > alarm_min then (alarm_hour + 1, alarm_min, alarm_sec)
    else (alarm_hour, alarm_min, alarm_sec)
  else if cur_hour = alarm_hour then
    if alarm_min = -1 then
      let alarm_min := cur_min
      let r2 : Int × Int :=
        if alarm_sec = -1 then (alarm_min, cur_sec + 1)
        else if cur_sec > alarm_sec then (alarm_min + 1, alarm_sec)
        else (alarm_min, alarm_sec)
      let r3 : Int × Int := if r2.2 = 60 then (r2.1 + 1, 0) else r2
      (alarm_hour, r3.1.tmod 60, r3.2)
    else if cur_min = alarm_min then
      let alarm_sec := if alarm_sec = -1 then cur_sec + 1 else alarm_sec
      (alarm_hour, alarm_min, alarm_sec.tmod 60)
    else (alarm_hour, alarm_min, alarm_sec)
  else (alarm_hour, alarm_min, alarm_sec)

/-- Lines 346 to 363 of `get_next_alarm`: fields that are still don't-care
become 0 and the triple (`alarm_hour`, `alarm_min`, `alarm_sec`) is brought
into range, carrying 60 seconds and 60 minutes upwards. -/
def alarm_in_range (r : Int × Int × Int) : Int × Int × Int :=
  let alarm_hour := r.1
  let alarm_min := if r.2.1 = -1 then 0 else r.2.1
  let alarm_sec := if r.2.2 = -1 then 0 else r.2.2
  let r4 : Int × Int := if alarm_sec = 60 then (alarm_min + 1, 0) else (alarm_min, alarm_sec)
  let r5 : Int × Int := if r4.1 = 60 then (alarm_hour + 1, 0) else (alarm_hour, r4.1)
  (r5.1.tmod 24, r5.2, r4.2)

/-- Lines 297 to 368 of `get_next_alarm`: the seconds from the current time to
the next alarm, computed from the decoded alarm and current fields (-1 is a
don't-care alarm field).  All values are small, no `int32_t` operation
overflows. -/
def alarm_delta (alarm_sec alarm_min alarm_hour cur_sec cur_min cur_hour : Int) : Int :=
  let r := alarm_in_range (alarm_target alarm_sec alarm_min alarm_hour cur_sec cur_min cur_hour)
  let hour := r.1 - cur_hour
  let min := hour * 60 + r.2.1 - cur_min
  let sec := min * 60 + r.2.2 - cur_sec
  if sec ≤ 0 then sec + 86400 else sec

/-- Lines 287 to 368 of `get_next_alarm`: the alarm and current fields are
decoded from the registers and the distance to the next alarm is computed, as
the `int32_t` value before the conversion to the `uint64_t` result. -/
def next_alarm_sec (s : VIANVRAMState) : Int :=
  let alarm_sec := rtc_from_bcd s (s.cmos_data RTC_SECONDS_ALARM)
  let alarm_min := rtc_from_bcd s (s.cmos_data RTC_MINUTES_ALARM)
  let alarm_hour := rtc_from_bcd s (s.cmos_data RTC_HOURS_ALARM)
  let alarm_hour : Int :=
    if alarm_hour = -1 then -1 else (convert_hour s (u8 alarm_hour) : Int)
  let cur_sec := rtc_from_bcd s (s.cmos_data RTC_SECONDS)
  let cur_min := rtc_from_bcd s (s.cmos_data RTC_MINUTES)
  let cur_hour := rtc_from_bcd s (s.cmos_data RTC_HOURS)
  let cur_hour : Int := (convert_hour s (u8 cur_hour) : Int)
  alarm_delta alarm_sec alarm_min alarm_hour cur_sec cur_min cur_hour

/-- The function `get_next_alarm`: the calendar is brought up to date, then
the alarm distance is computed from the registers and returned as a
`uint64_t`. -/
def get_next_alarm (env : Env) (s : VIANVRAMState) : VIANVRAMState × Int :=
  let s := rtc_update_time env s
  (s, u64 (next_alarm_sec s))

/-- The function `check_update_timer`; `none` when its assertion fails. -/
def check_update_timer (env : Env) (s : VIANVRAMState) : Option VIANVRAMState :=
  if s.cmos_data RTC_REG_A &&& 0x60 = 0x60 then
    if s.cmos_data RTC_REG_A &&& REG_A_UIP = 0 then
      some { s with update_timer := timer_del }
    else none
  else
    let guest_nsec := (get_guest_rtc_ns env s) % NANOSECONDS_PER_SECOND
    let next_update_time := u64 (u64 env.now + NANOSECONDS_PER_SECOND - guest_nsec)
    let r := get_next_alarm env s
    let s := r.1
    let next_alarm_sec := i32 r.2
    let s := { s with
      next_alarm_time :=
        u64 (next_update_time +
          i64 (i32 (next_alarm_sec - 1) * NANOSECONDS_PER_SECOND)) }
    let arm (s : VIANVRAMState) (next_update_time : Int) : VIANVRAMState :=
      if next_update_time ≠ u64 (timer_expire_time_ns s.update_timer) then
        { s with update_timer := timer_mod (i64 next_update_time) }
      else s
    if s.cmos_data RTC_REG_A &&& REG_A_UIP = 0 ∧ s.cmos_data RTC_REG_C &&& REG_C_UF ≠ 0 then
      if s.cmos_data RTC_REG_B &&& REG_B_SET ≠ 0 ∨ s.cmos_data RTC_REG_C &&& REG_C_AF ≠ 0 then
        some { s with update_timer := timer_del }
      else some (arm s s.next_alarm_time)
    else some (arm s next_update_time)

/-- The function `rtc_update_timer`, the callback of the update timer; `none`
when its assertion fails.  The wake-up request to the machine is not part of
the device state. -/
def rtc_update_timer (env : Env) (s : VIANVRAMState) : Option VIANVRAMState :=
  if s.cmos_data RTC_REG_A &&& 0x60 = 0x60 then none
  else
    let s := rtc_update_time env s
    let s := s.store RTC_REG_A (s.cmos_data RTC_REG_A &&& (0xff ^^^ REG_A_UIP))
    let irqs : Nat :=
      if u64 env.now ≥ s.next_alarm_time then REG_C_UF ||| REG_C_AF else REG_C_UF
    let new_irqs := irqs &&& (0xff ^^^ s.cmos_data RTC_REG_C)
    let s := s.store RTC_REG_C (s.cmos_data RTC_REG_C ||| irqs)
    let s :=
      if new_irqs &&& s.cmos_data RTC_REG_B ≠ 0 then
        { s.store RTC_REG_C (s.cmos_data RTC_REG_C ||| REG_C_IRQF) with irq := true }
      else s
    check_update_timer env s

/-! ## Register access protocol -/

/-- The function `update_in_progress`: the answer and the state, in which the
update-in-progress bit may have been latched. -/
def update_in_progress (env : Env) (s : VIANVRAMState) : VIANVRAMState × Bool :=
  if ¬ rtc_running s then (s, false)
  else
    let latched : Bool :=
      timer_pending s.update_timer &&
        decide (env.now ≥
          i64 (timer_expire_time_ns s.update_timer - (8 * NANOSECONDS_PER_SECOND).tdiv 32768))
    if latched then
      (s.store RTC_REG_A (s.cmos_data RTC_REG_A ||| REG_A_UIP), true)
    else
      let guest_nsec := i64 (get_guest_rtc_ns env s)
      if guest_nsec.tmod NANOSECONDS_PER_SECOND ≥
          NANOSECONDS_PER_SECOND - (8 * NANOSECONDS_PER_SECOND).tdiv 32768 then
        (s, true)
      else (s, false)

/-- The cases of the calendar registers in the switch of `cmos_ioport_write`:
the byte is stored at the selected index and, when the clock is running, the
time base is resynchronised from the registers. -/
def cmos_write_calendar (env : Env) (s : VIANVRAMState) (data : Nat) :
    Option VIANVRAMState :=
  let s := s.store s.cmos_index data
  if rtc_running s then check_update_timer env (rtc_set_time env s)
  else some s

/-- The case `RTC_REG_A` in the switch of `cmos_ioport_write`. -/
def cmos_write_reg_a (env : Env) (s : VIANVRAMState) (data : Nat) :
    Option VIANVRAMState :=
  let update_periodic_timer : Bool :=
    (s.cmos_data RTC_REG_A ^^^ data) &&& 0x0f != 0
  let old_period := rtc_periodic_clock_ticks env s
  let s :=
    if data &&& 0x60 = 0x60 then
      let s := if rtc_running s then rtc_update_time env s else s
      s.store RTC_REG_A (s.cmos_data RTC_REG_A &&& (0xff ^^^ REG_A_UIP))
    else if s.cmos_data RTC_REG_A &&& 0x60 = 0x60 ∧ data &&& 0x70 ≤ 0x20 then
      let s :=
        if s.cmos_data RTC_REG_B &&& REG_B_SET = 0 then
          rtc_set_time env { s with offset := 500000000 }
        else s
      s.store RTC_REG_A (s.cmos_data RTC_REG_A &&& (0xff ^^^ REG_A_UIP))
    else s
  let s := s.store RTC_REG_A
    ((data &&& (0xffffffffffffffff ^^^ REG_A_UIP)) |||
      (s.cmos_data RTC_REG_A &&& REG_A_UIP))
  let r :=
    if update_periodic_timer then periodic_timer_update env s env.now old_period true
    else some s
  match r with
  | none => none
  | some s => check_update_timer env s

/-- The first part of the case `RTC_REG_B` in the switch of
`cmos_ioport_write`: entering or leaving set-mode.  The result is the state
and the data byte, from which the update-ended enable is removed when set-mode
is requested. -/
def cmos_write_reg_b_set (env : Env) (s : VIANVRAMState) (data : Nat) :
    VIANVRAMState × Nat :=
  if data &&& REG_B_SET ≠ 0 then
    let s := if rtc_running s then rtc_update_time env s else s
    let s := s.store RTC_REG_A (s.cmos_data RTC_REG_A &&& (0xff ^^^ REG_A_UIP))
    (s, data &&& (0xffffffffffffffff ^^^ REG_B_UIE))
  else if s.cmos_data RTC_REG_B &&& REG_B_SET ≠ 0 ∧
      s.cmos_data RTC_REG_A &&& 0x70 ≤ 0x20 then
    (rtc_set_time env
      { s with offset := (get_guest_rtc_ns env s) % NANOSECONDS_PER_SECOND }, data)
  else (s, data)

/-- The second part of the case `RTC_REG_B`: the summary flag and the
interrupt line follow the newly enabled sources, then the byte is stored. -/
def cmos_write_reg_b_irq (s : VIANVRAMState) (data : Nat) : VIANVRAMState :=
  let s :=
    if data &&& s.cmos_data RTC_REG_C &&& REG_C_MASK ≠ 0 then
      { s.store RTC_REG_C (s.cmos_data RTC_REG_C ||| REG_C_IRQF) with irq := true }
    else
      { s.store RTC_REG_C (s.cmos_data RTC_REG_C &&& (0xff ^^^ REG_C_IRQF)) with
        irq := false }
  s.store RTC_REG_B data

/-- The case `RTC_REG_B` in the switch of `cmos_ioport_write`. -/
def cmos_write_reg_b (env : Env) (s : VIANVRAMState) (data : Nat) :
    Option VIANVRAMState :=
  let update_periodic_timer : Bool :=
    (s.cmos_data RTC_REG_B ^^^ data) &&& REG_B_PIE != 0
  let old_period := rtc_periodic_clock_ticks env s
  let r := cmos_write_reg_b_set env s data
  let s := cmos_write_reg_b_irq r.1 r.2
  let r :=
    if update_periodic_timer then periodic_timer_update env s env.now old_period true
    else some s
  match r with
  | none => none
  | some s => check_update_timer env s

/-- The function `cmos_ioport_write`; `none` when an assertion of a callee
fails. -/
def cmos_ioport_write (env : Env) (s : VIANVRAMState) (addr data : Nat) :
    Option VIANVRAMState :=
  if addr &&& 1 = 0 then some { s with cmos_index := data &&& 0x7f }
  else if s.cmos_index = RTC_SECONDS_ALARM ∨ s.cmos_index = RTC_MINUTES_ALARM ∨
      s.cmos_index = RTC_HOURS_ALARM then
    check_update_timer env (s.store s.cmos_index data)
  else if s.cmos_index = RTC_IBM_PS2_CENTURY_BYTE then
    cmos_write_calendar env { s with cmos_index := RTC_CENTURY } data
  else if s.cmos_index = RTC_CENTURY ∨ s.cmos_index = RTC_SECONDS ∨
      s.cmos_index = RTC_MINUTES ∨ s.cmos_index = RTC_HOURS ∨
      s.cmos_index = RTC_DAY_OF_WEEK ∨ s.cmos_index = RTC_DAY_OF_MONTH ∨
      s.cmos_index = RTC_MONTH ∨ s.cmos_index = RTC_YEAR then
    cmos_write_calendar env s data
  else if s.cmos_index = RTC_REG_A then cmos_write_reg_a env s data
  else if s.cmos_index = RTC_REG_B then cmos_write_reg_b env s data
  else if s.cmos_index = RTC_REG_C ∨ s.cmos_index = RTC_REG_D then some s
  else some (s.store s.cmos_index data)

/-- The function `cmos_extended_ioport_write`.  The source function calls
itself on the data port when the index is at most 0x7f; `fuel` bounds the depth
of that recursion and `none` means the fuel ran out. -/
def cmos_extended_ioport_write (fuel : Nat) (env : Env) (s : VIANVRAMState)
    (addr data : Nat) : Option VIANVRAMState :=
  match fuel with
  | 0 => none
  | fuel + 1 =>
    if addr ≠ 0 then
      if s.cmos_index > 0x7f then some (s.store s.cmos_index data)
      else cmos_extended_ioport_write fuel env s addr data
    else some { s with cmos_index := data % 256 }

/-- The cases of the calendar registers in the switch of `cmos_ioport_read`:
the calendar is brought up to date when the clock is running, then the byte at
the selected index is returned. -/
def cmos_read_calendar (env : Env) (s : VIANVRAMState) : VIANVRAMState × Nat :=
  let s := if rtc_running s then rtc_update_time env s else s
  (s, s.cmos_data s.cmos_index)

/-- The case `RTC_REG_C` in the switch of `cmos_ioport_read`; `none` when the
assertion of `check_update_timer` fails. -/
def cmos_read_reg_c (env : Env) (s : VIANVRAMState) : Option (VIANVRAMState × Nat) :=
  let ret := s.cmos_data s.cmos_index
  let s := { s with irq := false }
  let s := s.store RTC_REG_C 0x00
  let r := if ret &&& (REG_C_UF ||| REG_C_AF) ≠ 0 then check_update_timer env s else some s
  match r with
  | none => none
  | some s =>
    if s.irq_coalesced ≠ 0 ∧ s.cmos_data RTC_REG_B &&& REG_B_PIE ≠ 0 ∧
        s.irq_reinject_on_ack_count < 20 then
      let s := { s with
        irq_reinject_on_ack_count := u16 (s.irq_reinject_on_ack_count + 1) }
      let s := s.store RTC_REG_C (s.cmos_data RTC_REG_C ||| (REG_C_IRQF ||| REG_C_PF))
      let d := rtc_policy_slew_deliver_irq env s
      if d.2 then some ({ d.1 with irq_coalesced := u32 (d.1.irq_coalesced - 1) }, ret)
      else some (d.1, ret)
    else some (s, ret)

/-- The function `cmos_ioport_read`: the new state and the byte returned;
`none` when the assertion of `check_update_timer` fails. -/
def cmos_ioport_read (env : Env) (s : VIANVRAMState) (addr : Nat) :
    Option (VIANVRAMState × Nat) :=
  if addr &&& 1 = 0 then some (s, 0xff)
  else if s.cmos_index = RTC_IBM_PS2_CENTURY_BYTE then
    some (cmos_read_calendar env { s with cmos_index := RTC_CENTURY })
  else if s.cmos_index = RTC_CENTURY ∨ s.cmos_index = RTC_SECONDS ∨
      s.cmos_index = RTC_MINUTES ∨ s.cmos_index = RTC_HOURS ∨
      s.cmos_index = RTC_DAY_OF_WEEK ∨ s.cmos_index = RTC_DAY_OF_MONTH ∨
      s.cmos_index = RTC_MONTH ∨ s.cmos_index = RTC_YEAR then
    some (cmos_read_calendar env s)
  else if s.cmos_index = RTC_REG_A then
    let ret := s.cmos_data s.cmos_index
    let r := update_in_progress env s
    some (r.1, if r.2 then ret ||| REG_A_UIP else ret)
  else if s.cmos_index = RTC_REG_C then cmos_read_reg_c env s
  else some (s, s.cmos_data s.cmos_index)

/-- The function `cmos_extended_ioport_read`. -/
def cmos_extended_ioport_read (env : Env) (s : VIANVRAMState) (addr : Nat) :
    Option (VIANVRAMState × Nat) :=
  if addr ≠ 0 then
    if s.cmos_index > 0x7f then some (s, s.cmos_data s.cmos_index)
    else cmos_ioport_read env s addr
  else some (s, s.cmos_index)

/-! ## Attach and reset -/

/-- The function `rtc_set_date_from_host`. -/
def rtc_set_date_from_host (env : Env) (s : VIANVRAMState) : VIANVRAMState :=
  let tm := env.host_tm
  let s := { s with base_rtc := u64 (env.mktimegm tm), last_update := u64 env.now,
                    offset := 0 }
  rtc_set_cmos s tm

/-- The freshly allocated device object: all memory is zero, the properties
`base_year` and `lost_tick_policy` hold the configured values, no timer exists
yet and the interrupt line is low. -/
def via_nvram_instance (base_year : Int) (policy : LostTickPolicy) : VIANVRAMState :=
  { cmos_data := fun _ => 0, cmos_index := 0, base_year := base_year, base_rtc := 0,
    last_update := 0, offset := 0, irq := false, periodic_timer := none,
    next_periodic_time := 0, update_timer := none, next_alarm_time := 0,
    irq_reinject_on_ack_count := 0, irq_coalesced := 0, period := 0,
    coalesced_timer := none, lost_tick_policy := policy }

/-- The loop of `rtc_realizefn` over the upper half of the register file:
`n` iterations starting at index `i`. -/
def fill_upper (m : Nat → Nat) (i : Nat) : Nat → Nat → Nat
  | 0 => m
  | n + 1 => fill_upper (setByte m i 0xff) (i + 1) n

/-- The function `rtc_realizefn`; `none` when the construction is aborted with
an error (interrupt number out of range, unknown lost-tick policy) or an
assertion fails. -/
def rtc_realizefn (env : Env) (isairq : Nat) (s : VIANVRAMState) :
    Option VIANVRAMState :=
  let s := s.store RTC_REG_A 0x26
  let s := s.store RTC_REG_B 0x02
  let s := s.store RTC_REG_C 0x00
  let s := s.store RTC_REG_D 0x80
  let s := { s with cmos_data := fill_upper s.cmos_data 0x80 (0xff - 0x80) }
  let s := if s.base_year = 2000 then { s with base_year := 0 } else s
  if isairq ≥ ISA_NUM_IRQS then none
  else
    let s := rtc_set_date_from_host env s
    match s.lost_tick_policy with
    | LostTickPolicy.DELAY => none
    | _ =>
      let s := { s with coalesced_timer := none, periodic_timer := none,
                        update_timer := none }
      check_update_timer env s

/-- The function `rtc_reset_enter`; `none` when the assertion of
`check_update_timer` fails. -/
def rtc_reset_enter (env : Env) (s : VIANVRAMState) : Option VIANVRAMState :=
  let s := s.store RTC_REG_B
    (s.cmos_data RTC_REG_B &&& (0xff ^^^ (REG_B_PIE ||| REG_B_AIE ||| REG_B_SQWE)))
  let s := s.store RTC_REG_C
    (s.cmos_data RTC_REG_C &&&
      (0xff ^^^ (REG_C_UF ||| REG_C_IRQF ||| REG_C_PF ||| REG_C_AF)))
  match check_update_timer env s with
  | none => none
  | some s =>
    if s.lost_tick_policy = LostTickPolicy.SLEW then
      some { s with irq_coalesced := 0, irq_reinject_on_ack_count := 0 }
    else some s

/-- The function `rtc_reset_hold`. -/
def rtc_reset_hold (s : VIANVRAMState) : VIANVRAMState :=
  { s with irq := false }

/-- A device reset: the enter phase followed by the hold phase. -/
def rtc_reset (env : Env) (s : VIANVRAMState) : Option VIANVRAMState :=
  (rtc_reset_enter env s).map rtc_reset_hold

/-! ## Trusted raw access and snapshots -/

/-- The function `via_nvram_set_cmos_data`; `addr` and `val` are of type
`int`. -/
def via_nvram_set_cmos_data (s : VIANVRAMState) (addr val : Int) : VIANVRAMState :=
  if addr ≥ 0 ∧ addr ≤ 127 then s.store addr.toNat (u8 val) else s

/-- The function `via_nvram_get_cmos_data`; `none` when its assertion fails. -/
def via_nvram_get_cmos_data (s : VIANVRAMState) (addr : Int) : Option Int :=
  if addr ≥ 0 ∧ addr ≤ 127 then some (s.cmos_data addr.toNat : Int) else none

/-- The function `rtc_notify_suspend`. -/
def rtc_notify_suspend (s : VIANVRAMState) : VIANVRAMState :=
  via_nvram_set_cmos_data s 0xF 0xFE

/-- The function `rtc_pre_save`. -/
def rtc_pre_save (env : Env) (s : VIANVRAMState) : VIANVRAMState :=
  rtc_update_time env s

/-- The function `rtc_post_load`; `none` when an assertion of a callee
fails. -/
def rtc_post_load (env : Env) (s : VIANVRAMState) (version_id : Int) :
    Option VIANVRAMState :=
  let r1 : Option VIANVRAMState :=
    if version_id ≤ 2 ∨ env.rtc_clock_realtime = true then
      check_update_timer env { rtc_set_time env s with offset := 0 }
    else some s
  match r1 with
  | none => none
  | some s =>
    let s := { s with period := rtc_periodic_clock_ticks env s }
    let r2 : Option VIANVRAMState :=
      if env.replay_mode_none = true then
        let now := u64 env.now
        if now < u64 s.next_periodic_time ∨
            now > u64 (i64 (s.next_periodic_time + env.max_clock_jump)) then
          periodic_timer_update env s env.now s.period false
        else some s
      else some s
    match r2 with
    | none => none
    | some s =>
      if version_id ≥ 2 then
        if s.lost_tick_policy = LostTickPolicy.SLEW then
          some (rtc_coalesced_timer_update env s)
        else some s
      else some s

/-! ## Auxiliary definitions used by the proofs -/

/-- The encoding of `rtc_to_bcd` as a function of the data-mode bit. -/
def to_bcd_mode (dm : Bool) (a : Int) : Int :=
  if dm then a else Int.lor ((a.tdiv 10) * 16) (a.tmod 10)

/-- The decoding of `rtc_from_bcd` as a function of the data-mode bit. -/
def from_bcd_mode (dm : Bool) (a : Nat) : Int :=
  if a &&& 0xc0 = 0xc0 then -1
  else if dm then (a : Int)
  else (((a >>> 4) * 10 + (a &&& 0x0f) : Nat) : Int)

/-- The hours byte `rtc_set_cmos` writes in 12-hour mode. -/
def hours12_byte (dm : Bool) (hour : Int) : Nat :=
  if hour ≥ 12 then
    (u8 (to_bcd_mode dm (if hour.tmod 12 ≠ 0 then hour.tmod 12 else 12)) % 256 ||| 0x80) % 256
  else u8 (to_bcd_mode dm (if hour.tmod 12 ≠ 0 then hour.tmod 12 else 12)) % 256

/-! ## A concrete environment and concrete states -/

/-- A `gmtime_r` for the example environment: the proleptic Gregorian calendar
(days since 1970-01-01 to civil date). -/
def gmtime_example (t : Int) : Tm :=
  let days := t / 86400
  let rem := t % 86400
  let z := days + 719468
  let era := z / 146097
  let doe := z - era * 146097
  let yoe := (doe - doe / 1460 + doe / 36524 - doe / 146096) / 365
  let doy := doe - (365 * yoe + yoe / 4 - yoe / 100)
  let mp := (5 * doy + 2) / 153
  let d := doy - (153 * mp + 2) / 5 + 1
  let m := if mp < 10 then mp + 3 else mp - 9
  let y := yoe + era * 400 + (if m ≤ 2 then 1 else 0)
  { tm_sec := rem % 60, tm_min := rem / 60 % 60, tm_hour := rem / 3600, tm_mday := d,
    tm_mon := m - 1, tm_year := y - 1900, tm_wday := (days + 4) % 7, tm_yday := 0,
    tm_isdst := 0 }

/-- A `mktimegm` for the example environment (the formula of QEMU's
`util/cutils.c`, whose integer divisions truncate toward zero). -/
def mktimegm_example (tm : Tm) : Int :=
  let y0 := tm.tm_year + 1900
  let m0 := tm.tm_mon + 1
  let d := tm.tm_mday
  let m := if m0 < 3 then m0 + 12 else m0
  let y := if m0 < 3 then y0 - 1 else y0
  86400 * (d + (153 * m - 457).tdiv 5 + 365 * y + y.tdiv 4 - y.tdiv 100 + y.tdiv 400 -
      719469) +
    3600 * tm.tm_hour + 60 * tm.tm_min + tm.tm_sec

/-- A rate table for the example environment (`periodic_period_to_clock` of
QEMU's `mc146818rtc_regs.h`). -/
def periodic_period_to_clock_example (period_code : Nat) : Int :=
  if period_code = 0 then 0
  else
    let code := if period_code ≤ 2 then period_code + 7 else period_code
    ((1 <<< (code - 1) : Nat) : Int)

/-- An example environment: the clock reads 10 s, interrupts are delivered,
the host date is 2024-02-29 23:59:58, a Thursday, `rtc_clock` is not the
real-time clock, replay is off and the tolerated clock jump is 60 s. -/
def exampleEnv : Env :=
  { now := 10000000000, irq_delivered := true, gmtime_r := gmtime_example,
    mktimegm := mktimegm_example,
    periodic_period_to_clock := periodic_period_to_clock_example,
    host_tm := ⟨58, 59, 23, 29, 1, 124, 4, 59, 0⟩,
    rtc_clock_realtime := false, replay_mode_none := true,
    max_clock_jump := 60000000000 }

/-- An example register file: every byte is 0 except registers A (0x26),
B (`b`) and D (0x80). -/
def exampleCmos (b : Nat) : Nat → Nat :=
  fun i => if i = RTC_REG_A then 0x26 else if i = RTC_REG_B then b
    else if i = RTC_REG_D then 0x80 else 0

/-- An example state with register B equal to `b`, index `idx` selected, the
time base at 1970-01-01 12:00:00 and synchronised at the clock value of
`exampleEnv`. -/
def exampleState (b idx : Nat) (policy : LostTickPolicy) : VIANVRAMState :=
  { cmos_data := exampleCmos b, cmos_index := idx, base_year := 1900, base_rtc := 43200,
    last_update := 10000000000, offset := 0, irq := false, periodic_timer := none,
    next_periodic_time := 0, update_timer := none, next_alarm_time := 0,
    irq_reinject_on_ack_count := 0, irq_coalesced := 0, period := 0,
    coalesced_timer := none, lost_tick_policy := policy }

/-! ## Operations and reachable states -/

/-- The operations of the engine: guest accesses to the standard and the
extended port pair, the three timer callbacks, and reset. -/
inductive Op where
  | io_write (addr data : Nat)
  | io_read (addr : Nat)
  | ext_write (fuel addr data : Nat)
  | ext_read (addr : Nat)
  | periodic_timer
  | coalesced_timer
  | update_timer
  | reset

/-- A timer fires when it is pending and its deadline has been reached. -/
def timer_expired (t : Option Int) (now : Int) : Bool :=
  match t with
  | some e => decide (e ≤ now)
  | none => false

/-- One operation of the engine on state `s`; `none` when the operation is not
enabled (a timer that is not due), never returns, or fails an assertion.  A
timer is no longer pending when its callback runs. -/
def exec (env : Env) (s : VIANVRAMState) : Op → Option VIANVRAMState
  | Op.io_write addr data => cmos_ioport_write env s addr data
  | Op.io_read addr => (cmos_ioport_read env s addr).map Prod.fst
  | Op.ext_write fuel addr data => cmos_extended_ioport_write fuel env s addr data
  | Op.ext_read addr => (cmos_extended_ioport_read env s addr).map Prod.fst
  | Op.periodic_timer =>
    if timer_expired s.periodic_timer env.now then
      rtc_periodic_timer env { s with periodic_timer := none }
    else none
  | Op.coalesced_timer =>
    if timer_expired s.coalesced_timer env.now then
      some (rtc_coalesced_timer env { s with coalesced_timer := none })
    else none
  | Op.update_timer =>
    if timer_expired s.update_timer env.now then
      rtc_update_timer env { s with update_timer := none }
    else none
  | Op.reset => rtc_reset env s

/-- The states reachable from attach by operations of the engine, each in its
own environment. -/
inductive Reachable : VIANVRAMState → Prop
  | attach (env : Env) (isairq : Nat) (base_year : Int) (policy : LostTickPolicy)
      (s : VIANVRAMState)
      (h : rtc_realizefn env isairq (via_nvram_instance base_year policy) = some s) :
      Reachable s
  | step (env : Env) (op : Op) (s s' : VIANVRAMState) (hs : Reachable s)
      (h : exec env s op = some s') : Reachable s'

/-- The summary-bit invariant together with what keeps it inductive: owed
interrupts exist only while the periodic interrupt is enabled under the slew
policy. -/
def SummaryInv (s : VIANVRAMState) : Prop :=
  (s.cmos_data RTC_REG_C &&& REG_C_IRQF ≠ 0 ↔
    s.cmos_data RTC_REG_C &&& s.cmos_data RTC_REG_B &&& 0x70 ≠ 0) ∧
  (s.irq_coalesced ≠ 0 →
    s.cmos_data RTC_REG_B &&& REG_B_PIE ≠ 0 ∧ s.lost_tick_policy = LostTickPolicy.SLEW)

/-- Two states agree on registers B and C, on the owed-interrupt counter and on
the lost-tick policy. -/
def SameCtl (s s' : VIANVRAMState) : Prop :=
  s'.cmos_data RTC_REG_B = s.cmos_data RTC_REG_B ∧
  s'.cmos_data RTC_REG_C = s.cmos_data RTC_REG_C ∧
  s'.irq_coalesced = s.irq_coalesced ∧
  s'.lost_tick_policy = s.lost_tick_policy

/-- The deadline `rtc_coalesced_timer_update` leaves in the catch-up timer. -/
def coalesced_deadline (env : Env) (s : VIANVRAMState) : Option Int :=
  if s.irq_coalesced = 0 then timer_del
  else timer_mod (i64 (env.now + periodic_clock_to_ns (s.period / (min s.irq_coalesced 7 + 1))))

/-- The state of the device after attach in `exampleEnv` with interrupt 8,
base year 2000 and the slew policy. -/
def attachedExample : VIANVRAMState :=
  (rtc_realizefn exampleEnv 8 (via_nvram_instance 2000 LostTickPolicy.SLEW)).getD
    (via_nvram_instance 2000 LostTickPolicy.SLEW)

/-- The environment of `exampleEnv` one second later, when the update timer
armed at attach is due. -/
def exampleEnvLater : Env := { exampleEnv with now := 11000000000 }

/-- The state `attachedExample` after the guest has selected register B. -/
def selectedExample : VIANVRAMState :=
  (exec exampleEnv attachedExample (Op.io_write 0 11)).getD attachedExample

/-- The state `selectedExample` after the guest has written 0x52 to register B
(periodic and update-ended interrupts enabled, 24-hour BCD mode). -/
def enabledExample : VIANVRAMState :=
  (exec exampleEnv selectedExample (Op.io_write 1 0x52)).getD selectedExample

/-- The state `enabledExample` after the update timer has fired one second
later: update-ended is flagged and enabled. -/
def updatedExample : VIANVRAMState :=
  (exec exampleEnvLater enabledExample Op.update_timer).getD enabledExample

/-- The state `s'` differs from `s` at most in the calendar bytes of the
register file, in the update timer and in `next_alarm_time`: the footprint of
`check_update_timer`. -/
structure UpdFrame (s s' : VIANVRAMState) : Prop where
  data : ∀ i, i ≠ RTC_SECONDS → i ≠ RTC_MINUTES → i ≠ RTC_HOURS → i ≠ RTC_DAY_OF_WEEK →
    i ≠ RTC_DAY_OF_MONTH → i ≠ RTC_MONTH → i ≠ RTC_YEAR → i ≠ RTC_CENTURY →
    s'.cmos_data i = s.cmos_data i
  cmos_index : s'.cmos_index = s.cmos_index
  base_year : s'.base_year = s.base_year
  base_rtc : s'.base_rtc = s.base_rtc
  last_update : s'.last_update = s.last_update
  offset : s'.offset = s.offset
  irq : s'.irq = s.irq
  periodic_timer : s'.periodic_timer = s.periodic_timer
  next_periodic_time : s'.next_periodic_time = s.next_periodic_time
  irq_reinject_on_ack_count : s'.irq_reinject_on_ack_count = s.irq_reinject_on_ack_count
  irq_coalesced : s'.irq_coalesced = s.irq_coalesced
  period : s'.period = s.period
  coalesced_timer : s'.coalesced_timer = s.coalesced_timer
  lost_tick_policy : s'.lost_tick_policy = s.lost_tick_policy

/-- An example state under the slew policy with register C selected, the
periodic interrupt enabled (register B = 0x42), the periodic and summary flags
set (register C = 0xC0), the line raised and one interrupt owed. -/
def owedExample : VIANVRAMState :=
  { exampleState 0x42 RTC_REG_C LostTickPolicy.SLEW with
    cmos_data := fun i => if i = RTC_REG_C then 0xc0 else exampleCmos 0x42 i,
    irq := true, irq_coalesced := 1 }

/-- An example state with register C selected and the update-ended flag set
(register C = 0x10) in which register A holds the dividers in reset together
with a latched update-in-progress bit (0xE6). -/
def latchedResetExample : VIANVRAMState :=
  { exampleState 0x02 RTC_REG_C LostTickPolicy.DISCARD with
    cmos_data := fun i => if i = RTC_REG_C then 0x10 else if i = RTC_REG_A then 0xe6
      else exampleCmos 0x02 i }

/-- The registers hold a valid current time: seconds and minutes decode to
0..59 and the hours register decodes to 0..23 in 24-hour mode, respectively
holds a valid 12-hour encoding (hour 1..12, with or without the PM flag 0x80)
in 12-hour mode. -/
def valid_current_time (s : VIANVRAMState) : Prop :=
  (0 ≤ rtc_from_bcd s (s.cmos_data RTC_SECONDS) ∧ rtc_from_bcd s (s.cmos_data RTC_SECONDS) ≤ 59) ∧
  (0 ≤ rtc_from_bcd s (s.cmos_data RTC_MINUTES) ∧ rtc_from_bcd s (s.cmos_data RTC_MINUTES) ≤ 59) ∧
  (if s.cmos_data RTC_REG_B &&& REG_B_24H ≠ 0 then
    0 ≤ rtc_from_bcd s (s.cmos_data RTC_HOURS) ∧ rtc_from_bcd s (s.cmos_data RTC_HOURS) ≤ 23
  else
    1 ≤ rtc_from_bcd s (s.cmos_data RTC_HOURS &&& 0x7f) ∧
      rtc_from_bcd s (s.cmos_data RTC_HOURS &&& 0x7f) ≤ 12)

instance (s : VIANVRAMState) : Decidable (valid_current_time s) := by
  unfold valid_current_time
  infer_instance

/-- An example state in 24-hour binary mode (register B = 0x06) whose three
alarm bytes are the don't-care value 0xC0. -/
def dontCareExample : VIANVRAMState :=
  { exampleState 0x06 0 LostTickPolicy.DISCARD with
    cmos_data := fun i =>
      if i = RTC_SECONDS_ALARM ∨ i = RTC_MINUTES_ALARM ∨ i = RTC_HOURS_ALARM then 0xc0
      else exampleCmos 0x06 i }

/-- Reference definition of an alarm match, following the specification: the
time of day `t` (in seconds since midnight) agrees with the alarm on every
field that is not a don't-care (-1). -/
def alarm_matches (alarm_sec alarm_min alarm_hour : Int) (t : Int) : Bool :=
  (alarm_sec == -1 || t % 60 == alarm_sec) &&
  (alarm_min == -1 || t / 60 % 60 == alarm_min) &&
  (alarm_hour == -1 || t / 3600 == alarm_hour)

/-- Reference definition of the next alarm, following the specification: the
smallest `d` with `1 ≤ d ≤ 86400` such that the time of day `d` seconds after
the current time (modulo 86400) matches the alarm; `none` when no time of day
matches. -/
def next_alarm_reference (alarm_sec alarm_min alarm_hour cur_sec cur_min cur_hour : Int) :
    Option Nat :=
  (List.range' 1 86400).find? fun d =>
    alarm_matches alarm_sec alarm_min alarm_hour
      ((cur_hour * 3600 + cur_min * 60 + cur_sec + (d : Int)) % 86400)

/-- An example state in 24-hour binary mode (register B = 0x06) with the alarm
set to seconds 0, minutes 0 and a don't-care hour (0xC0), while the clock
reads 12:00:00. -/
def hourlyExample : VIANVRAMState :=
  { exampleState 0x06 0 LostTickPolicy.DISCARD with
    cmos_data := fun i => if i = RTC_HOURS_ALARM then 0xc0 else exampleCmos 0x06 i }

/-- An example state in 24-hour binary mode (register B = 0x06) with the alarm
set to seconds 30 and don't-care minutes and hours, while the clock reads
12:00:30. -/
def everyMinuteExample : VIANVRAMState :=
  { exampleState 0x06 0 LostTickPolicy.DISCARD with
    base_rtc := 43230,
    cmos_data := fun i =>
      if i = RTC_SECONDS_ALARM then 30
      else if i = RTC_MINUTES_ALARM ∨ i = RTC_HOURS_ALARM then 0xc0
      else exampleCmos 0x06 i }

/-- The state `s'` differs from `s` at most in the fields of the periodic and
catch-up timers (`period`, `irq_coalesced`, `next_periodic_time` and the two
timers): the footprint of `periodic_timer_update`. -/
structure PeriodicFrame (s s' : VIANVRAMState) : Prop where
  cmos_data : s'.cmos_data = s.cmos_data
  cmos_index : s'.cmos_index = s.cmos_index
  base_year : s'.base_year = s.base_year
  base_rtc : s'.base_rtc = s.base_rtc
  last_update : s'.last_update = s.last_update
  offset : s'.offset = s.offset
  irq : s'.irq = s.irq
  update_timer : s'.update_timer = s.update_timer
  next_alarm_time : s'.next_alarm_time = s.next_alarm_time
  irq_reinject_on_ack_count : s'.irq_reinject_on_ack_count = s.irq_reinject_on_ack_count
  lost_tick_policy : s'.lost_tick_policy = s.lost_tick_policy

/-- An example state in set-mode (register B = 0x82) with register B selected,
last synchronised 123456789 ns before the clock value of `exampleEnv`. -/
def setModeExample : VIANVRAMState :=
  { exampleState 0x82 RTC_REG_B LostTickPolicy.DISCARD with last_update := 9876543211 }

/-- An example state in set-mode (register B = 0x82) with the hours register
selected, holding the frozen time 07:08:09 in the calendar bytes. -/
def frozenExample : VIANVRAMState :=
  { exampleState 0x82 RTC_HOURS LostTickPolicy.DISCARD with
    cmos_data := fun i =>
      if i = RTC_SECONDS then 0x09 else if i = RTC_MINUTES then 0x08
      else if i = RTC_HOURS then 0x07 else exampleCmos 0x82 i }

/-- The assertion of `check_update_timer`: the update-in-progress bit is not
latched while register A holds the dividers in reset. -/
def NoLatchedReset (s : VIANVRAMState) : Prop :=
  s.cmos_data RTC_REG_A &&& 0x60 = 0x60 → s.cmos_data RTC_REG_A &&& REG_A_UIP = 0

instance (s : VIANVRAMState) : Decidable (NoLatchedReset s) := by
  unfold NoLatchedReset
  infer_instance

/-- The state `s'` agrees with `s` on register A, on the interrupt line and on
the re-injection counter. -/
structure Quiet (s s' : VIANVRAMState) : Prop where
  reg_a : s'.cmos_data RTC_REG_A = s.cmos_data RTC_REG_A
  irq : s'.irq = s.irq
  irq_reinject_on_ack_count : s'.irq_reinject_on_ack_count = s.irq_reinject_on_ack_count

/-- The condition of lines 689 to 691 of `cmos_ioport_read`, under which a
read of register C re-injects an owed interrupt. -/
def reinject_due (s : VIANVRAMState) : Bool :=
  decide (s.irq_coalesced ≠ 0 ∧ s.cmos_data RTC_REG_B &&& REG_B_PIE ≠ 0 ∧
    s.irq_reinject_on_ack_count < 20)

/-- The operation is a data-port read that reaches the case `RTC_REG_C` of
`cmos_ioport_read` in state `s`: on the standard port, or on the extended port,
which forwards the read when the index is at most 0x7f. -/
def reads_reg_c (s : VIANVRAMState) : Op → Bool
  | Op.io_read addr => decide (addr &&& 1 ≠ 0 ∧ s.cmos_index = RTC_REG_C)
  | Op.ext_read addr => decide (addr ≠ 0 ∧ addr &&& 1 ≠ 0 ∧ s.cmos_index = RTC_REG_C)
  | _ => false

/-- The operation is a data-port write that reaches the case `RTC_REG_B` of
`cmos_ioport_write` in state `s`. -/
def writes_reg_b (s : VIANVRAMState) : Op → Bool
  | Op.io_write addr _ => decide (addr &&& 1 ≠ 0 ∧ s.cmos_index = RTC_REG_B)
  | _ => false

/-- The re-injection counter is within its budget of 20. -/
def CountInv (s : VIANVRAMState) : Prop :=
  0 ≤ s.irq_reinject_on_ack_count ∧ s.irq_reinject_on_ack_count ≤ 20

/-- Firings of the periodic timer callback `rtc_periodic_timer`, one in each
environment of the list and with no other operation in between; `none` when an
assertion fails.  The timer is no longer pending when its callback runs. -/
def periodic_firings : List Env → VIANVRAMState → Option VIANVRAMState
  | [], s => some s
  | env :: envs, s =>
    match rtc_periodic_timer env { s with periodic_timer := none } with
    | none => none
    | some s' => periodic_firings envs s'

/-- Reference definition, following the specification: the flags a single
firing of the periodic timer produces in register C, the periodic flag and,
when the periodic interrupt is enabled in register B (value `b`), the summary
flag. -/
def periodic_flags (b : Nat) : Nat :=
  if b &&& REG_B_PIE ≠ 0 then REG_C_PF ||| REG_C_IRQF else REG_C_PF

/-- The state of the device after attach in `exampleEnv` with interrupt 8,
base year 2000 and the discard policy. -/
def discardAttachedExample : VIANVRAMState :=
  (rtc_realizefn exampleEnv 8 (via_nvram_instance 2000 LostTickPolicy.DISCARD)).getD
    (via_nvram_instance 2000 LostTickPolicy.DISCARD)

/-- The state `discardAttachedExample` after the guest has selected register
B. -/
def discardSelectedExample : VIANVRAMState :=
  (exec exampleEnv discardAttachedExample (Op.io_write 0 11)).getD discardAttachedExample

/-- The state `discardSelectedExample` after the guest has written 0x42 to
register B (periodic interrupt enabled, 24-hour BCD mode). -/
def discardEnabledExample : VIANVRAMState :=
  (exec exampleEnv discardSelectedExample (Op.io_write 1 0x42)).getD discardSelectedExample

/-- The state `discardEnabledExample` after the guest has selected register
C. -/
def discardExample : VIANVRAMState :=
  (exec exampleEnv discardEnabledExample (Op.io_write 0 12)).getD discardEnabledExample

/-- A run of the engine: the operations of the list are executed in order,
each in its own environment; `none` when one of them does not complete. -/
def run : List (Env × Op) → VIANVRAMState → Option VIANVRAMState
  | [], s => some s
  | p :: ops, s =>
    match exec p.1 s p.2 with
    | none => none
    | some s' => run ops s'

/-- The number of operations of a run that are reads of register C performing
a re-injection (the run is followed as long as its operations complete). -/
def reinjections : List (Env × Op) → VIANVRAMState → Nat
  | [], _ => 0
  | p :: ops, s =>
    match exec p.1 s p.2 with
    | none => 0
    | some s' => (if reads_reg_c s p.2 && reinject_due s then 1 else 0) + reinjections ops s'

/-- The state `owedExample` with 100 interrupts owed. -/
def backlogExample : VIANVRAMState := { owedExample with irq_coalesced := 100 }

/-- The state `owedExample` with three interrupts owed. -/
def owedThreeExample : VIANVRAMState := { owedExample with irq_coalesced := 3 }

/-- The state `owedThreeExample` after 20 re-injections: the re-injection
counter has reached its budget. -/
def exhaustedExample : VIANVRAMState :=
  { owedThreeExample with irq_reinject_on_ack_count := 20 }

/-- The environment `exampleEnv` with a host that reports raised interrupts as
not delivered. -/
def undeliveredEnv : Env := { exampleEnv with irq_delivered := false }

/-- The field `version_id` of `vmstate_rtc`, the current version of the
snapshot format. -/
def vmstate_rtc_version_id : Int := 3

/-- The environment `exampleEnv` half a millisecond later. -/
def snapshotEnv : Env := { exampleEnv with now := 10000500000 }

/-- The environment `snapshotEnv` with `rtc_clock` the real-time clock. -/
def realtimeSnapshotEnv : Env := { snapshotEnv with rtc_clock_realtime := true }

/-- The state `updatedExample` (line raised) after a reset. -/
def resetExample : VIANVRAMState :=
  (exec exampleEnvLater updatedExample Op.reset).getD updatedExample

/-- Reference definition, following the specification: the hour of the
12-hour clock, `tm_hour mod 12` with 0 replaced by 12. -/
def hour12 (tm_hour : Int) : Int := if tm_hour % 12 = 0 then 12 else tm_hour % 12

/-- An example state in 12-hour BCD mode (register B = 0x00). -/
def twelveHourExample : VIANVRAMState := exampleState 0x00 0 LostTickPolicy.DISCARD

/-- The first part of the case `RTC_REG_A` in the switch of
`cmos_ioport_write`, up to and including the store of the new register value:
the state on which `periodic_timer_update` and `check_update_timer` are then
called. -/
def cmos_write_reg_a_store (env : Env) (s : VIANVRAMState) (data : Nat) : VIANVRAMState :=
  let s :=
    if data &&& 0x60 = 0x60 then
      let s := if rtc_running s then rtc_update_time env s else s
      s.store RTC_REG_A (s.cmos_data RTC_REG_A &&& (0xff ^^^ REG_A_UIP))
    else if s.cmos_data RTC_REG_A &&& 0x60 = 0x60 ∧ data &&& 0x70 ≤ 0x20 then
      let s :=
        if s.cmos_data RTC_REG_B &&& REG_B_SET = 0 then
          rtc_set_time env { s with offset := 500000000 }
        else s
      s.store RTC_REG_A (s.cmos_data RTC_REG_A &&& (0xff ^^^ REG_A_UIP))
    else s
  s.store RTC_REG_A
    ((data &&& (0xffffffffffffffff ^^^ REG_A_UIP)) ||| (s.cmos_data RTC_REG_A &&& REG_A_UIP))

/-- The state `attachedExample` after the guest has selected register A. -/
def regASelectedExample : VIANVRAMState :=
  (exec exampleEnv attachedExample (Op.io_write 0 10)).getD attachedExample

/-- The body of `rtc_update_timer` between its assertion and the final call of
`check_update_timer`: the time is resynchronised, the update-in-progress bit is
cleared and the flags are raised. -/
def rtc_update_timer_flags (env : Env) (s : VIANVRAMState) : VIANVRAMState :=
  let s := rtc_update_time env s
  let s := s.store RTC_REG_A (s.cmos_data RTC_REG_A &&& (0xff ^^^ REG_A_UIP))
  let irqs : Nat :=
    if u64 env.now ≥ s.next_alarm_time then REG_C_UF ||| REG_C_AF else REG_C_UF
  let new_irqs := irqs &&& (0xff ^^^ s.cmos_data RTC_REG_C)
  let s := s.store RTC_REG_C (s.cmos_data RTC_REG_C ||| irqs)
  if new_irqs &&& s.cmos_data RTC_REG_B ≠ 0 then
    { s.store RTC_REG_C (s.cmos_data RTC_REG_C ||| REG_C_IRQF) with irq := true }
  else s

/-- The divider-reset invariant: while register A holds the dividers in reset,
the update timer is not pending and the stored update-in-progress bit is
clear. -/
def DividerInv (s : VIANVRAMState) : Prop :=
  s.cmos_data RTC_REG_A &&& 0x60 = 0x60 →
    s.update_timer = none ∧ s.cmos_data RTC_REG_A &&& REG_A_UIP = 0

/-- Two states agree on register A and on the update timer. -/
def SameDivider (s s' : VIANVRAMState) : Prop :=
  s'.cmos_data RTC_REG_A = s.cmos_data RTC_REG_A ∧ s'.update_timer = s.update_timer

/-- The state `regASelectedExample` after the guest has written 0x66 to
register A: the dividers are held in reset. -/
def dividerResetExample : VIANVRAMState :=
  (exec exampleEnv regASelectedExample (Op.io_write 1 0x66)).getD regASelectedExample

/-- The value `cur_clock` of `periodic_timer_update`: the current time in
32.768 kHz ticks. -/
def periodic_cur_clock (current_time : Int) : Int :=
  i64 (muldiv64 (u64 current_time) 32768 NANOSECONDS_PER_SECOND)

/-- The value of `lost_clock` at the first assertion of
`periodic_timer_update` when it is called for a period change with a nonzero
old period: the ticks elapsed since the previous periodic firing. -/
def periodic_elapsed_clock (s : VIANVRAMState) (current_time old_period : Int) : Int :=
  let next_periodic_clock :=
    i64 (muldiv64 (u64 s.next_periodic_time) 32768 NANOSECONDS_PER_SECOND)
  let last_periodic_clock := i64 (next_periodic_clock - old_period)
  i64 (periodic_cur_clock current_time - last_periodic_clock)

/-- The value of `lost_clock` at the second assertion of
`periodic_timer_update`, from the value `lost_clock` it has after the first:
under the slew policy the remainder of the owed ticks modulo the new period,
otherwise the value capped at the new period. -/
def periodic_lost_clock (env : Env) (s : VIANVRAMState) (old_period lost_clock : Int) : Int :=
  if s.lost_tick_policy = LostTickPolicy.SLEW then
    (i64 (lost_clock + u32 (s.irq_coalesced * old_period))).tmod (rtc_periodic_clock_ticks env s)
  else min lost_clock (rtc_periodic_clock_ticks env s)

/-- The environment of `exampleEnv` a tenth of a second earlier: the clock has
stepped back. -/
def earlierEnv : Env := { exampleEnv with now := 9900000000 }

/-- The state `enabledExample` after the guest has selected register A. -/
def rateSelectedExample : VIANVRAMState :=
  (exec exampleEnv enabledExample (Op.io_write 0 10)).getD enabledExample

/-- The state `discardEnabledExample` after the guest has selected register
A. -/
def discardRateExample : VIANVRAMState :=
  (exec exampleEnv discardEnabledExample (Op.io_write 0 10)).getD discardEnabledExample

/-- The environment of `exampleEnv` 1.00002 s later. -/
def lateEnv : Env := { exampleEnv with now := 11000020000 }

/-- The three alarm bytes each decode to a valid field or to the don't-care
value -1: seconds and minutes at most 59, hours at most 23. -/
def valid_alarm (s : VIANVRAMState) : Prop :=
  (-1 ≤ rtc_from_bcd s (s.cmos_data RTC_SECONDS_ALARM) ∧
    rtc_from_bcd s (s.cmos_data RTC_SECONDS_ALARM) ≤ 59) ∧
  (-1 ≤ rtc_from_bcd s (s.cmos_data RTC_MINUTES_ALARM) ∧
    rtc_from_bcd s (s.cmos_data RTC_MINUTES_ALARM) ≤ 59) ∧
  (-1 ≤ rtc_from_bcd s (s.cmos_data RTC_HOURS_ALARM) ∧
    rtc_from_bcd s (s.cmos_data RTC_HOURS_ALARM) ≤ 23)

instance (s : VIANVRAMState) : Decidable (valid_alarm s) := by
  unfold valid_alarm
  infer_instance

/-- Lines 293 and 294 of `get_next_alarm`: the current hour as it enters the
alarm computation, decoded by `rtc_from_bcd` from the whole hours register and
passed through `convert_hour`. -/
def alarm_cur_hour (s : VIANVRAMState) : Int :=
  let cur_hour := rtc_from_bcd s (s.cmos_data RTC_HOURS)
  (convert_hour s (u8 cur_hour) : Int)

/-- The current hour of the alarm computation in 12-hour mode as a function of
the data-mode bit and the hours byte. -/
def alarm_cur_hour_mode (dm : Bool) (b : Nat) : Int :=
  let hour := u8 (from_bcd_mode dm b) % 12
  ((if b &&& 0x80 ≠ 0 then (hour + 12) % 256 else hour : Nat) : Int)

/-- The hour `rtc_get_time` decodes in 12-hour mode as a function of the
data-mode bit and the hours byte. -/
def get_time_hour_mode (dm : Bool) (b : Nat) : Int :=
  let h := (from_bcd_mode dm (b &&& 0x7f)).tmod 12
  if b &&& 0x80 ≠ 0 then h + 12 else h

/-- An example state in 12-hour BCD mode (register B = 0x00) whose time base
is at 23:00:00 and whose hours register holds 0x91, 11 PM, with the alarm set
to 1:00:00 AM (hours alarm byte 0x01). -/
def elevenPmExample : VIANVRAMState :=
  { exampleState 0x00 0 LostTickPolicy.DISCARD with
    base_rtc := 82800,
    cmos_data := fun i =>
      if i = RTC_HOURS then 0x91 else if i = RTC_HOURS_ALARM then 0x01
      else exampleCmos 0x00 i }

/-- The state `attachedExample` after the guest has selected index 0x37, the
century byte of the IBM PS/2. -/
def centuryAliasExample : VIANVRAMState :=
  (exec exampleEnv attachedExample (Op.io_write 0 0x37)).getD attachedExample

/-- The environment of `exampleEnv` 600000 s (almost seven days) later. -/
def farEnv : Env := { exampleEnv with now := 600010000000000 }

/-- The state `rateSelectedExample` with three interrupts owed. -/
def owedRateExample : VIANVRAMState := { rateSelectedExample with irq_coalesced := 3 }

/-- Lines 234 to 236 of `check_update_timer`: the value `next_update_time`,
the clock value at which the guest time reaches its next second boundary. -/
def next_update_time (env : Env) (s : VIANVRAMState) : Int :=
  let guest_nsec := (get_guest_rtc_ns env s) % NANOSECONDS_PER_SECOND
  u64 (u64 env.now + NANOSECONDS_PER_SECOND - guest_nsec)

/-! # Theorems -/

@[simp] theorem store_cmos_data (s : VIANVRAMState) (i v j : Nat) :
    (s.store i v).cmos_data j = if j = i then v % 256 else s.cmos_data j := rfl

@[simp] theorem store_base_year (s : VIANVRAMState) (i v : Nat) :
    (s.store i v).base_year = s.base_year := rfl

theorem rtc_to_bcd_eq (s : VIANVRAMState) (a : Int) :
    rtc_to_bcd s a = to_bcd_mode (decide (s.cmos_data RTC_REG_B &&& REG_B_DM ≠ 0)) a := by
  unfold rtc_to_bcd to_bcd_mode
  by_cases h : s.cmos_data RTC_REG_B &&& REG_B_DM ≠ 0 <;> simp [h]

theorem rtc_from_bcd_eq (s : VIANVRAMState) (a : Nat) :
    rtc_from_bcd s a = from_bcd_mode (decide (s.cmos_data RTC_REG_B &&& REG_B_DM ≠ 0)) a := by
  unfold rtc_from_bcd from_bcd_mode
  by_cases h : s.cmos_data RTC_REG_B &&& REG_B_DM ≠ 0 <;> simp [h]

theorem rtc_to_bcd_congr (s s' : VIANVRAMState)
    (hB : s'.cmos_data RTC_REG_B = s.cmos_data RTC_REG_B) (a : Int) :
    rtc_to_bcd s' a = rtc_to_bcd s a := by
  unfold rtc_to_bcd; rw [hB]

@[simp] theorem rtc_to_bcd_store (s : VIANVRAMState) (i v : Nat) (h : i ≠ RTC_REG_B) (a : Int) :
    rtc_to_bcd (s.store i v) a = rtc_to_bcd s a := by
  apply rtc_to_bcd_congr
  simp [Ne.symm h]

set_option maxRecDepth 100000 in
theorem from_to_bcd_mode : ∀ dm : Bool, ∀ n < 100,
    from_bcd_mode dm (u8 (to_bcd_mode dm ((n : Nat) : Int)) % 256) = n := by
  decide

set_option maxRecDepth 100000 in
theorem from_to_bcd_mode_hours24 : ∀ dm : Bool, ∀ n < 24,
    from_bcd_mode dm ((u8 (to_bcd_mode dm ((n : Nat) : Int)) % 256) &&& 0x7f) = n := by
  decide

set_option maxRecDepth 100000 in
theorem from_to_bcd_mode_hours12 : ∀ dm : Bool, ∀ n < 24,
    (if hours12_byte dm ((n : Nat) : Int) &&& 0x80 ≠ 0 then
      (from_bcd_mode dm (hours12_byte dm ((n : Nat) : Int) &&& 0x7f)).tmod 12 + 12
     else (from_bcd_mode dm (hours12_byte dm ((n : Nat) : Int) &&& 0x7f)).tmod 12) = n := by
  decide

theorem rtc_set_cmos_bytes (s : VIANVRAMState) (tm : Tm) :
    (rtc_set_cmos s tm).cmos_data RTC_SECONDS = u8 (rtc_to_bcd s tm.tm_sec) % 256 ∧
    (rtc_set_cmos s tm).cmos_data RTC_MINUTES = u8 (rtc_to_bcd s tm.tm_min) % 256 ∧
    (rtc_set_cmos s tm).cmos_data RTC_HOURS =
      (if s.cmos_data RTC_REG_B &&& REG_B_24H ≠ 0 then u8 (rtc_to_bcd s tm.tm_hour) % 256
       else if tm.tm_hour ≥ 12 then
         (u8 (rtc_to_bcd s (if tm.tm_hour.tmod 12 ≠ 0 then tm.tm_hour.tmod 12 else 12)) % 256 ||| 0x80) % 256
       else u8 (rtc_to_bcd s (if tm.tm_hour.tmod 12 ≠ 0 then tm.tm_hour.tmod 12 else 12)) % 256) ∧
    (rtc_set_cmos s tm).cmos_data RTC_DAY_OF_WEEK = u8 (rtc_to_bcd s (tm.tm_wday + 1)) % 256 ∧
    (rtc_set_cmos s tm).cmos_data RTC_DAY_OF_MONTH = u8 (rtc_to_bcd s tm.tm_mday) % 256 ∧
    (rtc_set_cmos s tm).cmos_data RTC_MONTH = u8 (rtc_to_bcd s (tm.tm_mon + 1)) % 256 ∧
    (rtc_set_cmos s tm).cmos_data RTC_YEAR =
      u8 (rtc_to_bcd s ((i32 (i32 (tm.tm_year + 1900) - s.base_year)).tmod 100)) % 256 ∧
    (rtc_set_cmos s tm).cmos_data RTC_CENTURY =
      u8 (rtc_to_bcd s ((i32 (i32 (tm.tm_year + 1900) - s.base_year)).tdiv 100)) % 256 := by
  simp only [rtc_set_cmos]
  split_ifs <;> simp_all

theorem rtc_set_cmos_frame (s : VIANVRAMState) (tm : Tm) :
    (rtc_set_cmos s tm).cmos_data RTC_REG_B = s.cmos_data RTC_REG_B ∧
    (rtc_set_cmos s tm).base_year = s.base_year := by
  simp only [rtc_set_cmos]
  split_ifs <;> simp_all

theorem from_to_bcd (s s' : VIANVRAMState) (hB : s'.cmos_data RTC_REG_B = s.cmos_data RTC_REG_B)
    (a : Int) (h0 : 0 ≤ a) (h1 : a ≤ 99) :
    rtc_from_bcd s' (u8 (rtc_to_bcd s a) % 256) = a := by
  obtain ⟨n, rfl⟩ := Int.eq_ofNat_of_zero_le h0
  rw [rtc_from_bcd_eq, rtc_to_bcd_eq, hB]
  exact from_to_bcd_mode _ n (by omega)

theorem hours_roundtrip (s s' : VIANVRAMState)
    (hB : s'.cmos_data RTC_REG_B = s.cmos_data RTC_REG_B) (hour : Int)
    (h0 : 0 ≤ hour) (h1 : hour ≤ 23)
    (b4 : s'.cmos_data RTC_HOURS =
      (if s.cmos_data RTC_REG_B &&& REG_B_24H ≠ 0 then u8 (rtc_to_bcd s hour) % 256
       else if hour ≥ 12 then
         (u8 (rtc_to_bcd s (if hour.tmod 12 ≠ 0 then hour.tmod 12 else 12)) % 256 ||| 0x80) % 256
       else u8 (rtc_to_bcd s (if hour.tmod 12 ≠ 0 then hour.tmod 12 else 12)) % 256)) :
    (if s'.cmos_data RTC_REG_B &&& REG_B_24H = 0 then
      (if s'.cmos_data RTC_HOURS &&& 0x80 ≠ 0 then
        (rtc_from_bcd s' (s'.cmos_data RTC_HOURS &&& 0x7f)).tmod 12 + 12
       else (rtc_from_bcd s' (s'.cmos_data RTC_HOURS &&& 0x7f)).tmod 12)
      else rtc_from_bcd s' (s'.cmos_data RTC_HOURS &&& 0x7f)) = hour := by
  obtain ⟨n, rfl⟩ := Int.eq_ofNat_of_zero_le h0
  have hn24 : n < 24 := by omega
  rw [hB, rtc_from_bcd_eq, hB]
  by_cases h24 : s.cmos_data RTC_REG_B &&& REG_B_24H = 0
  · have key := from_to_bcd_mode_hours12 (decide (s.cmos_data RTC_REG_B &&& REG_B_DM ≠ 0)) n hn24
    have hb : s'.cmos_data RTC_HOURS =
        hours12_byte (decide (s.cmos_data RTC_REG_B &&& REG_B_DM ≠ 0)) (n : Int) := by
      rw [b4, if_neg (not_not.mpr h24)]
      simp only [rtc_to_bcd_eq]
      rfl
    rw [hb, if_pos h24]
    exact key
  · have key := from_to_bcd_mode_hours24 (decide (s.cmos_data RTC_REG_B &&& REG_B_DM ≠ 0)) n hn24
    rw [b4, if_neg h24, if_pos h24, rtc_to_bcd_eq]
    exact key

/-- C1: decoding the registers written by `rtc_set_cmos` gives back the
broken-down time, in every data mode and hour mode (register B of `s` is
arbitrary): `rtc_get_time` restores the seven calendar fields, so applied to
`tm` itself it returns `tm`, and `mktimegm` yields the same epoch second. -/
theorem rtc_get_time_set_cmos (s : VIANVRAMState) (tm : Tm)
    (hsec : 0 ≤ tm.tm_sec ∧ tm.tm_sec ≤ 59) (hmin : 0 ≤ tm.tm_min ∧ tm.tm_min ≤ 59)
    (hhour : 0 ≤ tm.tm_hour ∧ tm.tm_hour ≤ 23) (hwday : 0 ≤ tm.tm_wday ∧ tm.tm_wday ≤ 6)
    (hmday : 1 ≤ tm.tm_mday ∧ tm.tm_mday ≤ 31) (hmon : 0 ≤ tm.tm_mon ∧ tm.tm_mon ≤ 11)
    (hyear : 0 ≤ tm.tm_year + 1900 - s.base_year ∧ tm.tm_year + 1900 - s.base_year ≤ 9999)
    (hty : -2147483648 ≤ tm.tm_year ∧ tm.tm_year ≤ 2147483647) :
    (∀ tm0 : Tm, rtc_get_time (rtc_set_cmos s tm) tm0 =
        { tm with tm_yday := tm0.tm_yday, tm_isdst := tm0.tm_isdst }) ∧
      rtc_get_time (rtc_set_cmos s tm) tm = tm ∧
      ∀ env : Env, env.mktimegm (rtc_get_time (rtc_set_cmos s tm) tm) = env.mktimegm tm := by
  have hyr : i32 (i32 (tm.tm_year + 1900) - s.base_year) = tm.tm_year + 1900 - s.base_year := by
    unfold i32; omega
  have hmod : (tm.tm_year + 1900 - s.base_year).tmod 100 = (tm.tm_year + 1900 - s.base_year) % 100 :=
    Int.tmod_eq_emod hyear.1 (by decide)
  have hdiv : (tm.tm_year + 1900 - s.base_year).tdiv 100 = (tm.tm_year + 1900 - s.base_year) / 100 :=
    Int.tdiv_eq_ediv hyear.1 (by decide)
  have hback : i32 (i32 (i32 ((tm.tm_year + 1900 - s.base_year) % 100 + s.base_year) +
      (tm.tm_year + 1900 - s.base_year) / 100 * 100) - 1900) = tm.tm_year := by
    unfold i32; omega
  obtain ⟨hB, hY⟩ := rtc_set_cmos_frame s tm
  have e0 := from_to_bcd s _ hB tm.tm_sec hsec.1 (by omega)
  have e2 := from_to_bcd s _ hB tm.tm_min hmin.1 (by omega)
  have e6 := from_to_bcd s _ hB (tm.tm_wday + 1) (by omega) (by omega)
  have e7 := from_to_bcd s _ hB tm.tm_mday (by omega) (by omega)
  have e8 := from_to_bcd s _ hB (tm.tm_mon + 1) (by omega) (by omega)
  have e9 := from_to_bcd s _ hB ((tm.tm_year + 1900 - s.base_year) % 100)
    (by omega) (by omega)
  have e32 := from_to_bcd s _ hB ((tm.tm_year + 1900 - s.base_year) / 100)
    (by omega) (by omega)
  obtain ⟨b0, b2, b4, b6, b7, b8, b9, b32⟩ := rtc_set_cmos_bytes s tm
  have ehour := hours_roundtrip s _ hB tm.tm_hour hhour.1 hhour.2 b4
  rw [hyr, hmod] at b9
  rw [hyr, hdiv] at b32
  have main : ∀ tm0 : Tm, rtc_get_time (rtc_set_cmos s tm) tm0 =
      { tm with tm_yday := tm0.tm_yday, tm_isdst := tm0.tm_isdst } := by
    intro tm0
    unfold rtc_get_time
    simp only []
    rw [ehour, b0, b2, b6, b7, b8, b9, b32, e0, e2, e6, e7, e8, e9, e32, hY, hback]
    cases tm
    simp
  have self : rtc_get_time (rtc_set_cmos s tm) tm = tm := by
    rw [main tm]
  exact ⟨main, self, fun env => by rw [self]⟩

@[simp] theorem store_cmos_index (s : VIANVRAMState) (i v : Nat) :
    (s.store i v).cmos_index = s.cmos_index := rfl

@[simp] theorem store_base_rtc (s : VIANVRAMState) (i v : Nat) :
    (s.store i v).base_rtc = s.base_rtc := rfl

@[simp] theorem store_last_update (s : VIANVRAMState) (i v : Nat) :
    (s.store i v).last_update = s.last_update := rfl

@[simp] theorem store_offset (s : VIANVRAMState) (i v : Nat) :
    (s.store i v).offset = s.offset := rfl

@[simp] theorem store_irq (s : VIANVRAMState) (i v : Nat) :
    (s.store i v).irq = s.irq := rfl

@[simp] theorem store_periodic_timer (s : VIANVRAMState) (i v : Nat) :
    (s.store i v).periodic_timer = s.periodic_timer := rfl

@[simp] theorem store_next_periodic_time (s : VIANVRAMState) (i v : Nat) :
    (s.store i v).next_periodic_time = s.next_periodic_time := rfl

@[simp] theorem store_update_timer (s : VIANVRAMState) (i v : Nat) :
    (s.store i v).update_timer = s.update_timer := rfl

@[simp] theorem store_next_alarm_time (s : VIANVRAMState) (i v : Nat) :
    (s.store i v).next_alarm_time = s.next_alarm_time := rfl

@[simp] theorem store_irq_reinject_on_ack_count (s : VIANVRAMState) (i v : Nat) :
    (s.store i v).irq_reinject_on_ack_count = s.irq_reinject_on_ack_count := rfl

@[simp] theorem store_irq_coalesced (s : VIANVRAMState) (i v : Nat) :
    (s.store i v).irq_coalesced = s.irq_coalesced := rfl

@[simp] theorem store_period (s : VIANVRAMState) (i v : Nat) :
    (s.store i v).period = s.period := rfl

@[simp] theorem store_coalesced_timer (s : VIANVRAMState) (i v : Nat) :
    (s.store i v).coalesced_timer = s.coalesced_timer := rfl

@[simp] theorem store_lost_tick_policy (s : VIANVRAMState) (i v : Nat) :
    (s.store i v).lost_tick_policy = s.lost_tick_policy := rfl
theorem rtc_set_cmos_eq (s : VIANVRAMState) (tm : Tm) :
    rtc_set_cmos s tm = { s with cmos_data := (rtc_set_cmos s tm).cmos_data } := by
  simp only [rtc_set_cmos, VIANVRAMState.store]
  split_ifs <;> rfl

theorem rtc_set_cmos_other (s : VIANVRAMState) (tm : Tm) (i : Nat)
    (h0 : i ≠ RTC_SECONDS) (h2 : i ≠ RTC_MINUTES) (h4 : i ≠ RTC_HOURS)
    (h6 : i ≠ RTC_DAY_OF_WEEK) (h7 : i ≠ RTC_DAY_OF_MONTH) (h8 : i ≠ RTC_MONTH)
    (h9 : i ≠ RTC_YEAR) (h32 : i ≠ RTC_CENTURY) :
    (rtc_set_cmos s tm).cmos_data i = s.cmos_data i := by
  simp only [rtc_set_cmos]
  split_ifs <;> simp_all

theorem sameCtl_refl (s : VIANVRAMState) : SameCtl s s := ⟨rfl, rfl, rfl, rfl⟩

theorem SameCtl.trans {a b c : VIANVRAMState} (h1 : SameCtl a b) (h2 : SameCtl b c) :
    SameCtl a c :=
  ⟨h2.1.trans h1.1, h2.2.1.trans h1.2.1, h2.2.2.1.trans h1.2.2.1, h2.2.2.2.trans h1.2.2.2⟩

theorem SummaryInv.of_sameCtl {s s' : VIANVRAMState} (h : SameCtl s s') (hi : SummaryInv s) :
    SummaryInv s' := by
  obtain ⟨hb, hc, hq, hp⟩ := h
  unfold SummaryInv
  rw [hb, hc, hq, hp]
  exact hi

theorem rtc_set_cmos_sameCtl (s : VIANVRAMState) (tm : Tm) : SameCtl s (rtc_set_cmos s tm) := by
  refine ⟨rtc_set_cmos_other s tm _ (by decide) (by decide) (by decide) (by decide)
    (by decide) (by decide) (by decide) (by decide),
    rtc_set_cmos_other s tm _ (by decide) (by decide) (by decide) (by decide)
    (by decide) (by decide) (by decide) (by decide), ?_, ?_⟩
  · rw [rtc_set_cmos_eq]
  · rw [rtc_set_cmos_eq]

theorem rtc_update_time_sameCtl (env : Env) (s : VIANVRAMState) :
    SameCtl s (rtc_update_time env s) := by
  unfold rtc_update_time
  simp only []
  split_ifs
  · exact rtc_set_cmos_sameCtl _ _
  · exact sameCtl_refl _

theorem rtc_set_time_sameCtl (env : Env) (s : VIANVRAMState) :
    SameCtl s (rtc_set_time env s) := ⟨rfl, rfl, rfl, rfl⟩

theorem check_update_timer_sameCtl (env : Env) (s s' : VIANVRAMState)
    (h : check_update_timer env s = some s') : SameCtl s s' := by
  have hu := rtc_update_time_sameCtl env s
  unfold check_update_timer at h
  simp only [get_next_alarm] at h
  split_ifs at h <;> simp only [Option.some.injEq] at h <;> subst h <;>
    first
      | exact sameCtl_refl _
      | exact hu
theorem rtc_coalesced_timer_update_eq (env : Env) (s : VIANVRAMState) :
    rtc_coalesced_timer_update env s = { s with coalesced_timer := coalesced_deadline env s } := by
  unfold rtc_coalesced_timer_update coalesced_deadline
  split_ifs <;> rfl

theorem rtc_coalesced_timer_update_sameCtl (env : Env) (s : VIANVRAMState) :
    SameCtl s (rtc_coalesced_timer_update env s) := by
  rw [rtc_coalesced_timer_update_eq]
  exact ⟨rfl, rfl, rfl, rfl⟩

theorem rtc_periodic_clock_ticks_ne_zero (env : Env) (s : VIANVRAMState)
    (h : rtc_periodic_clock_ticks env s ≠ 0) : s.cmos_data RTC_REG_B &&& REG_B_PIE ≠ 0 := by
  unfold rtc_periodic_clock_ticks at h
  intro h0
  rw [if_pos h0] at h
  exact h rfl

theorem periodic_timer_update_ctl (env : Env) (s s' : VIANVRAMState) (ct op : Int) (pc : Bool)
    (h : periodic_timer_update env s ct op pc = some s') :
    s'.cmos_data = s.cmos_data ∧ s'.lost_tick_policy = s.lost_tick_policy ∧ s'.irq = s.irq ∧
    (s'.irq_coalesced ≠ 0 → s.cmos_data RTC_REG_B &&& REG_B_PIE ≠ 0 ∧
      (s.lost_tick_policy = LostTickPolicy.SLEW ∨ s'.irq_coalesced = s.irq_coalesced)) := by
  unfold periodic_timer_update at h
  simp only [] at h
  by_cases hp : rtc_periodic_clock_ticks env s = 0
  · rw [if_pos hp] at h
    simp only [Option.some.injEq] at h
    subst h
    simp
  · have hpie := rtc_periodic_clock_ticks_ne_zero env s hp
    rw [if_neg hp] at h
    split at h
    · exact absurd h (by simp)
    · rename_i lost_clock hl
      by_cases hpol : s.lost_tick_policy = LostTickPolicy.SLEW
      · simp only [hpol, if_true] at h
        split_ifs at h <;> simp only [Option.some.injEq] at h <;> subst h <;>
          simp [rtc_coalesced_timer_update_eq, hpie, hpol]
      · simp only [hpol, if_false] at h
        split_ifs at h
        simp only [Option.some.injEq] at h
        subst h
        simp [hpie]
theorem land_mod_256 (x m : Nat) (hm : m < 256) : x % 256 &&& m = x &&& m := by
  have h1 : x % 256 = x &&& 255 := (Nat.and_pow_two_sub_one_eq_mod x 8).symm
  have h2 : 255 &&& m = m := by
    rw [Nat.and_comm]
    exact Nat.and_pow_two_sub_one_of_lt_two_pow (n := 8) hm
  rw [h1, Nat.and_assoc, h2]

theorem lor_eq_zero_iff (a b : Nat) : a ||| b = 0 ↔ a = 0 ∧ b = 0 := by
  constructor
  · intro h
    have hb : ∀ i, (a ||| b).testBit i = false := by
      intro i; rw [h]; exact Nat.zero_testBit i
    constructor
    · apply Nat.zero_of_testBit_eq_false
      intro i
      have := hb i
      rw [Nat.testBit_or] at this
      cases ha : a.testBit i <;> simp_all
    · apply Nat.zero_of_testBit_eq_false
      intro i
      have := hb i
      rw [Nat.testBit_or] at this
      cases ha : b.testBit i <;> simp_all
  · rintro ⟨rfl, rfl⟩
    rfl

theorem and_pow_eq_zero (x i : Nat) : x &&& 2 ^ i = 0 ↔ x.testBit i = false := by
  rw [Nat.and_two_pow]
  cases h : x.testBit i <;> simp

theorem and_0x80 (x : Nat) : x &&& 0x80 = 0 ↔ x.testBit 7 = false := and_pow_eq_zero x 7
theorem and_0x40 (x : Nat) : x &&& 0x40 = 0 ↔ x.testBit 6 = false := and_pow_eq_zero x 6
theorem and_0x20 (x : Nat) : x &&& 0x20 = 0 ↔ x.testBit 5 = false := and_pow_eq_zero x 5
theorem and_0x10 (x : Nat) : x &&& 0x10 = 0 ↔ x.testBit 4 = false := and_pow_eq_zero x 4

theorem and_0x70 (x : Nat) :
    x &&& 0x70 = 0 ↔ x.testBit 4 = false ∧ x.testBit 5 = false ∧ x.testBit 6 = false := by
  have e : (0x70 : Nat) = 0x10 ||| 0x20 ||| 0x40 := by decide
  rw [e, Nat.and_or_distrib_left, Nat.and_or_distrib_left, lor_eq_zero_iff, lor_eq_zero_iff,
    and_0x10, and_0x20, and_0x40, and_assoc]

theorem and_0x30 (x : Nat) : x &&& 0x30 = 0 ↔ x.testBit 4 = false ∧ x.testBit 5 = false := by
  have e : (0x30 : Nat) = 0x10 ||| 0x20 := by decide
  rw [e, Nat.and_or_distrib_left, lor_eq_zero_iff, and_0x10, and_0x20]

theorem testBit_mod_256 (x i : Nat) : (x % 256).testBit i = (decide (i < 8) && x.testBit i) :=
  Nat.testBit_mod_two_pow x 8 i

theorem rtc_coalesced_timer_inv (env : Env) (s : VIANVRAMState) (hi : SummaryInv s) :
    SummaryInv (rtc_coalesced_timer env s) := by
  unfold rtc_coalesced_timer
  simp only [rtc_coalesced_timer_update_eq, rtc_policy_slew_deliver_irq]
  by_cases h0 : s.irq_coalesced = 0
  · rw [if_neg (not_not.mpr h0)]
    exact SummaryInv.of_sameCtl ⟨rfl, rfl, rfl, rfl⟩ hi
  · obtain ⟨hpie, hpol⟩ := hi.2 h0
    rw [if_pos h0]
    unfold SummaryInv at hi ⊢
    revert hi hpie
    split_ifs <;>
    simp +decide [and_0x80, and_0x40, and_0x70, testBit_mod_256, Nat.testBit_and, Nat.testBit_or, hpol] <;>
    tauto

theorem rtc_periodic_timer_inv (env : Env) (s s' : VIANVRAMState)
    (h : rtc_periodic_timer env s = some s') (hi : SummaryInv s) : SummaryInv s' := by
  unfold rtc_periodic_timer at h
  split at h
  · exact absurd h (by simp)
  · rename_i s1 h1
    obtain ⟨hd, hpol, -, hq⟩ := periodic_timer_update_ctl env s s1 _ _ _ h1
    have hi1 : SummaryInv s1 := by
      refine ⟨by rw [hd]; exact hi.1, fun hne => ?_⟩
      obtain ⟨hpie, hor⟩ := hq hne
      rw [hd, hpol]
      refine ⟨hpie, ?_⟩
      rcases hor with hslew | heq
      · exact hslew
      · exact (hi.2 (by rw [← heq]; exact hne)).2
    clear h1 hd hpol hq hi
    unfold SummaryInv at hi1 ⊢
    simp only [rtc_coalesced_timer_update_eq, rtc_policy_slew_deliver_irq] at h
    split_ifs at h <;> simp only [Option.some.injEq] at h <;> subst h <;>
    simp +decide [and_0x80, and_0x40, and_0x70, testBit_mod_256, Nat.testBit_and,
      Nat.testBit_or] at * <;>
    simp_all
theorem const_and_and (k x b : Nat) : k &&& x &&& b = 0 ↔ x &&& b &&& k = 0 := by
  rw [Nat.and_assoc, Nat.and_comm]

theorem update_timer_bits (c b irqs : Nat) (hirqs : irqs = 0x10 ∨ irqs = 0x30)
    (h : c &&& 0x80 ≠ 0 ↔ c &&& b &&& 0x70 ≠ 0) :
    (if irqs &&& (0xff ^^^ c) &&& b ≠ 0 then ((c ||| irqs) % 256 ||| 0x80) % 256
      else (c ||| irqs) % 256) &&& 0x80 ≠ 0 ↔
    (if irqs &&& (0xff ^^^ c) &&& b ≠ 0 then ((c ||| irqs) % 256 ||| 0x80) % 256
      else (c ||| irqs) % 256) &&& b &&& 0x70 ≠ 0 := by
  simp only [ne_eq, apply_ite (fun x => x &&& 0x80 = 0), apply_ite (fun x => x &&& b &&& 0x70 = 0),
    const_and_and irqs] at *
  rcases hirqs with rfl | rfl <;>
  simp only [and_0x80, and_0x70, and_0x10, and_0x30, testBit_mod_256, Nat.testBit_and,
    Nat.testBit_or, Nat.testBit_xor] at * <;>
  (generalize c.testBit 4 = c4 at *
   generalize c.testBit 5 = c5 at *
   generalize c.testBit 6 = c6 at *
   generalize c.testBit 7 = c7 at *
   generalize b.testBit 4 = b4 at *
   generalize b.testBit 5 = b5 at *
   generalize b.testBit 6 = b6 at *
   revert c4 c5 c6 c7 b4 b5 b6
   decide)

theorem rtc_update_timer_inv (env : Env) (s s' : VIANVRAMState)
    (h : rtc_update_timer env s = some s') (hi : SummaryInv s) : SummaryInv s' := by
  unfold rtc_update_timer at h
  split_ifs at h with hdiv
  apply SummaryInv.of_sameCtl (check_update_timer_sameCtl _ _ _ h)
  clear h
  have hu := rtc_update_time_sameCtl env s
  generalize rtc_update_time env s = s0 at *
  obtain ⟨hb, hc, hq, hp⟩ := hu
  unfold SummaryInv at hi ⊢
  rw [← hb, ← hc, ← hq, ← hp] at hi
  clear hb hc hq hp
  obtain ⟨hi1, hi2⟩ := hi
  have key := update_timer_bits (s0.cmos_data RTC_REG_C) (s0.cmos_data RTC_REG_B)
    (if u64 env.now ≥ s0.next_alarm_time then REG_C_UF ||| REG_C_AF else REG_C_UF)
    (by split_ifs <;> decide) hi1
  split_ifs at key ⊢ <;>
    simp +decide only [store_cmos_data, store_next_alarm_time, store_irq_coalesced,
      store_lost_tick_policy, if_true, if_false] at * <;>
    first
      | exact ⟨key, hi2⟩
      | contradiction

theorem store_sameCtl (s : VIANVRAMState) (i v : Nat) (hb : i ≠ RTC_REG_B) (hc : i ≠ RTC_REG_C) :
    SameCtl s (s.store i v) := by
  refine ⟨?_, ?_, rfl, rfl⟩
  · simp [Ne.symm hb]
  · simp [Ne.symm hc]

theorem cmos_write_calendar_sameCtl (env : Env) (s s' : VIANVRAMState) (data : Nat)
    (hb : s.cmos_index ≠ RTC_REG_B) (hc : s.cmos_index ≠ RTC_REG_C)
    (h : cmos_write_calendar env s data = some s') : SameCtl s s' := by
  unfold cmos_write_calendar at h
  simp only [] at h
  have h1 := store_sameCtl s s.cmos_index data hb hc
  split_ifs at h
  · exact h1.trans ((rtc_set_time_sameCtl env _).trans (check_update_timer_sameCtl _ _ _ h))
  · simp only [Option.some.injEq] at h
    subst h
    exact h1

theorem write_b_bits (c d : Nat) :
    ((if d &&& c &&& 0x70 ≠ 0 then (c ||| 0x80) % 256 else (c &&& (0xff ^^^ 0x80)) % 256) &&& 0x80 ≠ 0 ↔
     (if d &&& c &&& 0x70 ≠ 0 then (c ||| 0x80) % 256 else (c &&& (0xff ^^^ 0x80)) % 256) &&&
        (d % 256) &&& 0x70 ≠ 0) := by
  simp only [ne_eq, apply_ite (fun x => x &&& 0x80 = 0),
    apply_ite (fun x => x &&& (d % 256) &&& 0x70 = 0)]
  simp only [and_0x80, and_0x70, testBit_mod_256, Nat.testBit_and,
    Nat.testBit_or, Nat.testBit_xor]
  generalize c.testBit 4 = c4
  generalize c.testBit 5 = c5
  generalize c.testBit 6 = c6
  generalize c.testBit 7 = c7
  generalize d.testBit 4 = d4
  generalize d.testBit 5 = d5
  generalize d.testBit 6 = d6
  revert c4 c5 c6 c7 d4 d5 d6
  decide

theorem cmos_write_reg_b_irq_ctl (s : VIANVRAMState) (data : Nat) :
    (cmos_write_reg_b_irq s data).cmos_data RTC_REG_B = data % 256 ∧
    ((cmos_write_reg_b_irq s data).cmos_data RTC_REG_C &&& REG_C_IRQF ≠ 0 ↔
      (cmos_write_reg_b_irq s data).cmos_data RTC_REG_C &&&
        (cmos_write_reg_b_irq s data).cmos_data RTC_REG_B &&& 0x70 ≠ 0) ∧
    (cmos_write_reg_b_irq s data).irq_coalesced = s.irq_coalesced ∧
    (cmos_write_reg_b_irq s data).lost_tick_policy = s.lost_tick_policy := by
  have key := write_b_bits (s.cmos_data RTC_REG_C) data
  unfold cmos_write_reg_b_irq
  simp only []
  split_ifs at key ⊢ <;>
    simp +decide only [store_cmos_data, store_irq_coalesced, store_lost_tick_policy, if_true,
      if_false] at * <;>
    exact ⟨trivial, key, trivial⟩

theorem cmos_write_reg_b_set_ctl (env : Env) (s : VIANVRAMState) (data : Nat) :
    SameCtl s (cmos_write_reg_b_set env s data).1 ∧
    (cmos_write_reg_b_set env s data).2 &&& REG_B_PIE = data &&& REG_B_PIE := by
  unfold cmos_write_reg_b_set
  have hu := rtc_update_time_sameCtl env s
  split_ifs
  · refine ⟨hu.trans (store_sameCtl _ _ _ (by decide) (by decide)), ?_⟩
    simp only []
    rw [Nat.and_assoc]
    rfl
  · exact ⟨(sameCtl_refl s).trans (store_sameCtl _ _ _ (by decide) (by decide)),
      by simp only []; rw [Nat.and_assoc]; rfl⟩
  · exact ⟨⟨rfl, rfl, rfl, rfl⟩, rfl⟩
  · exact ⟨sameCtl_refl s, rfl⟩

theorem xor_and_eq_zero (a b m : Nat) (h : (a ^^^ b) &&& m = 0) : a &&& m = b &&& m := by
  rw [Nat.and_xor_distrib_right] at h
  exact Nat.xor_eq_zero.mp h

theorem cmos_write_reg_b_inv (env : Env) (s s' : VIANVRAMState) (data : Nat)
    (h : cmos_write_reg_b env s data = some s') (hi : SummaryInv s) : SummaryInv s' := by
  unfold cmos_write_reg_b at h
  simp only [] at h
  obtain ⟨hset, hpie⟩ := cmos_write_reg_b_set_ctl env s data
  generalize cmos_write_reg_b_set env s data = r at *
  obtain ⟨hB, hC, hq, hp⟩ := cmos_write_reg_b_irq_ctl r.1 r.2
  generalize cmos_write_reg_b_irq r.1 r.2 = s1 at *
  have hpie1 : s1.cmos_data RTC_REG_B &&& REG_B_PIE = data &&& REG_B_PIE := by
    rw [hB, land_mod_256 _ _ (by decide), hpie]
  split at h
  · exact absurd h (by simp)
  · rename_i s2 h2
    apply SummaryInv.of_sameCtl (check_update_timer_sameCtl _ _ _ h)
    by_cases hupd : ((s.cmos_data RTC_REG_B ^^^ data) &&& REG_B_PIE != 0) = true
    · rw [if_pos hupd] at h2
      obtain ⟨hd, hpol, -, hqq⟩ := periodic_timer_update_ctl env s1 s2 _ _ _ h2
      refine ⟨by rw [hd]; exact hC, fun hne => ?_⟩
      obtain ⟨hp1, hor⟩ := hqq hne
      rw [hd, hpol]
      refine ⟨hp1, ?_⟩
      rcases hor with hslew | heq
      · exact hslew
      · rw [hp, hset.2.2.2]
        refine (hi.2 ?_).2
        rw [← hset.2.2.1, ← hq, ← heq]
        exact hne
    · rw [if_neg hupd] at h2
      simp only [Option.some.injEq] at h2
      subst h2
      refine ⟨hC, fun hne => ?_⟩
      have hne' : s.irq_coalesced ≠ 0 := by
        rw [← hset.2.2.1, ← hq]; exact hne
      obtain ⟨hp1, hslew⟩ := hi.2 hne'
      have hx : (s.cmos_data RTC_REG_B ^^^ data) &&& REG_B_PIE = 0 := by
        simpa using hupd
      rw [hpie1, ← xor_and_eq_zero _ _ _ hx, hp, hset.2.2.2]
      exact ⟨hp1, hslew⟩
theorem cmos_write_reg_a_inv (env : Env) (s s' : VIANVRAMState) (data : Nat)
    (h : cmos_write_reg_a env s data = some s') (hi : SummaryInv s) : SummaryInv s' := by
  unfold cmos_write_reg_a at h
  simp only [] at h
  have hu := rtc_update_time_sameCtl env s
  have hpre : ∀ s1 : VIANVRAMState, SameCtl s s1 → ∀ v, SameCtl s (s1.store RTC_REG_A v) :=
    fun s1 h1 v => h1.trans (store_sameCtl _ _ _ (by decide) (by decide))
  split at h
  · exact absurd h (by simp)
  · rename_i s2 h2
    apply SummaryInv.of_sameCtl (check_update_timer_sameCtl _ _ _ h)
    clear h
    have hs1 : ∀ s1 : VIANVRAMState, SameCtl s s1 →
        ((if ((s.cmos_data RTC_REG_A ^^^ data) &&& 0x0f != 0) = true then
            periodic_timer_update env s1 env.now (rtc_periodic_clock_ticks env s) true
          else some s1) = some s2) → SummaryInv s2 := by
      intro s1 hs1 h2
      have hi1 := SummaryInv.of_sameCtl hs1 hi
      split_ifs at h2
      · obtain ⟨hd, hpol, -, hqq⟩ := periodic_timer_update_ctl env s1 s2 _ _ _ h2
        refine ⟨by rw [hd]; exact hi1.1, fun hne => ?_⟩
        obtain ⟨hp1, hor⟩ := hqq hne
        rw [hd, hpol]
        refine ⟨hp1, ?_⟩
        rcases hor with hslew | heq
        · exact hslew
        · exact (hi1.2 (by rw [← heq]; exact hne)).2
      · simp only [Option.some.injEq] at h2
        subst h2
        exact hi1
    refine hs1 _ ?_ h2
    apply hpre
    split_ifs
    · exact hpre _ hu _
    · exact hpre _ (sameCtl_refl s) _
    · exact hpre _ ⟨rfl, rfl, rfl, rfl⟩ _
    · exact hpre _ (sameCtl_refl s) _
    · exact sameCtl_refl s

theorem cmos_ioport_write_inv (env : Env) (s s' : VIANVRAMState) (addr data : Nat)
    (h : cmos_ioport_write env s addr data = some s') (hi : SummaryInv s) : SummaryInv s' := by
  unfold cmos_ioport_write at h
  split_ifs at h with h0 h1 h2 h3 h4 h5 h6
  · simp only [Option.some.injEq] at h
    subst h
    exact SummaryInv.of_sameCtl ⟨rfl, rfl, rfl, rfl⟩ hi
  · refine SummaryInv.of_sameCtl ((store_sameCtl s _ data ?_ ?_).trans
      (check_update_timer_sameCtl _ _ _ h)) hi
    · rcases h1 with h | h | h <;> rw [h] <;> decide
    · rcases h1 with h | h | h <;> rw [h] <;> decide
  · exact SummaryInv.of_sameCtl
      (SameCtl.trans (⟨rfl, rfl, rfl, rfl⟩ : SameCtl s { s with cmos_index := RTC_CENTURY })
        (cmos_write_calendar_sameCtl env _ _ data (by simp) (by simp) h)) hi
  · refine SummaryInv.of_sameCtl (cmos_write_calendar_sameCtl env _ _ data ?_ ?_ h) hi
    · rcases h3 with h | h | h | h | h | h | h | h <;> rw [h] <;> decide
    · rcases h3 with h | h | h | h | h | h | h | h <;> rw [h] <;> decide
  · exact cmos_write_reg_a_inv env s s' data h hi
  · exact cmos_write_reg_b_inv env s s' data h hi
  · simp only [Option.some.injEq] at h
    subst h
    exact hi
  · simp only [Option.some.injEq] at h
    subst h
    refine SummaryInv.of_sameCtl (store_sameCtl s _ data h5 ?_) hi
    intro hc
    exact h6 (Or.inl hc)

theorem update_in_progress_sameCtl (env : Env) (s : VIANVRAMState) :
    SameCtl s (update_in_progress env s).1 := by
  unfold update_in_progress
  simp only []
  split_ifs <;> exact sameCtl_refl s

theorem cmos_read_calendar_sameCtl (env : Env) (s : VIANVRAMState) :
    SameCtl s (cmos_read_calendar env s).1 := by
  unfold cmos_read_calendar
  simp only []
  split_ifs
  · exact rtc_update_time_sameCtl env s
  · exact sameCtl_refl s

theorem read_c_bits (b : Nat) (hb : b &&& 0x40 ≠ 0) :
    ((0 % 256 ||| (0x80 ||| 0x40)) % 256 &&& 0x80 ≠ 0 ↔
      (0 % 256 ||| (0x80 ||| 0x40)) % 256 &&& b &&& 0x70 ≠ 0) := by
  simp only [ne_eq, and_0x80, and_0x70, and_0x40, testBit_mod_256, Nat.testBit_and,
    Nat.testBit_or] at *
  generalize b.testBit 4 = b4 at *
  generalize b.testBit 5 = b5 at *
  generalize b.testBit 6 = b6 at *
  revert b4 b5 b6
  decide

theorem zero_bits (b : Nat) : ((0 % 256) &&& 0x80 ≠ 0 ↔ (0 % 256) &&& b &&& 0x70 ≠ 0) := by
  simp

theorem cmos_read_reg_c_inv (env : Env) (s : VIANVRAMState) (r : VIANVRAMState × Nat)
    (h : cmos_read_reg_c env s = some r) (hi : SummaryInv s) : SummaryInv r.1 := by
  unfold cmos_read_reg_c at h
  simp only [] at h
  split at h
  · exact absurd h (by simp)
  · rename_i s1 h1
    have hs1 : s1.cmos_data RTC_REG_B = s.cmos_data RTC_REG_B ∧ s1.cmos_data RTC_REG_C = 0 % 256 ∧
        s1.irq_coalesced = s.irq_coalesced ∧ s1.lost_tick_policy = s.lost_tick_policy := by
      split_ifs at h1
      · obtain ⟨a, b, c, d⟩ := check_update_timer_sameCtl _ _ _ h1
        exact ⟨a, b, c, d⟩
      · simp only [Option.some.injEq] at h1
        subst h1
        exact ⟨rfl, rfl, rfl, rfl⟩
    obtain ⟨hB, hC, hq, hp⟩ := hs1
    clear h1
    simp only [rtc_policy_slew_deliver_irq] at h
    split_ifs at h with hc hd <;> simp only [Option.some.injEq] at h <;> subst h <;>
      unfold SummaryInv <;>
      simp only [store_cmos_data, store_irq_coalesced, store_lost_tick_policy, if_true,
        hC, hB, hq, hp]
    · have := read_c_bits (s.cmos_data RTC_REG_B) (by rw [← hB]; exact hc.2.1)
      simp +decide only [if_true, if_false]
      refine ⟨⟨fun _ => this.mp (by decide), fun _ => trivial⟩,
        fun _ => ⟨by rw [← hB]; exact hc.2.1, (hi.2 (by rw [← hq]; exact hc.1)).2⟩⟩
    · have := read_c_bits (s.cmos_data RTC_REG_B) (by rw [← hB]; exact hc.2.1)
      simp +decide only [if_true, if_false]
      exact ⟨⟨fun _ => this.mp (by decide), fun _ => trivial⟩, hi.2⟩
    · simp +decide only [if_true, if_false]
      exact ⟨⟨False.elim, fun hx => absurd ((zero_bits _).mpr hx) (by decide)⟩, hi.2⟩

theorem cmos_ioport_read_inv (env : Env) (s : VIANVRAMState) (addr : Nat)
    (r : VIANVRAMState × Nat)
    (h : cmos_ioport_read env s addr = some r) (hi : SummaryInv s) : SummaryInv r.1 := by
  unfold cmos_ioport_read at h
  split_ifs at h
  · simp only [Option.some.injEq] at h
    subst h
    exact hi
  · simp only [Option.some.injEq] at h
    subst h
    exact SummaryInv.of_sameCtl
      (SameCtl.trans (⟨rfl, rfl, rfl, rfl⟩ : SameCtl s { s with cmos_index := RTC_CENTURY })
        (cmos_read_calendar_sameCtl env _)) hi
  · simp only [Option.some.injEq] at h
    subst h
    exact SummaryInv.of_sameCtl (cmos_read_calendar_sameCtl env _) hi
  · simp only [Option.some.injEq] at h
    subst h
    exact SummaryInv.of_sameCtl (update_in_progress_sameCtl env _) hi
  · exact cmos_read_reg_c_inv env s r h hi
  · simp only [Option.some.injEq] at h
    subst h
    exact hi

theorem cmos_extended_ioport_read_inv (env : Env) (s : VIANVRAMState) (addr : Nat)
    (r : VIANVRAMState × Nat)
    (h : cmos_extended_ioport_read env s addr = some r) (hi : SummaryInv s) :
    SummaryInv r.1 := by
  unfold cmos_extended_ioport_read at h
  split_ifs at h
  · simp only [Option.some.injEq] at h
    subst h
    exact hi
  · exact cmos_ioport_read_inv env s addr r h hi
  · simp only [Option.some.injEq] at h
    subst h
    exact hi

theorem cmos_extended_ioport_write_inv (fuel : Nat) (env : Env) (s s' : VIANVRAMState)
    (addr data : Nat)
    (h : cmos_extended_ioport_write fuel env s addr data = some s') (hi : SummaryInv s) :
    SummaryInv s' := by
  induction fuel with
  | zero => exact absurd h (by simp [cmos_extended_ioport_write])
  | succ n ih =>
    unfold cmos_extended_ioport_write at h
    split_ifs at h with ha hidx
    · simp only [Option.some.injEq] at h
      subst h
      exact SummaryInv.of_sameCtl
        (store_sameCtl s _ data (by intro hh; rw [hh] at hidx; exact absurd hidx (by decide))
          (by intro hh; rw [hh] at hidx; exact absurd hidx (by decide))) hi
    · exact ih h
    · simp only [Option.some.injEq] at h
      subst h
      exact SummaryInv.of_sameCtl ⟨rfl, rfl, rfl, rfl⟩ hi
theorem reset_bits (c b : Nat) :
    ((c &&& (0xff ^^^ (0x10 ||| 0x80 ||| 0x40 ||| 0x20))) % 256 &&& 0x80 ≠ 0 ↔
      (c &&& (0xff ^^^ (0x10 ||| 0x80 ||| 0x40 ||| 0x20))) % 256 &&&
        ((b &&& (0xff ^^^ (0x40 ||| 0x20 ||| 0x08))) % 256) &&& 0x70 ≠ 0) := by
  simp only [ne_eq, and_0x80, and_0x70, testBit_mod_256, Nat.testBit_and,
    Nat.testBit_or, Nat.testBit_xor]
  generalize c.testBit 4 = c4
  generalize c.testBit 5 = c5
  generalize c.testBit 6 = c6
  generalize c.testBit 7 = c7
  generalize b.testBit 4 = b4
  generalize b.testBit 5 = b5
  generalize b.testBit 6 = b6
  revert c4 c5 c6 c7 b4 b5 b6
  decide

theorem rtc_reset_inv (env : Env) (s s' : VIANVRAMState)
    (h : rtc_reset env s = some s') (hi : SummaryInv s) : SummaryInv s' := by
  unfold rtc_reset rtc_reset_enter at h
  simp only [] at h
  split at h
  · exact absurd h (by simp)
  · rename_i s1 h1
    obtain ⟨hB, hC, hq, hp⟩ := check_update_timer_sameCtl _ _ _ h1
    simp only [store_cmos_data, store_irq_coalesced, store_lost_tick_policy] at hB hC hq hp
    simp +decide only [if_true, if_false] at hB hC
    have key := reset_bits (s.cmos_data RTC_REG_C) (s.cmos_data RTC_REG_B)
    rw [← hB, ← hC] at key
    clear h1
    split_ifs at h with hpol <;> simp only [Option.map_some', Option.some.injEq] at h <;>
      subst h <;> unfold SummaryInv rtc_reset_hold <;> simp only []
    · exact ⟨key, fun hne => absurd rfl hne⟩
    · refine ⟨key, fun hne => ?_⟩
      rw [hq] at hne
      rw [hp] at hpol
      exact absurd (hi.2 hne).2 hpol

theorem fill_upper_lt (n : Nat) : ∀ (m : Nat → Nat) (i j : Nat), j < i →
    fill_upper m i n j = m j := by
  induction n with
  | zero => intro m i j _; rfl
  | succ k ih =>
    intro m i j hj
    rw [fill_upper, ih _ _ _ (Nat.lt_succ_of_lt hj)]
    unfold setByte
    rw [if_neg (Nat.ne_of_lt hj)]

theorem rtc_set_date_from_host_sameCtl (env : Env) (s : VIANVRAMState) :
    SameCtl s (rtc_set_date_from_host env s) := by
  unfold rtc_set_date_from_host
  simp only []
  exact ⟨(rtc_set_cmos_sameCtl _ env.host_tm).1, (rtc_set_cmos_sameCtl _ env.host_tm).2.1,
    (rtc_set_cmos_sameCtl _ env.host_tm).2.2.1, (rtc_set_cmos_sameCtl _ env.host_tm).2.2.2⟩

theorem rtc_realizefn_inv (env : Env) (isairq : Nat) (base_year : Int)
    (policy : LostTickPolicy) (s : VIANVRAMState)
    (h : rtc_realizefn env isairq (via_nvram_instance base_year policy) = some s) :
    SummaryInv s := by
  unfold rtc_realizefn at h
  simp only [] at h
  have base : ∀ s0 : VIANVRAMState, s0.cmos_data RTC_REG_B = 2 → s0.cmos_data RTC_REG_C = 0 →
      s0.irq_coalesced = 0 →
      (match (rtc_set_date_from_host env s0).lost_tick_policy with
        | LostTickPolicy.DELAY => none
        | _ => check_update_timer env
            { rtc_set_date_from_host env s0 with
              coalesced_timer := none, periodic_timer := none, update_timer := none }) = some s →
      SummaryInv s := by
    intro s0 hb hc hq h
    obtain ⟨hB, hC, hQ, -⟩ := rtc_set_date_from_host_sameCtl env s0
    split at h
    · exact absurd h (by simp)
    · obtain ⟨hB', hC', hQ', -⟩ := check_update_timer_sameCtl _ _ _ h
      simp only [] at hB' hC' hQ'
      unfold SummaryInv
      rw [hB', hC', hQ', hB, hC, hQ, hb, hc, hq]
      exact ⟨by decide, fun hne => absurd rfl hne⟩
  split_ifs at h
  · refine base _ ?_ ?_ rfl h
    · simp only []
      rw [fill_upper_lt 127 _ 128 RTC_REG_B (by decide)]
      rfl
    · simp only []
      rw [fill_upper_lt 127 _ 128 RTC_REG_C (by decide)]
      rfl
  · refine base _ ?_ ?_ rfl h
    · simp only []
      rw [fill_upper_lt 127 _ 128 RTC_REG_B (by decide)]
      rfl
    · simp only []
      rw [fill_upper_lt 127 _ 128 RTC_REG_C (by decide)]
      rfl

theorem exec_inv (env : Env) (op : Op) (s s' : VIANVRAMState)
    (h : exec env s op = some s') (hi : SummaryInv s) : SummaryInv s' := by
  cases op with
  | io_write addr data => exact cmos_ioport_write_inv env s s' addr data h hi
  | io_read addr =>
    simp only [exec, Option.map_eq_some'] at h
    obtain ⟨r, hr, rfl⟩ := h
    exact cmos_ioport_read_inv env s addr r hr hi
  | ext_write fuel addr data => exact cmos_extended_ioport_write_inv fuel env s s' addr data h hi
  | ext_read addr =>
    simp only [exec, Option.map_eq_some'] at h
    obtain ⟨r, hr, rfl⟩ := h
    exact cmos_extended_ioport_read_inv env s addr r hr hi
  | periodic_timer =>
    simp only [exec] at h
    split_ifs at h
    exact rtc_periodic_timer_inv env _ s' h (SummaryInv.of_sameCtl ⟨rfl, rfl, rfl, rfl⟩ hi)
  | coalesced_timer =>
    simp only [exec] at h
    split_ifs at h
    simp only [Option.some.injEq] at h
    subst h
    exact rtc_coalesced_timer_inv env _ (SummaryInv.of_sameCtl ⟨rfl, rfl, rfl, rfl⟩ hi)
  | update_timer =>
    simp only [exec] at h
    split_ifs at h
    exact rtc_update_timer_inv env _ s' h (SummaryInv.of_sameCtl ⟨rfl, rfl, rfl, rfl⟩ hi)
  | reset => exact rtc_reset_inv env s s' h hi

theorem reachable_summaryInv (s : VIANVRAMState) (h : Reachable s) : SummaryInv s := by
  induction h with
  | attach env isairq base_year policy s h => exact rtc_realizefn_inv env isairq base_year policy s h
  | step env op s s' _ h ih => exact exec_inv env op s s' h ih

theorem getD_of_isSome {α : Type} (o : Option α) (d : α) (h : o.isSome = true) :
    o = some (o.getD d) := by
  cases o with
  | none => exact absurd h (by simp)
  | some a => rfl

set_option maxRecDepth 100000 in
theorem attachedExample_reachable : Reachable attachedExample :=
  Reachable.attach exampleEnv 8 2000 LostTickPolicy.SLEW attachedExample
    (getD_of_isSome _ _ (by decide))

set_option maxRecDepth 100000 in
theorem updatedExample_reachable : Reachable updatedExample :=
  Reachable.step exampleEnvLater Op.update_timer enabledExample updatedExample
    (Reachable.step exampleEnv (Op.io_write 1 0x52) selectedExample enabledExample
      (Reachable.step exampleEnv (Op.io_write 0 11) attachedExample selectedExample
        attachedExample_reachable (getD_of_isSome _ _ (by decide)))
      (getD_of_isSome _ _ (by decide)))
    (getD_of_isSome _ _ (by decide))

/-- Witness of C1: the host date 2024-02-29 23:59:58 survives the round trip
through the registers in BCD 12-hour mode (register B = 0). -/
theorem rtc_get_time_set_cmos_witness :
    (0 ≤ exampleEnv.host_tm.tm_hour ∧ exampleEnv.host_tm.tm_hour ≤ 23) ∧
    rtc_get_time (rtc_set_cmos (exampleState 0 0 LostTickPolicy.SLEW) exampleEnv.host_tm)
      exampleEnv.host_tm = exampleEnv.host_tm :=
  ⟨by decide,
    (rtc_get_time_set_cmos (exampleState 0 0 LostTickPolicy.SLEW) exampleEnv.host_tm
      (by decide) (by decide) (by decide) (by decide) (by decide) (by decide) (by decide)
      (by decide)).2.1⟩

/-- C3: in every state reachable from attach by guest port accesses, the three
timer callbacks and reset, the summary bit IRQF (0x80) of register C is set if
and only if register C AND register B AND 0x70 is non-zero. -/
theorem summary_bit_invariant (s : VIANVRAMState) (h : Reachable s) :
    s.cmos_data RTC_REG_C &&& REG_C_IRQF ≠ 0 ↔
      s.cmos_data RTC_REG_C &&& s.cmos_data RTC_REG_B &&& 0x70 ≠ 0 :=
  (reachable_summaryInv s h).1

set_option maxRecDepth 100000 in
/-- Witness of C3: after attach, enabling the update-ended interrupt and one
firing of the update timer, the state is reachable, its summary bit is set and
the invariant holds. -/
theorem summary_bit_invariant_witness :
    Reachable updatedExample ∧ updatedExample.cmos_data RTC_REG_C = 0x90 ∧
    (updatedExample.cmos_data RTC_REG_C &&& REG_C_IRQF ≠ 0 ↔
      updatedExample.cmos_data RTC_REG_C &&& updatedExample.cmos_data RTC_REG_B &&& 0x70 ≠ 0) :=
  ⟨updatedExample_reachable, by decide,
    summary_bit_invariant updatedExample updatedExample_reachable⟩

theorem updFrame_refl (s : VIANVRAMState) : UpdFrame s s :=
  ⟨fun _ _ _ _ _ _ _ _ _ => rfl, rfl, rfl, rfl, rfl, rfl, rfl, rfl, rfl, rfl, rfl, rfl, rfl, rfl⟩

theorem rtc_set_cmos_updFrame (s : VIANVRAMState) (tm : Tm) : UpdFrame s (rtc_set_cmos s tm) := by
  refine ⟨fun i h0 h2 h4 h6 h7 h8 h9 h32 => rtc_set_cmos_other s tm i h0 h2 h4 h6 h7 h8 h9 h32,
    ?_, ?_, ?_, ?_, ?_, ?_, ?_, ?_, ?_, ?_, ?_, ?_, ?_⟩ <;> rw [rtc_set_cmos_eq]

theorem rtc_update_time_updFrame (env : Env) (s : VIANVRAMState) :
    UpdFrame s (rtc_update_time env s) := by
  unfold rtc_update_time
  simp only []
  split_ifs
  · exact rtc_set_cmos_updFrame _ _
  · exact updFrame_refl _

theorem rtc_update_time_set (env : Env) (s : VIANVRAMState)
    (h : s.cmos_data RTC_REG_B &&& REG_B_SET ≠ 0) : rtc_update_time env s = s := by
  unfold rtc_update_time
  simp only []
  rw [if_neg h]

theorem check_update_timer_updFrame (env : Env) (s s' : VIANVRAMState)
    (h : check_update_timer env s = some s') : UpdFrame s s' := by
  have hu := rtc_update_time_updFrame env s
  unfold check_update_timer at h
  simp only [get_next_alarm] at h
  split_ifs at h <;> simp only [Option.some.injEq] at h <;> subst h <;>
    first
      | exact ⟨fun _ _ _ _ _ _ _ _ _ => rfl, rfl, rfl, rfl, rfl, rfl, rfl, rfl, rfl, rfl, rfl,
          rfl, rfl, rfl⟩
      | exact ⟨hu.data, hu.cmos_index, hu.base_year, hu.base_rtc, hu.last_update, hu.offset,
          hu.irq, hu.periodic_timer, hu.next_periodic_time, hu.irq_reinject_on_ack_count,
          hu.irq_coalesced, hu.period, hu.coalesced_timer, hu.lost_tick_policy⟩

theorem check_update_timer_isSome (env : Env) (s : VIANVRAMState)
    (h : s.cmos_data RTC_REG_A &&& 0x60 = 0x60 → s.cmos_data RTC_REG_A &&& REG_A_UIP = 0) :
    ∃ s', check_update_timer env s = some s' := by
  unfold check_update_timer
  simp only [get_next_alarm]
  split_ifs with h1 h2 <;> first | exact ⟨_, rfl⟩ | exact absurd (h h1) h2

theorem check_update_timer_eq_none (env : Env) (s : VIANVRAMState)
    (h1 : s.cmos_data RTC_REG_A &&& 0x60 = 0x60) (h2 : s.cmos_data RTC_REG_A &&& REG_A_UIP ≠ 0) :
    check_update_timer env s = none := by
  unfold check_update_timer
  rw [if_pos h1, if_neg h2]

/-- C2 (counterexample): with one interrupt owed and the periodic interrupt
enabled, a data-port read of register C returns the old value 0xC0 but leaves
register C at 0xC0 and the line raised, not 0 and lowered; and in a state
whose register A holds the dividers in reset with the update-in-progress bit
latched, the read of a flagged register C does not complete. -/
theorem cmos_ioport_read_reg_c_counterexample :
    (cmos_ioport_read exampleEnv owedExample 1).map
        (fun r => (r.2, r.1.cmos_data RTC_REG_C, r.1.irq)) = some (0xc0, 0xc0, true) ∧
      cmos_ioport_read exampleEnv latchedResetExample 1 = none := by
  constructor
  · decide
  · rfl

/-- C2 (amended): in every state in which the assertion of
`check_update_timer` holds, a data-port read with register C selected returns
the value register C held before the read; afterwards register C is 0 and the
line is lowered, unless an owed interrupt is re-injected (an interrupt is
owed, the periodic interrupt is enabled and fewer than 20 re-injections have
been made), in which case register C is 0xC0 and the line is raised. -/
theorem cmos_ioport_read_reg_c (env : Env) (s : VIANVRAMState) (addr : Nat)
    (haddr : addr &&& 1 ≠ 0) (hidx : s.cmos_index = RTC_REG_C)
    (hassert : s.cmos_data RTC_REG_C &&& (REG_C_UF ||| REG_C_AF) ≠ 0 →
      s.cmos_data RTC_REG_A &&& 0x60 = 0x60 → s.cmos_data RTC_REG_A &&& REG_A_UIP = 0) :
    ∃ s', cmos_ioport_read env s addr = some (s', s.cmos_data RTC_REG_C) ∧
      (if s.irq_coalesced ≠ 0 ∧ s.cmos_data RTC_REG_B &&& REG_B_PIE ≠ 0 ∧
          s.irq_reinject_on_ack_count < 20 then
        s'.cmos_data RTC_REG_C = 0xc0 ∧ s'.irq = true
      else s'.cmos_data RTC_REG_C = 0 ∧ s'.irq = false) := by
  have hret : s.cmos_data s.cmos_index = s.cmos_data RTC_REG_C := by rw [hidx]
  unfold cmos_ioport_read
  rw [if_neg haddr, if_neg (by rw [hidx]; decide), if_neg (by rw [hidx]; decide),
    if_neg (by rw [hidx]; decide), if_pos hidx]
  unfold cmos_read_reg_c
  simp only []
  rw [hret]
  have hmid : ∃ s1, (if s.cmos_data RTC_REG_C &&& (REG_C_UF ||| REG_C_AF) ≠ 0 then
        check_update_timer env ({ s with irq := false }.store RTC_REG_C 0x00)
      else some ({ s with irq := false }.store RTC_REG_C 0x00)) = some s1 ∧
      s1.cmos_data RTC_REG_C = 0 ∧ s1.cmos_data RTC_REG_B = s.cmos_data RTC_REG_B ∧
      s1.irq = false ∧ s1.irq_coalesced = s.irq_coalesced ∧
      s1.irq_reinject_on_ack_count = s.irq_reinject_on_ack_count := by
    by_cases hf : s.cmos_data RTC_REG_C &&& (REG_C_UF ||| REG_C_AF) ≠ 0
    · rw [if_pos hf]
      obtain ⟨s1, h1⟩ := check_update_timer_isSome env
        ({ s with irq := false }.store RTC_REG_C 0x00) (hassert hf)
      have hfr := check_update_timer_updFrame _ _ _ h1
      refine ⟨s1, h1, ?_, ?_, hfr.irq, hfr.irq_coalesced, hfr.irq_reinject_on_ack_count⟩
      · rw [hfr.data RTC_REG_C (by decide) (by decide) (by decide) (by decide) (by decide)
          (by decide) (by decide) (by decide)]
        rfl
      · rw [hfr.data RTC_REG_B (by decide) (by decide) (by decide) (by decide) (by decide)
          (by decide) (by decide) (by decide)]
        rfl
    · rw [if_neg hf]
      exact ⟨_, rfl, rfl, rfl, rfl, rfl, rfl⟩
  obtain ⟨s1, h1, hC, hB, hirq, hq, hn⟩ := hmid
  rw [h1]
  simp only [rtc_policy_slew_deliver_irq, hq, hB, hn]
  split_ifs with hc hd
  · refine ⟨_, rfl, ?_, rfl⟩
    simp only [store_cmos_data, if_true, hC]
    decide
  · refine ⟨_, rfl, ?_, rfl⟩
    simp only [store_cmos_data, if_true, hC]
    decide
  · exact ⟨_, rfl, hC, hirq⟩

/-- Witness of C2 (amended): the read of register C in `owedExample`. -/
theorem cmos_ioport_read_reg_c_witness :
    ∃ s', cmos_ioport_read exampleEnv owedExample 1 =
        some (s', owedExample.cmos_data RTC_REG_C) ∧
      (if owedExample.irq_coalesced ≠ 0 ∧ owedExample.cmos_data RTC_REG_B &&& REG_B_PIE ≠ 0 ∧
          owedExample.irq_reinject_on_ack_count < 20 then
        s'.cmos_data RTC_REG_C = 0xc0 ∧ s'.irq = true
      else s'.cmos_data RTC_REG_C = 0 ∧ s'.irq = false) :=
  cmos_ioport_read_reg_c exampleEnv owedExample 1 (by decide) rfl (by decide)

theorem tmod_spec (x k : Int) (hk : 0 < k) :
    x.tmod k + k * x.tdiv k = x ∧ (0 ≤ x → 0 ≤ x.tmod k ∧ x.tmod k < k) := by
  refine ⟨Int.tmod_add_tdiv x k, fun hx => ⟨Int.tmod_nonneg k hx, Int.tmod_lt_of_pos x hk⟩⟩

theorem alarm_delta_dont_care (cs cm ch : Int) (hs : 0 ≤ cs ∧ cs ≤ 59) (hm : 0 ≤ cm ∧ cm ≤ 59)
    (hh : 0 ≤ ch ∧ ch ≤ 23) : alarm_delta (-1) (-1) (-1) cs cm ch = 1 := by
  unfold alarm_delta alarm_target alarm_in_range
  simp only [if_true]
  split_ifs <;>
  simp only [] at * <;>
  first
    | omega
    | (obtain ⟨h1, h2⟩ := tmod_spec ch 24 (by decide)
       generalize ch.tmod 24 = t at *
       generalize ch.tdiv 24 = q at *
       omega)
    | (obtain ⟨h1, h2⟩ := tmod_spec (ch + 1) 24 (by decide)
       generalize (ch + 1).tmod 24 = t at *
       generalize (ch + 1).tdiv 24 = q at *
       omega)

theorem convert_hour_range (s : VIANVRAMState) (hv : valid_current_time s) :
    0 ≤ (convert_hour s (u8 (rtc_from_bcd s (s.cmos_data RTC_HOURS))) : Int) ∧
      (convert_hour s (u8 (rtc_from_bcd s (s.cmos_data RTC_HOURS))) : Int) ≤ 23 := by
  obtain ⟨-, -, hh⟩ := hv
  unfold convert_hour
  by_cases h24 : s.cmos_data RTC_REG_B &&& REG_B_24H = 0
  · rw [if_pos h24]
    simp only []
    split_ifs <;> omega
  · rw [if_neg h24]
    rw [if_pos h24] at hh
    unfold u8
    omega

theorem rtc_from_bcd_dont_care (s : VIANVRAMState) (a : Nat) (h : a &&& 0xc0 = 0xc0) :
    rtc_from_bcd s a = -1 := by
  unfold rtc_from_bcd
  rw [if_pos h]

theorem next_alarm_sec_dont_care (s : VIANVRAMState)
    (hs : s.cmos_data RTC_SECONDS_ALARM &&& 0xc0 = 0xc0)
    (hm : s.cmos_data RTC_MINUTES_ALARM &&& 0xc0 = 0xc0)
    (hh : s.cmos_data RTC_HOURS_ALARM &&& 0xc0 = 0xc0)
    (hv : valid_current_time s) : next_alarm_sec s = 1 := by
  unfold next_alarm_sec
  simp only [rtc_from_bcd_dont_care s _ hs, rtc_from_bcd_dont_care s _ hm,
    rtc_from_bcd_dont_care s _ hh, if_true]
  exact alarm_delta_dont_care _ _ _ hv.1 hv.2.1 (convert_hour_range s hv)

theorem check_update_timer_next_alarm_time (env : Env) (s : VIANVRAMState)
    (h : s.cmos_data RTC_REG_A &&& 0x60 ≠ 0x60) :
    ∃ s', check_update_timer env s = some s' ∧
      s'.next_alarm_time =
        u64 (u64 (u64 env.now + NANOSECONDS_PER_SECOND -
            get_guest_rtc_ns env s % NANOSECONDS_PER_SECOND) +
          i64 (i32 (i32 (get_next_alarm env s).2 - 1) * NANOSECONDS_PER_SECOND)) := by
  unfold check_update_timer
  rw [if_neg h]
  simp only []
  split_ifs <;> exact ⟨_, rfl, rfl⟩

/-- C4: when the seconds, minutes and hours alarm bytes are all don't-care
values (top two bits set) and the registers hold a valid current time once
the calendar has been brought up to date, `get_next_alarm` returns exactly 1,
in every mode of register B; hence `check_update_timer` places the alarm
deadline on the next second boundary. -/
theorem get_next_alarm_all_dont_care (env : Env) (s : VIANVRAMState)
    (hs : s.cmos_data RTC_SECONDS_ALARM &&& 0xc0 = 0xc0)
    (hm : s.cmos_data RTC_MINUTES_ALARM &&& 0xc0 = 0xc0)
    (hh : s.cmos_data RTC_HOURS_ALARM &&& 0xc0 = 0xc0)
    (hv : valid_current_time (rtc_update_time env s)) :
    (get_next_alarm env s).2 = 1 ∧
      (s.cmos_data RTC_REG_A &&& 0x60 ≠ 0x60 →
        ∃ s', check_update_timer env s = some s' ∧
          s'.next_alarm_time =
            u64 (u64 env.now + NANOSECONDS_PER_SECOND -
              get_guest_rtc_ns env s % NANOSECONDS_PER_SECOND)) := by
  have hfr := rtc_update_time_updFrame env s
  have h1 : (get_next_alarm env s).2 = 1 := by
    unfold get_next_alarm
    simp only []
    rw [next_alarm_sec_dont_care _
      (by rw [hfr.data _ (by decide) (by decide) (by decide) (by decide) (by decide)
        (by decide) (by decide) (by decide)]; exact hs)
      (by rw [hfr.data _ (by decide) (by decide) (by decide) (by decide) (by decide)
        (by decide) (by decide) (by decide)]; exact hm)
      (by rw [hfr.data _ (by decide) (by decide) (by decide) (by decide) (by decide)
        (by decide) (by decide) (by decide)]; exact hh) hv]
    rfl
  refine ⟨h1, fun hA => ?_⟩
  obtain ⟨s', hs', hn⟩ := check_update_timer_next_alarm_time env s hA
  refine ⟨s', hs', ?_⟩
  have e : i64 (i32 (i32 1 - 1) * NANOSECONDS_PER_SECOND) = 0 := by decide
  rw [hn, h1, e, add_zero]
  unfold u64
  omega

set_option maxRecDepth 100000 in
/-- Witness of C4: in `exampleState` with the three alarm bytes set to 0xC0 the
clock reads 12:00:00 (24-hour binary mode) and the alarm is one second away. -/
theorem get_next_alarm_all_dont_care_witness :
    valid_current_time (rtc_update_time exampleEnv dontCareExample) ∧
    (get_next_alarm exampleEnv dontCareExample).2 = 1 :=
  ⟨by decide,
    (get_next_alarm_all_dont_care exampleEnv dontCareExample (by decide) (by decide) (by decide)
      (by decide)).1⟩

theorem alarm_delta_hourly (cs cm ch : Int) (hs : 0 ≤ cs ∧ cs ≤ 59) (hm : 0 ≤ cm ∧ cm ≤ 59)
    (hh : 0 ≤ ch ∧ ch ≤ 23) :
    alarm_delta 0 0 (-1) cs cm ch =
      if cm = 0 ∧ cs = 0 then 86400 else 3600 - (60 * cm + cs) := by
  have e : alarm_target 0 0 (-1) cs cm ch =
      if cm = 0 then (if cs > 0 then (ch + 1, 0, 0) else (ch, 0, 0))
      else if cm > 0 then (ch + 1, 0, 0) else (ch, 0, 0) := by
    unfold alarm_target
    simp
    split_ifs <;> simp_all
  have r1 : alarm_in_range (ch + 1, 0, 0) = ((ch + 1).tmod 24, 0, 0) := by
    simp [alarm_in_range]
  have r2 : alarm_in_range (ch, 0, 0) = (ch.tmod 24, 0, 0) := by
    simp [alarm_in_range]
  obtain ⟨h1, h2⟩ := tmod_spec ch 24 (by decide)
  obtain ⟨h3, h4⟩ := tmod_spec (ch + 1) 24 (by decide)
  generalize ch.tmod 24 = t at *
  generalize ch.tdiv 24 = q at *
  generalize (ch + 1).tmod 24 = t' at *
  generalize (ch + 1).tdiv 24 = q' at *
  unfold alarm_delta
  rw [e]
  split_ifs <;> simp only [r1, r2] <;> split_ifs <;> omega

set_option maxRecDepth 100000 in
/-- C5 (the code at the failing input): with the alarm at seconds 0, minutes 0
and a don't-care hour while the clock reads 12:00:00, `get_next_alarm` returns
86400, a whole day, where the next instant with minutes and seconds zero is
3600 seconds away; one second before the hour it returns 1. -/
theorem get_next_alarm_hourly_on_the_hour :
    (rtc_update_time exampleEnv hourlyExample).cmos_data RTC_HOURS = 12 ∧
    (rtc_update_time exampleEnv hourlyExample).cmos_data RTC_MINUTES = 0 ∧
    (rtc_update_time exampleEnv hourlyExample).cmos_data RTC_SECONDS = 0 ∧
    (get_next_alarm exampleEnv hourlyExample).2 = 86400 ∧
    alarm_delta 0 0 (-1) 59 59 12 = 1 := by
  decide

set_option maxRecDepth 100000 in
/-- C6 (the code at the failing input): with the alarm at seconds 30 and
don't-care minutes and hours while the clock reads 12:00:30 in 24-hour mode,
`get_next_alarm` returns 86400 although the reference definition gives 60:
the time of day 60 seconds later matches the alarm. -/
theorem get_next_alarm_not_least :
    (rtc_update_time exampleEnv everyMinuteExample).cmos_data RTC_HOURS = 12 ∧
    (rtc_update_time exampleEnv everyMinuteExample).cmos_data RTC_MINUTES = 0 ∧
    (rtc_update_time exampleEnv everyMinuteExample).cmos_data RTC_SECONDS = 30 ∧
    (get_next_alarm exampleEnv everyMinuteExample).2 = 86400 ∧
    next_alarm_reference 30 (-1) (-1) 30 0 12 = some 60 := by
  decide

theorem periodic_timer_update_frame (env : Env) (s s' : VIANVRAMState) (ct op : Int) (pc : Bool)
    (h : periodic_timer_update env s ct op pc = some s') : PeriodicFrame s s' := by
  unfold periodic_timer_update at h
  simp only [] at h
  by_cases hp : rtc_periodic_clock_ticks env s = 0
  · rw [if_pos hp] at h
    simp only [Option.some.injEq] at h
    subst h
    exact ⟨rfl, rfl, rfl, rfl, rfl, rfl, rfl, rfl, rfl, rfl, rfl⟩
  · rw [if_neg hp] at h
    split at h
    · exact absurd h (by simp)
    · by_cases hpol : s.lost_tick_policy = LostTickPolicy.SLEW
      · simp only [hpol, if_true, rtc_coalesced_timer_update_eq] at h
        split_ifs at h <;> simp only [Option.some.injEq] at h <;> subst h <;>
          exact ⟨rfl, rfl, rfl, rfl, rfl, rfl, rfl, rfl, rfl, rfl, hpol.symm⟩
      · simp only [hpol, if_false] at h
        split_ifs at h
        simp only [Option.some.injEq] at h
        subst h
        exact ⟨rfl, rfl, rfl, rfl, rfl, rfl, rfl, rfl, rfl, rfl, rfl⟩

theorem u32_nonneg (x : Int) : 0 ≤ u32 x := by
  unfold u32; omega

theorem rtc_periodic_clock_ticks_nonneg (env : Env) (s : VIANVRAMState) :
    0 ≤ rtc_periodic_clock_ticks env s := by
  unfold rtc_periodic_clock_ticks
  split_ifs
  · exact le_refl 0
  · exact u32_nonneg _

theorem periodic_timer_update_period_zero (env : Env) (s : VIANVRAMState) (ct op : Int)
    (pc : Bool) (h : rtc_periodic_clock_ticks env s = 0) :
    ∃ s', periodic_timer_update env s ct op pc = some s' := by
  unfold periodic_timer_update
  simp only []
  rw [if_pos h]
  exact ⟨_, rfl⟩

theorem periodic_timer_update_old_zero (env : Env) (s : VIANVRAMState) (ct : Int) (pc : Bool) :
    ∃ s', periodic_timer_update env s ct 0 pc = some s' := by
  by_cases hp : rtc_periodic_clock_ticks env s = 0
  · exact periodic_timer_update_period_zero env s ct 0 pc hp
  · have hpos : 0 < rtc_periodic_clock_ticks env s :=
      lt_of_le_of_ne (rtc_periodic_clock_ticks_nonneg env s) (Ne.symm hp)
    have e0 : i64 (0 + u32 (s.irq_coalesced * 0)) = 0 := by
      rw [mul_zero]; decide
    unfold periodic_timer_update
    simp only [rtc_coalesced_timer_update_eq]
    rw [if_neg hp]
    simp only [ne_eq, not_true_eq_false, false_and, if_false, e0, Int.zero_tmod]
    split_ifs <;> first | exact ⟨_, rfl⟩ | omega

theorem periodicFrame_refl (s : VIANVRAMState) : PeriodicFrame s s :=
  ⟨rfl, rfl, rfl, rfl, rfl, rfl, rfl, rfl, rfl, rfl, rfl⟩

set_option maxRecDepth 100000 in
theorem divider_bits_le : ∀ y ≤ 0x20, y &&& 0x60 ≠ 0x60 := by decide

theorem not_divider_reset (x : Nat) (h : x &&& 0x70 ≤ 0x20) : x &&& 0x60 ≠ 0x60 := by
  have e : x &&& 0x60 = (x &&& 0x70) &&& 0x60 := by
    rw [Nat.and_assoc]
    rfl
  rw [e]
  exact divider_bits_le _ h

theorem pie_changed (a d : Nat) (h : (a ^^^ d) &&& 0x40 ≠ 0) (hd : d &&& 0x40 ≠ 0) :
    a &&& 0x40 = 0 := by
  simp only [ne_eq, and_0x40, Nat.testBit_xor] at *
  generalize a.testBit 6 = a6 at *
  generalize d.testBit 6 = d6 at *
  revert a6 d6
  decide

theorem cmos_write_reg_b_periodic (env : Env) (s s1 : VIANVRAMState) (data : Nat)
    (hB : s1.cmos_data RTC_REG_B &&& REG_B_PIE = data &&& REG_B_PIE) :
    ∃ s2, (if ((s.cmos_data RTC_REG_B ^^^ data) &&& REG_B_PIE != 0) = true then
        periodic_timer_update env s1 env.now (rtc_periodic_clock_ticks env s) true
      else some s1) = some s2 ∧ PeriodicFrame s1 s2 := by
  by_cases hupd : ((s.cmos_data RTC_REG_B ^^^ data) &&& REG_B_PIE != 0) = true
  · rw [if_pos hupd]
    have hx : (s.cmos_data RTC_REG_B ^^^ data) &&& REG_B_PIE ≠ 0 := by simpa using hupd
    have hsome : ∃ s2, periodic_timer_update env s1 env.now
        (rtc_periodic_clock_ticks env s) true = some s2 := by
      by_cases hp : rtc_periodic_clock_ticks env s1 = 0
      · exact periodic_timer_update_period_zero env s1 _ _ _ hp
      · have h1 := rtc_periodic_clock_ticks_ne_zero env s1 hp
        rw [hB] at h1
        have h0 : rtc_periodic_clock_ticks env s = 0 := by
          unfold rtc_periodic_clock_ticks
          rw [if_pos (pie_changed _ _ hx h1)]
        rw [h0]
        exact periodic_timer_update_old_zero env s1 _ _
    obtain ⟨s2, h2⟩ := hsome
    exact ⟨s2, h2, periodic_timer_update_frame _ _ _ _ _ _ h2⟩
  · rw [if_neg hupd]
    exact ⟨s1, rfl, periodicFrame_refl s1⟩

/-- C7 (counterexample): a write of 0x02 to register B that clears set-mode,
123456789 ns after the last synchronisation, leaves the sub-second offset at
123456789 ns, not at 500000000 ns. -/
theorem cmos_ioport_write_clear_set_mode_counterexample :
    (cmos_ioport_write exampleEnv setModeExample 1 0x02).map (fun s => s.offset) =
        some 123456789 ∧
      (cmos_ioport_write exampleEnv setModeExample 1 0x02).map (fun s => s.offset) ≠
        some 500000000 := by
  decide

/-- C7 (amended): in every state in which set-mode is active and the dividers
are not held in reset, a data-port write to register B that clears the
set-mode bit completes, sets the sub-second offset to the sub-second part of
the guest clock at that instant (`get_guest_rtc_ns` modulo 10^9 ns), and
resynchronises the time base: `base_rtc` becomes `mktimegm` of the time decoded
from the registers and `last_update` the clock value. -/
theorem cmos_ioport_write_clear_set_mode (env : Env) (s : VIANVRAMState) (addr data : Nat)
    (haddr : addr &&& 1 ≠ 0) (hidx : s.cmos_index = RTC_REG_B)
    (hset : s.cmos_data RTC_REG_B &&& REG_B_SET ≠ 0)
    (hdiv : s.cmos_data RTC_REG_A &&& 0x70 ≤ 0x20)
    (hdata : data &&& REG_B_SET = 0) :
    ∃ s', cmos_ioport_write env s addr data = some s' ∧
      s'.offset = get_guest_rtc_ns env s % NANOSECONDS_PER_SECOND ∧
      s'.base_rtc = u64 (env.mktimegm (rtc_get_time s ⟨0, 0, 0, 0, 0, 0, 0, 0, 0⟩)) ∧
      s'.last_update = u64 env.now := by
  unfold cmos_ioport_write
  rw [if_neg haddr, if_neg (by rw [hidx]; decide), if_neg (by rw [hidx]; decide),
    if_neg (by rw [hidx]; decide), if_neg (by rw [hidx]; decide), if_pos hidx]
  unfold cmos_write_reg_b
  simp only []
  have hsetv : cmos_write_reg_b_set env s data =
      (rtc_set_time env
        { s with offset := (get_guest_rtc_ns env s) % NANOSECONDS_PER_SECOND }, data) := by
    unfold cmos_write_reg_b_set
    rw [if_neg (not_not.mpr hdata), if_pos ⟨hset, hdiv⟩]
  rw [hsetv]
  simp only []
  generalize hs0 : rtc_set_time env
    { s with offset := (get_guest_rtc_ns env s) % NANOSECONDS_PER_SECOND } = s0
  have h0 : s0.offset = get_guest_rtc_ns env s % NANOSECONDS_PER_SECOND ∧
      s0.base_rtc = u64 (env.mktimegm (rtc_get_time s ⟨0, 0, 0, 0, 0, 0, 0, 0, 0⟩)) ∧
      s0.last_update = u64 env.now ∧ s0.cmos_data = s.cmos_data := by
    rw [← hs0]
    exact ⟨rfl, rfl, rfl, rfl⟩
  obtain ⟨hB, -, -, -⟩ := cmos_write_reg_b_irq_ctl s0 data
  have h1 : (cmos_write_reg_b_irq s0 data).offset = s0.offset ∧
      (cmos_write_reg_b_irq s0 data).base_rtc = s0.base_rtc ∧
      (cmos_write_reg_b_irq s0 data).last_update = s0.last_update ∧
      (cmos_write_reg_b_irq s0 data).cmos_data RTC_REG_A = s0.cmos_data RTC_REG_A := by
    unfold cmos_write_reg_b_irq
    simp only []
    split_ifs <;> exact ⟨rfl, rfl, rfl, rfl⟩
  generalize cmos_write_reg_b_irq s0 data = s1 at *
  obtain ⟨s2, h2, hf2⟩ := cmos_write_reg_b_periodic env s s1 data
    (by rw [hB, land_mod_256 _ _ (by decide)])
  rw [h2]
  simp only []
  have hA : s2.cmos_data RTC_REG_A &&& 0x60 ≠ 0x60 := by
    rw [hf2.cmos_data, h1.2.2.2, h0.2.2.2]
    exact not_divider_reset _ hdiv
  obtain ⟨s3, h3⟩ := check_update_timer_isSome env s2 (fun h => absurd h hA)
  have hf3 := check_update_timer_updFrame _ _ _ h3
  refine ⟨s3, h3, ?_, ?_, ?_⟩
  · rw [hf3.offset, hf2.offset, h1.1, h0.1]
  · rw [hf3.base_rtc, hf2.base_rtc, h1.2.1, h0.2.1]
  · rw [hf3.last_update, hf2.last_update, h1.2.2.1, h0.2.2.1]

set_option maxRecDepth 100000 in
/-- Witness of C7 (amended): the write of 0x02 to register B in
`setModeExample`. -/
theorem cmos_ioport_write_clear_set_mode_witness :
    ∃ s', cmos_ioport_write exampleEnv setModeExample 1 0x02 = some s' ∧
      s'.offset = get_guest_rtc_ns exampleEnv setModeExample % NANOSECONDS_PER_SECOND ∧
      s'.base_rtc =
        u64 (exampleEnv.mktimegm (rtc_get_time setModeExample ⟨0, 0, 0, 0, 0, 0, 0, 0, 0⟩)) ∧
      s'.last_update = u64 exampleEnv.now :=
  cmos_ioport_write_clear_set_mode exampleEnv setModeExample 1 0x02 (by decide) rfl
    (by decide) (by decide) (by decide)

theorem rtc_running_set (s : VIANVRAMState) (h : s.cmos_data RTC_REG_B &&& REG_B_SET ≠ 0) :
    rtc_running s = false := by
  unfold rtc_running
  simp [h]

/-- C8: while set-mode is active (bit 0x80 of register B), for every value of
the host clock `rtc_update_time` leaves the state, hence every calendar byte,
unchanged, and a data-port read with a calendar index selected (seconds,
minutes, hours, weekday, day, month, year, century) returns the stored byte
and leaves the whole state unchanged. -/
theorem set_mode_freezes_calendar (env : Env) (s : VIANVRAMState)
    (hset : s.cmos_data RTC_REG_B &&& REG_B_SET ≠ 0) :
    rtc_update_time env s = s ∧
      ∀ addr : Nat, addr &&& 1 ≠ 0 →
        (s.cmos_index = RTC_SECONDS ∨ s.cmos_index = RTC_MINUTES ∨ s.cmos_index = RTC_HOURS ∨
          s.cmos_index = RTC_DAY_OF_WEEK ∨ s.cmos_index = RTC_DAY_OF_MONTH ∨
          s.cmos_index = RTC_MONTH ∨ s.cmos_index = RTC_YEAR ∨ s.cmos_index = RTC_CENTURY) →
        cmos_ioport_read env s addr = some (s, s.cmos_data s.cmos_index) := by
  refine ⟨rtc_update_time_set env s hset, fun addr haddr hidx => ?_⟩
  have hcal : cmos_read_calendar env s = (s, s.cmos_data s.cmos_index) := by
    unfold cmos_read_calendar
    simp only [rtc_running_set s hset]
    rfl
  unfold cmos_ioport_read
  rw [if_neg haddr, if_neg (by rcases hidx with h | h | h | h | h | h | h | h <;> rw [h] <;> decide),
    if_pos (by rcases hidx with h | h | h | h | h | h | h | h <;> simp [h]), hcal]

/-- Witness of C8: in `frozenExample` the hours register reads 0x07 whatever
the clock says. -/
theorem set_mode_freezes_calendar_witness :
    frozenExample.cmos_data RTC_REG_B &&& REG_B_SET ≠ 0 ∧
    rtc_update_time exampleEnv frozenExample = frozenExample ∧
    cmos_ioport_read exampleEnv frozenExample 1 = some (frozenExample, 0x07) :=
  ⟨by decide, (set_mode_freezes_calendar exampleEnv frozenExample (by decide)).1,
    (set_mode_freezes_calendar exampleEnv frozenExample (by decide)).2 1 (by decide)
      (Or.inr (Or.inr (Or.inl rfl)))⟩

/-- C9: a data-port write with register C (index 12) or register D (index 13)
selected leaves the entire device state unchanged, whatever the data byte. -/
theorem cmos_ioport_write_reg_c_d (env : Env) (s : VIANVRAMState) (addr data : Nat)
    (haddr : addr &&& 1 ≠ 0) (hidx : s.cmos_index = RTC_REG_C ∨ s.cmos_index = RTC_REG_D) :
    cmos_ioport_write env s addr data = some s := by
  unfold cmos_ioport_write
  rw [if_neg haddr, if_neg (by rcases hidx with h | h <;> rw [h] <;> decide),
    if_neg (by rcases hidx with h | h <;> rw [h] <;> decide),
    if_neg (by rcases hidx with h | h <;> rw [h] <;> decide),
    if_neg (by rcases hidx with h | h <;> rw [h] <;> decide),
    if_neg (by rcases hidx with h | h <;> rw [h] <;> decide), if_pos hidx]

/-- Witness of C9: a write of 0xFF with register C selected in `owedExample`. -/
theorem cmos_ioport_write_reg_c_d_witness :
    owedExample.cmos_index = RTC_REG_C ∧
    cmos_ioport_write exampleEnv owedExample 1 0xff = some owedExample :=
  ⟨rfl, cmos_ioport_write_reg_c_d exampleEnv owedExample 1 0xff (by decide) (Or.inl rfl)⟩

theorem cmos_extended_ioport_write_diverges (fuel : Nat) (env : Env) (s : VIANVRAMState)
    (addr data : Nat) (haddr : addr ≠ 0) (hidx : s.cmos_index ≤ 0x7f) :
    cmos_extended_ioport_write fuel env s addr data = none := by
  induction fuel with
  | zero => rfl
  | succ n ih =>
    unfold cmos_extended_ioport_write
    rw [if_pos haddr, if_neg (by omega)]
    exact ih

set_option maxRecDepth 100000 in
/-- C10 (the code at the failing input): with index 0x0F selected, a data-port
write of 0x55 through `cmos_extended_ioport_write` never returns, whatever the
recursion depth allowed, because the function calls itself; the same write
through `cmos_ioport_write` completes and stores the byte. -/
theorem cmos_extended_ioport_write_never_returns :
    (∀ fuel : Nat,
      cmos_extended_ioport_write fuel exampleEnv
        (exampleState 0x02 0x0f LostTickPolicy.DISCARD) 1 0x55 = none) ∧
    (cmos_ioport_write exampleEnv (exampleState 0x02 0x0f LostTickPolicy.DISCARD) 1 0x55).map
      (fun s => s.cmos_data 0x0f) = some 0x55 :=
  ⟨fun fuel => cmos_extended_ioport_write_diverges fuel exampleEnv _ 1 0x55 (by decide)
    (by decide), by decide⟩

/-- C11: raw upper NVRAM round trip.  For every index `i` in 0x80..0xFF selected
through the extended index port and every byte `v`, an extended data-port write
of `v` returns (with any positive recursion budget) the state in which byte `i`
of the register file is `v` and nothing else has changed, and a following
extended data-port read returns `v` and leaves that state as it is. -/
theorem extended_nvram_round_trip (fuel : Nat) (env : Env) (s : VIANVRAMState)
    (i v addr : Nat) (hi : 0x80 ≤ i ∧ i ≤ 0xff) (hv : v < 256) (haddr : addr ≠ 0) :
    cmos_extended_ioport_write (fuel + 1) env s 0 i = some { s with cmos_index := i } ∧
    cmos_extended_ioport_write (fuel + 1) env { s with cmos_index := i } addr v =
      some { s with cmos_index := i,
                    cmos_data := fun j => if j = i then v else s.cmos_data j } ∧
    cmos_extended_ioport_read env
      { s with cmos_index := i,
               cmos_data := fun j => if j = i then v else s.cmos_data j } addr =
      some ({ s with cmos_index := i,
                     cmos_data := fun j => if j = i then v else s.cmos_data j }, v) := by
  have hi256 : i % 256 = i := Nat.mod_eq_of_lt (by omega)
  have hv256 : v % 256 = v := Nat.mod_eq_of_lt hv
  have hgt : i > 0x7f := by omega
  refine ⟨?_, ?_, ?_⟩
  · unfold cmos_extended_ioport_write
    simp [hi256]
  · unfold cmos_extended_ioport_write
    simp only [ne_eq, haddr, not_false_eq_true, if_true, hgt, VIANVRAMState.store]
    have hb : setByte s.cmos_data i v = fun j => if j = i then v else s.cmos_data j := by
      funext j
      unfold setByte
      rw [hv256]
    rw [hb]
  · unfold cmos_extended_ioport_read
    simp only [ne_eq, haddr, not_false_eq_true, if_true, hgt]

/-- The round trip of `extended_nvram_round_trip` at index 0xA5 with the byte
0x5A, on the state `attachedExample`: the index is selected and the read after
the write returns 0x5A. -/
theorem extended_nvram_round_trip_witness :
    cmos_extended_ioport_write 1 exampleEnv attachedExample 0 0xa5 =
      some { attachedExample with cmos_index := 0xa5 } ∧
    ((cmos_extended_ioport_write 1 exampleEnv { attachedExample with cmos_index := 0xa5 } 1
      0x5a).bind fun s => cmos_extended_ioport_read exampleEnv s 1).map Prod.snd = some 0x5a := by
  have h := extended_nvram_round_trip 0 exampleEnv attachedExample 0xa5 0x5a 1 (by decide)
    (by decide) (by decide)
  refine ⟨h.1, ?_⟩
  rw [h.2.1, Option.some_bind, h.2.2]
  rfl

set_option maxRecDepth 100000 in
/-- C12: index-port writes.  For every byte `d`, a write of `d` to the standard
index port (an even address) returns the state in which the selected index is
`d AND 0x7F` and nothing else has changed, so the top bit of `d` is ignored; a
write of `d` to the extended index port (with any positive recursion budget)
returns the state in which the selected index is `d` and nothing else has
changed. -/
theorem index_port_write (fuel : Nat) (env : Env) (s : VIANVRAMState) (addr d : Nat)
    (haddr : addr &&& 1 = 0) (hd : d < 256) :
    cmos_ioport_write env s addr d = some { s with cmos_index := d &&& 0x7f } ∧
    cmos_ioport_write env s addr (d ||| 0x80) = cmos_ioport_write env s addr d ∧
    d &&& 0x7f < 128 ∧
    cmos_extended_ioport_write (fuel + 1) env s 0 d = some { s with cmos_index := d } := by
  have hbits : ∀ x < 256, (x ||| 0x80) &&& 0x7f = x &&& 0x7f ∧ x &&& 0x7f < 128 := by decide
  refine ⟨?_, ?_, (hbits d hd).2, ?_⟩
  · unfold cmos_ioport_write
    rw [if_pos haddr]
  · unfold cmos_ioport_write
    rw [if_pos haddr, if_pos haddr, (hbits d hd).1]
  · unfold cmos_extended_ioport_write
    simp [Nat.mod_eq_of_lt hd]

/-- The index writes of `index_port_write` with the byte 0x8B: the standard
port selects register B (0x0B), the extended port selects byte 0x8B. -/
theorem index_port_write_witness :
    cmos_ioport_write exampleEnv attachedExample 0 0x8b =
      some { attachedExample with cmos_index := 0x0b } ∧
    cmos_extended_ioport_write 1 exampleEnv attachedExample 0 0x8b =
      some { attachedExample with cmos_index := 0x8b } :=
  ⟨(index_port_write 0 exampleEnv attachedExample 0 0x8b (by decide) (by decide)).1,
    (index_port_write 0 exampleEnv attachedExample 0 0x8b (by decide) (by decide)).2.2.2⟩

/-- C13: index-port reads.  For every state, a read of the standard index port
(an even address) returns 0xFF whatever index is selected, a read of the
extended index port returns the selected index, and both leave the state as it
is. -/
theorem index_port_read (env : Env) (s : VIANVRAMState) (addr : Nat)
    (haddr : addr &&& 1 = 0) :
    cmos_ioport_read env s addr = some (s, 0xff) ∧
    cmos_extended_ioport_read env s 0 = some (s, s.cmos_index) := by
  refine ⟨?_, ?_⟩
  · unfold cmos_ioport_read
    rw [if_pos haddr]
  · unfold cmos_extended_ioport_read
    simp

/-- The index reads of `index_port_read` with register C selected. -/
theorem index_port_read_witness :
    cmos_ioport_read exampleEnv owedExample 0 = some (owedExample, 0xff) ∧
    cmos_extended_ioport_read exampleEnv owedExample 0 = some (owedExample, 12) :=
  index_port_read exampleEnv owedExample 0 (by decide)

theorem quiet_refl (s : VIANVRAMState) : Quiet s s := ⟨rfl, rfl, rfl⟩

theorem Quiet.chain {a b c : VIANVRAMState} (h1 : Quiet a b) (h2 : Quiet b c) : Quiet a c :=
  ⟨h2.reg_a.trans h1.reg_a, h2.irq.trans h1.irq,
    h2.irq_reinject_on_ack_count.trans h1.irq_reinject_on_ack_count⟩

theorem UpdFrame.to_quiet {s s' : VIANVRAMState} (h : UpdFrame s s') : Quiet s s' :=
  ⟨h.data _ (by decide) (by decide) (by decide) (by decide) (by decide) (by decide) (by decide)
    (by decide), h.irq, h.irq_reinject_on_ack_count⟩

theorem PeriodicFrame.as_quiet {s s' : VIANVRAMState} (h : PeriodicFrame s s') : Quiet s s' :=
  ⟨by rw [h.cmos_data], h.irq, h.irq_reinject_on_ack_count⟩

theorem store_quiet (s : VIANVRAMState) (i v : Nat) (h : i ≠ RTC_REG_A) :
    Quiet s (s.store i v) :=
  ⟨by rw [store_cmos_data, if_neg (Ne.symm h)], rfl, rfl⟩

theorem NoLatchedReset.of_quiet {s s' : VIANVRAMState} (h : Quiet s s')
    (hi : NoLatchedReset s) : NoLatchedReset s' := by
  unfold NoLatchedReset
  rw [h.reg_a]
  exact hi

theorem check_update_timer_quiet (env : Env) (s s' : VIANVRAMState)
    (h : check_update_timer env s = some s') : Quiet s s' :=
  (check_update_timer_updFrame env s s' h).to_quiet

theorem rtc_update_time_quiet (env : Env) (s : VIANVRAMState) :
    Quiet s (rtc_update_time env s) :=
  (rtc_update_time_updFrame env s).to_quiet

theorem rtc_set_time_quiet (env : Env) (s : VIANVRAMState) : Quiet s (rtc_set_time env s) :=
  ⟨rfl, rfl, rfl⟩

theorem rtc_coalesced_timer_update_quiet (env : Env) (s : VIANVRAMState) :
    Quiet s (rtc_coalesced_timer_update env s) := by
  rw [rtc_coalesced_timer_update_eq]
  exact ⟨rfl, rfl, rfl⟩

theorem cmos_write_calendar_quiet (env : Env) (s s' : VIANVRAMState) (data : Nat)
    (ha : s.cmos_index ≠ RTC_REG_A) (h : cmos_write_calendar env s data = some s') :
    Quiet s s' := by
  unfold cmos_write_calendar at h
  simp only [] at h
  split_ifs at h
  · exact ((store_quiet s _ data ha).chain (rtc_set_time_quiet env _)).chain
      (check_update_timer_quiet _ _ _ h)
  · simp only [Option.some.injEq] at h
    subst h
    exact store_quiet s _ data ha

theorem and_0x60_eq (x : Nat) :
    x &&& 0x60 = 0x60 ↔ x.testBit 5 = true ∧ x.testBit 6 = true := by
  have e : x &&& 0x60 = (x.testBit 5).toNat * 2 ^ 5 ||| (x.testBit 6).toNat * 2 ^ 6 := by
    rw [← Nat.and_two_pow, ← Nat.and_two_pow, ← Nat.and_or_distrib_left]
    rfl
  rw [e]
  cases x.testBit 5 <;> cases x.testBit 6 <;> decide

theorem clear_uip_bits (x : Nat) : (x &&& (0xff ^^^ 0x80)) % 256 &&& 0x80 = 0 := by
  simp +decide [and_0x80, testBit_mod_256, Nat.testBit_and, Nat.testBit_xor]

theorem clear_uip_divider (x : Nat) :
    (x &&& (0xff ^^^ 0x80)) % 256 &&& 0x60 = x &&& 0x60 := by
  rw [land_mod_256 _ _ (by decide), Nat.and_assoc]
  rfl

theorem reg_a_bits (data a1 : Nat) (h : data &&& 0x60 = 0x60 → a1 &&& 0x80 = 0) :
    ((data &&& (0xffffffffffffffff ^^^ 0x80)) ||| (a1 &&& 0x80)) % 256 &&& 0x60 = 0x60 →
    ((data &&& (0xffffffffffffffff ^^^ 0x80)) ||| (a1 &&& 0x80)) % 256 &&& 0x80 = 0 := by
  simp +decide only [and_0x60_eq, and_0x80, testBit_mod_256, Nat.testBit_and, Nat.testBit_or,
    Nat.testBit_xor] at *
  generalize data.testBit 5 = d5 at *
  generalize data.testBit 6 = d6 at *
  generalize data.testBit 7 = d7 at *
  generalize a1.testBit 5 = a5 at *
  generalize a1.testBit 6 = a6 at *
  generalize a1.testBit 7 = a7 at *
  revert d5 d6 d7 a5 a6 a7
  decide

theorem set_uip_bits (x : Nat) (h : x &&& 0x60 ≠ 0x60) : (x ||| 0x80) % 256 &&& 0x60 ≠ 0x60 := by
  simp +decide only [ne_eq, and_0x60_eq, testBit_mod_256, Nat.testBit_or] at *
  generalize x.testBit 5 = x5 at *
  generalize x.testBit 6 = x6 at *
  revert x5 x6
  decide

theorem periodic_timer_update_quiet (env : Env) (s s' : VIANVRAMState) (ct op : Int)
    (pc : Bool) (h : periodic_timer_update env s ct op pc = some s') : Quiet s s' :=
  (periodic_timer_update_frame env s s' ct op pc h).as_quiet

theorem cmos_write_reg_a_effect (env : Env) (s s' : VIANVRAMState) (data : Nat)
    (h : cmos_write_reg_a env s data = some s') :
    NoLatchedReset s' ∧ s'.irq = s.irq ∧
      s'.irq_reinject_on_ack_count = s.irq_reinject_on_ack_count := by
  unfold cmos_write_reg_a at h
  simp only [] at h
  split at h
  · exact absurd h (by simp)
  · rename_i s2 h2
    have hq := check_update_timer_quiet _ _ _ h
    clear h
    have hs1 : ∀ t : VIANVRAMState, NoLatchedReset t → t.irq = s.irq →
        t.irq_reinject_on_ack_count = s.irq_reinject_on_ack_count →
        ((if ((s.cmos_data RTC_REG_A ^^^ data) &&& 0x0f != 0) = true then
            periodic_timer_update env t env.now (rtc_periodic_clock_ticks env s) true
          else some t) = some s2) →
        NoLatchedReset s' ∧ s'.irq = s.irq ∧
          s'.irq_reinject_on_ack_count = s.irq_reinject_on_ack_count := by
      intro t ht hirq hcnt h2
      have hq2 : Quiet t s2 := by
        split_ifs at h2
        · exact periodic_timer_update_quiet _ _ _ _ _ _ h2
        · simp only [Option.some.injEq] at h2
          subst h2
          exact quiet_refl _
      have hq3 := hq2.chain hq
      exact ⟨NoLatchedReset.of_quiet hq3 ht, hq3.irq.trans hirq,
        hq3.irq_reinject_on_ack_count.trans hcnt⟩
    have hst : ∀ s1 : VIANVRAMState, s1.irq = s.irq →
        s1.irq_reinject_on_ack_count = s.irq_reinject_on_ack_count →
        (data &&& 0x60 = 0x60 → s1.cmos_data RTC_REG_A &&& 0x80 = 0) →
        NoLatchedReset (s1.store RTC_REG_A
          ((data &&& (0xffffffffffffffff ^^^ REG_A_UIP)) |||
            (s1.cmos_data RTC_REG_A &&& REG_A_UIP))) ∧
        (s1.store RTC_REG_A
          ((data &&& (0xffffffffffffffff ^^^ REG_A_UIP)) |||
            (s1.cmos_data RTC_REG_A &&& REG_A_UIP))).irq = s.irq ∧
        (s1.store RTC_REG_A
          ((data &&& (0xffffffffffffffff ^^^ REG_A_UIP)) |||
            (s1.cmos_data RTC_REG_A &&& REG_A_UIP))).irq_reinject_on_ack_count =
          s.irq_reinject_on_ack_count := by
      intro s1 hirq hcnt hbit
      refine ⟨?_, hirq, hcnt⟩
      unfold NoLatchedReset
      rw [store_cmos_data, if_pos rfl]
      exact reg_a_bits data _ hbit
    have hu := rtc_update_time_quiet env s
    have hfin : ∀ s1 : VIANVRAMState, s1.irq = s.irq →
        s1.irq_reinject_on_ack_count = s.irq_reinject_on_ack_count →
        (data &&& 0x60 = 0x60 → s1.cmos_data RTC_REG_A &&& 0x80 = 0) →
        ((if ((s.cmos_data RTC_REG_A ^^^ data) &&& 0x0f != 0) = true then
            periodic_timer_update env (s1.store RTC_REG_A
              ((data &&& (0xffffffffffffffff ^^^ REG_A_UIP)) |||
                (s1.cmos_data RTC_REG_A &&& REG_A_UIP))) env.now
              (rtc_periodic_clock_ticks env s) true
          else some (s1.store RTC_REG_A
              ((data &&& (0xffffffffffffffff ^^^ REG_A_UIP)) |||
                (s1.cmos_data RTC_REG_A &&& REG_A_UIP)))) = some s2) →
        NoLatchedReset s' ∧ s'.irq = s.irq ∧
          s'.irq_reinject_on_ack_count = s.irq_reinject_on_ack_count := by
      intro s1 hirq hcnt hbit h2
      obtain ⟨a, b, c⟩ := hst s1 hirq hcnt hbit
      exact hs1 _ a b c h2
    refine hfin _ ?_ ?_ ?_ h2
    · split_ifs
      · exact hu.irq
      · rfl
      · rfl
      · rfl
      · rfl
    · split_ifs
      · exact hu.irq_reinject_on_ack_count
      · rfl
      · rfl
      · rfl
      · rfl
    · intro hd
      rw [if_pos hd]
      rw [store_cmos_data, if_pos rfl]
      exact clear_uip_bits _

theorem cmos_write_reg_b_set_effect (env : Env) (s : VIANVRAMState) (data : Nat) :
    (NoLatchedReset s → NoLatchedReset (cmos_write_reg_b_set env s data).1) ∧
    (cmos_write_reg_b_set env s data).1.irq = s.irq ∧
    (cmos_write_reg_b_set env s data).1.irq_reinject_on_ack_count =
      s.irq_reinject_on_ack_count := by
  unfold cmos_write_reg_b_set
  have hu := rtc_update_time_quiet env s
  have hclr : ∀ s1 : VIANVRAMState, NoLatchedReset
      (s1.store RTC_REG_A (s1.cmos_data RTC_REG_A &&& (0xff ^^^ REG_A_UIP))) := by
    intro s1 _
    rw [store_cmos_data, if_pos rfl]
    exact clear_uip_bits _
  split_ifs
  · exact ⟨fun _ => hclr _, hu.irq, hu.irq_reinject_on_ack_count⟩
  · exact ⟨fun _ => hclr _, rfl, rfl⟩
  · exact ⟨fun h => h, rfl, rfl⟩
  · exact ⟨fun h => h, rfl, rfl⟩

theorem cmos_write_reg_b_irq_effect (s : VIANVRAMState) (data : Nat) :
    (cmos_write_reg_b_irq s data).cmos_data RTC_REG_A = s.cmos_data RTC_REG_A ∧
    (cmos_write_reg_b_irq s data).irq_reinject_on_ack_count = s.irq_reinject_on_ack_count := by
  unfold cmos_write_reg_b_irq
  simp only []
  split_ifs <;> simp +decide [store_cmos_data]

theorem cmos_write_reg_b_effect (env : Env) (s s' : VIANVRAMState) (data : Nat)
    (h : cmos_write_reg_b env s data = some s') :
    (NoLatchedReset s → NoLatchedReset s') ∧
      s'.irq_reinject_on_ack_count = s.irq_reinject_on_ack_count := by
  unfold cmos_write_reg_b at h
  simp only [] at h
  obtain ⟨hn, -, hc⟩ := cmos_write_reg_b_set_effect env s data
  generalize cmos_write_reg_b_set env s data = r at *
  obtain ⟨hA, hc1⟩ := cmos_write_reg_b_irq_effect r.1 r.2
  generalize cmos_write_reg_b_irq r.1 r.2 = s1 at *
  split at h
  · exact absurd h (by simp)
  · rename_i s2 h2
    have hq := check_update_timer_quiet _ _ _ h
    have hq2 : Quiet s1 s2 := by
      split_ifs at h2
      · exact periodic_timer_update_quiet _ _ _ _ _ _ h2
      · simp only [Option.some.injEq] at h2
        subst h2
        exact quiet_refl _
    have hq3 := hq2.chain hq
    refine ⟨fun hs => ?_, (hq3.irq_reinject_on_ack_count.trans hc1).trans hc⟩
    have := hn hs
    unfold NoLatchedReset at this ⊢
    rw [hq3.reg_a, hA]
    exact this

theorem cmos_ioport_write_effect (env : Env) (s s' : VIANVRAMState) (addr data : Nat)
    (h : cmos_ioport_write env s addr data = some s') :
    (NoLatchedReset s → NoLatchedReset s') ∧
    s'.irq_reinject_on_ack_count = s.irq_reinject_on_ack_count ∧
    (s'.irq = s.irq ∨ (addr &&& 1 ≠ 0 ∧ s.cmos_index = RTC_REG_B)) := by
  have ofq : ∀ {t : VIANVRAMState}, Quiet s t →
      (NoLatchedReset s → NoLatchedReset t) ∧
      t.irq_reinject_on_ack_count = s.irq_reinject_on_ack_count ∧
      (t.irq = s.irq ∨ (addr &&& 1 ≠ 0 ∧ s.cmos_index = RTC_REG_B)) :=
    fun hq => ⟨NoLatchedReset.of_quiet hq, hq.irq_reinject_on_ack_count, Or.inl hq.irq⟩
  unfold cmos_ioport_write at h
  split_ifs at h with h0 h1 h2 h3 h4 h5 h6
  · simp only [Option.some.injEq] at h
    subst h
    exact ofq ⟨rfl, rfl, rfl⟩
  · refine ofq ((store_quiet s _ data ?_).chain (check_update_timer_quiet _ _ _ h))
    rcases h1 with h | h | h <;> rw [h] <;> decide
  · exact ofq (Quiet.chain (⟨rfl, rfl, rfl⟩ : Quiet s { s with cmos_index := RTC_CENTURY })
      (cmos_write_calendar_quiet env _ _ data (by simp) h))
  · refine ofq (cmos_write_calendar_quiet env _ _ data ?_ h)
    rcases h3 with h | h | h | h | h | h | h | h <;> rw [h] <;> decide
  · obtain ⟨a, b, c⟩ := cmos_write_reg_a_effect env s s' data h
    exact ⟨fun _ => a, c, Or.inl b⟩
  · obtain ⟨a, c⟩ := cmos_write_reg_b_effect env s s' data h
    exact ⟨a, c, Or.inr ⟨h0, h5⟩⟩
  · simp only [Option.some.injEq] at h
    subst h
    exact ofq (quiet_refl s)
  · simp only [Option.some.injEq] at h
    subst h
    exact ofq (store_quiet s _ data h4)

theorem update_in_progress_effect (env : Env) (s : VIANVRAMState) :
    (NoLatchedReset s → NoLatchedReset (update_in_progress env s).1) ∧
    (update_in_progress env s).1.irq = s.irq ∧
    (update_in_progress env s).1.irq_reinject_on_ack_count = s.irq_reinject_on_ack_count := by
  unfold update_in_progress
  by_cases hrun : rtc_running s = true
  · have hdiv : s.cmos_data RTC_REG_A &&& 0x60 ≠ 0x60 := by
      apply not_divider_reset
      unfold rtc_running at hrun
      simp only [Bool.and_eq_true, beq_iff_eq, decide_eq_true_eq] at hrun
      exact hrun.2
    rw [if_neg (by simpa using hrun)]
    simp only []
    split_ifs
    · refine ⟨fun _ hx => ?_, rfl, rfl⟩
      simp only [store_cmos_data, if_true] at hx
      exact absurd hx (set_uip_bits _ hdiv)
    · exact ⟨fun h => h, rfl, rfl⟩
    · exact ⟨fun h => h, rfl, rfl⟩
  · rw [if_pos hrun]
    exact ⟨fun h => h, rfl, rfl⟩

theorem cmos_read_calendar_quiet (env : Env) (s : VIANVRAMState) :
    Quiet s (cmos_read_calendar env s).1 := by
  unfold cmos_read_calendar
  simp only []
  split_ifs
  · exact rtc_update_time_quiet env s
  · exact quiet_refl s

theorem cmos_read_reg_c_isSome (env : Env) (s : VIANVRAMState) (hn : NoLatchedReset s) :
    ∃ r, cmos_read_reg_c env s = some r := by
  unfold cmos_read_reg_c
  simp only []
  have hmid : ∃ s1, (if s.cmos_data s.cmos_index &&& (REG_C_UF ||| REG_C_AF) ≠ 0 then
        check_update_timer env ({ s with irq := false }.store RTC_REG_C 0x00)
      else some ({ s with irq := false }.store RTC_REG_C 0x00)) = some s1 := by
    split_ifs
    · exact check_update_timer_isSome env _ hn
    · exact ⟨_, rfl⟩
  obtain ⟨s1, h1⟩ := hmid
  rw [h1]
  simp only []
  split_ifs <;> exact ⟨_, rfl⟩

theorem cmos_read_reg_c_result (env : Env) (s : VIANVRAMState) (r : VIANVRAMState × Nat)
    (h : cmos_read_reg_c env s = some r) :
    r.2 = s.cmos_data s.cmos_index ∧
    r.1.cmos_data RTC_REG_A = s.cmos_data RTC_REG_A ∧
    r.1.cmos_data RTC_REG_B = s.cmos_data RTC_REG_B ∧
    r.1.cmos_index = s.cmos_index ∧
    r.1.lost_tick_policy = s.lost_tick_policy ∧
    (if reinject_due s = true then
      r.1.cmos_data RTC_REG_C = 0xc0 ∧ r.1.irq = true ∧
      r.1.irq_reinject_on_ack_count = u16 (s.irq_reinject_on_ack_count + 1) ∧
      r.1.irq_coalesced =
        (if env.irq_delivered = true then u32 (s.irq_coalesced - 1) else s.irq_coalesced)
    else
      r.1.cmos_data RTC_REG_C = 0 ∧ r.1.irq = false ∧
      r.1.irq_reinject_on_ack_count = s.irq_reinject_on_ack_count ∧
      r.1.irq_coalesced = s.irq_coalesced) := by
  unfold cmos_read_reg_c at h
  simp only [] at h
  split at h
  · exact absurd h (by simp)
  · rename_i s1 h1
    have hfr : UpdFrame ({ s with irq := false }.store RTC_REG_C 0x00) s1 := by
      split_ifs at h1
      · exact check_update_timer_updFrame _ _ _ h1
      · simp only [Option.some.injEq] at h1
        subst h1
        exact updFrame_refl _
    clear h1
    have hA : s1.cmos_data RTC_REG_A = s.cmos_data RTC_REG_A := by
      rw [hfr.data RTC_REG_A (by decide) (by decide) (by decide) (by decide) (by decide)
        (by decide) (by decide) (by decide)]
      rfl
    have hB : s1.cmos_data RTC_REG_B = s.cmos_data RTC_REG_B := by
      rw [hfr.data RTC_REG_B (by decide) (by decide) (by decide) (by decide) (by decide)
        (by decide) (by decide) (by decide)]
      rfl
    have hC : s1.cmos_data RTC_REG_C = 0 := by
      rw [hfr.data RTC_REG_C (by decide) (by decide) (by decide) (by decide) (by decide)
        (by decide) (by decide) (by decide)]
      rfl
    have hidx : s1.cmos_index = s.cmos_index := hfr.cmos_index
    have hpol : s1.lost_tick_policy = s.lost_tick_policy := hfr.lost_tick_policy
    have hirq : s1.irq = false := hfr.irq
    have hq : s1.irq_coalesced = s.irq_coalesced := hfr.irq_coalesced
    have hn : s1.irq_reinject_on_ack_count = s.irq_reinject_on_ack_count :=
      hfr.irq_reinject_on_ack_count
    clear hfr
    simp only [rtc_policy_slew_deliver_irq, hq, hB, hn] at h
    unfold reinject_due
    split_ifs at h with hc hd <;> simp only [Option.some.injEq] at h <;> subst h
    · rw [if_pos (decide_eq_true hc)]
      simp only [store_cmos_data, store_cmos_index, store_lost_tick_policy, if_true, hC, hn, hq]
      simp +decide [hA, hB, hidx, hpol, hd]
    · rw [if_pos (decide_eq_true hc)]
      simp only [store_cmos_data, store_cmos_index, store_lost_tick_policy, store_irq_coalesced,
        if_true, hC, hn, hq]
      simp +decide [hA, hB, hidx, hpol, hd]
    · rw [if_neg (by simpa using hc)]
      exact ⟨rfl, hA, hB, hidx, hpol, hC, hirq, hn, hq⟩

theorem cmos_ioport_read_effect (env : Env) (s : VIANVRAMState) (addr : Nat)
    (r : VIANVRAMState × Nat) (h : cmos_ioport_read env s addr = some r) :
    (NoLatchedReset s → NoLatchedReset r.1) ∧
    ((r.1.irq = s.irq ∧ r.1.irq_reinject_on_ack_count = s.irq_reinject_on_ack_count ∧
        ¬ (addr &&& 1 ≠ 0 ∧ s.cmos_index = RTC_REG_C)) ∨
      (addr &&& 1 ≠ 0 ∧ s.cmos_index = RTC_REG_C ∧ cmos_read_reg_c env s = some r)) := by
  have ofq : ∀ {t : VIANVRAMState}, Quiet s t → ¬ (addr &&& 1 ≠ 0 ∧ s.cmos_index = RTC_REG_C) →
      (NoLatchedReset s → NoLatchedReset t) ∧
      ((t.irq = s.irq ∧ t.irq_reinject_on_ack_count = s.irq_reinject_on_ack_count ∧
        ¬ (addr &&& 1 ≠ 0 ∧ s.cmos_index = RTC_REG_C)) ∨
      (addr &&& 1 ≠ 0 ∧ s.cmos_index = RTC_REG_C ∧ cmos_read_reg_c env s = some r)) :=
    fun hq hc => ⟨NoLatchedReset.of_quiet hq, Or.inl ⟨hq.irq, hq.irq_reinject_on_ack_count, hc⟩⟩
  unfold cmos_ioport_read at h
  split_ifs at h with h0 h1 h2 h3 h4
  · simp only [Option.some.injEq] at h
    subst h
    exact ofq (quiet_refl s) (fun hc => hc.1 h0)
  · simp only [Option.some.injEq] at h
    subst h
    exact ofq (Quiet.chain (⟨rfl, rfl, rfl⟩ : Quiet s { s with cmos_index := RTC_CENTURY })
      (cmos_read_calendar_quiet env _)) (fun hc => by rw [hc.2] at h1; exact absurd h1 (by decide))
  · simp only [Option.some.injEq] at h
    subst h
    refine ofq (cmos_read_calendar_quiet env _) (fun hc => ?_)
    rw [hc.2] at h2
    exact absurd h2 (by decide)
  · simp only [Option.some.injEq] at h
    subst h
    obtain ⟨a, b, c⟩ := update_in_progress_effect env s
    exact ⟨a, Or.inl ⟨b, c, fun hc => by rw [hc.2] at h3; exact absurd h3 (by decide)⟩⟩
  · obtain ⟨-, hA, -⟩ := cmos_read_reg_c_result env s r h
    refine ⟨fun hn => ?_, Or.inr ⟨h0, h4, h⟩⟩
    unfold NoLatchedReset
    rw [hA]
    exact hn
  · simp only [Option.some.injEq] at h
    subst h
    exact ofq (quiet_refl s) (fun hc => h4 hc.2)

theorem cmos_extended_ioport_read_effect (env : Env) (s : VIANVRAMState) (addr : Nat)
    (r : VIANVRAMState × Nat) (h : cmos_extended_ioport_read env s addr = some r) :
    (NoLatchedReset s → NoLatchedReset r.1) ∧
    ((r.1.irq = s.irq ∧ r.1.irq_reinject_on_ack_count = s.irq_reinject_on_ack_count ∧
        ¬ (addr ≠ 0 ∧ addr &&& 1 ≠ 0 ∧ s.cmos_index = RTC_REG_C)) ∨
      (addr ≠ 0 ∧ addr &&& 1 ≠ 0 ∧ s.cmos_index = RTC_REG_C ∧
        cmos_read_reg_c env s = some r)) := by
  unfold cmos_extended_ioport_read at h
  split_ifs at h with ha hidx
  · simp only [Option.some.injEq] at h
    subst h
    refine ⟨fun hn => hn, Or.inl ⟨rfl, rfl, fun hc => ?_⟩⟩
    rw [hc.2.2] at hidx
    exact absurd hidx (by decide)
  · obtain ⟨a, b⟩ := cmos_ioport_read_effect env s addr r h
    refine ⟨a, ?_⟩
    rcases b with ⟨b1, b2, b3⟩ | ⟨b1, b2, b3⟩
    · exact Or.inl ⟨b1, b2, fun hc => b3 hc.2⟩
    · exact Or.inr ⟨ha, b1, b2, b3⟩
  · simp only [Option.some.injEq] at h
    subst h
    exact ⟨fun hn => hn, Or.inl ⟨rfl, rfl, fun hc => ha hc.1⟩⟩

theorem cmos_extended_ioport_write_quiet (fuel : Nat) (env : Env) (s s' : VIANVRAMState)
    (addr data : Nat) (h : cmos_extended_ioport_write fuel env s addr data = some s') :
    Quiet s s' := by
  induction fuel with
  | zero => exact absurd h (by simp [cmos_extended_ioport_write])
  | succ n ih =>
    unfold cmos_extended_ioport_write at h
    split_ifs at h with ha hidx
    · simp only [Option.some.injEq] at h
      subst h
      exact store_quiet s _ data
        (by intro hh; rw [hh] at hidx; exact absurd hidx (by decide))
    · exact ih h
    · simp only [Option.some.injEq] at h
      subst h
      exact ⟨rfl, rfl, rfl⟩

theorem rtc_periodic_timer_effect (env : Env) (s s' : VIANVRAMState)
    (h : rtc_periodic_timer env s = some s') :
    s'.cmos_data RTC_REG_A = s.cmos_data RTC_REG_A ∧
    (s.irq = true → s'.irq = true) ∧
    (s'.irq_reinject_on_ack_count = s.irq_reinject_on_ack_count ∨
      s'.irq_reinject_on_ack_count = 0) := by
  unfold rtc_periodic_timer at h
  split at h
  · exact absurd h (by simp)
  · rename_i s1 h1
    have hq := periodic_timer_update_quiet _ _ _ _ _ _ h1
    clear h1
    simp only [rtc_policy_slew_deliver_irq, rtc_coalesced_timer_update_eq] at h
    split_ifs at h <;> simp only [Option.some.injEq] at h <;> subst h <;>
      simp +decide [store_cmos_data, hq.reg_a, hq.irq, hq.irq_reinject_on_ack_count]

theorem rtc_coalesced_timer_effect (env : Env) (s : VIANVRAMState) :
    (rtc_coalesced_timer env s).cmos_data RTC_REG_A = s.cmos_data RTC_REG_A ∧
    (s.irq = true → (rtc_coalesced_timer env s).irq = true) ∧
    (rtc_coalesced_timer env s).irq_reinject_on_ack_count = s.irq_reinject_on_ack_count := by
  unfold rtc_coalesced_timer
  simp only [rtc_policy_slew_deliver_irq, rtc_coalesced_timer_update_eq]
  split_ifs <;> simp +decide [store_cmos_data]

theorem rtc_update_timer_effect (env : Env) (s s' : VIANVRAMState)
    (h : rtc_update_timer env s = some s') :
    NoLatchedReset s' ∧ (s.irq = true → s'.irq = true) ∧
    s'.irq_reinject_on_ack_count = s.irq_reinject_on_ack_count := by
  unfold rtc_update_timer at h
  split_ifs at h with hdiv
  have hq := check_update_timer_quiet _ _ _ h
  clear h
  have hu := rtc_update_time_quiet env s
  generalize rtc_update_time env s = s0 at *
  refine ⟨?_, ?_, ?_⟩
  · intro _
    rw [hq.reg_a]
    split_ifs <;> simp only [store_cmos_data] <;> simp +decide only [if_true, if_false] <;>
      exact clear_uip_bits _
  · intro hirq
    rw [hq.irq]
    split_ifs <;>
      first
        | rfl
        | (simp only [store_irq]
           rw [hu.irq]
           exact hirq)
  · rw [hq.irq_reinject_on_ack_count]
    split_ifs <;> simp only [store_irq_reinject_on_ack_count] <;>
      exact hu.irq_reinject_on_ack_count

theorem rtc_reset_effect (env : Env) (s s' : VIANVRAMState) (h : rtc_reset env s = some s') :
    s'.cmos_data RTC_REG_A = s.cmos_data RTC_REG_A ∧
    (s'.irq_reinject_on_ack_count = s.irq_reinject_on_ack_count ∨
      s'.irq_reinject_on_ack_count = 0) := by
  unfold rtc_reset rtc_reset_enter at h
  simp only [] at h
  split at h
  · exact absurd h (by simp)
  · rename_i s1 h1
    have hq := check_update_timer_quiet _ _ _ h1
    clear h1
    split_ifs at h <;> simp only [Option.map_some', Option.some.injEq] at h <;> subst h <;>
      simp +decide [rtc_reset_hold, hq.reg_a, hq.irq_reinject_on_ack_count, store_cmos_data]

theorem rtc_set_date_from_host_quiet (env : Env) (s : VIANVRAMState) :
    Quiet s (rtc_set_date_from_host env s) := by
  unfold rtc_set_date_from_host
  simp only []
  have h := rtc_set_cmos_updFrame
    { s with base_rtc := u64 (env.mktimegm env.host_tm), last_update := u64 env.now,
             offset := 0 } env.host_tm
  exact ⟨h.to_quiet.reg_a, h.to_quiet.irq, h.to_quiet.irq_reinject_on_ack_count⟩

theorem rtc_realizefn_init (env : Env) (isairq : Nat) (base_year : Int)
    (policy : LostTickPolicy) (s : VIANVRAMState)
    (h : rtc_realizefn env isairq (via_nvram_instance base_year policy) = some s) :
    s.cmos_data RTC_REG_A = 0x26 ∧ s.irq_reinject_on_ack_count = 0 ∧ s.irq = false := by
  unfold rtc_realizefn at h
  simp only [] at h
  have base : ∀ s0 : VIANVRAMState, s0.cmos_data RTC_REG_A = 0x26 →
      s0.irq_reinject_on_ack_count = 0 → s0.irq = false →
      (match (rtc_set_date_from_host env s0).lost_tick_policy with
        | LostTickPolicy.DELAY => none
        | _ => check_update_timer env
            { rtc_set_date_from_host env s0 with
              coalesced_timer := none, periodic_timer := none, update_timer := none }) = some s →
      s.cmos_data RTC_REG_A = 0x26 ∧ s.irq_reinject_on_ack_count = 0 ∧ s.irq = false := by
    intro s0 ha hc hi h
    have hq := rtc_set_date_from_host_quiet env s0
    split at h
    · exact absurd h (by simp)
    · have hq' := check_update_timer_quiet _ _ _ h
      exact ⟨hq'.reg_a.trans (hq.reg_a.trans ha),
        hq'.irq_reinject_on_ack_count.trans (hq.irq_reinject_on_ack_count.trans hc),
        hq'.irq.trans (hq.irq.trans hi)⟩
  split_ifs at h
  · refine base _ ?_ rfl rfl h
    simp only []
    rw [fill_upper_lt 127 _ 128 RTC_REG_A (by decide)]
    rfl
  · refine base _ ?_ rfl rfl h
    simp only []
    rw [fill_upper_lt 127 _ 128 RTC_REG_A (by decide)]
    rfl

theorem exec_noLatchedReset (env : Env) (op : Op) (s s' : VIANVRAMState)
    (h : exec env s op = some s') (hi : NoLatchedReset s) : NoLatchedReset s' := by
  have ofA : ∀ {t : VIANVRAMState}, t.cmos_data RTC_REG_A = s.cmos_data RTC_REG_A →
      NoLatchedReset t := by
    intro t ht
    unfold NoLatchedReset
    rw [ht]
    exact hi
  cases op with
  | io_write addr data => exact (cmos_ioport_write_effect env s s' addr data h).1 hi
  | io_read addr =>
    simp only [exec, Option.map_eq_some'] at h
    obtain ⟨r, hr, rfl⟩ := h
    exact (cmos_ioport_read_effect env s addr r hr).1 hi
  | ext_write fuel addr data =>
    exact NoLatchedReset.of_quiet (cmos_extended_ioport_write_quiet fuel env s s' addr data h) hi
  | ext_read addr =>
    simp only [exec, Option.map_eq_some'] at h
    obtain ⟨r, hr, rfl⟩ := h
    exact (cmos_extended_ioport_read_effect env s addr r hr).1 hi
  | periodic_timer =>
    simp only [exec] at h
    split_ifs at h
    exact ofA (rtc_periodic_timer_effect env _ s' h).1
  | coalesced_timer =>
    simp only [exec] at h
    split_ifs at h
    simp only [Option.some.injEq] at h
    subst h
    exact ofA (rtc_coalesced_timer_effect env _).1
  | update_timer =>
    simp only [exec] at h
    split_ifs at h
    exact (rtc_update_timer_effect env _ s' h).1
  | reset => exact ofA (rtc_reset_effect env s s' h).1

theorem reachable_noLatchedReset (s : VIANVRAMState) (h : Reachable s) : NoLatchedReset s := by
  induction h with
  | attach env isairq base_year policy s h =>
    intro hx
    rw [(rtc_realizefn_init env isairq base_year policy s h).1] at hx
    exact absurd hx (by decide)
  | step env op s s' _ h ih => exact exec_noLatchedReset env op s s' h ih

theorem exec_count (env : Env) (op : Op) (s s' : VIANVRAMState)
    (h : exec env s op = some s') (hp : op ≠ Op.periodic_timer) (hr : op ≠ Op.reset) :
    s'.irq_reinject_on_ack_count =
      if reads_reg_c s op = true ∧ reinject_due s = true then
        u16 (s.irq_reinject_on_ack_count + 1)
      else s.irq_reinject_on_ack_count := by
  cases op with
  | io_write addr data =>
    rw [if_neg (by simp [reads_reg_c])]
    exact (cmos_ioport_write_effect env s s' addr data h).2.1
  | io_read addr =>
    simp only [exec, Option.map_eq_some'] at h
    obtain ⟨r, hr, rfl⟩ := h
    rcases (cmos_ioport_read_effect env s addr r hr).2 with ⟨-, b, c⟩ | ⟨a, b, c⟩
    · rw [if_neg (by simp only [reads_reg_c, decide_eq_true_eq]; exact fun hc => c hc.1)]
      exact b
    · have hres := (cmos_read_reg_c_result env s r c).2.2.2.2.2
      by_cases hd : reinject_due s = true
      · rw [if_pos hd] at hres
        rw [if_pos ⟨by simp only [reads_reg_c, decide_eq_true_eq]; exact ⟨a, b⟩, hd⟩]
        exact hres.2.2.1
      · rw [if_neg hd] at hres
        rw [if_neg (fun hc => hd hc.2)]
        exact hres.2.2.1
  | ext_write fuel addr data =>
    rw [if_neg (by simp [reads_reg_c])]
    exact (cmos_extended_ioport_write_quiet fuel env s s' addr data h).irq_reinject_on_ack_count
  | ext_read addr =>
    simp only [exec, Option.map_eq_some'] at h
    obtain ⟨r, hr, rfl⟩ := h
    rcases (cmos_extended_ioport_read_effect env s addr r hr).2 with ⟨-, b, c⟩ | ⟨a0, a, b, c⟩
    · rw [if_neg (by simp only [reads_reg_c, decide_eq_true_eq]; exact fun hc => c hc.1)]
      exact b
    · have hres := (cmos_read_reg_c_result env s r c).2.2.2.2.2
      by_cases hd : reinject_due s = true
      · rw [if_pos hd] at hres
        rw [if_pos ⟨by simp only [reads_reg_c, decide_eq_true_eq]; exact ⟨a0, a, b⟩, hd⟩]
        exact hres.2.2.1
      · rw [if_neg hd] at hres
        rw [if_neg (fun hc => hd hc.2)]
        exact hres.2.2.1
  | periodic_timer => exact absurd rfl hp
  | coalesced_timer =>
    rw [if_neg (by simp [reads_reg_c])]
    simp only [exec] at h
    split_ifs at h
    simp only [Option.some.injEq] at h
    subst h
    exact (rtc_coalesced_timer_effect env _).2.2
  | update_timer =>
    rw [if_neg (by simp [reads_reg_c])]
    simp only [exec] at h
    split_ifs at h
    exact (rtc_update_timer_effect env _ s' h).2.2
  | reset => exact absurd rfl hr

theorem reinject_due_count (s : VIANVRAMState) (h : reinject_due s = true) :
    s.irq_reinject_on_ack_count < 20 := by
  unfold reinject_due at h
  simp only [decide_eq_true_eq] at h
  exact h.2.2

theorem exec_countInv (env : Env) (op : Op) (s s' : VIANVRAMState)
    (h : exec env s op = some s') (hi : CountInv s) : CountInv s' := by
  have zero_or : (s'.irq_reinject_on_ack_count = s.irq_reinject_on_ack_count ∨
      s'.irq_reinject_on_ack_count = 0) → CountInv s' := by
    rintro (h | h) <;> unfold CountInv <;> rw [h]
    · exact hi
    · decide
  by_cases hp : op = Op.periodic_timer
  · subst hp
    simp only [exec] at h
    split_ifs at h
    exact zero_or (rtc_periodic_timer_effect env _ s' h).2.2
  · by_cases hr : op = Op.reset
    · subst hr
      exact zero_or (rtc_reset_effect env s s' h).2
    · have hc := exec_count env op s s' h hp hr
      unfold CountInv at hi ⊢
      split_ifs at hc with hd
      · have := reinject_due_count s hd.2
        rw [hc]
        unfold u16
        omega
      · rw [hc]
        exact hi

theorem reachable_countInv (s : VIANVRAMState) (h : Reachable s) : CountInv s := by
  induction h with
  | attach env isairq base_year policy s h =>
    unfold CountInv
    rw [(rtc_realizefn_init env isairq base_year policy s h).2.1]
    decide
  | step env op s s' _ h ih => exact exec_countInv env op s s' h ih

theorem check_update_timer_cmos_data (env : Env) (s s' : VIANVRAMState)
    (h : check_update_timer env s = some s') :
    s'.cmos_data =
      if s.cmos_data RTC_REG_A &&& 0x60 = 0x60 then s.cmos_data
      else (rtc_update_time env s).cmos_data := by
  unfold check_update_timer at h
  simp only [get_next_alarm] at h
  split_ifs at h with h1 <;> simp only [Option.some.injEq] at h <;> subst h <;>
    first
      | rw [if_pos h1]
      | rw [if_neg h1]

theorem rtc_reset_some (env : Env) (s : VIANVRAMState) (hassert : NoLatchedReset s) :
    ∃ s2 s', check_update_timer env
        ((s.store RTC_REG_B
          (s.cmos_data RTC_REG_B &&& (0xff ^^^ (REG_B_PIE ||| REG_B_AIE ||| REG_B_SQWE)))).store
          RTC_REG_C
          (s.cmos_data RTC_REG_C &&&
            (0xff ^^^ (REG_C_UF ||| REG_C_IRQF ||| REG_C_PF ||| REG_C_AF)))) = some s2 ∧
      rtc_reset env s = some s' ∧ s'.cmos_data = s2.cmos_data ∧ s'.irq = false ∧
      s'.lost_tick_policy = s.lost_tick_policy ∧
      (if s.lost_tick_policy = LostTickPolicy.SLEW then
        s'.irq_coalesced = 0 ∧ s'.irq_reinject_on_ack_count = 0
      else
        s'.irq_coalesced = s.irq_coalesced ∧
        s'.irq_reinject_on_ack_count = s.irq_reinject_on_ack_count) := by
  obtain ⟨s2, h2⟩ := check_update_timer_isSome env
    ((s.store RTC_REG_B
      (s.cmos_data RTC_REG_B &&& (0xff ^^^ (REG_B_PIE ||| REG_B_AIE ||| REG_B_SQWE)))).store
      RTC_REG_C
      (s.cmos_data RTC_REG_C &&&
        (0xff ^^^ (REG_C_UF ||| REG_C_IRQF ||| REG_C_PF ||| REG_C_AF)))) hassert
  have hfr := check_update_timer_updFrame _ _ _ h2
  have hpol : s2.lost_tick_policy = s.lost_tick_policy := hfr.lost_tick_policy
  have hq : s2.irq_coalesced = s.irq_coalesced := hfr.irq_coalesced
  have hn : s2.irq_reinject_on_ack_count = s.irq_reinject_on_ack_count :=
    hfr.irq_reinject_on_ack_count
  have hres : rtc_reset env s =
      some (rtc_reset_hold (if s.lost_tick_policy = LostTickPolicy.SLEW then
        { s2 with irq_coalesced := 0, irq_reinject_on_ack_count := 0 } else s2)) := by
    have e : ∀ v, (s.store RTC_REG_B v).cmos_data RTC_REG_C = s.cmos_data RTC_REG_C :=
      fun v => rfl
    unfold rtc_reset rtc_reset_enter
    simp only []
    rw [e, h2]
    simp only [hpol]
    split_ifs <;> rfl
  refine ⟨s2, _, h2, hres, ?_⟩
  by_cases hp : s.lost_tick_policy = LostTickPolicy.SLEW
  · rw [if_pos hp, if_pos hp]
    exact ⟨rfl, rfl, hpol, rfl, rfl⟩
  · rw [if_neg hp, if_neg hp]
    exact ⟨rfl, rfl, hpol, hq, hn⟩

theorem and_clear_mask (x m k : Nat) (hm : m < 256) (hk : m &&& k = 0) :
    (x &&& m) % 256 = x &&& m ∧ (x &&& m) &&& k = 0 := by
  constructor
  · exact Nat.mod_eq_of_lt (lt_of_le_of_lt Nat.and_le_right hm)
  · rw [Nat.and_assoc, hk, Nat.and_zero]

/-- C14: reset postcondition.  For every prior state in which the assertion of
`check_update_timer` holds (the update-in-progress bit is not latched while the
dividers are held in reset, which is the case in every reachable state, see
`reachable_noLatchedReset`), reset (enter phase, then hold phase) completes;
afterwards register B is its old value with PIE, AIE and SQWE cleared, register
C has UF, AF, PF and IRQF clear, the interrupt line is low, and `irq_coalesced`
and `irq_reinject_on_ack_count` are 0 under the slew policy and unchanged under
the discard policy. -/
theorem rtc_reset_postcondition (env : Env) (s : VIANVRAMState) (hassert : NoLatchedReset s) :
    ∃ s', rtc_reset env s = some s' ∧
      s'.cmos_data RTC_REG_B =
        s.cmos_data RTC_REG_B &&& (0xff ^^^ (REG_B_PIE ||| REG_B_AIE ||| REG_B_SQWE)) ∧
      s'.cmos_data RTC_REG_B &&& (REG_B_PIE ||| REG_B_AIE ||| REG_B_SQWE) = 0 ∧
      s'.cmos_data RTC_REG_C &&& (REG_C_UF ||| REG_C_AF ||| REG_C_PF ||| REG_C_IRQF) = 0 ∧
      s'.irq = false ∧
      (s.lost_tick_policy = LostTickPolicy.SLEW →
        s'.irq_coalesced = 0 ∧ s'.irq_reinject_on_ack_count = 0) ∧
      (s.lost_tick_policy = LostTickPolicy.DISCARD →
        s'.irq_coalesced = s.irq_coalesced ∧
        s'.irq_reinject_on_ack_count = s.irq_reinject_on_ack_count) := by
  obtain ⟨s2, s', h2, hr, hd, hirq, -, hcnt⟩ := rtc_reset_some env s hassert
  have hfr := check_update_timer_updFrame _ _ _ h2
  have hB := hfr.data RTC_REG_B (by decide) (by decide) (by decide) (by decide) (by decide)
    (by decide) (by decide) (by decide)
  have hC := hfr.data RTC_REG_C (by decide) (by decide) (by decide) (by decide) (by decide)
    (by decide) (by decide) (by decide)
  simp only [store_cmos_data] at hB hC
  simp +decide only [if_true, if_false] at hB hC
  obtain ⟨b1, b2⟩ := and_clear_mask (s.cmos_data RTC_REG_B)
    (0xff ^^^ (REG_B_PIE ||| REG_B_AIE ||| REG_B_SQWE))
    (REG_B_PIE ||| REG_B_AIE ||| REG_B_SQWE) (by decide) (by decide)
  obtain ⟨c1, c2⟩ := and_clear_mask (s.cmos_data RTC_REG_C)
    (0xff ^^^ (REG_C_UF ||| REG_C_IRQF ||| REG_C_PF ||| REG_C_AF))
    (REG_C_UF ||| REG_C_AF ||| REG_C_PF ||| REG_C_IRQF) (by decide) (by decide)
  rw [b1] at hB
  rw [c1] at hC
  refine ⟨s', hr, ?_, ?_, ?_, hirq, fun hp => ?_, fun hp => ?_⟩
  · rw [hd, hB]
  · rw [hd, hB]
    exact b2
  · rw [hd, hC]
    exact c2
  · rw [if_pos hp] at hcnt
    exact hcnt
  · rw [if_neg (by rw [hp]; decide)] at hcnt
    exact hcnt

/-- Reset of the reachable state `updatedExample` (register B = 0x52, register
C = 0x90, line raised, slew policy), as `rtc_reset_postcondition` describes
it. -/
theorem rtc_reset_postcondition_witness :
    NoLatchedReset updatedExample ∧
    ∃ s', rtc_reset exampleEnvLater updatedExample = some s' ∧
      s'.cmos_data RTC_REG_B =
        updatedExample.cmos_data RTC_REG_B &&&
          (0xff ^^^ (REG_B_PIE ||| REG_B_AIE ||| REG_B_SQWE)) ∧
      s'.cmos_data RTC_REG_B &&& (REG_B_PIE ||| REG_B_AIE ||| REG_B_SQWE) = 0 ∧
      s'.cmos_data RTC_REG_C &&& (REG_C_UF ||| REG_C_AF ||| REG_C_PF ||| REG_C_IRQF) = 0 ∧
      s'.irq = false ∧
      (updatedExample.lost_tick_policy = LostTickPolicy.SLEW →
        s'.irq_coalesced = 0 ∧ s'.irq_reinject_on_ack_count = 0) ∧
      (updatedExample.lost_tick_policy = LostTickPolicy.DISCARD →
        s'.irq_coalesced = updatedExample.irq_coalesced ∧
        s'.irq_reinject_on_ack_count = updatedExample.irq_reinject_on_ack_count) :=
  ⟨reachable_noLatchedReset _ updatedExample_reachable,
    rtc_reset_postcondition exampleEnvLater updatedExample
      (reachable_noLatchedReset _ updatedExample_reachable)⟩

theorem reset_keeps_set_bit (x : Nat) :
    (x &&& (0xff ^^^ (REG_B_PIE ||| REG_B_AIE ||| REG_B_SQWE))) % 256 &&& REG_B_SET =
      x &&& REG_B_SET := by
  rw [land_mod_256 _ _ (by decide), Nat.and_assoc]
  rfl

/-- C15: reset does not clear calendar or NVRAM bytes.  For every prior state
in which the assertion of `check_update_timer` holds (see
`reachable_noLatchedReset`), reset completes and leaves unchanged every byte of
the register file other than registers B and C and the calendar fields (indices
0, 2, 4, 6, 7, 8, 9 and 0x32), so the alarm bytes, registers A and D and the
NVRAM bytes keep their values; when set-mode is active or register A holds the
dividers in reset, the calendar fields are unchanged as well. -/
theorem rtc_reset_keeps_nvram (env : Env) (s : VIANVRAMState) (hassert : NoLatchedReset s) :
    ∃ s', rtc_reset env s = some s' ∧
      (∀ i, i ≠ RTC_REG_B → i ≠ RTC_REG_C → i ≠ RTC_SECONDS → i ≠ RTC_MINUTES →
        i ≠ RTC_HOURS → i ≠ RTC_DAY_OF_WEEK → i ≠ RTC_DAY_OF_MONTH → i ≠ RTC_MONTH →
        i ≠ RTC_YEAR → i ≠ RTC_CENTURY → s'.cmos_data i = s.cmos_data i) ∧
      (s.cmos_data RTC_REG_B &&& REG_B_SET ≠ 0 ∨ s.cmos_data RTC_REG_A &&& 0x60 = 0x60 →
        ∀ i, i ≠ RTC_REG_B → i ≠ RTC_REG_C → s'.cmos_data i = s.cmos_data i) := by
  obtain ⟨s2, s', h2, hr, hd, -, -, -⟩ := rtc_reset_some env s hassert
  have hfr := check_update_timer_updFrame _ _ _ h2
  have hcd := check_update_timer_cmos_data _ _ _ h2
  refine ⟨s', hr, ?_, ?_⟩
  · intro i hb hc h0 h2 h4 h6 h7 h8 h9 h32
    rw [hd, hfr.data i h0 h2 h4 h6 h7 h8 h9 h32]
    simp only [store_cmos_data, if_neg hb, if_neg hc]
  · intro hor i hb hc
    have hsame : s2.cmos_data =
        ((s.store RTC_REG_B
          (s.cmos_data RTC_REG_B &&& (0xff ^^^ (REG_B_PIE ||| REG_B_AIE ||| REG_B_SQWE)))).store
          RTC_REG_C
          (s.cmos_data RTC_REG_C &&&
            (0xff ^^^ (REG_C_UF ||| REG_C_IRQF ||| REG_C_PF ||| REG_C_AF)))).cmos_data := by
      rw [hcd]
      split_ifs with hdiv
      · rfl
      · rcases hor with hset | hdv
        · rw [rtc_update_time_set]
          simp only [store_cmos_data]
          simp +decide only [if_true, if_false]
          rw [reset_keeps_set_bit]
          exact hset
        · exact absurd hdv hdiv
    rw [hd, hsame]
    simp only [store_cmos_data, if_neg hb, if_neg hc]

/-- Reset of the state `frozenExample` (set-mode active, frozen time 07:08:09):
every byte other than registers B and C keeps its value, the calendar bytes
included. -/
theorem rtc_reset_keeps_nvram_witness :
    NoLatchedReset frozenExample ∧
    frozenExample.cmos_data RTC_REG_B &&& REG_B_SET ≠ 0 ∧
    ∃ s', rtc_reset exampleEnv frozenExample = some s' ∧
      (∀ i, i ≠ RTC_REG_B → i ≠ RTC_REG_C → i ≠ RTC_SECONDS → i ≠ RTC_MINUTES →
        i ≠ RTC_HOURS → i ≠ RTC_DAY_OF_WEEK → i ≠ RTC_DAY_OF_MONTH → i ≠ RTC_MONTH →
        i ≠ RTC_YEAR → i ≠ RTC_CENTURY → s'.cmos_data i = frozenExample.cmos_data i) ∧
      (frozenExample.cmos_data RTC_REG_B &&& REG_B_SET ≠ 0 ∨
          frozenExample.cmos_data RTC_REG_A &&& 0x60 = 0x60 →
        ∀ i, i ≠ RTC_REG_B → i ≠ RTC_REG_C → s'.cmos_data i = frozenExample.cmos_data i) :=
  ⟨by decide, by decide, rtc_reset_keeps_nvram exampleEnv frozenExample (by decide)⟩

theorem i64_u32 (x : Int) : i64 (0 + u32 x) = u32 x := by
  unfold i64 u32
  omega

theorem periodic_timer_update_no_change (env : Env) (s : VIANVRAMState) (ct op : Int) :
    ∃ s', periodic_timer_update env s ct op false = some s' ∧
      s'.next_periodic_time =
        (if rtc_periodic_clock_ticks env s = 0 then s.next_periodic_time
        else
          i64 (periodic_clock_to_ns
            (i64 (i64 (muldiv64 (u64 ct) 32768 NANOSECONDS_PER_SECOND) +
              rtc_periodic_clock_ticks env s -
              (if s.lost_tick_policy = LostTickPolicy.SLEW then
                (u32 (s.irq_coalesced * op)).tmod (rtc_periodic_clock_ticks env s)
              else 0))) + 1)) ∧
      (s.lost_tick_policy ≠ LostTickPolicy.SLEW →
        s'.irq_coalesced = if rtc_periodic_clock_ticks env s = 0 then 0 else s.irq_coalesced) := by
  by_cases hp : rtc_periodic_clock_ticks env s = 0
  · unfold periodic_timer_update
    simp only []
    rw [if_pos hp, if_pos hp, if_pos hp]
    exact ⟨_, rfl, rfl, fun _ => rfl⟩
  · have hpos : 0 < rtc_periodic_clock_ticks env s :=
      lt_of_le_of_ne (rtc_periodic_clock_ticks_nonneg env s) (Ne.symm hp)
    have hmin : min (0 : Int) (rtc_periodic_clock_ticks env s) = 0 := min_eq_left hpos.le
    have hmod := (tmod_spec (u32 (s.irq_coalesced * op)) (rtc_periodic_clock_ticks env s) hpos).2
      (u32_nonneg _)
    unfold periodic_timer_update
    simp only [rtc_coalesced_timer_update_eq]
    rw [if_neg hp, if_neg hp, if_neg hp]
    simp only [Bool.false_eq_true, and_false, if_false, i64_u32, hmin]
    by_cases hpol : s.lost_tick_policy = LostTickPolicy.SLEW
    · simp only [hpol, if_true]
      split_ifs <;>
        first
          | exact ⟨_, rfl, rfl, fun hne => absurd rfl hne⟩
          | omega
    · simp only [hpol, if_false]
      split_ifs <;>
        first
          | exact ⟨_, rfl, rfl, fun _ => rfl⟩
          | omega

theorem or_mod_or (a b c : Nat) : ((a ||| b) % 256 ||| c) % 256 = (a ||| (b ||| c)) % 256 := by
  apply Nat.eq_of_testBit_eq
  intro i
  simp only [testBit_mod_256, Nat.testBit_or]
  generalize a.testBit i = x
  generalize b.testBit i = y
  generalize c.testBit i = z
  generalize decide (i < 8) = d
  revert x y z d
  decide

theorem rtc_periodic_timer_discard (env : Env) (s : VIANVRAMState)
    (hp : s.lost_tick_policy = LostTickPolicy.DISCARD) (hq : s.irq_coalesced = 0) :
    ∃ s', rtc_periodic_timer env s = some s' ∧
      (∀ i, i ≠ RTC_REG_C → s'.cmos_data i = s.cmos_data i) ∧
      s'.cmos_data RTC_REG_C =
        (s.cmos_data RTC_REG_C ||| periodic_flags (s.cmos_data RTC_REG_B)) % 256 ∧
      s'.cmos_index = s.cmos_index ∧ s'.lost_tick_policy = LostTickPolicy.DISCARD ∧
      s'.irq_coalesced = 0 ∧
      s'.irq_reinject_on_ack_count = s.irq_reinject_on_ack_count ∧
      (s.cmos_data RTC_REG_B &&& REG_B_PIE ≠ 0 → s'.irq = true) := by
  obtain ⟨s1, h1, -, hc⟩ := periodic_timer_update_no_change env s s.next_periodic_time s.period
  have hfr := periodic_timer_update_frame _ _ _ _ _ _ h1
  have hq1 : s1.irq_coalesced = 0 := by
    rw [hc (by rw [hp]; decide)]
    split_ifs
    · rfl
    · exact hq
  have hpol : s1.lost_tick_policy = LostTickPolicy.DISCARD := hfr.lost_tick_policy.trans hp
  unfold rtc_periodic_timer
  rw [h1]
  simp only [store_cmos_data, store_lost_tick_policy, hpol]
  simp +decide only [if_true, if_false, hfr.cmos_data]
  unfold periodic_flags
  by_cases hpie : s.cmos_data RTC_REG_B &&& REG_B_PIE ≠ 0
  · rw [if_pos hpie, if_pos hpie]
    refine ⟨_, rfl, ?_, ?_, hfr.cmos_index, rfl, hq1, hfr.irq_reinject_on_ack_count,
      fun _ => rfl⟩
    · intro i hi
      simp only [store_cmos_data, if_neg hi, hfr.cmos_data]
    · simp only [store_cmos_data, if_true, hfr.cmos_data]
      exact or_mod_or _ _ _
  · rw [if_neg hpie, if_neg hpie]
    refine ⟨_, rfl, ?_, ?_, hfr.cmos_index, hpol, hq1, hfr.irq_reinject_on_ack_count,
      fun h => absurd h hpie⟩
    · intro i hi
      simp only [store_cmos_data, if_neg hi, hfr.cmos_data]
    · simp only [store_cmos_data, if_true, hfr.cmos_data]

theorem cmos_ioport_read_at_reg_c (env : Env) (s : VIANVRAMState) (addr : Nat)
    (haddr : addr &&& 1 ≠ 0) (hidx : s.cmos_index = RTC_REG_C) :
    cmos_ioport_read env s addr = cmos_read_reg_c env s := by
  unfold cmos_ioport_read
  rw [if_neg haddr, if_neg (by rw [hidx]; decide), if_neg (by rw [hidx]; decide),
    if_neg (by rw [hidx]; decide), if_pos hidx]

theorem periodic_firings_discard (envs : List Env) : ∀ s : VIANVRAMState,
    s.lost_tick_policy = LostTickPolicy.DISCARD → s.irq_coalesced = 0 →
    ∃ s', periodic_firings envs s = some s' ∧
      (∀ i, i ≠ RTC_REG_C → s'.cmos_data i = s.cmos_data i) ∧
      s'.cmos_data RTC_REG_C =
        (if envs.length = 0 then s.cmos_data RTC_REG_C
        else (s.cmos_data RTC_REG_C ||| periodic_flags (s.cmos_data RTC_REG_B)) % 256) ∧
      s'.cmos_index = s.cmos_index ∧ s'.lost_tick_policy = LostTickPolicy.DISCARD ∧
      s'.irq_coalesced = 0 ∧
      s'.irq_reinject_on_ack_count = s.irq_reinject_on_ack_count := by
  induction envs with
  | nil =>
    intro s hp hq
    exact ⟨s, rfl, fun _ _ => rfl, rfl, rfl, hp, hq, rfl⟩
  | cons env envs ih =>
    intro s hp hq
    obtain ⟨s1, h1, hd1, hc1, hi1, hp1, hq1, hn1, -⟩ :=
      rtc_periodic_timer_discard env { s with periodic_timer := none } hp hq
    obtain ⟨s', h', hd', hc', hi', hp', hq', hn'⟩ := ih s1 hp1 hq1
    refine ⟨s', ?_, fun i hi => (hd' i hi).trans (hd1 i hi), ?_, hi'.trans hi1, hp', hq',
      hn'.trans hn1⟩
    · unfold periodic_firings
      rw [h1]
      exact h'
    · rw [hc', if_neg (by simp : ¬ (env :: envs).length = 0)]
      have hB : s1.cmos_data RTC_REG_B = s.cmos_data RTC_REG_B := hd1 _ (by decide)
      rw [hB, hc1]
      simp only []
      split_ifs
      · rfl
      · rw [or_mod_or]
        congr 2
        unfold periodic_flags
        split_ifs <;> rfl

set_option maxRecDepth 100000 in
theorem discardExample_reachable : Reachable discardExample :=
  Reachable.step exampleEnv (Op.io_write 0 12) discardEnabledExample discardExample
    (Reachable.step exampleEnv (Op.io_write 1 0x42) discardSelectedExample discardEnabledExample
      (Reachable.step exampleEnv (Op.io_write 0 11) discardAttachedExample discardSelectedExample
        (Reachable.attach exampleEnv 8 2000 LostTickPolicy.DISCARD discardAttachedExample
          (getD_of_isSome _ _ (by decide)))
        (getD_of_isSome _ _ (by decide)))
      (getD_of_isSome _ _ (by decide)))
    (getD_of_isSome _ _ (by decide))

/-- C16: the discard policy accumulates no backlog.  Under the discard policy,
in every state reachable from attach by operations of the engine (no snapshot
restore), `irq_coalesced` is 0.  From such a state, any number N ≥ 1 of
consecutive firings of the periodic timer completes and leaves register C
holding its previous contents together with exactly the flags a single firing
produces (PF, and IRQF when PIE is enabled), whatever N is, and exactly these
flags when register C was clear before, with `irq_coalesced` still 0; a following data-port read of register C returns these flags and
performs no re-injection: afterwards register C is 0, the line is low and the
two counters are unchanged. -/
theorem discard_no_backlog (s : VIANVRAMState) (hr : Reachable s)
    (hp : s.lost_tick_policy = LostTickPolicy.DISCARD) :
    s.irq_coalesced = 0 ∧
    ∀ (env : Env) (envs : List Env), ∃ s', periodic_firings (env :: envs) s = some s' ∧
      s'.cmos_data RTC_REG_C =
        (s.cmos_data RTC_REG_C ||| periodic_flags (s.cmos_data RTC_REG_B)) % 256 ∧
      (s.cmos_data RTC_REG_C = 0 →
        s'.cmos_data RTC_REG_C = periodic_flags (s.cmos_data RTC_REG_B)) ∧
      s'.irq_coalesced = 0 ∧
      (s.cmos_index = RTC_REG_C → ∀ (env2 : Env) (addr : Nat), addr &&& 1 ≠ 0 →
        ∃ s2, cmos_ioport_read env2 s' addr = some (s2, s'.cmos_data RTC_REG_C) ∧
          s2.cmos_data RTC_REG_C = 0 ∧ s2.irq = false ∧ s2.irq_coalesced = 0 ∧
          s2.irq_reinject_on_ack_count = s'.irq_reinject_on_ack_count) := by
  have hq : s.irq_coalesced = 0 := by
    by_contra hne
    have := ((reachable_summaryInv s hr).2 hne).2
    rw [hp] at this
    exact absurd this (by decide)
  refine ⟨hq, fun env envs => ?_⟩
  obtain ⟨s', h', hd', hc', hi', hp', hq', -⟩ := periodic_firings_discard (env :: envs) s hp hq
  rw [if_neg (by simp : ¬ (env :: envs).length = 0)] at hc'
  have hzero : s.cmos_data RTC_REG_C = 0 →
      s'.cmos_data RTC_REG_C = periodic_flags (s.cmos_data RTC_REG_B) := by
    intro hz
    rw [hc', hz]
    unfold periodic_flags
    split_ifs <;> rfl
  refine ⟨s', h', hc', hzero, hq', fun hidx env2 addr haddr => ?_⟩
  have hn : NoLatchedReset s' := by
    have := reachable_noLatchedReset s hr
    unfold NoLatchedReset at this ⊢
    rw [hd' RTC_REG_A (by decide)]
    exact this
  obtain ⟨r, hread⟩ := cmos_read_reg_c_isSome env2 s' hn
  obtain ⟨r2, -, -, -, -, hres⟩ := cmos_read_reg_c_result env2 s' r hread
  have hidx' : s'.cmos_index = RTC_REG_C := hi'.trans hidx
  have hnd : ¬ reinject_due s' = true := by
    unfold reinject_due
    simp [hq']
  rw [if_neg hnd] at hres
  rw [cmos_ioport_read_at_reg_c env2 s' addr haddr hidx', hread]
  refine ⟨r.1, ?_, hres.1, hres.2.1, hres.2.2.2.trans hq', hres.2.2.1⟩
  rw [← hidx', ← r2]

set_option maxRecDepth 100000 in
/-- The reachable state `discardExample` (discard policy, periodic interrupt
enabled, register C selected) satisfies `discard_no_backlog`; three firings
leave register C at 0xC0. -/
theorem discard_no_backlog_witness :
    discardExample.lost_tick_policy = LostTickPolicy.DISCARD ∧
    discardExample.irq_coalesced = 0 ∧
    (periodic_firings [exampleEnvLater, exampleEnvLater, exampleEnvLater] discardExample).map
      (fun s => s.cmos_data RTC_REG_C) = some 0xc0 ∧
    ∀ (env : Env) (envs : List Env), ∃ s', periodic_firings (env :: envs) discardExample = some s' ∧
      s'.cmos_data RTC_REG_C =
        (discardExample.cmos_data RTC_REG_C |||
          periodic_flags (discardExample.cmos_data RTC_REG_B)) % 256 ∧
      (discardExample.cmos_data RTC_REG_C = 0 →
        s'.cmos_data RTC_REG_C = periodic_flags (discardExample.cmos_data RTC_REG_B)) ∧
      s'.irq_coalesced = 0 ∧
      (discardExample.cmos_index = RTC_REG_C → ∀ (env2 : Env) (addr : Nat), addr &&& 1 ≠ 0 →
        ∃ s2, cmos_ioport_read env2 s' addr = some (s2, s'.cmos_data RTC_REG_C) ∧
          s2.cmos_data RTC_REG_C = 0 ∧ s2.irq = false ∧ s2.irq_coalesced = 0 ∧
          s2.irq_reinject_on_ack_count = s'.irq_reinject_on_ack_count) :=
  ⟨by decide, (discard_no_backlog discardExample discardExample_reachable (by decide)).1,
    by decide,
    (discard_no_backlog discardExample discardExample_reachable (by decide)).2⟩

theorem reinjections_le (ops : List (Env × Op)) : ∀ s : VIANVRAMState, CountInv s →
    (∀ p ∈ ops, p.2 ≠ Op.periodic_timer ∧ p.2 ≠ Op.reset) →
    (reinjections ops s : Int) + s.irq_reinject_on_ack_count ≤ 20 := by
  induction ops with
  | nil =>
    intro s hc _
    simp only [reinjections, Nat.cast_zero, zero_add]
    exact hc.2
  | cons p ops ih =>
    intro s hc hops
    have hp := hops p (List.mem_cons_self _ _)
    unfold reinjections
    cases hex : exec p.1 s p.2 with
    | none =>
      simp only [Nat.cast_zero, zero_add]
      exact hc.2
    | some s' =>
      simp only []
      have hcnt := exec_count p.1 p.2 s s' hex hp.1 hp.2
      have hc' := exec_countInv p.1 p.2 s s' hex hc
      have hrest := ih s' hc' (fun q hq => hops q (List.mem_cons_of_mem _ hq))
      by_cases hd : reads_reg_c s p.2 = true ∧ reinject_due s = true
      · rw [if_pos hd] at hcnt
        have hlt := reinject_due_count s hd.2
        have h0 := hc.1
        rw [hcnt] at hrest
        unfold u16 at hrest
        simp only [hd.1, hd.2, Bool.and_self, if_true, Nat.cast_add, Nat.cast_one]
        omega
      · rw [if_neg hd] at hcnt
        rw [hcnt] at hrest
        have : (reads_reg_c s p.2 && reinject_due s) = false := by
          simpa using hd
        simp only [this, Bool.false_eq_true, if_false, zero_add]
        exact hrest

/-- C17: re-injection bound.  In every reachable state
`irq_reinject_on_ack_count` lies between 0 and 20; and from every state in
which it does, however large `irq_coalesced` is, in every run of operations
without a firing of the periodic timer (and without a reset), at most 20 reads
of register C perform a re-injection: the number of re-injections and the
initial value of the counter add up to at most 20. -/
theorem reinjection_bound :
    (∀ s : VIANVRAMState, Reachable s →
      0 ≤ s.irq_reinject_on_ack_count ∧ s.irq_reinject_on_ack_count ≤ 20) ∧
    (∀ (s : VIANVRAMState) (ops : List (Env × Op)),
      0 ≤ s.irq_reinject_on_ack_count → s.irq_reinject_on_ack_count ≤ 20 →
      (∀ p ∈ ops, p.2 ≠ Op.periodic_timer ∧ p.2 ≠ Op.reset) →
      reinjections ops s ≤ 20 ∧
        (reinjections ops s : Int) + s.irq_reinject_on_ack_count ≤ 20) := by
  refine ⟨fun s hr => reachable_countInv s hr, fun s ops h0 h20 hops => ?_⟩
  have := reinjections_le ops s ⟨h0, h20⟩ hops
  exact ⟨by omega, this⟩

set_option maxRecDepth 1000000 in
/-- A run of 25 reads of register C from `backlogExample` (100 interrupts
owed): exactly 20 of them re-inject, and the counter ends at 20. -/
theorem reinjection_bound_witness :
    reinjections (List.replicate 25 (exampleEnv, Op.io_read 1)) backlogExample = 20 ∧
    (run (List.replicate 25 (exampleEnv, Op.io_read 1)) backlogExample).map
      (fun s => (s.irq_reinject_on_ack_count, s.irq_coalesced)) = some (20, 80) ∧
    reinjections (List.replicate 25 (exampleEnv, Op.io_read 1)) backlogExample ≤ 20 :=
  ⟨by decide, by decide,
    (reinjection_bound.2 backlogExample (List.replicate 25 (exampleEnv, Op.io_read 1))
      (by decide) (by decide)
      (fun p hp => by rw [List.eq_of_mem_replicate hp]; exact ⟨by simp, by simp⟩)).1⟩

/-- C18 as stated fails.  With three interrupts owed and the periodic interrupt
enabled under the slew policy, a read of register C performs no re-injection
when `irq_reinject_on_ack_count` has reached 20 (register C is 0 afterwards, the
line is low and three interrupts are still owed); and when the host reports the
re-injected interrupt as not delivered, `irq_coalesced` stays 3 instead of
becoming 2. -/
theorem cmos_ioport_read_reg_c_drains_counterexample :
    exhaustedExample.lost_tick_policy = LostTickPolicy.SLEW ∧
    exhaustedExample.cmos_data RTC_REG_B &&& REG_B_PIE ≠ 0 ∧
    exhaustedExample.irq_coalesced = 3 ∧
    (cmos_ioport_read exampleEnv exhaustedExample 1).map
      (fun r => (r.1.cmos_data RTC_REG_C, r.1.irq, r.1.irq_coalesced)) = some (0, false, 3) ∧
    (cmos_ioport_read undeliveredEnv owedThreeExample 1).map
      (fun r => (r.1.cmos_data RTC_REG_C, r.1.irq, r.1.irq_coalesced)) =
      some (0xc0, true, 3) := by
  decide

/-- C18 (amended): one read of register C drains at most one owed interrupt.
For every state with register C selected in which the assertion of
`check_update_timer` holds, a data-port read returns the old value of register
C.  If `irq_coalesced` is N ≥ 1, PIE is set and `irq_reinject_on_ack_count` is
below 20, the read performs a re-injection: afterwards register C is 0xC0 (PF
and IRQF), the line is raised, the counter is one higher, and `irq_coalesced` is
N - 1 when the host reports the interrupt as delivered and N otherwise.  If
`irq_coalesced` is 0, PIE is clear or the counter has reached 20, the read
performs no re-injection: register C is 0, the line is low and both counters
are unchanged. -/
theorem cmos_ioport_read_reg_c_drains (env : Env) (s : VIANVRAMState) (addr : Nat)
    (haddr : addr &&& 1 ≠ 0) (hidx : s.cmos_index = RTC_REG_C) (hassert : NoLatchedReset s) :
    ∃ s', cmos_ioport_read env s addr = some (s', s.cmos_data RTC_REG_C) ∧
      (1 ≤ s.irq_coalesced → s.irq_coalesced < 4294967296 →
        s.cmos_data RTC_REG_B &&& REG_B_PIE ≠ 0 →
        0 ≤ s.irq_reinject_on_ack_count → s.irq_reinject_on_ack_count < 20 →
        s'.cmos_data RTC_REG_C = REG_C_PF ||| REG_C_IRQF ∧ s'.irq = true ∧
        s'.irq_reinject_on_ack_count = s.irq_reinject_on_ack_count + 1 ∧
        s'.irq_coalesced =
          if env.irq_delivered = true then s.irq_coalesced - 1 else s.irq_coalesced) ∧
      (s.irq_coalesced = 0 ∨ s.cmos_data RTC_REG_B &&& REG_B_PIE = 0 ∨
          20 ≤ s.irq_reinject_on_ack_count →
        s'.cmos_data RTC_REG_C = 0 ∧ s'.irq = false ∧
        s'.irq_reinject_on_ack_count = s.irq_reinject_on_ack_count ∧
        s'.irq_coalesced = s.irq_coalesced) := by
  obtain ⟨r, hread⟩ := cmos_read_reg_c_isSome env s hassert
  obtain ⟨r2, -, -, -, -, hres⟩ := cmos_read_reg_c_result env s r hread
  rw [cmos_ioport_read_at_reg_c env s addr haddr hidx, hread]
  refine ⟨r.1, ?_, ?_, ?_⟩
  · rw [← hidx, ← r2]
  · intro h1 h2 hpie h0 h20
    have hd : reinject_due s = true := by
      unfold reinject_due
      simp only [decide_eq_true_eq]
      exact ⟨by omega, hpie, h20⟩
    rw [if_pos hd] at hres
    refine ⟨hres.1, hres.2.1, ?_, ?_⟩
    · rw [hres.2.2.1]
      unfold u16
      omega
    · rw [hres.2.2.2]
      split_ifs
      · unfold u32
        omega
      · rfl
  · intro hor
    have hd : ¬ reinject_due s = true := by
      unfold reinject_due
      simp only [decide_eq_true_eq]
      rintro ⟨a, b, c⟩
      rcases hor with h | h | h
      · exact a h
      · exact b h
      · omega
    rw [if_neg hd] at hres
    exact hres

/-- The read of register C in `owedExample` (one interrupt owed, delivered by
the host), as `cmos_ioport_read_reg_c_drains` describes it. -/
theorem cmos_ioport_read_reg_c_drains_witness :
    (1 ≤ owedExample.irq_coalesced ∧ owedExample.cmos_data RTC_REG_B &&& REG_B_PIE ≠ 0 ∧
      owedExample.irq_reinject_on_ack_count < 20) ∧
    ∃ s', cmos_ioport_read exampleEnv owedExample 1 =
        some (s', owedExample.cmos_data RTC_REG_C) ∧
      (1 ≤ owedExample.irq_coalesced → owedExample.irq_coalesced < 4294967296 →
        owedExample.cmos_data RTC_REG_B &&& REG_B_PIE ≠ 0 →
        0 ≤ owedExample.irq_reinject_on_ack_count →
        owedExample.irq_reinject_on_ack_count < 20 →
        s'.cmos_data RTC_REG_C = REG_C_PF ||| REG_C_IRQF ∧ s'.irq = true ∧
        s'.irq_reinject_on_ack_count = owedExample.irq_reinject_on_ack_count + 1 ∧
        s'.irq_coalesced =
          if exampleEnv.irq_delivered = true then owedExample.irq_coalesced - 1
          else owedExample.irq_coalesced) ∧
      (owedExample.irq_coalesced = 0 ∨ owedExample.cmos_data RTC_REG_B &&& REG_B_PIE = 0 ∨
          20 ≤ owedExample.irq_reinject_on_ack_count →
        s'.cmos_data RTC_REG_C = 0 ∧ s'.irq = false ∧
        s'.irq_reinject_on_ack_count = owedExample.irq_reinject_on_ack_count ∧
        s'.irq_coalesced = owedExample.irq_coalesced) :=
  ⟨by decide, cmos_ioport_read_reg_c_drains exampleEnv owedExample 1 (by decide) rfl
    (by decide)⟩

theorem rtc_post_load_current (env : Env) (t : VIANVRAMState)
    (hclk : env.rtc_clock_realtime = false) (hreplay : env.replay_mode_none = true) :
    ∃ s', rtc_post_load env t vmstate_rtc_version_id = some s' ∧
      s'.cmos_data = t.cmos_data ∧ s'.next_alarm_time = t.next_alarm_time ∧
      s'.next_periodic_time =
        if (u64 env.now < u64 t.next_periodic_time ∨
            u64 env.now > u64 (i64 (t.next_periodic_time + env.max_clock_jump))) ∧
            rtc_periodic_clock_ticks env t ≠ 0 then
          i64 (periodic_clock_to_ns
            (i64 (i64 (muldiv64 (u64 env.now) 32768 NANOSECONDS_PER_SECOND) +
              rtc_periodic_clock_ticks env t -
              (if t.lost_tick_policy = LostTickPolicy.SLEW then
                (u32 (t.irq_coalesced * rtc_periodic_clock_ticks env t)).tmod
                  (rtc_periodic_clock_ticks env t)
              else 0))) + 1)
        else t.next_periodic_time := by
  have hticks : ∀ p : Int, rtc_periodic_clock_ticks env { t with period := p } =
      rtc_periodic_clock_ticks env t := fun _ => rfl
  obtain ⟨s2, h2, hnpt, -⟩ := periodic_timer_update_no_change env
    { t with period := rtc_periodic_clock_ticks env t } env.now (rtc_periodic_clock_ticks env t)
  have hfr := periodic_timer_update_frame _ _ _ _ _ _ h2
  rw [hticks] at hnpt
  have hfin : ∀ s2 : VIANVRAMState,
      (if s2.lost_tick_policy = LostTickPolicy.SLEW then rtc_coalesced_timer_update env s2
        else s2).cmos_data = s2.cmos_data ∧
      (if s2.lost_tick_policy = LostTickPolicy.SLEW then rtc_coalesced_timer_update env s2
        else s2).next_alarm_time = s2.next_alarm_time ∧
      (if s2.lost_tick_policy = LostTickPolicy.SLEW then rtc_coalesced_timer_update env s2
        else s2).next_periodic_time = s2.next_periodic_time := by
    intro s2
    split_ifs
    · rw [rtc_coalesced_timer_update_eq]
      exact ⟨rfl, rfl, rfl⟩
    · exact ⟨rfl, rfl, rfl⟩
  by_cases hc : u64 env.now < u64 t.next_periodic_time ∨
      u64 env.now > u64 (i64 (t.next_periodic_time + env.max_clock_jump))
  · have hpl : rtc_post_load env t vmstate_rtc_version_id =
        some (if s2.lost_tick_policy = LostTickPolicy.SLEW then
          rtc_coalesced_timer_update env s2 else s2) := by
      unfold rtc_post_load vmstate_rtc_version_id
      simp only [hclk, hreplay, Bool.false_eq_true, or_false, if_true]
      simp +decide only [if_true, if_false]
      rw [if_pos hc, h2]
      simp only []
      split_ifs <;> rfl
    obtain ⟨f1, f2, f3⟩ := hfin s2
    refine ⟨_, hpl, f1.trans hfr.cmos_data, f2.trans hfr.next_alarm_time, ?_⟩
    rw [f3, hnpt]
    by_cases hz : rtc_periodic_clock_ticks env t = 0
    · have hncz : ¬ ((u64 env.now < u64 t.next_periodic_time ∨
          u64 env.now > u64 (i64 (t.next_periodic_time + env.max_clock_jump))) ∧
          rtc_periodic_clock_ticks env t ≠ 0) := fun h => h.2 hz
      rw [if_neg hncz, if_pos hz]
    · have hcz : (u64 env.now < u64 t.next_periodic_time ∨
          u64 env.now > u64 (i64 (t.next_periodic_time + env.max_clock_jump))) ∧
          rtc_periodic_clock_ticks env t ≠ 0 := ⟨hc, hz⟩
      rw [if_pos hcz, if_neg hz]
  · have hpl : rtc_post_load env t vmstate_rtc_version_id =
        some (if t.lost_tick_policy = LostTickPolicy.SLEW then
          rtc_coalesced_timer_update env { t with period := rtc_periodic_clock_ticks env t }
          else { t with period := rtc_periodic_clock_ticks env t }) := by
      unfold rtc_post_load vmstate_rtc_version_id
      simp only [hclk, hreplay, Bool.false_eq_true, or_false, if_true]
      simp +decide only [if_true, if_false]
      rw [if_neg hc]
      simp only []
      split_ifs <;> rfl
    obtain ⟨f1, f2, f3⟩ := hfin { t with period := rtc_periodic_clock_ticks env t }
    refine ⟨_, hpl, f1, f2, ?_⟩
    have hncz : ¬ ((u64 env.now < u64 t.next_periodic_time ∨
        u64 env.now > u64 (i64 (t.next_periodic_time + env.max_clock_jump))) ∧
        rtc_periodic_clock_ticks env t ≠ 0) := fun h => hc h.1
    rw [if_neg hncz]
    exact f3

set_option maxRecDepth 1000000 in
/-- C19 as stated fails.  In the reachable state `enabledExample` the periodic
timer is armed for the instant 10000976563 ns; a snapshot taken at 10000500000
ns saves that deadline, and the restore at the same instant (current version,
replay off) moves it to 10001464844 ns, one full period after the restore.
When `rtc_clock` is the real-time clock the restore also resynchronises the
time base, and the saved alarm deadline 12000000000 ns becomes 12000500000
ns. -/
theorem snapshot_round_trip_counterexample :
    snapshotEnv.rtc_clock_realtime = false ∧ snapshotEnv.replay_mode_none = true ∧
    (rtc_pre_save snapshotEnv enabledExample).periodic_timer = some 10000976563 ∧
    (rtc_pre_save snapshotEnv enabledExample).next_periodic_time = 10000976563 ∧
    (rtc_post_load snapshotEnv (rtc_pre_save snapshotEnv enabledExample)
      vmstate_rtc_version_id).map (fun s => s.next_periodic_time) = some 10001464844 ∧
    (rtc_pre_save realtimeSnapshotEnv enabledExample).next_alarm_time = 12000000000 ∧
    (rtc_post_load realtimeSnapshotEnv (rtc_pre_save realtimeSnapshotEnv enabledExample)
      vmstate_rtc_version_id).map (fun s => s.next_alarm_time) = some 12000500000 := by
  decide

/-- C19 (amended): snapshot round trip.  For every state, when `rtc_clock` is
not the real-time clock and replay is off, saving (`rtc_pre_save`) and then
restoring (`rtc_post_load` at the current version) at the same clock instant
completes and yields a state whose register contents and `next_alarm_time` are
identical to those saved.  `next_periodic_time` is identical to the saved value
when the periodic timer is disabled or the saved deadline lies between the
current instant minus the tolerated clock jump and the current instant;
otherwise, in particular when the periodic timer is armed for a future instant,
it is recomputed from the current instant. -/
theorem snapshot_round_trip (env : Env) (s : VIANVRAMState)
    (hclk : env.rtc_clock_realtime = false) (hreplay : env.replay_mode_none = true) :
    ∃ s', rtc_post_load env (rtc_pre_save env s) vmstate_rtc_version_id = some s' ∧
      s'.cmos_data = (rtc_pre_save env s).cmos_data ∧
      s'.next_alarm_time = (rtc_pre_save env s).next_alarm_time ∧
      s'.next_periodic_time =
        if (u64 env.now < u64 (rtc_pre_save env s).next_periodic_time ∨
            u64 env.now >
              u64 (i64 ((rtc_pre_save env s).next_periodic_time + env.max_clock_jump))) ∧
            rtc_periodic_clock_ticks env (rtc_pre_save env s) ≠ 0 then
          i64 (periodic_clock_to_ns
            (i64 (i64 (muldiv64 (u64 env.now) 32768 NANOSECONDS_PER_SECOND) +
              rtc_periodic_clock_ticks env (rtc_pre_save env s) -
              (if (rtc_pre_save env s).lost_tick_policy = LostTickPolicy.SLEW then
                (u32 ((rtc_pre_save env s).irq_coalesced *
                  rtc_periodic_clock_ticks env (rtc_pre_save env s))).tmod
                  (rtc_periodic_clock_ticks env (rtc_pre_save env s))
              else 0))) + 1)
        else (rtc_pre_save env s).next_periodic_time :=
  rtc_post_load_current env (rtc_pre_save env s) hclk hreplay

set_option maxRecDepth 1000000 in
/-- The round trip of `snapshot_round_trip` on `enabledExample` at the instant
at which its periodic timer was armed: the deadline 10000976563 ns is kept. -/
theorem snapshot_round_trip_witness :
    (rtc_post_load exampleEnv (rtc_pre_save exampleEnv enabledExample)
      vmstate_rtc_version_id).map (fun s => s.next_periodic_time) = some 10000976563 ∧
    ∃ s', rtc_post_load exampleEnv (rtc_pre_save exampleEnv enabledExample)
        vmstate_rtc_version_id = some s' ∧
      s'.cmos_data = (rtc_pre_save exampleEnv enabledExample).cmos_data ∧
      s'.next_alarm_time = (rtc_pre_save exampleEnv enabledExample).next_alarm_time :=
  ⟨by decide,
    (snapshot_round_trip exampleEnv enabledExample rfl rfl).elim
      fun s' h => ⟨s', h.1, h.2.1, h.2.2.1⟩⟩

theorem exec_irq (env : Env) (op : Op) (s s' : VIANVRAMState)
    (h : exec env s op = some s') (h1 : s.irq = true) (h2 : s'.irq = false) :
    reads_reg_c s op = true ∨ writes_reg_b s op = true ∨ op = Op.reset := by
  have keep : (s.irq = true → s'.irq = true) → False := fun hk => by
    rw [hk h1] at h2
    exact absurd h2 (by decide)
  cases op with
  | io_write addr data =>
    rcases (cmos_ioport_write_effect env s s' addr data h).2.2 with hq | hb
    · exact (keep (fun hi => hq.trans hi)).elim
    · exact Or.inr (Or.inl (by simp only [writes_reg_b, decide_eq_true_eq]; exact hb))
  | io_read addr =>
    simp only [exec, Option.map_eq_some'] at h
    obtain ⟨r, hr, rfl⟩ := h
    rcases (cmos_ioport_read_effect env s addr r hr).2 with ⟨hq, -, -⟩ | ⟨a, b, -⟩
    · exact (keep (fun hi => hq.trans hi)).elim
    · exact Or.inl (by simp only [reads_reg_c, decide_eq_true_eq]; exact ⟨a, b⟩)
  | ext_write fuel addr data =>
    exact (keep (fun hi =>
      (cmos_extended_ioport_write_quiet fuel env s s' addr data h).irq.trans hi)).elim
  | ext_read addr =>
    simp only [exec, Option.map_eq_some'] at h
    obtain ⟨r, hr, rfl⟩ := h
    rcases (cmos_extended_ioport_read_effect env s addr r hr).2 with ⟨hq, -, -⟩ | ⟨a0, a, b, -⟩
    · exact (keep (fun hi => hq.trans hi)).elim
    · exact Or.inl (by simp only [reads_reg_c, decide_eq_true_eq]; exact ⟨a0, a, b⟩)
  | periodic_timer =>
    simp only [exec] at h
    split_ifs at h
    exact (keep (rtc_periodic_timer_effect env _ s' h).2.1).elim
  | coalesced_timer =>
    simp only [exec] at h
    split_ifs at h
    simp only [Option.some.injEq] at h
    subst h
    exact (keep (rtc_coalesced_timer_effect env { s with coalesced_timer := none }).2.1).elim
  | update_timer =>
    simp only [exec] at h
    split_ifs at h
    exact (keep (rtc_update_timer_effect env _ s' h).2.1).elim
  | reset => exact Or.inr (Or.inr rfl)

set_option maxRecDepth 1000000 in
/-- C20 as stated fails.  In the reachable state `updatedExample` the line is
raised (update-ended flagged and enabled); a reset lowers it, and so does a
data-port write of 0x02 to register B, which disables the update-ended
interrupt.  Neither is a read of register C. -/
theorem irq_lowered_only_by_counterexample :
    updatedExample.irq = true ∧ updatedExample.cmos_index = RTC_REG_B ∧
    (exec exampleEnvLater updatedExample Op.reset).map (fun s => s.irq) = some false ∧
    (exec exampleEnvLater updatedExample (Op.io_write 1 0x02)).map (fun s => s.irq) =
      some false := by
  decide

/-- C20 (amended): among all operations of the engine (reads and writes on both
port pairs, the three timer callbacks, reset), the interrupt line is lowered
only by a data-port read of register C, by a data-port write to register B and
by reset; every other operation leaves a raised line raised. -/
theorem irq_lowered_only_by (env : Env) (op : Op) (s s' : VIANVRAMState)
    (h : exec env s op = some s') (h1 : s.irq = true) (h2 : s'.irq = false) :
    reads_reg_c s op = true ∨ writes_reg_b s op = true ∨ op = Op.reset :=
  exec_irq env op s s' h h1 h2

set_option maxRecDepth 1000000 in
/-- The reset of `updatedExample` lowers the raised line, an instance of
`irq_lowered_only_by`. -/
theorem irq_lowered_only_by_witness :
    updatedExample.irq = true ∧ resetExample.irq = false ∧
    (reads_reg_c updatedExample Op.reset = true ∨ writes_reg_b updatedExample Op.reset = true ∨
      Op.reset = Op.reset) :=
  ⟨by decide, by decide,
    irq_lowered_only_by exampleEnvLater Op.reset updatedExample resetExample
      (getD_of_isSome _ _ (by decide)) (by decide) (by decide)⟩

set_option maxRecDepth 100000 in
theorem from_bcd_mode_spec : ∀ dm : Bool, ∀ a < 256,
    (from_bcd_mode dm a = -1 ↔ 0xc0 ≤ a) ∧ (a &&& 0xc0 = 0xc0 ↔ 0xc0 ≤ a) ∧
    (a < 0xc0 → from_bcd_mode dm a =
      if dm = true then (a : Int) else ((10 * (a >>> 4) + (a &&& 0x0f) : Nat) : Int)) := by
  decide

/-- C22: don't-care decoding.  For every byte `a` and either data mode,
`rtc_from_bcd` returns -1 if and only if `a` lies in 0xC0..0xFF, which is the
case exactly when its top two bits are both set; otherwise it returns `a` in
binary mode and `10 * (a >> 4) + (a & 0x0F)` in BCD mode. -/
theorem rtc_from_bcd_spec (s : VIANVRAMState) (a : Nat) (ha : a < 256) :
    (rtc_from_bcd s a = -1 ↔ 0xc0 ≤ a) ∧ (a &&& 0xc0 = 0xc0 ↔ 0xc0 ≤ a) ∧
    (a < 0xc0 → rtc_from_bcd s a =
      if s.cmos_data RTC_REG_B &&& REG_B_DM ≠ 0 then (a : Int)
      else ((10 * (a >>> 4) + (a &&& 0x0f) : Nat) : Int)) := by
  have key := from_bcd_mode_spec (decide (s.cmos_data RTC_REG_B &&& REG_B_DM ≠ 0)) a ha
  rw [rtc_from_bcd_eq]
  refine ⟨key.1, key.2.1, fun hlt => ?_⟩
  rw [key.2.2 hlt]
  simp only [decide_eq_true_eq]

/-- The decoding of `rtc_from_bcd_spec` in the BCD state `frozenExample`: the
byte 0x59 decodes to 59 and the byte 0xC0 is a don't-care. -/
theorem rtc_from_bcd_spec_witness :
    rtc_from_bcd frozenExample 0x59 = 59 ∧ (rtc_from_bcd frozenExample 0xc0 = -1 ↔ 0xc0 ≤ 0xc0) :=
  ⟨by decide, (rtc_from_bcd_spec frozenExample 0xc0 (by decide)).1⟩

/-- C23: trusted raw access round trip.  For every address `a` in 0..127 and
every value `v`, `via_nvram_set_cmos_data` returns the state in which byte `a`
of the register file is `v mod 256` and nothing else has changed, whichever
register `a` names, and a following `via_nvram_get_cmos_data`, which only
reads the state, returns `v mod 256`. -/
theorem via_nvram_cmos_data_round_trip (s : VIANVRAMState) (a v : Int)
    (ha : 0 ≤ a ∧ a ≤ 127) :
    via_nvram_set_cmos_data s a v =
      { s with cmos_data := fun j => if j = a.toNat then (v % 256).toNat else s.cmos_data j } ∧
    via_nvram_get_cmos_data (via_nvram_set_cmos_data s a v) a = some (v % 256) ∧
    (0 ≤ v % 256 ∧ v % 256 < 256) := by
  have hset : via_nvram_set_cmos_data s a v =
      { s with cmos_data := fun j => if j = a.toNat then (v % 256).toNat else s.cmos_data j } := by
    unfold via_nvram_set_cmos_data
    rw [if_pos ⟨ha.1, ha.2⟩]
    unfold VIANVRAMState.store
    have hb : setByte s.cmos_data a.toNat (u8 v) =
        fun j => if j = a.toNat then (v % 256).toNat else s.cmos_data j := by
      funext j
      unfold setByte u8
      have : (v % 256).toNat % 256 = (v % 256).toNat := Nat.mod_eq_of_lt (by omega)
      rw [this]
    rw [hb]
  refine ⟨hset, ?_, by omega⟩
  rw [hset]
  unfold via_nvram_get_cmos_data
  rw [if_pos ⟨ha.1, ha.2⟩]
  simp only [if_true]
  congr 1
  omega

/-- The round trip of `via_nvram_cmos_data_round_trip` at register B (address
11) with the value -1, which is stored as 0xFF. -/
theorem via_nvram_cmos_data_round_trip_witness :
    via_nvram_get_cmos_data (via_nvram_set_cmos_data attachedExample 11 (-1)) 11 = some 255 :=
  (via_nvram_cmos_data_round_trip attachedExample 11 (-1) (by decide)).2.1

set_option maxRecDepth 100000 in
theorem hours12_byte_spec : ∀ dm : Bool, ∀ n < 24,
    hours12_byte dm ((n : Nat) : Int) &&& 0x7f = u8 (to_bcd_mode dm (hour12 ((n : Nat) : Int))) ∧
    (hours12_byte dm ((n : Nat) : Int) &&& 0x80 ≠ 0 ↔ 12 ≤ n) ∧
    hours12_byte dm ((n : Nat) : Int) =
      u8 (to_bcd_mode dm (hour12 ((n : Nat) : Int))) + (if 12 ≤ n then 0x80 else 0) := by
  decide

/-- C27: 12-hour encoding.  In 12-hour mode (bit 0x02 of register B clear),
for every `tm_hour` in 0..23, `rtc_set_cmos` stores in the hours register the
encoding, in the data mode of register B, of `tm_hour mod 12` with 0 replaced
by 12, and sets bit 0x80 if and only if `tm_hour ≥ 12`; midnight is stored as
12 AM (0x12 in BCD, 0x0C in binary) and noon as 12 PM (0x92 in BCD, 0x8C in
binary). -/
theorem rtc_set_cmos_hours12 (s : VIANVRAMState) (tm : Tm)
    (h12 : s.cmos_data RTC_REG_B &&& REG_B_24H = 0) (hh : 0 ≤ tm.tm_hour ∧ tm.tm_hour ≤ 23) :
    (rtc_set_cmos s tm).cmos_data RTC_HOURS &&& 0x7f = u8 (rtc_to_bcd s (hour12 tm.tm_hour)) ∧
    ((rtc_set_cmos s tm).cmos_data RTC_HOURS &&& 0x80 ≠ 0 ↔ tm.tm_hour ≥ 12) ∧
    (rtc_set_cmos s tm).cmos_data RTC_HOURS =
      u8 (rtc_to_bcd s (hour12 tm.tm_hour)) + (if tm.tm_hour ≥ 12 then 0x80 else 0) ∧
    (tm.tm_hour = 0 → (rtc_set_cmos s tm).cmos_data RTC_HOURS =
      if s.cmos_data RTC_REG_B &&& REG_B_DM ≠ 0 then 0x0c else 0x12) ∧
    (tm.tm_hour = 12 → (rtc_set_cmos s tm).cmos_data RTC_HOURS =
      if s.cmos_data RTC_REG_B &&& REG_B_DM ≠ 0 then 0x8c else 0x92) := by
  obtain ⟨n, hn⟩ := Int.eq_ofNat_of_zero_le hh.1
  have hn24 : n < 24 := by omega
  have hb : (rtc_set_cmos s tm).cmos_data RTC_HOURS =
      hours12_byte (decide (s.cmos_data RTC_REG_B &&& REG_B_DM ≠ 0)) (n : Int) := by
    rw [(rtc_set_cmos_bytes s tm).2.2.1, if_neg (not_not.mpr h12), hn]
    simp only [rtc_to_bcd_eq]
    rfl
  obtain ⟨k1, k2, k3⟩ :=
    hours12_byte_spec (decide (s.cmos_data RTC_REG_B &&& REG_B_DM ≠ 0)) n hn24
  have hge : tm.tm_hour ≥ 12 ↔ 12 ≤ n := by omega
  rw [hb, rtc_to_bcd_eq, hn]
  refine ⟨k1, ?_, ?_, ?_, ?_⟩
  · rw [k2]
    omega
  · rw [k3]
    congr 1
    by_cases h : 12 ≤ n
    · rw [if_pos h, if_pos (by omega)]
    · rw [if_neg h, if_neg (by omega)]
  · intro h0
    have : n = 0 := by omega
    subst this
    by_cases hd : s.cmos_data RTC_REG_B &&& REG_B_DM ≠ 0
    · rw [if_pos hd, decide_eq_true hd]
      rfl
    · rw [if_neg hd, decide_eq_false hd]
      rfl
  · intro h0
    have : n = 12 := by omega
    subst this
    by_cases hd : s.cmos_data RTC_REG_B &&& REG_B_DM ≠ 0
    · rw [if_pos hd, decide_eq_true hd]
      rfl
    · rw [if_neg hd, decide_eq_false hd]
      rfl

/-- The encoding of `rtc_set_cmos_hours12` in the 12-hour BCD state
`twelveHourExample` for the host time 23:59:58: the hours register holds 0x91,
11 PM. -/
theorem rtc_set_cmos_hours12_witness :
    (rtc_set_cmos twelveHourExample exampleEnv.host_tm).cmos_data RTC_HOURS = 0x91 ∧
    ((rtc_set_cmos twelveHourExample exampleEnv.host_tm).cmos_data RTC_HOURS &&& 0x80 ≠ 0 ↔
      exampleEnv.host_tm.tm_hour ≥ 12) :=
  ⟨by decide,
    (rtc_set_cmos_hours12 twelveHourExample exampleEnv.host_tm (by decide) (by decide)).2.1⟩

theorem periodic_clock_to_ns_nonneg (x : Int) (h0 : 0 ≤ x) (h1 : x < 4294967296) :
    0 ≤ periodic_clock_to_ns x ∧ periodic_clock_to_ns x < 140737488355328 := by
  have e1 : u64 x = x := by
    unfold u64
    omega
  have hb : 0 ≤ x * 1000000000 / 32768 ∧ x * 1000000000 / 32768 < 140737488355328 := by
    omega
  have e2 : u64 (x * 1000000000 / 32768) = x * 1000000000 / 32768 := by
    unfold u64
    omega
  have e3 : i64 (x * 1000000000 / 32768) = x * 1000000000 / 32768 := by
    unfold i64
    omega
  unfold periodic_clock_to_ns muldiv64
  simp only [NANOSECONDS_PER_SECOND]
  rw [e1, e2, e3]
  exact hb

/-- C29: catch-up timer spacing.  For every `irq_coalesced` ≥ 1 (below
2^32 - 1), `rtc_coalesced_timer_update` arms the catch-up timer at
`now + periodic_clock_to_ns (period / c)` with integer division, where
`c = min(irq_coalesced, 7) + 1 = min(irq_coalesced + 1, 8)` and `2 ≤ c ≤ 8`
(the sum is taken in 64 bits; it is exact for a 32-bit period and a clock below
2^62); for `irq_coalesced = 0` it cancels the catch-up timer.  Nothing else
changes. -/
theorem rtc_coalesced_timer_update_spacing (env : Env) (s : VIANVRAMState) :
    (s.irq_coalesced = 0 → rtc_coalesced_timer_update env s = { s with coalesced_timer := none }) ∧
    (1 ≤ s.irq_coalesced → s.irq_coalesced < 4294967295 →
      min s.irq_coalesced 7 + 1 = min (s.irq_coalesced + 1) 8 ∧
      2 ≤ min s.irq_coalesced 7 + 1 ∧ min s.irq_coalesced 7 + 1 ≤ 8 ∧
      rtc_coalesced_timer_update env s =
        { s with coalesced_timer := timer_mod (i64 (env.now + periodic_clock_to_ns (s.period / (min s.irq_coalesced 7 + 1)))) } ∧
      (0 ≤ s.period → s.period < 4294967296 → 0 ≤ env.now → env.now < 4611686018427387904 →
        (rtc_coalesced_timer_update env s).coalesced_timer =
          some (env.now + periodic_clock_to_ns (s.period / (min s.irq_coalesced 7 + 1))))) := by
  refine ⟨fun h0 => ?_, fun h1 h2 => ?_⟩
  · unfold rtc_coalesced_timer_update
    rw [if_pos h0]
    rfl
  · have hne : s.irq_coalesced ≠ 0 := by omega
    have heq : rtc_coalesced_timer_update env s =
        { s with coalesced_timer := timer_mod (i64 (env.now + periodic_clock_to_ns (s.period / (min s.irq_coalesced 7 + 1)))) } := by
      unfold rtc_coalesced_timer_update
      rw [if_neg hne]
    have hc2 : 2 ≤ min s.irq_coalesced 7 + 1 := by omega
    have hc8 : min s.irq_coalesced 7 + 1 ≤ 8 := by omega
    refine ⟨by omega, hc2, hc8, heq, fun p0 p1 n0 n1 => ?_⟩
    rw [heq]
    simp only [timer_mod]
    have hq0 : 0 ≤ s.period / (min s.irq_coalesced 7 + 1) :=
      Int.ediv_nonneg p0 (by omega)
    have hq1 : s.period / (min s.irq_coalesced 7 + 1) < 4294967296 :=
      lt_of_le_of_lt (Int.ediv_le_self _ p0) p1
    obtain ⟨a, b⟩ := periodic_clock_to_ns_nonneg _ hq0 hq1
    generalize periodic_clock_to_ns (s.period / (min s.irq_coalesced 7 + 1)) = x at *
    congr 1
    unfold i64
    omega

/-- The spacing of `rtc_coalesced_timer_update_spacing` in `owedThreeExample`
with a period of 32 ticks: c = 4, so the catch-up timer is armed 8 ticks
(244140 ns) after the clock value of `exampleEnv`. -/
theorem rtc_coalesced_timer_update_spacing_witness :
    (rtc_coalesced_timer_update exampleEnv { owedThreeExample with period := 32 }).coalesced_timer =
      some 10000244140 ∧
    min owedThreeExample.irq_coalesced 7 + 1 = min (owedThreeExample.irq_coalesced + 1) 8 :=
  ⟨by decide,
    ((rtc_coalesced_timer_update_spacing exampleEnv owedThreeExample).2 (by decide)
      (by decide)).1⟩

theorem cmos_write_reg_a_eq (env : Env) (s : VIANVRAMState) (data : Nat) :
    cmos_write_reg_a env s data =
      match (if ((s.cmos_data RTC_REG_A ^^^ data) &&& 0x0f != 0) = true then
          periodic_timer_update env (cmos_write_reg_a_store env s data) env.now
            (rtc_periodic_clock_ticks env s) true
        else some (cmos_write_reg_a_store env s data)) with
      | none => none
      | some s => check_update_timer env s := rfl

theorem reg_a_low_bits (data a1 : Nat) :
    ((data &&& (0xffffffffffffffff ^^^ 0x80)) ||| (a1 &&& 0x80)) % 256 &&& 0x7f = data &&& 0x7f := by
  apply Nat.eq_of_testBit_eq
  intro i
  simp only [Nat.testBit_and, testBit_mod_256, Nat.testBit_or, Nat.testBit_xor]
  by_cases hi : i < 7
  · interval_cases i <;>
      (generalize Nat.testBit data _ = d
       generalize Nat.testBit a1 _ = a
       revert d a
       decide)
  · have h7 : (0x7f : Nat).testBit i = false :=
      Nat.testBit_lt_two_pow (lt_of_lt_of_le (by decide : (0x7f : Nat) < 2 ^ 7)
        (Nat.pow_le_pow_right (by decide) (by omega)))
    rw [h7]
    simp

theorem reg_a_uip_bit (data a1 : Nat) :
    ((data &&& (0xffffffffffffffff ^^^ 0x80)) ||| (a1 &&& 0x80)) % 256 &&& 0x80 = a1 &&& 0x80 := by
  apply Nat.eq_of_testBit_eq
  intro i
  simp only [Nat.testBit_and, testBit_mod_256, Nat.testBit_or, Nat.testBit_xor]
  by_cases hi : i = 7
  · subst hi
    generalize Nat.testBit data _ = d
    generalize Nat.testBit a1 _ = a
    revert d a
    decide
  · have h7 : (0x80 : Nat).testBit i = false := by
      have e : (0x80 : Nat) = 2 ^ 7 := by decide
      rw [e, Nat.testBit_two_pow]
      simp only [decide_eq_false_iff_not]
      exact fun h => hi h.symm
    rw [h7]
    simp

theorem cmos_write_reg_a_store_facts (env : Env) (s : VIANVRAMState) (data : Nat) :
    NoLatchedReset (cmos_write_reg_a_store env s data) ∧
    (cmos_write_reg_a_store env s data).cmos_data RTC_REG_A &&& 0x7f = data &&& 0x7f ∧
    ((cmos_write_reg_a_store env s data).cmos_data RTC_REG_A &&& 0x80 ≠ 0 →
      s.cmos_data RTC_REG_A &&& 0x80 ≠ 0) ∧
    (cmos_write_reg_a_store env s data).cmos_data RTC_REG_B = s.cmos_data RTC_REG_B ∧
    (cmos_write_reg_a_store env s data).cmos_data RTC_REG_C = s.cmos_data RTC_REG_C := by
  have hu := rtc_update_time_updFrame env s
  have huA := hu.data RTC_REG_A (by decide) (by decide) (by decide) (by decide) (by decide)
    (by decide) (by decide) (by decide)
  have huB := hu.data RTC_REG_B (by decide) (by decide) (by decide) (by decide) (by decide)
    (by decide) (by decide) (by decide)
  have huC := hu.data RTC_REG_C (by decide) (by decide) (by decide) (by decide) (by decide)
    (by decide) (by decide) (by decide)
  have key : ∀ s1 : VIANVRAMState,
      (data &&& 0x60 = 0x60 → s1.cmos_data RTC_REG_A &&& 0x80 = 0) →
      (s1.cmos_data RTC_REG_A &&& 0x80 ≠ 0 → s.cmos_data RTC_REG_A &&& 0x80 ≠ 0) →
      s1.cmos_data RTC_REG_B = s.cmos_data RTC_REG_B →
      s1.cmos_data RTC_REG_C = s.cmos_data RTC_REG_C →
      NoLatchedReset (s1.store RTC_REG_A
        ((data &&& (0xffffffffffffffff ^^^ REG_A_UIP)) |||
          (s1.cmos_data RTC_REG_A &&& REG_A_UIP))) ∧
      (s1.store RTC_REG_A
        ((data &&& (0xffffffffffffffff ^^^ REG_A_UIP)) |||
          (s1.cmos_data RTC_REG_A &&& REG_A_UIP))).cmos_data RTC_REG_A &&& 0x7f = data &&& 0x7f ∧
      ((s1.store RTC_REG_A
        ((data &&& (0xffffffffffffffff ^^^ REG_A_UIP)) |||
          (s1.cmos_data RTC_REG_A &&& REG_A_UIP))).cmos_data RTC_REG_A &&& 0x80 ≠ 0 →
        s.cmos_data RTC_REG_A &&& 0x80 ≠ 0) ∧
      (s1.store RTC_REG_A
        ((data &&& (0xffffffffffffffff ^^^ REG_A_UIP)) |||
          (s1.cmos_data RTC_REG_A &&& REG_A_UIP))).cmos_data RTC_REG_B =
        s.cmos_data RTC_REG_B ∧
      (s1.store RTC_REG_A
        ((data &&& (0xffffffffffffffff ^^^ REG_A_UIP)) |||
          (s1.cmos_data RTC_REG_A &&& REG_A_UIP))).cmos_data RTC_REG_C =
        s.cmos_data RTC_REG_C := by
    intro s1 hbit hold hB hC
    refine ⟨?_, ?_, ?_, ?_, ?_⟩
    · unfold NoLatchedReset
      rw [store_cmos_data, if_pos rfl]
      exact reg_a_bits data _ hbit
    · rw [store_cmos_data, if_pos rfl]
      exact reg_a_low_bits data _
    · rw [store_cmos_data, if_pos rfl, reg_a_uip_bit]
      exact hold
    · rw [store_cmos_data, if_neg (by decide)]
      exact hB
    · rw [store_cmos_data, if_neg (by decide)]
      exact hC
  have hclr : ∀ s1 : VIANVRAMState,
      (s1.store RTC_REG_A (s1.cmos_data RTC_REG_A &&& (0xff ^^^ REG_A_UIP))).cmos_data
        RTC_REG_A &&& 0x80 = 0 := by
    intro s1
    rw [store_cmos_data, if_pos rfl]
    exact clear_uip_bits _
  unfold cmos_write_reg_a_store
  simp only []
  apply key
  · intro hd
    rw [if_pos hd]
    exact hclr _
  · intro hne
    split_ifs at hne <;> first | exact absurd (hclr _) hne | exact hne
  · split_ifs <;> simp only [store_cmos_data] <;> simp +decide only [if_false] <;>
      first | exact huB | rfl
  · split_ifs <;> simp only [store_cmos_data] <;> simp +decide only [if_false] <;>
      first | exact huC | rfl

theorem cmos_ioport_write_at_reg_a (env : Env) (s : VIANVRAMState) (addr data : Nat)
    (haddr : addr &&& 1 ≠ 0) (hidx : s.cmos_index = RTC_REG_A) :
    cmos_ioport_write env s addr data = cmos_write_reg_a env s data := by
  unfold cmos_ioport_write
  rw [if_neg haddr, if_neg (by rw [hidx]; decide), if_neg (by rw [hidx]; decide),
    if_neg (by rw [hidx]; decide), if_pos hidx]

theorem cmos_write_reg_a_result (env : Env) (s s' : VIANVRAMState) (data : Nat)
    (h : cmos_write_reg_a env s data = some s') :
    s'.cmos_data RTC_REG_A = (cmos_write_reg_a_store env s data).cmos_data RTC_REG_A := by
  rw [cmos_write_reg_a_eq] at h
  split at h
  · exact absurd h (by simp)
  · rename_i s2 h2
    have hq := check_update_timer_quiet _ _ _ h
    have hq2 : Quiet (cmos_write_reg_a_store env s data) s2 := by
      split_ifs at h2
      · exact periodic_timer_update_quiet _ _ _ _ _ _ h2
      · simp only [Option.some.injEq] at h2
        subst h2
        exact quiet_refl _
    exact (hq2.chain hq).reg_a

theorem cmos_write_reg_a_isSome (env : Env) (s : VIANVRAMState) (data : Nat)
    (h : (s.cmos_data RTC_REG_A ^^^ data) &&& 0x0f = 0 ∨ s.cmos_data RTC_REG_B &&& REG_B_PIE = 0) :
    ∃ s', cmos_write_reg_a env s data = some s' := by
  obtain ⟨hn, -, -, hB, -⟩ := cmos_write_reg_a_store_facts env s data
  have hmid : ∃ s2, (if ((s.cmos_data RTC_REG_A ^^^ data) &&& 0x0f != 0) = true then
          periodic_timer_update env (cmos_write_reg_a_store env s data) env.now
            (rtc_periodic_clock_ticks env s) true
        else some (cmos_write_reg_a_store env s data)) = some s2 ∧
      Quiet (cmos_write_reg_a_store env s data) s2 := by
    by_cases hupd : ((s.cmos_data RTC_REG_A ^^^ data) &&& 0x0f != 0) = true
    · rw [if_pos hupd]
      have hpie : s.cmos_data RTC_REG_B &&& REG_B_PIE = 0 := by
        rcases h with h | h
        · simp only [bne_iff_ne, ne_eq] at hupd
          exact absurd h hupd
        · exact h
      have hz : rtc_periodic_clock_ticks env (cmos_write_reg_a_store env s data) = 0 := by
        unfold rtc_periodic_clock_ticks
        rw [hB, if_pos hpie]
      obtain ⟨s2, h2⟩ := periodic_timer_update_period_zero env _ env.now
        (rtc_periodic_clock_ticks env s) true hz
      exact ⟨s2, h2, periodic_timer_update_quiet _ _ _ _ _ _ h2⟩
    · rw [if_neg hupd]
      exact ⟨_, rfl, quiet_refl _⟩
  obtain ⟨s2, h2, hq⟩ := hmid
  rw [cmos_write_reg_a_eq, h2]
  exact check_update_timer_isSome env s2 (NoLatchedReset.of_quiet hq hn)

theorem cmos_write_reg_a_isSome_iff (env : Env) (s : VIANVRAMState) (data : Nat) :
    (∃ s', cmos_write_reg_a env s data = some s') ↔
    ((s.cmos_data RTC_REG_A ^^^ data) &&& 0x0f ≠ 0 →
      ∃ s2, periodic_timer_update env (cmos_write_reg_a_store env s data) env.now
        (rtc_periodic_clock_ticks env s) true = some s2) := by
  obtain ⟨hn, -, -, -, -⟩ := cmos_write_reg_a_store_facts env s data
  rw [cmos_write_reg_a_eq]
  by_cases hupd : (s.cmos_data RTC_REG_A ^^^ data) &&& 0x0f ≠ 0
  · have hb : ((s.cmos_data RTC_REG_A ^^^ data) &&& 0x0f != 0) = true := by
      simpa using hupd
    rw [if_pos hb]
    constructor
    · rintro ⟨s', h⟩ _
      split at h
      · exact absurd h (by simp)
      · rename_i s2 h2
        exact ⟨s2, h2⟩
    · intro h
      obtain ⟨s2, h2⟩ := h hupd
      rw [h2]
      exact check_update_timer_isSome env s2
        (NoLatchedReset.of_quiet (periodic_timer_update_quiet _ _ _ _ _ _ h2) hn)
  · have hb : ¬ ((s.cmos_data RTC_REG_A ^^^ data) &&& 0x0f != 0) = true := by
      simpa using hupd
    rw [if_neg hb]
    exact ⟨fun _ h => absurd h hupd, fun _ => check_update_timer_isSome env _ hn⟩

/-- C26: UIP is read-only.  For every state and every data byte `d`, a
data-port write to register A that completes leaves the low seven bits of the
stored register equal to `d AND 0x7F`, and bit 7 (UIP) of the stored register
set only if it was set before the write.  The write completes whenever it
leaves the rate selector as it is or the periodic interrupt is disabled; a
write that changes the rate completes exactly when `periodic_timer_update`
does. -/
theorem cmos_ioport_write_reg_a_uip (env : Env) (s : VIANVRAMState) (addr d : Nat)
    (haddr : addr &&& 1 ≠ 0) (hidx : s.cmos_index = RTC_REG_A) :
    (∀ s', cmos_ioport_write env s addr d = some s' →
      s'.cmos_data RTC_REG_A &&& 0x7f = d &&& 0x7f ∧
      (s'.cmos_data RTC_REG_A &&& REG_A_UIP ≠ 0 → s.cmos_data RTC_REG_A &&& REG_A_UIP ≠ 0)) ∧
    ((s.cmos_data RTC_REG_A ^^^ d) &&& 0x0f = 0 ∨ s.cmos_data RTC_REG_B &&& REG_B_PIE = 0 →
      ∃ s', cmos_ioport_write env s addr d = some s') ∧
    ((∃ s', cmos_ioport_write env s addr d = some s') ↔
      ((s.cmos_data RTC_REG_A ^^^ d) &&& 0x0f ≠ 0 →
        ∃ s2, periodic_timer_update env (cmos_write_reg_a_store env s d) env.now
          (rtc_periodic_clock_ticks env s) true = some s2)) := by
  rw [cmos_ioport_write_at_reg_a env s addr d haddr hidx]
  obtain ⟨-, hlow, hbit, -, -⟩ := cmos_write_reg_a_store_facts env s d
  refine ⟨fun s' h => ?_, cmos_write_reg_a_isSome env s d, cmos_write_reg_a_isSome_iff env s d⟩
  rw [cmos_write_reg_a_result env s s' d h]
  exact ⟨hlow, hbit⟩

set_option maxRecDepth 1000000 in
/-- The write of 0xA6 to register A of `regASelectedExample` (register A =
0x26) completes and stores 0x26: the written bit 7 is dropped. -/
theorem cmos_ioport_write_reg_a_uip_witness :
    (cmos_ioport_write exampleEnv regASelectedExample 1 0xa6).map
      (fun s => s.cmos_data RTC_REG_A) = some 0x26 ∧
    ∃ s', cmos_ioport_write exampleEnv regASelectedExample 1 0xa6 = some s' :=
  ⟨by decide,
    (cmos_ioport_write_reg_a_uip exampleEnv regASelectedExample 1 0xa6 (by decide)
      (by decide)).2.1 (Or.inl (by decide))⟩

theorem update_irq_bits (c b irqs : Nat) (due : Prop) (hirqs : (due ∧ irqs = 0x30) ∨ (¬ due ∧ irqs = 0x10)) :
    (irqs &&& (0xff ^^^ c) &&& b ≠ 0 ↔
      (c &&& 0x10 = 0 ∧ b &&& 0x10 ≠ 0) ∨ (due ∧ c &&& 0x20 = 0 ∧ b &&& 0x20 ≠ 0)) := by
  simp only [ne_eq, const_and_and irqs]
  rcases hirqs with ⟨hd, rfl⟩ | ⟨hd, rfl⟩ <;>
  simp only [and_0x10, and_0x20, and_0x30, Nat.testBit_and, Nat.testBit_xor, hd, true_and,
    false_and, or_false] <;>
  (generalize c.testBit 4 = c4
   generalize c.testBit 5 = c5
   generalize b.testBit 4 = b4
   generalize b.testBit 5 = b5
   revert c4 c5 b4 b5
   decide)

theorem update_c_bits (c irqs : Nat) (extra : Nat) (hx : extra = 0 ∨ extra = 0x80)
    (hirqs : irqs = 0x10 ∨ irqs = 0x30) :
    (((c ||| irqs) % 256 ||| extra) % 256) &&& 0x10 ≠ 0 ∧
    ((((c ||| irqs) % 256 ||| extra) % 256) &&& 0x20 ≠ 0 ↔ (irqs = 0x30 ∨ c &&& 0x20 ≠ 0)) ∧
    ((((c ||| irqs) % 256 ||| extra) % 256) &&& 0x40 ≠ 0 ↔ c &&& 0x40 ≠ 0) ∧
    ((((c ||| irqs) % 256 ||| extra) % 256) &&& 0x80 ≠ 0 ↔ (extra = 0x80 ∨ c &&& 0x80 ≠ 0)) := by
  rcases hx with rfl | rfl <;> rcases hirqs with rfl | rfl <;>
  simp +decide only [ne_eq, and_0x10, and_0x20, and_0x40, and_0x80, testBit_mod_256,
    Nat.testBit_or, true_or, false_or] <;>
  (generalize c.testBit 4 = c4
   generalize c.testBit 5 = c5
   generalize c.testBit 6 = c6
   generalize c.testBit 7 = c7
   revert c4 c5 c6 c7
   decide)

theorem rtc_update_timer_eq (env : Env) (s : VIANVRAMState)
    (hdiv : s.cmos_data RTC_REG_A &&& 0x60 ≠ 0x60) :
    rtc_update_timer env s = check_update_timer env (rtc_update_timer_flags env s) := by
  unfold rtc_update_timer rtc_update_timer_flags
  rw [if_neg hdiv]

theorem rtc_update_time_next_alarm_time (env : Env) (s : VIANVRAMState) :
    (rtc_update_time env s).next_alarm_time = s.next_alarm_time := by
  unfold rtc_update_time
  simp only []
  split_ifs
  · rw [rtc_set_cmos_eq]
  · rfl

theorem rtc_update_timer_flags_facts (env : Env) (s : VIANVRAMState) :
    (rtc_update_timer_flags env s).cmos_data RTC_REG_A =
      (s.cmos_data RTC_REG_A &&& (0xff ^^^ REG_A_UIP)) % 256 ∧
    (rtc_update_timer_flags env s).cmos_data RTC_REG_B = s.cmos_data RTC_REG_B ∧
    (rtc_update_timer_flags env s).cmos_data RTC_REG_C =
      ((s.cmos_data RTC_REG_C |||
          (if u64 env.now ≥ s.next_alarm_time then REG_C_UF ||| REG_C_AF else REG_C_UF)) % 256 |||
        (if (if u64 env.now ≥ s.next_alarm_time then REG_C_UF ||| REG_C_AF else REG_C_UF) &&&
            (0xff ^^^ s.cmos_data RTC_REG_C) &&& s.cmos_data RTC_REG_B ≠ 0 then REG_C_IRQF
          else 0)) % 256 ∧
    (rtc_update_timer_flags env s).irq =
      (if (if u64 env.now ≥ s.next_alarm_time then REG_C_UF ||| REG_C_AF else REG_C_UF) &&&
          (0xff ^^^ s.cmos_data RTC_REG_C) &&& s.cmos_data RTC_REG_B ≠ 0 then true
        else s.irq) := by
  have hu := rtc_update_time_updFrame env s
  have huA := hu.data RTC_REG_A (by decide) (by decide) (by decide) (by decide) (by decide)
    (by decide) (by decide) (by decide)
  have huB := hu.data RTC_REG_B (by decide) (by decide) (by decide) (by decide) (by decide)
    (by decide) (by decide) (by decide)
  have huC := hu.data RTC_REG_C (by decide) (by decide) (by decide) (by decide) (by decide)
    (by decide) (by decide) (by decide)
  have hun := rtc_update_time_next_alarm_time env s
  have hui := hu.irq
  unfold rtc_update_timer_flags
  generalize rtc_update_time env s = s0 at *
  simp only [store_cmos_data, store_next_alarm_time, store_irq]
  simp +decide only [if_true, if_false, huA, huB, huC, hun, hui]
  generalize (if u64 env.now ≥ s.next_alarm_time then REG_C_UF ||| REG_C_AF else REG_C_UF) =
    irqs
  by_cases hc : irqs &&& (0xff ^^^ s.cmos_data RTC_REG_C) &&& s.cmos_data RTC_REG_B ≠ 0
  · simp +decide [hc, store_cmos_data, huA, huB, hui]
  · simp +decide [hc, store_cmos_data, huA, huB, hui]

/-- C30: update-timer firing.  For every state with the dividers not in reset,
`rtc_update_timer` completes; afterwards the stored UIP bit is clear, register
C has UF set, AF is set if the clock is at or past `next_alarm_time` and
otherwise keeps its prior value, PF keeps its value, and IRQF is set and the
line raised exactly when a flag among UF and AF that was clear before and is
set now is enabled in register B; otherwise IRQF and the line are unchanged. -/
theorem rtc_update_timer_firing (env : Env) (s : VIANVRAMState)
    (hdiv : s.cmos_data RTC_REG_A &&& 0x60 ≠ 0x60) :
    ∃ s', rtc_update_timer env s = some s' ∧
      s'.cmos_data RTC_REG_A &&& REG_A_UIP = 0 ∧
      s'.cmos_data RTC_REG_C &&& REG_C_UF ≠ 0 ∧
      (s'.cmos_data RTC_REG_C &&& REG_C_AF ≠ 0 ↔
        (u64 env.now ≥ s.next_alarm_time ∨ s.cmos_data RTC_REG_C &&& REG_C_AF ≠ 0)) ∧
      (s'.cmos_data RTC_REG_C &&& REG_C_PF ≠ 0 ↔ s.cmos_data RTC_REG_C &&& REG_C_PF ≠ 0) ∧
      (if (s.cmos_data RTC_REG_C &&& REG_C_UF = 0 ∧ s.cmos_data RTC_REG_B &&& REG_B_UIE ≠ 0) ∨
          (u64 env.now ≥ s.next_alarm_time ∧ s.cmos_data RTC_REG_C &&& REG_C_AF = 0 ∧
            s.cmos_data RTC_REG_B &&& REG_B_AIE ≠ 0) then
        s'.cmos_data RTC_REG_C &&& REG_C_IRQF ≠ 0 ∧ s'.irq = true
      else
        (s'.cmos_data RTC_REG_C &&& REG_C_IRQF ≠ 0 ↔ s.cmos_data RTC_REG_C &&& REG_C_IRQF ≠ 0) ∧
        s'.irq = s.irq) := by
  obtain ⟨fA, fB, fC, fI⟩ := rtc_update_timer_flags_facts env s
  have hn : NoLatchedReset (rtc_update_timer_flags env s) := by
    intro _
    rw [fA]
    exact clear_uip_bits _
  obtain ⟨s', h'⟩ := check_update_timer_isSome env _ hn
  have hfr := check_update_timer_updFrame _ _ _ h'
  have hA := hfr.data RTC_REG_A (by decide) (by decide) (by decide) (by decide) (by decide)
    (by decide) (by decide) (by decide)
  have hC := hfr.data RTC_REG_C (by decide) (by decide) (by decide) (by decide) (by decide)
    (by decide) (by decide) (by decide)
  have hirqs : (u64 env.now ≥ s.next_alarm_time ∧
        (if u64 env.now ≥ s.next_alarm_time then REG_C_UF ||| REG_C_AF else REG_C_UF) = 0x30) ∨
      (¬ u64 env.now ≥ s.next_alarm_time ∧
        (if u64 env.now ≥ s.next_alarm_time then REG_C_UF ||| REG_C_AF else REG_C_UF) = 0x10) := by
    by_cases hd : u64 env.now ≥ s.next_alarm_time
    · exact Or.inl ⟨hd, by rw [if_pos hd]; rfl⟩
    · exact Or.inr ⟨hd, by rw [if_neg hd]⟩
  have hcond := update_irq_bits (s.cmos_data RTC_REG_C) (s.cmos_data RTC_REG_B) _ _ hirqs
  have hirqs' : (if u64 env.now ≥ s.next_alarm_time then REG_C_UF ||| REG_C_AF else REG_C_UF) =
      0x10 ∨ (if u64 env.now ≥ s.next_alarm_time then REG_C_UF ||| REG_C_AF else REG_C_UF) =
      0x30 := by
    rcases hirqs with h | h
    · exact Or.inr h.2
    · exact Or.inl h.2
  have h30 : (if u64 env.now ≥ s.next_alarm_time then REG_C_UF ||| REG_C_AF else REG_C_UF) =
      0x30 ↔ u64 env.now ≥ s.next_alarm_time := by
    rcases hirqs with h | h
    · exact ⟨fun _ => h.1, fun _ => h.2⟩
    · rw [h.2]
      exact ⟨fun hx => absurd hx (by decide), fun hx => absurd hx h.1⟩
  generalize (if u64 env.now ≥ s.next_alarm_time then REG_C_UF ||| REG_C_AF else REG_C_UF) =
    irqs at *
  rw [rtc_update_timer_eq env s hdiv, h']
  refine ⟨s', rfl, ?_, ?_⟩
  · rw [hA, fA]
    exact clear_uip_bits _
  · rw [hC, fC, hfr.irq, fI]
    by_cases hc : irqs &&& (0xff ^^^ s.cmos_data RTC_REG_C) &&& s.cmos_data RTC_REG_B ≠ 0
    · obtain ⟨b1, b2, b3, b4⟩ := update_c_bits (s.cmos_data RTC_REG_C) irqs 0x80 (Or.inr rfl) hirqs'
      rw [if_pos hc, if_pos hc, if_pos (hcond.mp hc)]
      refine ⟨b1, ?_, b3, ?_, rfl⟩
      · rw [← h30]
        exact b2
      · exact b4.mpr (Or.inl rfl)
    · obtain ⟨b1, b2, b3, b4⟩ := update_c_bits (s.cmos_data RTC_REG_C) irqs 0 (Or.inl rfl) hirqs'
      rw [if_neg hc, if_neg hc, if_neg (fun h => hc (hcond.mpr h))]
      refine ⟨b1, ?_, b3, ?_, rfl⟩
      · rw [← h30]
        exact b2
      · rw [b4]
        simp

set_option maxRecDepth 1000000 in
/-- The firing of the update timer in `enabledExample` one second after attach:
the update-ended interrupt is enabled, so register C becomes 0x90 and the line
is raised. -/
theorem rtc_update_timer_firing_witness :
    enabledExample.cmos_data RTC_REG_A &&& 0x60 ≠ 0x60 ∧
    (rtc_update_timer exampleEnvLater enabledExample).map
      (fun s => (s.cmos_data RTC_REG_C, s.irq)) = some (0x90, true) ∧
    ∃ s', rtc_update_timer exampleEnvLater enabledExample = some s' ∧
      s'.cmos_data RTC_REG_A &&& REG_A_UIP = 0 ∧ s'.cmos_data RTC_REG_C &&& REG_C_UF ≠ 0 :=
  ⟨by decide, by decide,
    (rtc_update_timer_firing exampleEnvLater enabledExample (by decide)).elim
      fun s' h => ⟨s', h.1, h.2.1, h.2.2.1⟩⟩

theorem cmos_write_reg_b_set_frame (env : Env) (s : VIANVRAMState) (data : Nat) :
    (cmos_write_reg_b_set env s data).1.cmos_data RTC_REG_C = s.cmos_data RTC_REG_C ∧
    (cmos_write_reg_b_set env s data).1.periodic_timer = s.periodic_timer ∧
    (cmos_write_reg_b_set env s data).1.period = s.period ∧
    (cmos_write_reg_b_set env s data).1.irq_coalesced = s.irq_coalesced := by
  unfold cmos_write_reg_b_set
  have hu := rtc_update_time_updFrame env s
  have hC := hu.data RTC_REG_C (by decide) (by decide) (by decide) (by decide) (by decide)
    (by decide) (by decide) (by decide)
  split_ifs
  · refine ⟨?_, hu.periodic_timer, hu.period, hu.irq_coalesced⟩
    simp only [store_cmos_data]
    rw [if_neg (by decide)]
    exact hC
  · exact ⟨rfl, rfl, rfl, rfl⟩
  · exact ⟨rfl, rfl, rfl, rfl⟩
  · exact ⟨rfl, rfl, rfl, rfl⟩

theorem summary_only_bits (c : Nat) :
    ((c ||| 0x80) % 256) &&& 0x7f = c &&& 0x7f ∧
    ((c &&& (0xff ^^^ 0x80)) % 256) &&& 0x7f = c &&& 0x7f := by
  constructor <;>
  · apply Nat.eq_of_testBit_eq
    intro i
    simp only [Nat.testBit_and, Nat.testBit_or, Nat.testBit_xor, testBit_mod_256]
    by_cases hi : i < 8
    · interval_cases i <;>
        (simp +decide only []; generalize Nat.testBit c _ = b; revert b; decide)
    · have h7 : Nat.testBit 0x7f i = false :=
        Nat.testBit_eq_false_of_lt (lt_of_lt_of_le (by decide : 0x7f < 2 ^ 8)
          (Nat.pow_le_pow_right (by decide) (by omega)))
      rw [h7]
      simp

theorem cmos_write_reg_b_irq_frame (s : VIANVRAMState) (data : Nat) :
    (cmos_write_reg_b_irq s data).cmos_data RTC_REG_C &&& 0x7f = s.cmos_data RTC_REG_C &&& 0x7f ∧
    (cmos_write_reg_b_irq s data).periodic_timer = s.periodic_timer ∧
    (cmos_write_reg_b_irq s data).period = s.period := by
  obtain ⟨h1, h2⟩ := summary_only_bits (s.cmos_data RTC_REG_C)
  unfold cmos_write_reg_b_irq
  simp only []
  split_ifs
  · refine ⟨?_, rfl, rfl⟩
    simp +decide only [store_cmos_data, if_true, if_false]
    exact h1
  · refine ⟨?_, rfl, rfl⟩
    simp +decide only [store_cmos_data, if_true, if_false]
    exact h2

theorem periodic_timer_update_disabled (env : Env) (s : VIANVRAMState) (ct op : Int) (pc : Bool)
    (h : rtc_periodic_clock_ticks env s = 0) :
    periodic_timer_update env s ct op pc =
      some { s with period := 0, irq_coalesced := 0, periodic_timer := timer_del } := by
  unfold periodic_timer_update
  simp only []
  rw [if_pos h, h]

theorem low_bits_flags (a b : Nat) (h : a &&& 0x7f = b &&& 0x7f) :
    a &&& REG_C_UF = b &&& REG_C_UF ∧ a &&& REG_C_AF = b &&& REG_C_AF ∧
    a &&& REG_C_PF = b &&& REG_C_PF := by
  have e : ∀ x m : Nat, m &&& 0x7f = m → x &&& m = (x &&& 0x7f) &&& m := by
    intro x m hm
    rw [Nat.and_assoc, Nat.and_comm 0x7f m, hm]
  refine ⟨?_, ?_, ?_⟩
  · rw [e a _ (by decide), e b _ (by decide), h]
  · rw [e a _ (by decide), e b _ (by decide), h]
  · rw [e a _ (by decide), e b _ (by decide), h]

theorem cmos_ioport_write_at_reg_b (env : Env) (s : VIANVRAMState) (addr d : Nat)
    (haddr : addr &&& 1 ≠ 0) (hidx : s.cmos_index = RTC_REG_B) :
    cmos_ioport_write env s addr d = cmos_write_reg_b env s d := by
  unfold cmos_ioport_write
  rw [if_neg haddr, hidx]
  simp +decide only [if_true, if_false, or_self]

/-- C25: a write to register B keeps the latched flags.  With register B
selected, a data-port write completes in every state that satisfies the
assertion of `check_update_timer`; every completed write leaves bits 0..6 of
register C as they were, in particular UF, AF and PF, so at most IRQF changes;
and when the write clears PIE (set in register B before, clear in the byte
written) the periodic timer is cancelled and `period` and `irq_coalesced` are
0 afterwards. -/
theorem cmos_ioport_write_reg_b_flags (env : Env) (s : VIANVRAMState) (addr d : Nat)
    (haddr : addr &&& 1 ≠ 0) (hidx : s.cmos_index = RTC_REG_B) :
    (NoLatchedReset s → ∃ s', cmos_ioport_write env s addr d = some s') ∧
    ∀ s', cmos_ioport_write env s addr d = some s' →
      s'.cmos_data RTC_REG_C &&& 0x7f = s.cmos_data RTC_REG_C &&& 0x7f ∧
      s'.cmos_data RTC_REG_C &&& REG_C_UF = s.cmos_data RTC_REG_C &&& REG_C_UF ∧
      s'.cmos_data RTC_REG_C &&& REG_C_AF = s.cmos_data RTC_REG_C &&& REG_C_AF ∧
      s'.cmos_data RTC_REG_C &&& REG_C_PF = s.cmos_data RTC_REG_C &&& REG_C_PF ∧
      (s.cmos_data RTC_REG_B &&& REG_B_PIE ≠ 0 → d &&& REG_B_PIE = 0 →
        s'.periodic_timer = none ∧ s'.period = 0 ∧ s'.irq_coalesced = 0) := by
  rw [cmos_ioport_write_at_reg_b env s addr d haddr hidx]
  unfold cmos_write_reg_b
  simp only []
  obtain ⟨hn, -, -⟩ := cmos_write_reg_b_set_effect env s d
  obtain ⟨-, hpie⟩ := cmos_write_reg_b_set_ctl env s d
  obtain ⟨fC, fT, fP, fQ⟩ := cmos_write_reg_b_set_frame env s d
  generalize cmos_write_reg_b_set env s d = r at *
  obtain ⟨hB, -, -, -⟩ := cmos_write_reg_b_irq_ctl r.1 r.2
  obtain ⟨hA, -⟩ := cmos_write_reg_b_irq_effect r.1 r.2
  obtain ⟨gC, gT, gP⟩ := cmos_write_reg_b_irq_frame r.1 r.2
  generalize cmos_write_reg_b_irq r.1 r.2 = s1 at *
  have hpie1 : s1.cmos_data RTC_REG_B &&& REG_B_PIE = d &&& REG_B_PIE := by
    rw [hB, land_mod_256 _ _ (by decide), hpie]
  obtain ⟨s2, h2, hfr⟩ := cmos_write_reg_b_periodic env s s1 d hpie1
  rw [h2]
  simp only []
  constructor
  · intro hs
    apply check_update_timer_isSome
    have h1 : NoLatchedReset s1 := by
      have := hn hs
      unfold NoLatchedReset at this ⊢
      rw [hA]
      exact this
    have := h1
    unfold NoLatchedReset at this
    rw [hfr.cmos_data]
    exact this
  · intro s' h'
    have hu := check_update_timer_updFrame _ _ _ h'
    have hC := hu.data RTC_REG_C (by decide) (by decide) (by decide) (by decide) (by decide)
      (by decide) (by decide) (by decide)
    have hlow : s'.cmos_data RTC_REG_C &&& 0x7f = s.cmos_data RTC_REG_C &&& 0x7f := by
      rw [hC, hfr.cmos_data, gC, fC]
    obtain ⟨l1, l2, l3⟩ := low_bits_flags _ _ hlow
    refine ⟨hlow, l1, l2, l3, fun hold hnew => ?_⟩
    have hupd : ((s.cmos_data RTC_REG_B ^^^ d) &&& REG_B_PIE != 0) = true := by
      have : (s.cmos_data RTC_REG_B ^^^ d) &&& REG_B_PIE ≠ 0 := by
        intro hx
        exact hold ((xor_and_eq_zero _ _ _ hx).trans hnew)
      simpa using this
    have h0 : rtc_periodic_clock_ticks env s1 = 0 := by
      unfold rtc_periodic_clock_ticks
      rw [if_pos (hpie1.trans hnew)]
    rw [if_pos hupd, periodic_timer_update_disabled env s1 _ _ _ h0] at h2
    simp only [Option.some.injEq] at h2
    subst h2
    exact ⟨hu.periodic_timer, hu.period, hu.irq_coalesced⟩

set_option maxRecDepth 1000000 in
/-- The write of 0x12 to register B in `enabledExample`, where PIE is set: the
write completes, the periodic timer is cancelled and register C is
unchanged. -/
theorem cmos_ioport_write_reg_b_flags_witness :
    enabledExample.cmos_index = RTC_REG_B ∧
    enabledExample.cmos_data RTC_REG_B &&& REG_B_PIE ≠ 0 ∧
    enabledExample.periodic_timer ≠ none ∧
    (cmos_ioport_write exampleEnv enabledExample 1 0x12).map
      (fun s => (s.cmos_data RTC_REG_B, s.cmos_data RTC_REG_C, s.periodic_timer)) =
      some (0x12, 0, none) ∧
    ∀ s', cmos_ioport_write exampleEnv enabledExample 1 0x12 = some s' →
      s'.periodic_timer = none ∧ s'.period = 0 ∧ s'.irq_coalesced = 0 :=
  ⟨by decide, by decide, by decide, by decide, fun s' h =>
    ((cmos_ioport_write_reg_b_flags exampleEnv enabledExample 1 0x12 (by decide)
      (by decide)).2 s' h).2.2.2.2 (by decide) (by decide)⟩

theorem DividerInv.of_same {s s' : VIANVRAMState} (h : SameDivider s s') (hi : DividerInv s) :
    DividerInv s' := by
  unfold DividerInv
  rw [h.1, h.2]
  exact hi

theorem sameDivider_refl (s : VIANVRAMState) : SameDivider s s := ⟨rfl, rfl⟩

theorem sameDivider_chain {a b c : VIANVRAMState} (h1 : SameDivider a b)
    (h2 : SameDivider b c) : SameDivider a c :=
  ⟨h2.1.trans h1.1, h2.2.trans h1.2⟩

theorem store_sameDivider (s : VIANVRAMState) (i v : Nat) (h : i ≠ RTC_REG_A) :
    SameDivider s (s.store i v) :=
  ⟨by rw [store_cmos_data, if_neg (Ne.symm h)], rfl⟩

theorem rtc_update_time_sameDivider (env : Env) (s : VIANVRAMState) :
    SameDivider s (rtc_update_time env s) := by
  refine ⟨(rtc_update_time_quiet env s).reg_a, ?_⟩
  unfold rtc_update_time
  simp only []
  split_ifs
  · rw [rtc_set_cmos_eq]
  · rfl

theorem check_update_timer_dividerInv (env : Env) (s s' : VIANVRAMState)
    (h : check_update_timer env s = some s') : DividerInv s' := by
  have hq := check_update_timer_quiet env s s' h
  by_cases h1 : s.cmos_data RTC_REG_A &&& 0x60 = 0x60
  · unfold check_update_timer at h
    rw [if_pos h1] at h
    split_ifs at h with h2
    simp only [Option.some.injEq] at h
    subst h
    exact fun _ => ⟨rfl, h2⟩
  · intro hx
    rw [hq.reg_a] at hx
    exact absurd hx h1

theorem cmos_write_calendar_dividerInv (env : Env) (s s' : VIANVRAMState) (data : Nat)
    (ha : s.cmos_index ≠ RTC_REG_A) (hi : DividerInv s)
    (h : cmos_write_calendar env s data = some s') : DividerInv s' := by
  unfold cmos_write_calendar at h
  simp only [] at h
  split_ifs at h
  · exact check_update_timer_dividerInv _ _ _ h
  · simp only [Option.some.injEq] at h
    subst h
    exact DividerInv.of_same (store_sameDivider s _ data ha) hi

theorem cmos_write_reg_a_dividerInv (env : Env) (s s' : VIANVRAMState) (data : Nat)
    (h : cmos_write_reg_a env s data = some s') : DividerInv s' := by
  rw [cmos_write_reg_a_eq] at h
  split at h
  · exact absurd h (by simp)
  · exact check_update_timer_dividerInv _ _ _ h

theorem cmos_write_reg_b_dividerInv (env : Env) (s s' : VIANVRAMState) (data : Nat)
    (h : cmos_write_reg_b env s data = some s') : DividerInv s' := by
  unfold cmos_write_reg_b at h
  simp only [] at h
  split at h
  · exact absurd h (by simp)
  · exact check_update_timer_dividerInv _ _ _ h

theorem cmos_ioport_write_dividerInv (env : Env) (s s' : VIANVRAMState) (addr data : Nat)
    (h : cmos_ioport_write env s addr data = some s') (hi : DividerInv s) : DividerInv s' := by
  unfold cmos_ioport_write at h
  split_ifs at h with h0 h1 h2 h3 h4 h5 h6
  · simp only [Option.some.injEq] at h
    subst h
    exact DividerInv.of_same ⟨rfl, rfl⟩ hi
  · exact check_update_timer_dividerInv _ _ _ h
  · exact cmos_write_calendar_dividerInv env _ _ data (by simp)
      (DividerInv.of_same (⟨rfl, rfl⟩ : SameDivider s { s with cmos_index := RTC_CENTURY }) hi) h
  · refine cmos_write_calendar_dividerInv env _ _ data ?_ hi h
    rcases h3 with h | h | h | h | h | h | h | h <;> rw [h] <;> decide
  · exact cmos_write_reg_a_dividerInv env s s' data h
  · exact cmos_write_reg_b_dividerInv env s s' data h
  · simp only [Option.some.injEq] at h
    subst h
    exact hi
  · simp only [Option.some.injEq] at h
    subst h
    exact DividerInv.of_same (store_sameDivider s _ data h4) hi

theorem rtc_running_divider (s : VIANVRAMState) (hrun : rtc_running s = true) :
    s.cmos_data RTC_REG_A &&& 0x60 ≠ 0x60 := by
  apply not_divider_reset
  unfold rtc_running at hrun
  simp only [Bool.and_eq_true, beq_iff_eq, decide_eq_true_eq] at hrun
  exact hrun.2

theorem update_in_progress_stopped (env : Env) (s : VIANVRAMState)
    (h : s.cmos_data RTC_REG_A &&& 0x60 = 0x60) : update_in_progress env s = (s, false) := by
  unfold update_in_progress
  have hrun : ¬ rtc_running s = true := fun hr => rtc_running_divider s hr h
  rw [if_pos hrun]

theorem update_in_progress_dividerInv (env : Env) (s : VIANVRAMState) (hi : DividerInv s) :
    DividerInv (update_in_progress env s).1 := by
  by_cases hrun : rtc_running s = true
  · have hdiv := rtc_running_divider s hrun
    unfold update_in_progress
    rw [if_neg (by simpa using hrun)]
    simp only []
    split_ifs
    · intro hx
      simp only [store_cmos_data, if_true] at hx
      exact absurd hx (set_uip_bits _ hdiv)
    · exact hi
    · exact hi
  · unfold update_in_progress
    rw [if_pos hrun]
    exact hi

theorem cmos_read_calendar_sameDivider (env : Env) (s : VIANVRAMState) :
    SameDivider s (cmos_read_calendar env s).1 := by
  unfold cmos_read_calendar
  simp only []
  split_ifs
  · exact rtc_update_time_sameDivider env s
  · exact sameDivider_refl s

theorem cmos_read_reg_c_dividerInv (env : Env) (s : VIANVRAMState) (r : VIANVRAMState × Nat)
    (h : cmos_read_reg_c env s = some r) (hi : DividerInv s) : DividerInv r.1 := by
  unfold cmos_read_reg_c at h
  simp only [] at h
  split at h
  · exact absurd h (by simp)
  · rename_i s1 h1
    have hi1 : DividerInv s1 := by
      split_ifs at h1
      · exact check_update_timer_dividerInv _ _ _ h1
      · simp only [Option.some.injEq] at h1
        subst h1
        exact DividerInv.of_same (store_sameDivider _ _ _ (by decide))
          (DividerInv.of_same (⟨rfl, rfl⟩ : SameDivider s { s with irq := false }) hi)
    clear h1
    simp only [rtc_policy_slew_deliver_irq] at h
    split_ifs at h <;> simp only [Option.some.injEq] at h <;> subst h <;> exact hi1

theorem cmos_ioport_read_dividerInv (env : Env) (s : VIANVRAMState) (addr : Nat)
    (r : VIANVRAMState × Nat) (h : cmos_ioport_read env s addr = some r) (hi : DividerInv s) :
    DividerInv r.1 := by
  unfold cmos_ioport_read at h
  split_ifs at h with h0 h1 h2 h3 h4
  · simp only [Option.some.injEq] at h
    subst h
    exact hi
  · simp only [Option.some.injEq] at h
    subst h
    exact DividerInv.of_same (sameDivider_chain
      (⟨rfl, rfl⟩ : SameDivider s { s with cmos_index := RTC_CENTURY })
      (cmos_read_calendar_sameDivider env _)) hi
  · simp only [Option.some.injEq] at h
    subst h
    exact DividerInv.of_same (cmos_read_calendar_sameDivider env _) hi
  · simp only [Option.some.injEq] at h
    subst h
    exact update_in_progress_dividerInv env s hi
  · exact cmos_read_reg_c_dividerInv env s r h hi
  · simp only [Option.some.injEq] at h
    subst h
    exact hi

theorem cmos_extended_ioport_read_dividerInv (env : Env) (s : VIANVRAMState) (addr : Nat)
    (r : VIANVRAMState × Nat) (h : cmos_extended_ioport_read env s addr = some r)
    (hi : DividerInv s) : DividerInv r.1 := by
  unfold cmos_extended_ioport_read at h
  split_ifs at h
  · simp only [Option.some.injEq] at h
    subst h
    exact hi
  · exact cmos_ioport_read_dividerInv env s addr r h hi
  · simp only [Option.some.injEq] at h
    subst h
    exact hi

theorem cmos_extended_ioport_write_sameDivider (fuel : Nat) (env : Env) (s s' : VIANVRAMState)
    (addr data : Nat) (h : cmos_extended_ioport_write fuel env s addr data = some s') :
    SameDivider s s' := by
  induction fuel with
  | zero => exact absurd h (by simp [cmos_extended_ioport_write])
  | succ n ih =>
    unfold cmos_extended_ioport_write at h
    split_ifs at h with ha hidx
    · simp only [Option.some.injEq] at h
      subst h
      exact store_sameDivider s _ data
        (by intro hh; rw [hh] at hidx; exact absurd hidx (by decide))
    · exact ih h
    · simp only [Option.some.injEq] at h
      subst h
      exact ⟨rfl, rfl⟩

theorem rtc_periodic_timer_sameDivider (env : Env) (s s' : VIANVRAMState)
    (h : rtc_periodic_timer env s = some s') : SameDivider s s' := by
  unfold rtc_periodic_timer at h
  split at h
  · exact absurd h (by simp)
  · rename_i s1 h1
    have hf := periodic_timer_update_frame _ _ _ _ _ _ h1
    clear h1
    simp only [rtc_policy_slew_deliver_irq, rtc_coalesced_timer_update_eq] at h
    split_ifs at h <;> simp only [Option.some.injEq] at h <;> subst h <;>
      exact ⟨by simp +decide [store_cmos_data, hf.cmos_data], by simp [hf.update_timer]⟩

theorem rtc_coalesced_timer_sameDivider (env : Env) (s : VIANVRAMState) :
    SameDivider s (rtc_coalesced_timer env s) := by
  unfold rtc_coalesced_timer
  simp only [rtc_policy_slew_deliver_irq, rtc_coalesced_timer_update_eq]
  split_ifs <;> exact ⟨by simp +decide [store_cmos_data], by simp⟩

theorem rtc_update_timer_dividerInv (env : Env) (s s' : VIANVRAMState)
    (h : rtc_update_timer env s = some s') : DividerInv s' := by
  unfold rtc_update_timer at h
  split_ifs at h
  exact check_update_timer_dividerInv _ _ _ h

theorem rtc_reset_dividerInv (env : Env) (s s' : VIANVRAMState)
    (h : rtc_reset env s = some s') : DividerInv s' := by
  unfold rtc_reset rtc_reset_enter at h
  simp only [] at h
  split at h
  · exact absurd h (by simp)
  · rename_i s1 h1
    have hi1 := check_update_timer_dividerInv _ _ _ h1
    clear h1
    split_ifs at h <;> simp only [Option.map_some', Option.some.injEq] at h <;> subst h <;>
      exact DividerInv.of_same ⟨rfl, rfl⟩ hi1

theorem exec_dividerInv (env : Env) (op : Op) (s s' : VIANVRAMState)
    (h : exec env s op = some s') (hi : DividerInv s) : DividerInv s' := by
  cases op with
  | io_write addr data => exact cmos_ioport_write_dividerInv env s s' addr data h hi
  | io_read addr =>
    simp only [exec, Option.map_eq_some'] at h
    obtain ⟨r, hr, rfl⟩ := h
    exact cmos_ioport_read_dividerInv env s addr r hr hi
  | ext_write fuel addr data =>
    exact DividerInv.of_same (cmos_extended_ioport_write_sameDivider fuel env s s' addr data h) hi
  | ext_read addr =>
    simp only [exec, Option.map_eq_some'] at h
    obtain ⟨r, hr, rfl⟩ := h
    exact cmos_extended_ioport_read_dividerInv env s addr r hr hi
  | periodic_timer =>
    simp only [exec] at h
    split_ifs at h
    exact DividerInv.of_same (sameDivider_chain
      (⟨rfl, rfl⟩ : SameDivider s { s with periodic_timer := none })
      (rtc_periodic_timer_sameDivider env _ s' h)) hi
  | coalesced_timer =>
    simp only [exec] at h
    split_ifs at h
    simp only [Option.some.injEq] at h
    subst h
    exact DividerInv.of_same (sameDivider_chain
      (⟨rfl, rfl⟩ : SameDivider s { s with coalesced_timer := none })
      (rtc_coalesced_timer_sameDivider env _)) hi
  | update_timer =>
    simp only [exec] at h
    split_ifs at h
    exact rtc_update_timer_dividerInv env _ s' h
  | reset => exact rtc_reset_dividerInv env s s' h

theorem reachable_dividerInv (s : VIANVRAMState) (h : Reachable s) : DividerInv s := by
  induction h with
  | attach env isairq base_year policy s h =>
    intro hx
    rw [(rtc_realizefn_init env isairq base_year policy s h).1] at hx
    exact absurd hx (by decide)
  | step env op s s' _ h ih => exact exec_dividerInv env op s s' h ih

theorem cmos_write_calendar_isSome (env : Env) (s : VIANVRAMState) (data : Nat)
    (ha : s.cmos_index ≠ RTC_REG_A) (hn : NoLatchedReset s) :
    ∃ s', cmos_write_calendar env s data = some s' := by
  unfold cmos_write_calendar
  simp only []
  split_ifs
  · exact check_update_timer_isSome env _
      (NoLatchedReset.of_quiet ((store_quiet s _ data ha).chain (rtc_set_time_quiet env _)) hn)
  · exact ⟨_, rfl⟩

theorem cmos_write_reg_b_isSome (env : Env) (s : VIANVRAMState) (data : Nat)
    (hs : NoLatchedReset s) : ∃ s', cmos_write_reg_b env s data = some s' := by
  unfold cmos_write_reg_b
  simp only []
  obtain ⟨hn, -, -⟩ := cmos_write_reg_b_set_effect env s data
  obtain ⟨-, hpie⟩ := cmos_write_reg_b_set_ctl env s data
  generalize cmos_write_reg_b_set env s data = r at *
  obtain ⟨hB, -, -, -⟩ := cmos_write_reg_b_irq_ctl r.1 r.2
  obtain ⟨hA, -⟩ := cmos_write_reg_b_irq_effect r.1 r.2
  generalize cmos_write_reg_b_irq r.1 r.2 = s1 at *
  have hpie1 : s1.cmos_data RTC_REG_B &&& REG_B_PIE = data &&& REG_B_PIE := by
    rw [hB, land_mod_256 _ _ (by decide), hpie]
  obtain ⟨s2, h2, hfr⟩ := cmos_write_reg_b_periodic env s s1 data hpie1
  rw [h2]
  simp only []
  apply check_update_timer_isSome
  have := hn hs
  unfold NoLatchedReset at this
  rw [hfr.cmos_data, hA]
  exact this

theorem cmos_ioport_write_isSome (env : Env) (s : VIANVRAMState) (addr data : Nat)
    (hn : NoLatchedReset s) :
    (∃ s', cmos_ioport_write env s addr data = some s') ∨
    (addr &&& 1 ≠ 0 ∧ s.cmos_index = RTC_REG_A ∧
      (s.cmos_data RTC_REG_A ^^^ data) &&& 0x0f ≠ 0 ∧
      periodic_timer_update env (cmos_write_reg_a_store env s data) env.now
        (rtc_periodic_clock_ticks env s) true = none) := by
  unfold cmos_ioport_write
  split_ifs with h0 h1 h2 h3 h4 h5 h6
  · exact Or.inl ⟨_, rfl⟩
  · refine Or.inl (check_update_timer_isSome env _ (NoLatchedReset.of_quiet
      (store_quiet s _ data ?_) hn))
    rcases h1 with h | h | h <;> rw [h] <;> decide
  · exact Or.inl (cmos_write_calendar_isSome env _ data (by simp)
      (NoLatchedReset.of_quiet (⟨rfl, rfl, rfl⟩ : Quiet s { s with cmos_index := RTC_CENTURY })
        hn))
  · refine Or.inl (cmos_write_calendar_isSome env s data ?_ hn)
    rcases h3 with h | h | h | h | h | h | h | h <;> rw [h] <;> decide
  · by_cases hupd : (s.cmos_data RTC_REG_A ^^^ data) &&& 0x0f ≠ 0
    · cases hp : periodic_timer_update env (cmos_write_reg_a_store env s data) env.now
          (rtc_periodic_clock_ticks env s) true with
      | none => exact Or.inr ⟨h0, h4, hupd, rfl⟩
      | some s2 => exact Or.inl ((cmos_write_reg_a_isSome_iff env s data).mpr fun _ => ⟨s2, hp⟩)
    · exact Or.inl ((cmos_write_reg_a_isSome_iff env s data).mpr fun h => absurd h hupd)
  · exact Or.inl (cmos_write_reg_b_isSome env s data hn)
  · exact Or.inl ⟨_, rfl⟩
  · exact Or.inl ⟨_, rfl⟩

theorem cmos_ioport_read_isSome (env : Env) (s : VIANVRAMState) (addr : Nat)
    (hn : NoLatchedReset s) : ∃ r, cmos_ioport_read env s addr = some r := by
  unfold cmos_ioport_read
  split_ifs
  · exact ⟨_, rfl⟩
  · exact ⟨_, rfl⟩
  · exact ⟨_, rfl⟩
  · exact ⟨_, rfl⟩
  · exact cmos_read_reg_c_isSome env s hn
  · exact ⟨_, rfl⟩

theorem cmos_ioport_read_reg_a_stopped (env : Env) (s : VIANVRAMState) (addr : Nat)
    (haddr : addr &&& 1 ≠ 0) (hidx : s.cmos_index = RTC_REG_A)
    (hdiv : s.cmos_data RTC_REG_A &&& 0x60 = 0x60) :
    cmos_ioport_read env s addr = some (s, s.cmos_data RTC_REG_A) := by
  unfold cmos_ioport_read
  rw [if_neg haddr, hidx]
  simp +decide only [if_true, if_false, or_self]
  rw [update_in_progress_stopped env s hdiv]
  simp

theorem timer_expired_pending (t : Option Int) (now : Int) (h : timer_expired t now = true) :
    t ≠ none := by
  intro ht
  rw [ht] at h
  exact absurd h (by simp [timer_expired])

/-- C21: the divider-reset invariant.  In every state reachable from attach
by guest port accesses, timer callbacks and reset: if register A holds the
dividers in reset, the update timer is not pending, the stored UIP bit is 0
and a data-port read of register A completes and returns a byte with bit 7
clear.  Hence the two assertions never fail: `check_update_timer` completes on
the state, the update timer callback completes whenever the timer is due, and
every port read, every reset and every port write completes, except a write to
register A that changes the rate and fails inside `periodic_timer_update`. -/
theorem divider_reset_invariant (s : VIANVRAMState) (h : Reachable s) :
    (s.cmos_data RTC_REG_A &&& 0x60 = 0x60 →
      s.update_timer = none ∧ s.cmos_data RTC_REG_A &&& REG_A_UIP = 0 ∧
      ∀ env addr, addr &&& 1 ≠ 0 → s.cmos_index = RTC_REG_A →
        ∃ r, cmos_ioport_read env s addr = some r ∧ r.2 &&& 0x80 = 0) ∧
    ∀ env : Env,
      (∃ s', check_update_timer env s = some s') ∧
      (timer_expired s.update_timer env.now = true →
        ∃ s', exec env s Op.update_timer = some s') ∧
      (∀ addr, ∃ r, cmos_ioport_read env s addr = some r) ∧
      (∀ addr, ∃ r, cmos_extended_ioport_read env s addr = some r) ∧
      (∃ s', rtc_reset env s = some s') ∧
      (∀ addr d, (∃ s', cmos_ioport_write env s addr d = some s') ∨
        (addr &&& 1 ≠ 0 ∧ s.cmos_index = RTC_REG_A ∧
          (s.cmos_data RTC_REG_A ^^^ d) &&& 0x0f ≠ 0 ∧
          periodic_timer_update env (cmos_write_reg_a_store env s d) env.now
            (rtc_periodic_clock_ticks env s) true = none)) := by
  have hi := reachable_dividerInv s h
  have hn := reachable_noLatchedReset s h
  refine ⟨fun hdiv => ⟨(hi hdiv).1, (hi hdiv).2, fun env addr haddr hidx =>
    ⟨_, cmos_ioport_read_reg_a_stopped env s addr haddr hidx hdiv, (hi hdiv).2⟩⟩,
    fun env => ⟨check_update_timer_isSome env s hn, fun hdue => ?_,
      fun addr => cmos_ioport_read_isSome env s addr hn, fun addr => ?_, ?_,
      fun addr d => cmos_ioport_write_isSome env s addr d hn⟩⟩
  · have hdiv : s.cmos_data RTC_REG_A &&& 0x60 ≠ 0x60 :=
      fun hx => timer_expired_pending _ _ hdue (hi hx).1
    simp only [exec]
    rw [if_pos hdue]
    have hdiv2 : ({ s with update_timer := none } : VIANVRAMState).cmos_data RTC_REG_A &&& 0x60 ≠
        0x60 := hdiv
    rw [rtc_update_timer_eq env _ hdiv2]
    apply check_update_timer_isSome
    intro _
    rw [(rtc_update_timer_flags_facts env _).1]
    exact clear_uip_bits _
  · unfold cmos_extended_ioport_read
    split_ifs
    · exact ⟨_, rfl⟩
    · exact cmos_ioport_read_isSome env s addr hn
    · exact ⟨_, rfl⟩
  · obtain ⟨s2, s', -, h', -⟩ := rtc_reset_some env s hn
    exact ⟨s', h'⟩

set_option maxRecDepth 1000000 in
theorem dividerResetExample_reachable : Reachable dividerResetExample :=
  Reachable.step exampleEnv (Op.io_write 1 0x66) regASelectedExample dividerResetExample
    (Reachable.step exampleEnv (Op.io_write 0 10) attachedExample regASelectedExample
      attachedExample_reachable (getD_of_isSome _ _ (by decide)))
    (getD_of_isSome _ _ (by decide))

set_option maxRecDepth 1000000 in
/-- The state after the guest has written 0x66 to register A is reachable and
holds the dividers in reset: the update timer armed at attach is cancelled and
a read of register A returns 0x66. -/
theorem divider_reset_invariant_witness :
    Reachable dividerResetExample ∧
    attachedExample.update_timer ≠ none ∧
    dividerResetExample.cmos_data RTC_REG_A = 0x66 ∧
    (cmos_ioport_read exampleEnvLater dividerResetExample 1).map Prod.snd = some 0x66 ∧
    dividerResetExample.update_timer = none ∧
    dividerResetExample.cmos_data RTC_REG_A &&& REG_A_UIP = 0 :=
  ⟨dividerResetExample_reachable, by decide, by decide, by decide,
    ((divider_reset_invariant dividerResetExample dividerResetExample_reachable).1
      (by decide)).1,
    ((divider_reset_invariant dividerResetExample dividerResetExample_reachable).1
      (by decide)).2.1⟩

theorem i64_id (x : Int) (h0 : -9223372036854775808 ≤ x) (h1 : x < 9223372036854775808) :
    i64 x = x := by
  unfold i64
  omega

theorem clock_of_ns (t : Int) (h0 : 0 ≤ t) (h1 : t < 4611686018427387904) :
    i64 (muldiv64 (u64 t) 32768 NANOSECONDS_PER_SECOND) = t * 32768 / 1000000000 := by
  have e1 : u64 t = t := by
    unfold u64
    omega
  have hb : 0 ≤ t * 32768 / 1000000000 ∧ t * 32768 / 1000000000 < 151115727451829 := by
    omega
  have e2 : u64 (t * 32768 / 1000000000) = t * 32768 / 1000000000 := by
    unfold u64
    omega
  unfold muldiv64
  simp only [NANOSECONDS_PER_SECOND]
  rw [e1, e2]
  exact i64_id _ (by omega) (by omega)

theorem ns_of_clock (x : Int) (h0 : 0 ≤ x) (h1 : x < 281474976710656) :
    periodic_clock_to_ns x = x * 1000000000 / 32768 := by
  have e1 : u64 x = x := by
    unfold u64
    omega
  have hb : 0 ≤ x * 1000000000 / 32768 ∧ x * 1000000000 / 32768 < 8589934592000000000 := by
    omega
  have e2 : u64 (x * 1000000000 / 32768) = x * 1000000000 / 32768 := by
    unfold u64
    omega
  unfold periodic_clock_to_ns muldiv64
  simp only [NANOSECONDS_PER_SECOND]
  rw [e1, e2]
  exact i64_id _ (by omega) (by omega)

theorem rtc_periodic_clock_ticks_lt (env : Env) (s : VIANVRAMState) :
    rtc_periodic_clock_ticks env s < 4294967296 := by
  unfold rtc_periodic_clock_ticks
  split_ifs
  · decide
  · unfold u32
    omega

theorem periodic_timer_update_negative (env : Env) (s : VIANVRAMState) (ct op : Int)
    (hp : rtc_periodic_clock_ticks env s ≠ 0) (hop : op ≠ 0)
    (hneg : periodic_elapsed_clock s ct op < 0) :
    periodic_timer_update env s ct op true = none := by
  unfold periodic_elapsed_clock periodic_cur_clock at hneg
  simp only [] at hneg
  unfold periodic_timer_update
  simp only []
  rw [if_neg hp, if_pos ⟨hop, trivial⟩, if_neg (not_le.mpr hneg)]

theorem periodic_timer_update_change (env : Env) (s : VIANVRAMState) (ct op : Int)
    (hp : rtc_periodic_clock_ticks env s ≠ 0)
    (hop : op = 0 ∨ 0 ≤ periodic_elapsed_clock s ct op)
    (hrange : 0 ≤ periodic_lost_clock env s op
        (if op = 0 then 0 else periodic_elapsed_clock s ct op) ∧
      periodic_lost_clock env s op (if op = 0 then 0 else periodic_elapsed_clock s ct op) ≤
        rtc_periodic_clock_ticks env s) :
    ∃ s', periodic_timer_update env s ct op true = some s' ∧
      s'.next_periodic_time = i64 (periodic_clock_to_ns (i64 (periodic_cur_clock ct +
        rtc_periodic_clock_ticks env s - periodic_lost_clock env s op
          (if op = 0 then 0 else periodic_elapsed_clock s ct op))) + 1) ∧
      s'.periodic_timer = timer_mod s'.next_periodic_time := by
  have hl0 : (if op ≠ 0 ∧ true = true then
        (if periodic_elapsed_clock s ct op ≥ 0 then some (periodic_elapsed_clock s ct op)
          else none)
      else some 0) = some (if op = 0 then 0 else periodic_elapsed_clock s ct op) := by
    by_cases h0 : op = 0
    · rw [if_neg (fun h => h.1 h0), if_pos h0]
    · rw [if_pos ⟨h0, rfl⟩, if_neg h0]
      rcases hop with h | h
      · exact absurd h h0
      · rw [if_pos h]
  generalize (if op = 0 then 0 else periodic_elapsed_clock s ct op) = base at *
  unfold periodic_elapsed_clock periodic_cur_clock at hl0
  simp only [] at hl0
  unfold periodic_lost_clock at hrange ⊢
  unfold periodic_cur_clock
  unfold periodic_timer_update
  simp only [rtc_coalesced_timer_update_eq]
  rw [if_neg hp, hl0]
  simp only []
  by_cases hpol : s.lost_tick_policy = LostTickPolicy.SLEW
  · simp only [hpol, if_true] at hrange ⊢
    split_ifs <;> exact ⟨_, rfl, rfl, rfl⟩
  · simp only [hpol, if_false] at hrange ⊢
    split_ifs <;> exact ⟨_, rfl, rfl, rfl⟩

theorem periodic_cur_clock_eq (ct : Int) (h0 : 0 ≤ ct) (h1 : ct < 4611686018427387904) :
    periodic_cur_clock ct = ct * 32768 / 1000000000 :=
  clock_of_ns ct h0 h1

theorem periodic_elapsed_clock_eq (s : VIANVRAMState) (ct op : Int)
    (hct : 0 ≤ ct ∧ ct < 4611686018427387904)
    (hnext : 0 ≤ s.next_periodic_time ∧ s.next_periodic_time < 4611686018427387904)
    (hop : 0 ≤ op ∧ op < 4294967296) :
    periodic_elapsed_clock s ct op =
      ct * 32768 / 1000000000 - (s.next_periodic_time * 32768 / 1000000000 - op) := by
  unfold periodic_elapsed_clock
  simp only []
  rw [periodic_cur_clock_eq ct hct.1 hct.2, clock_of_ns _ hnext.1 hnext.2]
  have hb1 : 0 ≤ ct * 32768 / 1000000000 ∧ ct * 32768 / 1000000000 < 151115727451829 := by
    omega
  have hb2 : 0 ≤ s.next_periodic_time * 32768 / 1000000000 ∧
      s.next_periodic_time * 32768 / 1000000000 < 151115727451829 := by
    omega
  generalize ct * 32768 / 1000000000 = a at *
  generalize s.next_periodic_time * 32768 / 1000000000 = b at *
  rw [i64_id (b - op) (by omega) (by omega), i64_id _ (by omega) (by omega)]

theorem periodic_lost_clock_range (env : Env) (s : VIANVRAMState) (op base : Int)
    (hp : rtc_periodic_clock_ticks env s ≠ 0)
    (hbase : 0 ≤ base ∧ base < 4611686018427387904) :
    0 ≤ periodic_lost_clock env s op base ∧
    periodic_lost_clock env s op base ≤ rtc_periodic_clock_ticks env s ∧
    (s.lost_tick_policy = LostTickPolicy.SLEW →
      periodic_lost_clock env s op base < rtc_periodic_clock_ticks env s) ∧
    (base < rtc_periodic_clock_ticks env s →
      periodic_lost_clock env s op base < rtc_periodic_clock_ticks env s) := by
  have hpos : 0 < rtc_periodic_clock_ticks env s :=
    lt_of_le_of_ne (rtc_periodic_clock_ticks_nonneg env s) (Ne.symm hp)
  unfold periodic_lost_clock
  by_cases hpol : s.lost_tick_policy = LostTickPolicy.SLEW
  · rw [if_pos hpol]
    have hu0 := u32_nonneg (s.irq_coalesced * op)
    have hu1 : u32 (s.irq_coalesced * op) < 4294967296 := by
      unfold u32
      omega
    rw [i64_id _ (by omega) (by omega)]
    have hm := (tmod_spec (base + u32 (s.irq_coalesced * op)) _ hpos).2 (by omega)
    exact ⟨hm.1, hm.2.le, fun _ => hm.2, fun _ => hm.2⟩
  · rw [if_neg hpol]
    refine ⟨le_min hbase.1 hpos.le, min_le_right _ _, fun h => absurd h hpol, fun h => ?_⟩
    exact lt_of_le_of_lt (min_le_left _ _) h

theorem periodic_deadline_bounds (ct p lost : Int)
    (hct : 0 ≤ ct ∧ ct < 4611686018427387904) (hp : 0 < p ∧ p < 4294967296)
    (hlost : 0 ≤ lost ∧ lost ≤ p) :
    i64 (periodic_clock_to_ns (i64 (periodic_cur_clock ct + p - lost)) + 1) =
      (ct * 32768 / 1000000000 + p - lost) * 1000000000 / 32768 + 1 ∧
    ct - 30518 < (ct * 32768 / 1000000000 + p - lost) * 1000000000 / 32768 + 1 ∧
    (lost < p → ct < (ct * 32768 / 1000000000 + p - lost) * 1000000000 / 32768 + 1) ∧
    0 ≤ (ct * 32768 / 1000000000 + p - lost) * 1000000000 / 32768 + 1 := by
  rw [periodic_cur_clock_eq ct hct.1 hct.2]
  have hb1 : 0 ≤ ct * 32768 / 1000000000 ∧ ct * 32768 / 1000000000 < 151115727451829 := by
    omega
  have hc1 : ct * 32768 - 1000000000 < ct * 32768 / 1000000000 * 1000000000 := by omega
  have hc2 : ct * 32768 / 1000000000 * 1000000000 ≤ ct * 32768 := by omega
  generalize ct * 32768 / 1000000000 = cur at *
  have hx : 0 ≤ cur + p - lost ∧ cur + p - lost < 281474976710656 := by omega
  rw [i64_id (cur + p - lost) (by omega) (by omega), ns_of_clock _ hx.1 hx.2]
  have hb2 : 0 ≤ (cur + p - lost) * 1000000000 / 32768 ∧
      (cur + p - lost) * 1000000000 / 32768 < 8589934592000000000 := by
    omega
  refine ⟨i64_id _ (by omega) (by omega), by omega, fun h => by omega, by omega⟩

set_option maxRecDepth 1000000 in
theorem rateSelectedExample_reachable : Reachable rateSelectedExample :=
  Reachable.step exampleEnv (Op.io_write 0 10) enabledExample rateSelectedExample
    (Reachable.step exampleEnv (Op.io_write 1 0x52) selectedExample enabledExample
      (Reachable.step exampleEnv (Op.io_write 0 11) attachedExample selectedExample
        attachedExample_reachable (getD_of_isSome _ _ (by decide)))
      (getD_of_isSome _ _ (by decide)))
    (getD_of_isSome _ _ (by decide))

/-- C24 (the code at the failing input): `periodic_timer_update` called for a
period change, with times below 2^62 ns, a nonzero new period and a nonzero
32-bit old period.  When the tick of the current time is below the tick of the
previous periodic firing, `next_periodic_clock - old_period`, the elapsed tick
count `lost_clock` is their negative difference, it is not replaced by 0, the
assertion `lost_clock >= 0` fails and the call does not complete. -/
theorem periodic_timer_update_clock_stepped_back (env : Env) (s : VIANVRAMState)
    (ct op : Int) (hct : 0 ≤ ct ∧ ct < 4611686018427387904)
    (hnext : 0 ≤ s.next_periodic_time ∧ s.next_periodic_time < 4611686018427387904)
    (hop : 0 < op ∧ op < 4294967296)
    (hp : rtc_periodic_clock_ticks env s ≠ 0)
    (hback : ct * 32768 / 1000000000 < s.next_periodic_time * 32768 / 1000000000 - op) :
    periodic_elapsed_clock s ct op =
      ct * 32768 / 1000000000 - (s.next_periodic_time * 32768 / 1000000000 - op) ∧
    periodic_elapsed_clock s ct op < 0 ∧
    periodic_timer_update env s ct op true = none := by
  have heq := periodic_elapsed_clock_eq s ct op hct hnext ⟨hop.1.le, hop.2⟩
  have hneg : periodic_elapsed_clock s ct op < 0 := by
    rw [heq]
    omega
  exact ⟨heq, hneg, periodic_timer_update_negative env s ct op hp (ne_of_gt hop.1) hneg⟩

set_option maxRecDepth 1000000 in
/-- The failing input of C24: in the reachable state `rateSelectedExample`
(periodic interrupt enabled at clock 10 s with period 32 ticks, register A
selected) with the clock stepped back to 9.9 s, the current tick is 324403, the
previous firing is tick 327680, the elapsed tick count is -3277, the call of
`periodic_timer_update` for a period change does not complete, and neither does
the guest write of 0x27 to register A. -/
theorem periodic_timer_update_clock_stepped_back_witness :
    Reachable rateSelectedExample ∧
    (0 ≤ earlierEnv.now ∧ earlierEnv.now < 4611686018427387904) ∧
    (0 ≤ rateSelectedExample.next_periodic_time ∧
      rateSelectedExample.next_periodic_time < 4611686018427387904) ∧
    rtc_periodic_clock_ticks earlierEnv rateSelectedExample = 32 ∧
    earlierEnv.now * 32768 / 1000000000 = 324403 ∧
    rateSelectedExample.next_periodic_time * 32768 / 1000000000 - 32 = 327680 ∧
    periodic_elapsed_clock rateSelectedExample earlierEnv.now 32 = -3277 ∧
    periodic_timer_update earlierEnv rateSelectedExample earlierEnv.now 32 true = none ∧
    (cmos_ioport_write earlierEnv rateSelectedExample 1 0x27).isSome = false :=
  ⟨rateSelectedExample_reachable, by decide, by decide, by decide, by decide, by decide,
    by decide,
    (periodic_timer_update_clock_stepped_back earlierEnv rateSelectedExample earlierEnv.now 32
      (by decide) (by decide) (by decide) (by decide) (by decide)).2.2,
    by decide⟩

/-- The case `periodic_timer_update` handles: a call for a period change with
times below 2^62 ns and a 32-bit old period.  When the new period is 0 the
call completes and cancels the periodic timer.  When the new period is nonzero
and the old period is 0 or the elapsed tick count is non-negative, the call
completes with `0 ≤ lost_clock ≤ period` and arms the periodic timer at the
deadline of `cur_clock + period - lost_clock` ticks plus 1 ns, which is later
than the current time less 30518 ns (one tick), and later than the current
time when `lost_clock < period`, as it always is under the slew policy. -/
theorem periodic_timer_update_elapsed_nonneg (env : Env) (s : VIANVRAMState) (ct op : Int)
    (hct : 0 ≤ ct ∧ ct < 4611686018427387904)
    (hnext : 0 ≤ s.next_periodic_time ∧ s.next_periodic_time < 4611686018427387904)
    (hop : 0 ≤ op ∧ op < 4294967296) :
    (rtc_periodic_clock_ticks env s = 0 →
      periodic_timer_update env s ct op true =
        some { s with period := 0, irq_coalesced := 0, periodic_timer := none }) ∧
    (rtc_periodic_clock_ticks env s ≠ 0 → (op = 0 ∨ 0 ≤ periodic_elapsed_clock s ct op) →
      ∃ s' lost, periodic_timer_update env s ct op true = some s' ∧
        lost = periodic_lost_clock env s op
          (if op = 0 then 0 else periodic_elapsed_clock s ct op) ∧
        0 ≤ lost ∧ lost ≤ rtc_periodic_clock_ticks env s ∧
        (s.lost_tick_policy = LostTickPolicy.SLEW → lost < rtc_periodic_clock_ticks env s) ∧
        s'.next_periodic_time =
          (ct * 32768 / 1000000000 + rtc_periodic_clock_ticks env s - lost) * 1000000000 /
            32768 + 1 ∧
        s'.periodic_timer = some s'.next_periodic_time ∧
        ct - 30518 < s'.next_periodic_time ∧
        (lost < rtc_periodic_clock_ticks env s → ct < s'.next_periodic_time)) := by
  refine ⟨fun hp => periodic_timer_update_disabled env s ct op true hp, fun hp hel => ?_⟩
  have hpos : 0 < rtc_periodic_clock_ticks env s :=
    lt_of_le_of_ne (rtc_periodic_clock_ticks_nonneg env s) (Ne.symm hp)
  have hlt := rtc_periodic_clock_ticks_lt env s
  have heq := periodic_elapsed_clock_eq s ct op hct hnext hop
  have hbase : 0 ≤ (if op = 0 then 0 else periodic_elapsed_clock s ct op) ∧
      (if op = 0 then 0 else periodic_elapsed_clock s ct op) < 4611686018427387904 := by
    by_cases h0 : op = 0
    · rw [if_pos h0]
      decide
    · rw [if_neg h0]
      rcases hel with h | h
      · exact absurd h h0
      · refine ⟨h, ?_⟩
        rw [heq]
        omega
  obtain ⟨r0, r1, r2, -⟩ := periodic_lost_clock_range env s op _ hp hbase
  obtain ⟨s', hs', hn, ht⟩ := periodic_timer_update_change env s ct op hp hel ⟨r0, r1⟩
  obtain ⟨d0, d1, d2, d3⟩ := periodic_deadline_bounds ct _ _ hct ⟨hpos, hlt⟩ ⟨r0, r1⟩
  rw [d0] at hn
  refine ⟨s', _, hs', rfl, r0, r1, r2, hn, ?_, ?_, ?_⟩
  · rw [ht]
    unfold timer_mod
    rw [max_eq_left]
    rw [hn]
    exact d3
  · rw [hn]
    exact d1
  · rw [hn]
    exact d2

set_option maxRecDepth 1000000 in
/-- A rate change half a millisecond after the periodic interrupt was enabled
in `enabledExample` (period 32 ticks): the call completes and arms a deadline
after the current time. -/
theorem periodic_timer_update_elapsed_nonneg_example :
    (0 ≤ snapshotEnv.now ∧ snapshotEnv.now < 4611686018427387904) ∧
    (0 ≤ rateSelectedExample.next_periodic_time ∧
      rateSelectedExample.next_periodic_time < 4611686018427387904) ∧
    rtc_periodic_clock_ticks snapshotEnv rateSelectedExample = 32 ∧
    0 ≤ periodic_elapsed_clock rateSelectedExample snapshotEnv.now 32 ∧
    ∃ s', periodic_timer_update snapshotEnv rateSelectedExample snapshotEnv.now 32 true =
        some s' ∧ snapshotEnv.now < s'.next_periodic_time :=
  ⟨by decide, by decide, by decide, by decide,
    ((periodic_timer_update_elapsed_nonneg snapshotEnv rateSelectedExample snapshotEnv.now 32
      (by decide) (by decide) (by decide)).2 (by decide) (Or.inr (by decide))).elim
      fun s' h => h.elim fun _ h => ⟨s', h.1, h.2.2.2.2.2.2.2.2 (h.2.2.2.2.1 (by decide))⟩⟩

set_option maxRecDepth 1000000 in
/-- The one-tick rounding of the deadline under the discard policy: a rate
change 1.00002 s after the last periodic firing has `lost_clock = period`, and
the guest write of 0x27 to register A completes and arms the deadline
11000000001 ns, the start of the current tick plus 1 ns, which is earlier than
the current time 11000020000 ns by less than one tick. -/
theorem periodic_timer_update_discard_rounding_example :
    (cmos_ioport_write lateEnv discardRateExample 1 0x27).map
      (fun s => (s.periodic_timer, decide (s.next_periodic_time < lateEnv.now))) =
      some (some 11000000001, true) := by
  decide

theorem tmod_as_emod (a k : Int) (ha : 0 ≤ a) (hk : 0 < k) : a.tmod k = a % k :=
  Int.tmod_eq_emod ha hk.le

set_option maxHeartbeats 4000000 in
theorem alarm_target_spec (as am ah cs cm ch : Int)
    (has : -1 ≤ as ∧ as ≤ 59) (ham : -1 ≤ am ∧ am ≤ 59) (hah : -1 ≤ ah ∧ ah ≤ 23)
    (hs : 0 ≤ cs ∧ cs ≤ 59) (hm : 0 ≤ cm ∧ cm ≤ 59) (hh : 0 ≤ ch ∧ ch ≤ 23) :
    (as ≠ -1 → (alarm_target as am ah cs cm ch).2.2 = as) ∧
    (-1 ≤ (alarm_target as am ah cs cm ch).2.2 ∧ (alarm_target as am ah cs cm ch).2.2 ≤ 60) ∧
    (am ≠ -1 → (alarm_target as am ah cs cm ch).2.1 = am ∧
      (alarm_target as am ah cs cm ch).2.2 ≠ 60) ∧
    (-1 ≤ (alarm_target as am ah cs cm ch).2.1 ∧ (alarm_target as am ah cs cm ch).2.1 ≤ 60) ∧
    (ah ≠ -1 → (alarm_target as am ah cs cm ch).1 = ah ∧
      (alarm_target as am ah cs cm ch).2.1 ≠ 60 ∧
      ¬ ((alarm_target as am ah cs cm ch).2.1 = 59 ∧
          (alarm_target as am ah cs cm ch).2.2 = 60)) ∧
    (0 ≤ (alarm_target as am ah cs cm ch).1 ∧ (alarm_target as am ah cs cm ch).1 ≤ 24) ∧
    ((alarm_target as am ah cs cm ch).2.1 ≠ 60 ∨ (alarm_target as am ah cs cm ch).2.2 ≠ 60) := by
  have t1 : (cs + 1).tmod 60 = (cs + 1) % 60 := Int.tmod_eq_emod (by omega) (by decide)
  have t3 : cm.tmod 60 = cm % 60 := Int.tmod_eq_emod (by omega) (by decide)
  have t4 : (cm + 1).tmod 60 = (cm + 1) % 60 := Int.tmod_eq_emod (by omega) (by decide)
  unfold alarm_target
  by_cases h3 : as = -1
  · by_cases h1 : ah = -1 <;> by_cases h2 : am = -1 <;>
      by_cases h5 : cm = am <;> by_cases h7 : ch = ah <;>
      simp only [h1, h2, h3, h5, h7, if_true, if_false] <;>
      (try split_ifs) <;> (try simp only [t1, t3, t4]) <;>
      refine ⟨fun _ => ?_, ⟨?_, ?_⟩, fun _ => ⟨?_, ?_⟩, ⟨?_, ?_⟩,
        fun _ => ⟨?_, ?_, fun _ => ?_⟩, ⟨?_, ?_⟩, ?_⟩ <;>
      first
        | trivial
        | omega
  · have t2 : as.tmod 60 = as % 60 := Int.tmod_eq_emod (by omega) (by decide)
    by_cases h1 : ah = -1 <;> by_cases h2 : am = -1 <;>
      by_cases h5 : cm = am <;> by_cases h7 : ch = ah <;>
      simp only [h1, h2, h3, h5, h7, if_true, if_false] <;>
      (try split_ifs) <;> (try simp only [t1, t2, t3, t4]) <;>
      refine ⟨fun _ => ?_, ⟨?_, ?_⟩, fun _ => ⟨?_, ?_⟩, ⟨?_, ?_⟩,
        fun _ => ⟨?_, ?_, fun _ => ?_⟩, ⟨?_, ?_⟩, ?_⟩ <;>
      first
        | trivial
        | omega

set_option maxHeartbeats 4000000 in
theorem alarm_delta_valid (as am ah cs cm ch : Int)
    (has : -1 ≤ as ∧ as ≤ 59) (ham : -1 ≤ am ∧ am ≤ 59) (hah : -1 ≤ ah ∧ ah ≤ 23)
    (hs : 0 ≤ cs ∧ cs ≤ 59) (hm : 0 ≤ cm ∧ cm ≤ 59) (hh : 0 ≤ ch ∧ ch ≤ 23) :
    1 ≤ alarm_delta as am ah cs cm ch ∧ alarm_delta as am ah cs cm ch ≤ 86400 ∧
    alarm_matches as am ah
      ((ch * 3600 + cm * 60 + cs + alarm_delta as am ah cs cm ch) % 86400) = true := by
  obtain ⟨p1, p2, p3, p4, p5, p6, p7⟩ := alarm_target_spec as am ah cs cm ch has ham hah hs hm hh
  unfold alarm_matches
  simp only [Bool.and_eq_true, Bool.or_eq_true, beq_iff_eq]
  unfold alarm_delta
  generalize alarm_target as am ah cs cm ch = r at *
  obtain ⟨hr, m, x⟩ := r
  simp only [] at p1 p2 p3 p4 p5 p6 p7
  have q1 : as = -1 ∨ x = as := by
    by_cases e : as = -1
    · exact Or.inl e
    · exact Or.inr (p1 e)
  have q3 : am = -1 ∨ (m = am ∧ x ≠ 60) := by
    by_cases e : am = -1
    · exact Or.inl e
    · exact Or.inr (p3 e)
  have q5 : ah = -1 ∨ (hr = ah ∧ m ≠ 60 ∧ (m ≠ 59 ∨ x ≠ 60)) := by
    by_cases e : ah = -1
    · exact Or.inl e
    · obtain ⟨a, b, c⟩ := p5 e
      refine Or.inr ⟨a, b, ?_⟩
      by_cases e2 : m = 59
      · exact Or.inr fun e3 => c ⟨e2, e3⟩
      · exact Or.inl e2
  clear p1 p3 p5
  have t5 : hr.tmod 24 = hr % 24 := Int.tmod_eq_emod (by omega) (by decide)
  have t6 : (hr + 1).tmod 24 = (hr + 1) % 24 := Int.tmod_eq_emod (by omega) (by decide)
  unfold alarm_in_range
  simp only []
  simp only [apply_ite Prod.fst, apply_ite Prod.snd, apply_ite (fun z : Int => z.tmod 24),
    t5, t6]
  split_ifs <;> refine ⟨?_, ?_, ⟨?_, ?_⟩, ?_⟩ <;> omega
theorem rtc_from_bcd_congr (s s' : VIANVRAMState) (a : Nat)
    (h : s'.cmos_data RTC_REG_B = s.cmos_data RTC_REG_B) :
    rtc_from_bcd s' a = rtc_from_bcd s a := by
  unfold rtc_from_bcd
  rw [h]

theorem u8_cast (x : Int) (h0 : 0 ≤ x) (h1 : x < 256) : ((u8 x : Nat) : Int) = x := by
  unfold u8
  omega

theorem convert_hour_24h (s : VIANVRAMState) (h24 : s.cmos_data RTC_REG_B &&& REG_B_24H ≠ 0)
    (x : Int) (h0 : 0 ≤ x) (h1 : x ≤ 23) : ((convert_hour s (u8 x) : Nat) : Int) = x := by
  unfold convert_hour
  rw [if_neg h24]
  exact u8_cast x h0 (by omega)

theorem next_alarm_sec_24h (s : VIANVRAMState) (h24 : s.cmos_data RTC_REG_B &&& REG_B_24H ≠ 0)
    (hv : valid_current_time s) (ha : valid_alarm s) :
    next_alarm_sec s =
      alarm_delta (rtc_from_bcd s (s.cmos_data RTC_SECONDS_ALARM))
        (rtc_from_bcd s (s.cmos_data RTC_MINUTES_ALARM))
        (rtc_from_bcd s (s.cmos_data RTC_HOURS_ALARM))
        (rtc_from_bcd s (s.cmos_data RTC_SECONDS))
        (rtc_from_bcd s (s.cmos_data RTC_MINUTES))
        (rtc_from_bcd s (s.cmos_data RTC_HOURS)) := by
  obtain ⟨-, -, hh⟩ := hv
  rw [if_pos h24] at hh
  obtain ⟨-, -, hah⟩ := ha
  unfold next_alarm_sec
  simp only []
  rw [convert_hour_24h s h24 _ hh.1 hh.2]
  by_cases e : rtc_from_bcd s (s.cmos_data RTC_HOURS_ALARM) = -1
  · rw [if_pos e, e]
  · rw [if_neg e, convert_hour_24h s h24 _ (by omega) hah.2]

/-- C28: the alarm result is a valid match.  In 24-hour mode (BCD or binary),
when the registers hold a valid current time once the calendar has been
brought up to date and each alarm byte decodes to a valid field or to a
don't-care, `get_next_alarm` returns `d` with `1 ≤ d ≤ 86400` such that the
time of day `d` seconds after the current time (modulo 86400) agrees with the
alarm on every field that is not a don't-care. -/
theorem get_next_alarm_valid_match (env : Env) (s : VIANVRAMState)
    (h24 : s.cmos_data RTC_REG_B &&& REG_B_24H ≠ 0)
    (hv : valid_current_time (rtc_update_time env s)) (ha : valid_alarm s) :
    1 ≤ (get_next_alarm env s).2 ∧ (get_next_alarm env s).2 ≤ 86400 ∧
    alarm_matches (rtc_from_bcd s (s.cmos_data RTC_SECONDS_ALARM))
      (rtc_from_bcd s (s.cmos_data RTC_MINUTES_ALARM))
      (rtc_from_bcd s (s.cmos_data RTC_HOURS_ALARM))
      ((rtc_from_bcd (get_next_alarm env s).1 ((get_next_alarm env s).1.cmos_data RTC_HOURS) *
          3600 +
        rtc_from_bcd (get_next_alarm env s).1 ((get_next_alarm env s).1.cmos_data RTC_MINUTES) *
          60 +
        rtc_from_bcd (get_next_alarm env s).1 ((get_next_alarm env s).1.cmos_data RTC_SECONDS) +
        (get_next_alarm env s).2) % 86400) = true := by
  have hfr := rtc_update_time_updFrame env s
  have hB := hfr.data RTC_REG_B (by decide) (by decide) (by decide) (by decide) (by decide)
    (by decide) (by decide) (by decide)
  have h1 := hfr.data RTC_SECONDS_ALARM (by decide) (by decide) (by decide) (by decide)
    (by decide) (by decide) (by decide) (by decide)
  have h3 := hfr.data RTC_MINUTES_ALARM (by decide) (by decide) (by decide) (by decide)
    (by decide) (by decide) (by decide) (by decide)
  have h5 := hfr.data RTC_HOURS_ALARM (by decide) (by decide) (by decide) (by decide)
    (by decide) (by decide) (by decide) (by decide)
  have e1 := rtc_from_bcd_congr s (rtc_update_time env s) (s.cmos_data RTC_SECONDS_ALARM) hB
  have e3 := rtc_from_bcd_congr s (rtc_update_time env s) (s.cmos_data RTC_MINUTES_ALARM) hB
  have e5 := rtc_from_bcd_congr s (rtc_update_time env s) (s.cmos_data RTC_HOURS_ALARM) hB
  have ha' : valid_alarm (rtc_update_time env s) := by
    unfold valid_alarm
    rw [h1, h3, h5, e1, e3, e5]
    exact ha
  have h24' : (rtc_update_time env s).cmos_data RTC_REG_B &&& REG_B_24H ≠ 0 := by
    rw [hB]
    exact h24
  have hn := next_alarm_sec_24h (rtc_update_time env s) h24' hv ha'
  rw [h1, h3, h5, e1, e3, e5] at hn
  have hvh := hv.2.2
  rw [if_pos h24'] at hvh
  obtain ⟨d1, d2, d3⟩ := alarm_delta_valid _ _ _ _ _ _ ha.1 ha.2.1 ha.2.2 hv.1 hv.2.1 hvh
  rw [← hn] at d1 d2 d3
  have hu : u64 (next_alarm_sec (rtc_update_time env s)) =
      next_alarm_sec (rtc_update_time env s) := by
    unfold u64
    omega
  unfold get_next_alarm
  simp only []
  rw [hu]
  exact ⟨d1, d2, d3⟩

set_option maxRecDepth 1000000 in
/-- In `hourlyExample` (24-hour binary mode, alarm at minutes 0 and seconds 0
of every hour, clock at 12:00:00) the result is 86400: the time of day one day
later matches the alarm. -/
theorem get_next_alarm_valid_match_witness :
    hourlyExample.cmos_data RTC_REG_B &&& REG_B_24H ≠ 0 ∧
    valid_current_time (rtc_update_time exampleEnv hourlyExample) ∧
    valid_alarm hourlyExample ∧
    (get_next_alarm exampleEnv hourlyExample).2 = 86400 ∧
    1 ≤ (get_next_alarm exampleEnv hourlyExample).2 ∧
    (get_next_alarm exampleEnv hourlyExample).2 ≤ 86400 :=
  ⟨by decide, by decide, by decide, by decide,
    (get_next_alarm_valid_match exampleEnv hourlyExample (by decide) (by decide)
      (by decide)).1,
    (get_next_alarm_valid_match exampleEnv hourlyExample (by decide) (by decide)
      (by decide)).2.1⟩

/-- C39: raw writes outside the lower half are ignored.  For every address
outside 0..127 (negative, or 128 and above) and every value,
`via_nvram_set_cmos_data` returns the state it was given; the function has no
other result. -/
theorem via_nvram_set_cmos_data_out_of_range (s : VIANVRAMState) (a v : Int)
    (ha : a < 0 ∨ 128 ≤ a) : via_nvram_set_cmos_data s a v = s := by
  unfold via_nvram_set_cmos_data
  rw [if_neg (by omega)]

/-- A raw write of 0x55 at address 200, in the upper half, and one at address
-1 leave `attachedExample` as it is. -/
theorem via_nvram_set_cmos_data_out_of_range_witness :
    via_nvram_set_cmos_data attachedExample 200 0x55 = attachedExample ∧
    via_nvram_set_cmos_data attachedExample (-1) 0x55 = attachedExample :=
  ⟨via_nvram_set_cmos_data_out_of_range attachedExample 200 0x55 (Or.inr (by decide)),
    via_nvram_set_cmos_data_out_of_range attachedExample (-1) 0x55 (Or.inl (by decide))⟩

theorem fill_upper_mem (n : Nat) : ∀ (m : Nat → Nat) (i j : Nat), i ≤ j → j < i + n →
    fill_upper m i n j = 0xff := by
  induction n with
  | zero => intro m i j h1 h2; omega
  | succ k ih =>
    intro m i j h1 h2
    rw [fill_upper]
    by_cases hj : j = i
    · rw [fill_upper_lt k _ (i + 1) j (by omega)]
      unfold setByte
      rw [if_pos hj]
    · exact ih _ _ _ (by omega) (by omega)

theorem fill_upper_ge (n : Nat) : ∀ (m : Nat → Nat) (i j : Nat), i + n ≤ j →
    fill_upper m i n j = m j := by
  induction n with
  | zero => intro m i j _; rfl
  | succ k ih =>
    intro m i j hj
    rw [fill_upper, ih _ _ _ (by omega)]
    unfold setByte
    rw [if_neg (by omega)]

theorem rtc_realizefn_cmos_data (env : Env) (isairq : Nat) (base_year : Int)
    (policy : LostTickPolicy) (s : VIANVRAMState)
    (h : rtc_realizefn env isairq (via_nvram_instance base_year policy) = some s) (i : Nat)
    (h0 : i ≠ RTC_SECONDS) (h2 : i ≠ RTC_MINUTES) (h4 : i ≠ RTC_HOURS)
    (h6 : i ≠ RTC_DAY_OF_WEEK) (h7 : i ≠ RTC_DAY_OF_MONTH) (h8 : i ≠ RTC_MONTH)
    (h9 : i ≠ RTC_YEAR) (h32 : i ≠ RTC_CENTURY) :
    s.cmos_data i =
      fill_upper ((((via_nvram_instance base_year policy).store RTC_REG_A 0x26).store RTC_REG_B
        0x02).store RTC_REG_C 0x00 |>.store RTC_REG_D 0x80).cmos_data 0x80 (0xff - 0x80) i := by
  unfold rtc_realizefn at h
  simp only [] at h
  have base : ∀ s0 : VIANVRAMState,
      (match (rtc_set_date_from_host env s0).lost_tick_policy with
        | LostTickPolicy.DELAY => none
        | _ => check_update_timer env
            { rtc_set_date_from_host env s0 with
              coalesced_timer := none, periodic_timer := none, update_timer := none }) = some s →
      s.cmos_data i = s0.cmos_data i := by
    intro s0 h
    have hd : (rtc_set_date_from_host env s0).cmos_data i = s0.cmos_data i := by
      unfold rtc_set_date_from_host
      simp only []
      exact rtc_set_cmos_other _ _ i h0 h2 h4 h6 h7 h8 h9 h32
    split at h
    · exact absurd h (by simp)
    · have hu := check_update_timer_updFrame _ _ _ h
      rw [hu.data i h0 h2 h4 h6 h7 h8 h9 h32]
      exact hd
  split_ifs at h
  · exact base _ h
  · exact base _ h

/-- C38 (the code): after attach, registers A, B, C and D hold 0x26, 0x02,
0x00 and 0x80 and every byte at an index from 0x80 to 0xFE holds 0xFF, but the
byte at index 0xFF is 0x00: the loop of `rtc_realizefn` stops before index
0xFF, which keeps the zero of the fresh device object. -/
theorem rtc_realizefn_upper_half (env : Env) (isairq : Nat) (base_year : Int)
    (policy : LostTickPolicy) (s : VIANVRAMState)
    (h : rtc_realizefn env isairq (via_nvram_instance base_year policy) = some s) :
    s.cmos_data RTC_REG_A = 0x26 ∧ s.cmos_data RTC_REG_B = 0x02 ∧
    s.cmos_data RTC_REG_C = 0x00 ∧ s.cmos_data RTC_REG_D = 0x80 ∧
    (∀ i, 0x80 ≤ i → i < 0xff → s.cmos_data i = 0xff) ∧
    s.cmos_data 0xff = 0x00 := by
  have key := rtc_realizefn_cmos_data env isairq base_year policy s h
  refine ⟨?_, ?_, ?_, ?_, fun i h1 h2 => ?_, ?_⟩
  · rw [key RTC_REG_A (by decide) (by decide) (by decide) (by decide) (by decide) (by decide)
      (by decide) (by decide), fill_upper_lt _ _ _ _ (by decide)]
    rfl
  · rw [key RTC_REG_B (by decide) (by decide) (by decide) (by decide) (by decide) (by decide)
      (by decide) (by decide), fill_upper_lt _ _ _ _ (by decide)]
    rfl
  · rw [key RTC_REG_C (by decide) (by decide) (by decide) (by decide) (by decide) (by decide)
      (by decide) (by decide), fill_upper_lt _ _ _ _ (by decide)]
    rfl
  · rw [key RTC_REG_D (by decide) (by decide) (by decide) (by decide) (by decide) (by decide)
      (by decide) (by decide), fill_upper_lt _ _ _ _ (by decide)]
    rfl
  · have hi : ∀ k : Nat, k < 0x80 → i ≠ k := fun k hk => by omega
    rw [key i (hi _ (by decide)) (hi _ (by decide)) (hi _ (by decide)) (hi _ (by decide))
      (hi _ (by decide)) (hi _ (by decide)) (hi _ (by decide)) (hi _ (by decide))]
    exact fill_upper_mem _ _ _ _ h1 (by omega)
  · rw [key 0xff (by decide) (by decide) (by decide) (by decide) (by decide) (by decide)
      (by decide) (by decide), fill_upper_ge _ _ _ _ (by decide)]
    rfl

set_option maxRecDepth 1000000 in
/-- The attach of `attachedExample`: byte 0xFE holds 0xFF and byte 0xFF holds
0x00. -/
theorem rtc_realizefn_upper_half_witness :
    attachedExample.cmos_data 0xfe = 0xff ∧ attachedExample.cmos_data 0xff = 0x00 ∧
    attachedExample.cmos_data RTC_REG_B = 0x02 :=
  ⟨by decide,
    (rtc_realizefn_upper_half exampleEnv 8 2000 LostTickPolicy.SLEW attachedExample
      (getD_of_isSome _ _ (by decide))).2.2.2.2.2,
    (rtc_realizefn_upper_half exampleEnv 8 2000 LostTickPolicy.SLEW attachedExample
      (getD_of_isSome _ _ (by decide))).2.1⟩

theorem next_alarm_sec_cur_hour (s : VIANVRAMState) :
    next_alarm_sec s =
      alarm_delta (rtc_from_bcd s (s.cmos_data RTC_SECONDS_ALARM))
        (rtc_from_bcd s (s.cmos_data RTC_MINUTES_ALARM))
        (if rtc_from_bcd s (s.cmos_data RTC_HOURS_ALARM) = -1 then -1
          else (convert_hour s (u8 (rtc_from_bcd s (s.cmos_data RTC_HOURS_ALARM))) : Int))
        (rtc_from_bcd s (s.cmos_data RTC_SECONDS))
        (rtc_from_bcd s (s.cmos_data RTC_MINUTES))
        (alarm_cur_hour s) := rfl

set_option maxRecDepth 1000000 in
theorem cur_hour_mode_spec : ∀ dm : Bool, ∀ n < 24,
    get_time_hour_mode dm (hours12_byte dm ((n : Nat) : Int)) = (n : Int) ∧
    alarm_cur_hour_mode dm (hours12_byte dm ((n : Nat) : Int)) =
      (if n < 12 then (n : Int) else (((n + 8) % 12 + 12 : Nat) : Int)) ∧
    (12 ≤ n → alarm_cur_hour_mode dm (hours12_byte dm ((n : Nat) : Int)) ≠ (n : Int)) := by
  decide

/-- C37 (the code): in 12-hour mode, for every hour `n` in 0..23 and the hours
byte that encodes it (hour 1..12 in the data mode of register B, with the PM
flag 0x80 from noon on), `rtc_get_time` decodes `tm_hour = n`, while the
current hour that `get_next_alarm` derives equals `n` only before noon: for
every PM byte it is `(n + 8) mod 12 + 12`, which differs from `n`, because
`rtc_from_bcd` is applied to the register without masking the PM flag. -/
theorem get_next_alarm_cur_hour_pm (s : VIANVRAMState) (n : Nat) (hn : n < 24)
    (h12 : s.cmos_data RTC_REG_B &&& REG_B_24H = 0)
    (hb : s.cmos_data RTC_HOURS =
      hours12_byte (decide (s.cmos_data RTC_REG_B &&& REG_B_DM ≠ 0)) (n : Int)) :
    (rtc_get_time s ⟨0, 0, 0, 0, 0, 0, 0, 0, 0⟩).tm_hour = (n : Int) ∧
    (n < 12 → alarm_cur_hour s = (n : Int)) ∧
    (12 ≤ n → alarm_cur_hour s = (((n + 8) % 12 + 12 : Nat) : Int) ∧
      alarm_cur_hour s ≠ (rtc_get_time s ⟨0, 0, 0, 0, 0, 0, 0, 0, 0⟩).tm_hour) := by
  obtain ⟨k1, k2, k3⟩ := cur_hour_mode_spec (decide (s.cmos_data RTC_REG_B &&& REG_B_DM ≠ 0)) n hn
  have e1 : (rtc_get_time s ⟨0, 0, 0, 0, 0, 0, 0, 0, 0⟩).tm_hour =
      get_time_hour_mode (decide (s.cmos_data RTC_REG_B &&& REG_B_DM ≠ 0))
        (s.cmos_data RTC_HOURS) := by
    unfold rtc_get_time get_time_hour_mode
    simp only []
    rw [if_pos h12, rtc_from_bcd_eq]
  have e2 : alarm_cur_hour s =
      alarm_cur_hour_mode (decide (s.cmos_data RTC_REG_B &&& REG_B_DM ≠ 0))
        (s.cmos_data RTC_HOURS) := by
    unfold alarm_cur_hour alarm_cur_hour_mode convert_hour
    simp only []
    rw [if_pos h12, rtc_from_bcd_eq]
  rw [e1, e2, hb, k1]
  refine ⟨rfl, fun hlt => ?_, fun hge => ⟨?_, k3 hge⟩⟩
  · rw [k2, if_pos hlt]
  · rw [k2, if_neg (by omega)]

set_option maxRecDepth 1000000 in
/-- The hours byte 0x91 (11 PM) in 12-hour BCD mode: `rtc_get_time` decodes
hour 23 while the alarm computation takes the current hour to be 19; with the
alarm at 1:00:00 AM and the clock at 11:00:00 PM `get_next_alarm` returns
64800 s, where the hours 23 and 1 give 7200 s. -/
theorem get_next_alarm_cur_hour_pm_witness :
    (rtc_update_time exampleEnv elevenPmExample).cmos_data RTC_HOURS = 0x91 ∧
    (rtc_get_time elevenPmExample ⟨0, 0, 0, 0, 0, 0, 0, 0, 0⟩).tm_hour = 23 ∧
    alarm_cur_hour elevenPmExample = 19 ∧
    (get_next_alarm exampleEnv elevenPmExample).2 = 64800 ∧
    alarm_delta 0 0 1 0 0 23 = 7200 ∧
    alarm_cur_hour elevenPmExample ≠
      (rtc_get_time elevenPmExample ⟨0, 0, 0, 0, 0, 0, 0, 0, 0⟩).tm_hour :=
  ⟨by decide, by decide, by decide, by decide, by decide,
    ((get_next_alarm_cur_hour_pm elevenPmExample 23 (by decide) (by decide) (by decide)).2.2
      (by decide)).2⟩

theorem store_alias (s : VIANVRAMState) (i v : Nat) (h : i ≠ RTC_IBM_PS2_CENTURY_BYTE) :
    (s.store i v).cmos_data RTC_IBM_PS2_CENTURY_BYTE = s.cmos_data RTC_IBM_PS2_CENTURY_BYTE := by
  rw [store_cmos_data, if_neg (Ne.symm h)]

theorem UpdFrame.alias {s s' : VIANVRAMState} (h : UpdFrame s s') :
    s'.cmos_data RTC_IBM_PS2_CENTURY_BYTE = s.cmos_data RTC_IBM_PS2_CENTURY_BYTE :=
  h.data _ (by decide) (by decide) (by decide) (by decide) (by decide) (by decide) (by decide)
    (by decide)

theorem cmos_write_calendar_alias (env : Env) (s s' : VIANVRAMState) (data : Nat)
    (ha : s.cmos_index ≠ RTC_IBM_PS2_CENTURY_BYTE)
    (h : cmos_write_calendar env s data = some s') :
    s'.cmos_data RTC_IBM_PS2_CENTURY_BYTE = s.cmos_data RTC_IBM_PS2_CENTURY_BYTE ∧
    s'.cmos_index = s.cmos_index := by
  unfold cmos_write_calendar at h
  simp only [] at h
  split_ifs at h
  · have hu := check_update_timer_updFrame _ _ _ h
    refine ⟨?_, hu.cmos_index⟩
    rw [hu.alias]
    exact store_alias s _ data ha
  · simp only [Option.some.injEq] at h
    subst h
    exact ⟨store_alias s _ data ha, rfl⟩

theorem cmos_write_reg_a_store_alias (env : Env) (s : VIANVRAMState) (data : Nat) :
    (cmos_write_reg_a_store env s data).cmos_data RTC_IBM_PS2_CENTURY_BYTE =
      s.cmos_data RTC_IBM_PS2_CENTURY_BYTE := by
  have hu := (rtc_update_time_updFrame env s).alias
  unfold cmos_write_reg_a_store
  simp only []
  rw [store_alias _ _ _ (by decide)]
  split_ifs <;>
    first
      | (rw [store_alias _ _ _ (by decide)]; first | exact hu | rfl)
      | rfl

theorem cmos_write_reg_a_alias (env : Env) (s s' : VIANVRAMState) (data : Nat)
    (h : cmos_write_reg_a env s data = some s') :
    s'.cmos_data RTC_IBM_PS2_CENTURY_BYTE = s.cmos_data RTC_IBM_PS2_CENTURY_BYTE := by
  rw [cmos_write_reg_a_eq] at h
  split at h
  · exact absurd h (by simp)
  · rename_i s2 h2
    rw [(check_update_timer_updFrame _ _ _ h).alias, ← cmos_write_reg_a_store_alias env s data]
    split_ifs at h2
    · rw [(periodic_timer_update_frame _ _ _ _ _ _ h2).cmos_data]
    · simp only [Option.some.injEq] at h2
      rw [← h2]

theorem cmos_write_reg_b_alias (env : Env) (s s' : VIANVRAMState) (data : Nat)
    (h : cmos_write_reg_b env s data = some s') :
    s'.cmos_data RTC_IBM_PS2_CENTURY_BYTE = s.cmos_data RTC_IBM_PS2_CENTURY_BYTE := by
  unfold cmos_write_reg_b at h
  simp only [] at h
  have h1 : (cmos_write_reg_b_set env s data).1.cmos_data RTC_IBM_PS2_CENTURY_BYTE =
      s.cmos_data RTC_IBM_PS2_CENTURY_BYTE := by
    have hu := (rtc_update_time_updFrame env s).alias
    unfold cmos_write_reg_b_set
    split_ifs <;>
      first
        | (simp only []; rw [store_alias _ _ _ (by decide)]; first | exact hu | rfl)
        | rfl
  generalize cmos_write_reg_b_set env s data = r at *
  have h2 : (cmos_write_reg_b_irq r.1 r.2).cmos_data RTC_IBM_PS2_CENTURY_BYTE =
      r.1.cmos_data RTC_IBM_PS2_CENTURY_BYTE := by
    unfold cmos_write_reg_b_irq
    simp only []
    split_ifs <;> simp +decide [store_cmos_data]
  generalize cmos_write_reg_b_irq r.1 r.2 = s1 at *
  split at h
  · exact absurd h (by simp)
  · rename_i s2 h3
    rw [(check_update_timer_updFrame _ _ _ h).alias, ← h1, ← h2]
    split_ifs at h3
    · rw [(periodic_timer_update_frame _ _ _ _ _ _ h3).cmos_data]
    · simp only [Option.some.injEq] at h3
      rw [← h3]

theorem cmos_ioport_write_alias (env : Env) (s s' : VIANVRAMState) (addr data : Nat)
    (h : cmos_ioport_write env s addr data = some s') :
    s'.cmos_data RTC_IBM_PS2_CENTURY_BYTE = s.cmos_data RTC_IBM_PS2_CENTURY_BYTE := by
  unfold cmos_ioport_write at h
  split_ifs at h with h0 h1 h2 h3 h4 h5 h6
  · simp only [Option.some.injEq] at h
    subst h
    rfl
  · rw [(check_update_timer_updFrame _ _ _ h).alias]
    refine store_alias s _ data ?_
    rcases h1 with h | h | h <;> rw [h] <;> decide
  · exact (cmos_write_calendar_alias env _ _ data (by simp) h).1
  · exact (cmos_write_calendar_alias env _ _ data h2 h).1
  · exact cmos_write_reg_a_alias env s s' data h
  · exact cmos_write_reg_b_alias env s s' data h
  · simp only [Option.some.injEq] at h
    subst h
    rfl
  · simp only [Option.some.injEq] at h
    subst h
    exact store_alias s _ data h2

theorem cmos_read_calendar_alias (env : Env) (s : VIANVRAMState) :
    (cmos_read_calendar env s).1.cmos_data RTC_IBM_PS2_CENTURY_BYTE =
      s.cmos_data RTC_IBM_PS2_CENTURY_BYTE ∧
    (cmos_read_calendar env s).1.cmos_index = s.cmos_index ∧
    (cmos_read_calendar env s).2 = (cmos_read_calendar env s).1.cmos_data s.cmos_index := by
  have hu := rtc_update_time_updFrame env s
  unfold cmos_read_calendar
  simp only []
  split_ifs
  · exact ⟨hu.alias, hu.cmos_index, by rw [hu.cmos_index]⟩
  · exact ⟨rfl, rfl, rfl⟩

theorem cmos_read_reg_c_alias (env : Env) (s : VIANVRAMState) (r : VIANVRAMState × Nat)
    (h : cmos_read_reg_c env s = some r) :
    r.1.cmos_data RTC_IBM_PS2_CENTURY_BYTE = s.cmos_data RTC_IBM_PS2_CENTURY_BYTE := by
  unfold cmos_read_reg_c at h
  simp only [] at h
  split at h
  · exact absurd h (by simp)
  · rename_i s1 h1
    have hi1 : s1.cmos_data RTC_IBM_PS2_CENTURY_BYTE = s.cmos_data RTC_IBM_PS2_CENTURY_BYTE := by
      split_ifs at h1
      · rw [(check_update_timer_updFrame _ _ _ h1).alias]
        rfl
      · simp only [Option.some.injEq] at h1
        subst h1
        rfl
    clear h1
    simp only [rtc_policy_slew_deliver_irq] at h
    split_ifs at h <;> simp only [Option.some.injEq] at h <;> subst h <;> exact hi1

theorem update_in_progress_alias (env : Env) (s : VIANVRAMState) :
    (update_in_progress env s).1.cmos_data RTC_IBM_PS2_CENTURY_BYTE =
      s.cmos_data RTC_IBM_PS2_CENTURY_BYTE := by
  unfold update_in_progress
  simp only []
  split_ifs <;> rfl

theorem cmos_ioport_read_alias (env : Env) (s : VIANVRAMState) (addr : Nat)
    (r : VIANVRAMState × Nat) (h : cmos_ioport_read env s addr = some r) :
    r.1.cmos_data RTC_IBM_PS2_CENTURY_BYTE = s.cmos_data RTC_IBM_PS2_CENTURY_BYTE := by
  unfold cmos_ioport_read at h
  split_ifs at h with h0 h1 h2 h3 h4
  · simp only [Option.some.injEq] at h
    subst h
    rfl
  · simp only [Option.some.injEq] at h
    subst h
    exact (cmos_read_calendar_alias env _).1
  · simp only [Option.some.injEq] at h
    subst h
    exact (cmos_read_calendar_alias env _).1
  · simp only [Option.some.injEq] at h
    subst h
    exact update_in_progress_alias env s
  · exact cmos_read_reg_c_alias env s r h
  · simp only [Option.some.injEq] at h
    subst h
    rfl

theorem exec_alias (env : Env) (op : Op) (s s' : VIANVRAMState)
    (h : exec env s op = some s') :
    s'.cmos_data RTC_IBM_PS2_CENTURY_BYTE = s.cmos_data RTC_IBM_PS2_CENTURY_BYTE := by
  cases op with
  | io_write addr data => exact cmos_ioport_write_alias env s s' addr data h
  | io_read addr =>
    simp only [exec, Option.map_eq_some'] at h
    obtain ⟨r, hr, rfl⟩ := h
    exact cmos_ioport_read_alias env s addr r hr
  | ext_write fuel addr data =>
    induction fuel with
    | zero => exact absurd h (by simp [exec, cmos_extended_ioport_write])
    | succ n ih =>
      simp only [exec] at h ih
      unfold cmos_extended_ioport_write at h
      split_ifs at h with ha hidx
      · simp only [Option.some.injEq] at h
        subst h
        exact store_alias s _ data
          (by intro hh; rw [hh] at hidx; exact absurd hidx (by decide))
      · exact ih h
      · simp only [Option.some.injEq] at h
        subst h
        rfl
  | ext_read addr =>
    simp only [exec, Option.map_eq_some'] at h
    obtain ⟨r, hr, rfl⟩ := h
    unfold cmos_extended_ioport_read at hr
    split_ifs at hr
    · simp only [Option.some.injEq] at hr
      subst hr
      rfl
    · exact cmos_ioport_read_alias env s addr r hr
    · simp only [Option.some.injEq] at hr
      subst hr
      rfl
  | periodic_timer =>
    simp only [exec] at h
    split_ifs at h
    unfold rtc_periodic_timer at h
    split at h
    · exact absurd h (by simp)
    · rename_i s1 h1
      have hf := periodic_timer_update_frame _ _ _ _ _ _ h1
      clear h1
      simp only [rtc_policy_slew_deliver_irq, rtc_coalesced_timer_update_eq] at h
      split_ifs at h <;> simp only [Option.some.injEq] at h <;> subst h <;>
        simp +decide [store_cmos_data, hf.cmos_data]
  | coalesced_timer =>
    simp only [exec] at h
    split_ifs at h
    simp only [Option.some.injEq] at h
    subst h
    unfold rtc_coalesced_timer
    simp only [rtc_policy_slew_deliver_irq, rtc_coalesced_timer_update_eq]
    split_ifs <;> simp +decide [store_cmos_data]
  | update_timer =>
    simp only [exec] at h
    split_ifs at h
    unfold rtc_update_timer at h
    split_ifs at h
    rw [(check_update_timer_updFrame _ _ _ h).alias]
    have hu := (rtc_update_time_updFrame env { s with update_timer := none }).alias
    split_ifs <;> simp +decide [store_cmos_data, hu]
  | reset =>
    unfold exec rtc_reset rtc_reset_enter at h
    simp only [] at h
    split at h
    · exact absurd h (by simp)
    · rename_i s1 h1
      have hq := (check_update_timer_updFrame _ _ _ h1).alias
      clear h1
      split_ifs at h <;> simp only [Option.map_some', Option.some.injEq] at h <;> subst h <;>
        simp +decide [rtc_reset_hold, hq, store_cmos_data]
theorem cmos_ioport_read_at_alias (env : Env) (s : VIANVRAMState) (addr : Nat)
    (haddr : addr &&& 1 ≠ 0) (hidx : s.cmos_index = RTC_IBM_PS2_CENTURY_BYTE) :
    cmos_ioport_read env s addr =
      some (cmos_read_calendar env { s with cmos_index := RTC_CENTURY }) := by
  unfold cmos_ioport_read
  rw [if_neg haddr, if_pos hidx]

theorem cmos_ioport_read_at_century (env : Env) (s : VIANVRAMState) (addr : Nat)
    (haddr : addr &&& 1 ≠ 0) (hidx : s.cmos_index = RTC_CENTURY) :
    cmos_ioport_read env s addr = some (cmos_read_calendar env s) := by
  unfold cmos_ioport_read
  rw [if_neg haddr, hidx]
  simp +decide only [if_true, if_false, true_or]

theorem cmos_ioport_write_at_alias (env : Env) (s : VIANVRAMState) (addr d : Nat)
    (haddr : addr &&& 1 ≠ 0) (hidx : s.cmos_index = RTC_IBM_PS2_CENTURY_BYTE) :
    cmos_ioport_write env s addr d =
      cmos_write_calendar env { s with cmos_index := RTC_CENTURY } d := by
  unfold cmos_ioport_write
  rw [if_neg haddr, hidx]
  simp +decide only [if_true, if_false, or_self]

theorem cmos_ioport_write_at_century (env : Env) (s : VIANVRAMState) (addr d : Nat)
    (haddr : addr &&& 1 ≠ 0) (hidx : s.cmos_index = RTC_CENTURY) :
    cmos_ioport_write env s addr d = cmos_write_calendar env s d := by
  unfold cmos_ioport_write
  rw [if_neg haddr, hidx]
  simp +decide only [if_true, if_false, or_self, true_or]

/-- C36: century-byte aliasing.  With index 0x37 selected, a data-port read
and a data-port write behave as the same access with index 0x32 selected: the
read completes and returns the century register (byte 0x32) of the resulting
state, the write stores into byte 0x32 (when the clock is not running the
result is the state with the byte stored there and index 0x32) and completes
whenever the assertion of `check_update_timer` holds; after either access the
selected index is 0x32.  Byte 0x37 is not modified by these accesses, nor by
any other operation of the engine from any state. -/
theorem century_byte_aliasing (env : Env) (s : VIANVRAMState) (addr d : Nat)
    (haddr : addr &&& 1 ≠ 0) (hidx : s.cmos_index = RTC_IBM_PS2_CENTURY_BYTE) :
    cmos_ioport_read env s addr =
      cmos_ioport_read env { s with cmos_index := RTC_CENTURY } addr ∧
    (∃ r, cmos_ioport_read env s addr = some r ∧ r.2 = r.1.cmos_data RTC_CENTURY ∧
      r.1.cmos_index = RTC_CENTURY ∧
      r.1.cmos_data RTC_IBM_PS2_CENTURY_BYTE = s.cmos_data RTC_IBM_PS2_CENTURY_BYTE) ∧
    cmos_ioport_write env s addr d =
      cmos_ioport_write env { s with cmos_index := RTC_CENTURY } addr d ∧
    (NoLatchedReset s → ∃ s', cmos_ioport_write env s addr d = some s') ∧
    (∀ s', cmos_ioport_write env s addr d = some s' →
      s'.cmos_index = RTC_CENTURY ∧
      s'.cmos_data RTC_IBM_PS2_CENTURY_BYTE = s.cmos_data RTC_IBM_PS2_CENTURY_BYTE ∧
      (rtc_running s = false →
        s' = { s with cmos_index := RTC_CENTURY }.store RTC_CENTURY d)) ∧
    (∀ (e : Env) (op : Op) (t t' : VIANVRAMState), exec e t op = some t' →
      t'.cmos_data RTC_IBM_PS2_CENTURY_BYTE = t.cmos_data RTC_IBM_PS2_CENTURY_BYTE) := by
  have hr := cmos_ioport_read_at_alias env s addr haddr hidx
  have hw := cmos_ioport_write_at_alias env s addr d haddr hidx
  obtain ⟨c1, c2, c3⟩ := cmos_read_calendar_alias env { s with cmos_index := RTC_CENTURY }
  refine ⟨?_, ⟨_, hr, c3, c2, c1⟩, ?_, fun hn => ?_, fun s' h => ?_,
    fun e op t t' h => exec_alias e op t t' h⟩
  · rw [hr, cmos_ioport_read_at_century env _ addr haddr rfl]
  · rw [hw, cmos_ioport_write_at_century env _ addr d haddr rfl]
  · rw [hw]
    exact cmos_write_calendar_isSome env _ d (by simp)
      (NoLatchedReset.of_quiet (⟨rfl, rfl, rfl⟩ : Quiet s { s with cmos_index := RTC_CENTURY })
        hn)
  · rw [hw] at h
    obtain ⟨a1, a2⟩ := cmos_write_calendar_alias env _ s' d (by simp) h
    refine ⟨a2, a1, fun hrun => ?_⟩
    unfold cmos_write_calendar at h
    simp only [] at h
    have hrun' : rtc_running ({ s with cmos_index := RTC_CENTURY }.store RTC_CENTURY d) =
        false := by
      unfold rtc_running at hrun ⊢
      simp +decide only [store_cmos_data, if_false]
      exact hrun
    rw [if_neg (by rw [hrun']; simp)] at h
    simp only [Option.some.injEq] at h
    exact h.symm

set_option maxRecDepth 1000000 in
/-- The accesses in `centuryAliasExample` (index 0x37 selected, host date in
2024, BCD): the read returns the century 0x20 and leaves index 0x32 selected,
and a write of 0x19 leaves byte 0x37 at 0. -/
theorem century_byte_aliasing_witness :
    centuryAliasExample.cmos_index = RTC_IBM_PS2_CENTURY_BYTE ∧
    (cmos_ioport_read exampleEnv centuryAliasExample 1).map
      (fun r => (r.2, r.1.cmos_index)) = some (0x20, RTC_CENTURY) ∧
    (cmos_ioport_write exampleEnv centuryAliasExample 1 0x19).map
      (fun s => (s.cmos_index, s.cmos_data RTC_IBM_PS2_CENTURY_BYTE)) =
      some (RTC_CENTURY, 0) ∧
    ∃ r, cmos_ioport_read exampleEnv centuryAliasExample 1 = some r ∧
      r.2 = r.1.cmos_data RTC_CENTURY :=
  ⟨by decide, by decide, by decide,
    (century_byte_aliasing exampleEnv centuryAliasExample 1 0x19 (by decide)
      (by decide)).2.1.elim fun r h => ⟨r, h.1, h.2.1⟩⟩

theorem periodic_cur_clock_range (ct : Int) :
    0 ≤ periodic_cur_clock ct ∧ periodic_cur_clock ct < 604462909807315 ∧
    periodic_cur_clock ct = u64 ct * 32768 / 1000000000 := by
  have h0 : 0 ≤ u64 ct ∧ u64 ct < 18446744073709551616 := by
    unfold u64
    omega
  unfold periodic_cur_clock muldiv64
  simp only [NANOSECONDS_PER_SECOND]
  generalize u64 ct = a at *
  have hb : 0 ≤ a * 32768 / 1000000000 ∧ a * 32768 / 1000000000 < 604462909807315 := by
    omega
  have e2 : u64 (a * 32768 / 1000000000) = a * 32768 / 1000000000 := by
    unfold u64
    omega
  rw [e2, i64_id _ (by omega) (by omega)]
  exact ⟨hb.1, hb.2, rfl⟩

theorem periodic_elapsed_clock_range (s : VIANVRAMState) (ct op : Int)
    (hop : 0 ≤ op ∧ op < 4294967296) :
    periodic_elapsed_clock s ct op =
      periodic_cur_clock ct - (periodic_cur_clock s.next_periodic_time - op) ∧
    periodic_elapsed_clock s ct op < 4611686018427387904 := by
  obtain ⟨a0, a1, -⟩ := periodic_cur_clock_range ct
  obtain ⟨b0, b1, -⟩ := periodic_cur_clock_range s.next_periodic_time
  have e : periodic_elapsed_clock s ct op =
      i64 (periodic_cur_clock ct - i64 (periodic_cur_clock s.next_periodic_time - op)) := rfl
  rw [e]
  generalize periodic_cur_clock ct = a at *
  generalize periodic_cur_clock s.next_periodic_time = b at *
  rw [i64_id (b - op) (by omega) (by omega), i64_id _ (by omega) (by omega)]
  exact ⟨rfl, by omega⟩

theorem periodic_timer_update_rearm (env : Env) (s : VIANVRAMState) (ct op : Int) (pc : Bool)
    (hp : rtc_periodic_clock_ticks env s ≠ 0)
    (hop : ¬ (op ≠ 0 ∧ pc = true) ∨ 0 ≤ periodic_elapsed_clock s ct op)
    (hrange : 0 ≤ periodic_lost_clock env s op
        (if op ≠ 0 ∧ pc = true then periodic_elapsed_clock s ct op else 0) ∧
      periodic_lost_clock env s op
        (if op ≠ 0 ∧ pc = true then periodic_elapsed_clock s ct op else 0) ≤
        rtc_periodic_clock_ticks env s) :
    ∃ s', periodic_timer_update env s ct op pc = some s' ∧
      s'.next_periodic_time = i64 (periodic_clock_to_ns (i64 (periodic_cur_clock ct +
        rtc_periodic_clock_ticks env s - periodic_lost_clock env s op
          (if op ≠ 0 ∧ pc = true then periodic_elapsed_clock s ct op else 0))) + 1) ∧
      s'.periodic_timer = timer_mod s'.next_periodic_time ∧
      s'.period = rtc_periodic_clock_ticks env s ∧
      s'.irq_coalesced =
        (if s.lost_tick_policy = LostTickPolicy.SLEW then
          u32 ((i64 ((if op ≠ 0 ∧ pc = true then periodic_elapsed_clock s ct op else 0) +
            u32 (s.irq_coalesced * op))).tdiv (rtc_periodic_clock_ticks env s))
        else s.irq_coalesced) := by
  have hl0 : (if op ≠ 0 ∧ pc = true then
        (if periodic_elapsed_clock s ct op ≥ 0 then some (periodic_elapsed_clock s ct op)
          else none)
      else some 0) =
      some (if op ≠ 0 ∧ pc = true then periodic_elapsed_clock s ct op else 0) := by
    by_cases h0 : op ≠ 0 ∧ pc = true
    · rw [if_pos h0, if_pos h0]
      rcases hop with h | h
      · exact absurd h0 h
      · rw [if_pos h]
    · rw [if_neg h0, if_neg h0]
  generalize (if op ≠ 0 ∧ pc = true then periodic_elapsed_clock s ct op else 0) = base at *
  unfold periodic_elapsed_clock periodic_cur_clock at hl0
  simp only [] at hl0
  unfold periodic_lost_clock at hrange ⊢
  unfold periodic_cur_clock
  unfold periodic_timer_update
  simp only [rtc_coalesced_timer_update_eq]
  rw [if_neg hp, hl0]
  simp only []
  by_cases hpol : s.lost_tick_policy = LostTickPolicy.SLEW
  · simp only [hpol, if_true] at hrange ⊢
    split_ifs <;> exact ⟨_, rfl, rfl, rfl, rfl, rfl⟩
  · simp only [hpol, if_false] at hrange ⊢
    split_ifs <;> exact ⟨_, rfl, rfl, rfl, rfl, rfl⟩

/-- C40: the assertion before re-arming.  In `periodic_timer_update` with a
nonzero new period and a 32-bit old period, whenever the elapsed tick count
`lost_clock` is non-negative before the policy branch (it is the elapsed ticks
for a period change with a nonzero old period, and 0 otherwise), the value
after the branch satisfies `0 ≤ lost_clock ≤ period`, is strictly below
`period` under the slew policy and is `min(lost_clock, period)` otherwise; the
call then completes, and the tick of the new deadline,
`cur_clock + period - lost_clock`, lies between `cur_clock` and
`cur_clock + period`. -/
theorem periodic_timer_update_assertion (env : Env) (s : VIANVRAMState) (ct op : Int)
    (pc : Bool) (hop : 0 ≤ op ∧ op < 4294967296)
    (hp : rtc_periodic_clock_ticks env s ≠ 0)
    (hel : 0 ≤ (if op ≠ 0 ∧ pc = true then periodic_elapsed_clock s ct op else 0)) :
    0 ≤ periodic_lost_clock env s op
      (if op ≠ 0 ∧ pc = true then periodic_elapsed_clock s ct op else 0) ∧
    periodic_lost_clock env s op
      (if op ≠ 0 ∧ pc = true then periodic_elapsed_clock s ct op else 0) ≤
      rtc_periodic_clock_ticks env s ∧
    (s.lost_tick_policy = LostTickPolicy.SLEW →
      periodic_lost_clock env s op
        (if op ≠ 0 ∧ pc = true then periodic_elapsed_clock s ct op else 0) <
        rtc_periodic_clock_ticks env s) ∧
    (s.lost_tick_policy ≠ LostTickPolicy.SLEW →
      periodic_lost_clock env s op
        (if op ≠ 0 ∧ pc = true then periodic_elapsed_clock s ct op else 0) =
        min (if op ≠ 0 ∧ pc = true then periodic_elapsed_clock s ct op else 0)
          (rtc_periodic_clock_ticks env s)) ∧
    ∃ s' tick, periodic_timer_update env s ct op pc = some s' ∧
      tick = periodic_cur_clock ct + rtc_periodic_clock_ticks env s -
        periodic_lost_clock env s op
          (if op ≠ 0 ∧ pc = true then periodic_elapsed_clock s ct op else 0) ∧
      periodic_cur_clock ct ≤ tick ∧
      tick ≤ periodic_cur_clock ct + rtc_periodic_clock_ticks env s ∧
      s'.next_periodic_time = i64 (periodic_clock_to_ns tick + 1) ∧
      s'.periodic_timer = timer_mod s'.next_periodic_time := by
  have hlt := rtc_periodic_clock_ticks_lt env s
  have hbase : (if op ≠ 0 ∧ pc = true then periodic_elapsed_clock s ct op else 0) <
      4611686018427387904 := by
    split_ifs
    · exact (periodic_elapsed_clock_range s ct op hop).2
    · decide
  have hop' : ¬ (op ≠ 0 ∧ pc = true) ∨ 0 ≤ periodic_elapsed_clock s ct op := by
    by_cases h0 : op ≠ 0 ∧ pc = true
    · rw [if_pos h0] at hel
      exact Or.inr hel
    · exact Or.inl h0
  obtain ⟨r0, r1, r2, -⟩ := periodic_lost_clock_range env s op _ hp ⟨hel, hbase⟩
  obtain ⟨s', hs', hn, ht, -, -⟩ := periodic_timer_update_rearm env s ct op pc hp hop' ⟨r0, r1⟩
  obtain ⟨c0, c1, -⟩ := periodic_cur_clock_range ct
  refine ⟨r0, r1, r2, fun hpol => ?_, s', _, hs', rfl, by omega, by omega, ?_, ht⟩
  · unfold periodic_lost_clock
    rw [if_neg hpol]
  · have e : i64 (periodic_cur_clock ct + rtc_periodic_clock_ticks env s -
        periodic_lost_clock env s op
          (if op ≠ 0 ∧ pc = true then periodic_elapsed_clock s ct op else 0)) =
        periodic_cur_clock ct + rtc_periodic_clock_ticks env s -
        periodic_lost_clock env s op
          (if op ≠ 0 ∧ pc = true then periodic_elapsed_clock s ct op else 0) :=
      i64_id _ (by omega) (by omega)
    rw [hn, e]

set_option maxRecDepth 1000000 in
/-- A rate change half a millisecond after the periodic interrupt was enabled
in `enabledExample` (old period 32 ticks, elapsed ticks 16): the assertion
holds and the call completes. -/
theorem periodic_timer_update_assertion_witness :
    rtc_periodic_clock_ticks snapshotEnv rateSelectedExample ≠ 0 ∧
    periodic_elapsed_clock rateSelectedExample snapshotEnv.now 32 = 16 ∧
    periodic_lost_clock snapshotEnv rateSelectedExample 32 16 = 16 ∧
    ∃ s', periodic_timer_update snapshotEnv rateSelectedExample snapshotEnv.now 32 true =
      some s' :=
  ⟨by decide, by decide, by decide,
    (periodic_timer_update_assertion snapshotEnv rateSelectedExample snapshotEnv.now 32 true
      (by decide) (by decide) (by decide)).2.2.2.2.elim fun s' h => h.elim fun _ h => ⟨s', h.1⟩⟩
set_option maxRecDepth 1000000 in
/-- C34 (counterexample): under the slew policy with no interrupt owed, a
change from period 32 to period 4 made 19660800000 ticks (600000 s) after the
last periodic firing leaves `irq_coalesced` = 620232704, the quotient
4915200000 truncated to 32 bits, so that no remainder below 4 balances the
equation. -/
theorem periodic_timer_update_conservation_counterexample :
    rateSelectedExample.lost_tick_policy = LostTickPolicy.SLEW ∧
    rateSelectedExample.irq_coalesced = 0 ∧
    rtc_periodic_clock_ticks farEnv rateSelectedExample = 32 ∧
    periodic_elapsed_clock rateSelectedExample farEnv.now 32 = 19660800000 ∧
    (periodic_timer_update farEnv (cmos_write_reg_a_store farEnv rateSelectedExample 0x23)
      farEnv.now 32 true).map (fun s => (s.period, s.irq_coalesced)) =
      some (4, 620232704) ∧
    (cmos_ioport_write farEnv rateSelectedExample 1 0x23).map
      (fun s => (s.period, s.irq_coalesced)) = some (4, 620232704) ∧
    ∀ r : Int, 0 ≤ r → r < 4 → (0 : Int) * 32 + 19660800000 ≠ 620232704 * 4 + r :=
  ⟨by decide, by decide, by decide, by decide, by decide, by decide,
    fun r h0 h1 => by omega⟩

/-- C34 (amended): owed ticks are conserved under the slew policy as long as
the new count fits in 32 bits.  For every 32-bit old period `p0`, new period
`p > 0`, prior `irq_coalesced = k` with `k * p0` below 2^32 and elapsed tick
count `L ≥ 0` with `(k * p0 + L) / p` below 2^32, `periodic_timer_update`
completes and leaves `irq_coalesced'` and a remainder `r` with
`k * p0 + L = irq_coalesced' * p + r` and `0 ≤ r < p`, and arms the periodic
timer at the deadline of tick `cur_clock + p - r`. -/
theorem periodic_timer_update_conservation (env : Env) (s : VIANVRAMState) (ct op : Int)
    (pc : Bool) (hpol : s.lost_tick_policy = LostTickPolicy.SLEW)
    (hop : 0 ≤ op ∧ op < 4294967296) (hp : rtc_periodic_clock_ticks env s ≠ 0)
    (hk : 0 ≤ s.irq_coalesced) (hkp : s.irq_coalesced * op < 4294967296)
    (hel : 0 ≤ (if op ≠ 0 ∧ pc = true then periodic_elapsed_clock s ct op else 0))
    (hq : (s.irq_coalesced * op +
        (if op ≠ 0 ∧ pc = true then periodic_elapsed_clock s ct op else 0)) /
      rtc_periodic_clock_ticks env s < 4294967296) :
    ∃ s' r, periodic_timer_update env s ct op pc = some s' ∧
      s.irq_coalesced * op +
          (if op ≠ 0 ∧ pc = true then periodic_elapsed_clock s ct op else 0) =
        s'.irq_coalesced * rtc_periodic_clock_ticks env s + r ∧
      0 ≤ r ∧ r < rtc_periodic_clock_ticks env s ∧
      s'.period = rtc_periodic_clock_ticks env s ∧
      s'.next_periodic_time = i64 (periodic_clock_to_ns
        (periodic_cur_clock ct + rtc_periodic_clock_ticks env s - r) + 1) ∧
      s'.periodic_timer = timer_mod s'.next_periodic_time := by
  have hpos : 0 < rtc_periodic_clock_ticks env s :=
    lt_of_le_of_ne (rtc_periodic_clock_ticks_nonneg env s) (Ne.symm hp)
  have hlt := rtc_periodic_clock_ticks_lt env s
  have hbase : (if op ≠ 0 ∧ pc = true then periodic_elapsed_clock s ct op else 0) <
      4611686018427387904 := by
    split_ifs
    · exact (periodic_elapsed_clock_range s ct op hop).2
    · decide
  have hop' : ¬ (op ≠ 0 ∧ pc = true) ∨ 0 ≤ periodic_elapsed_clock s ct op := by
    by_cases h0 : op ≠ 0 ∧ pc = true
    · rw [if_pos h0] at hel
      exact Or.inr hel
    · exact Or.inl h0
  obtain ⟨r0, r1, -, -⟩ := periodic_lost_clock_range env s op _ hp ⟨hel, hbase⟩
  obtain ⟨s', hs', hn, ht, hper, hirq⟩ :=
    periodic_timer_update_rearm env s ct op pc hp hop' ⟨r0, r1⟩
  obtain ⟨c0, c1, -⟩ := periodic_cur_clock_range ct
  have hkp0 : 0 ≤ s.irq_coalesced * op := mul_nonneg hk hop.1
  have hu : u32 (s.irq_coalesced * op) = s.irq_coalesced * op := by
    unfold u32
    omega
  have hlost : periodic_lost_clock env s op
      (if op ≠ 0 ∧ pc = true then periodic_elapsed_clock s ct op else 0) =
      ((if op ≠ 0 ∧ pc = true then periodic_elapsed_clock s ct op else 0) +
        s.irq_coalesced * op) % rtc_periodic_clock_ticks env s := by
    unfold periodic_lost_clock
    rw [if_pos hpol, hu, i64_id _ (by omega) (by omega),
      Int.tmod_eq_emod (by omega) hpos.le]
  rw [if_pos hpol, hu, i64_id _ (by omega) (by omega),
    Int.tdiv_eq_ediv (by omega) hpos.le] at hirq
  rw [hlost] at hn r0 r1
  generalize (if op ≠ 0 ∧ pc = true then periodic_elapsed_clock s ct op else 0) = L at *
  generalize rtc_periodic_clock_ticks env s = p at *
  generalize s.irq_coalesced * op = kp at *
  have hswap : kp + L = L + kp := by omega
  rw [hswap] at hq
  have hq0 : 0 ≤ (L + kp) / p := Int.ediv_nonneg (by omega) hpos.le
  have hu2 : u32 ((L + kp) / p) = (L + kp) / p := by
    unfold u32
    omega
  rw [hu2] at hirq
  have hdm := Int.emod_add_ediv (L + kp) p
  have hm := Int.emod_lt_of_pos (L + kp) hpos
  have e : i64 (periodic_cur_clock ct + p - (L + kp) % p) =
      periodic_cur_clock ct + p - (L + kp) % p := i64_id _ (by omega) (by omega)
  rw [e] at hn
  refine ⟨s', (L + kp) % p, hs', ?_, r0, hm, hper, hn, ht⟩
  rw [hirq, mul_comm]
  omega
set_option maxRecDepth 1000000 in
/-- A call for a period change in `owedRateExample` (slew policy, three
interrupts owed, old and new period 32 ticks) 16 ticks after the last firing:
3 * 32 + 16 = 3 * 32 + 16, so three interrupts stay owed and the remainder is
16. -/
theorem periodic_timer_update_conservation_witness :
    owedRateExample.irq_coalesced = 3 ∧
    periodic_elapsed_clock owedRateExample snapshotEnv.now 32 = 16 ∧
    (periodic_timer_update snapshotEnv owedRateExample snapshotEnv.now 32 true).map
      (fun s => (s.irq_coalesced, s.period)) = some (3, 32) ∧
    ∃ s' r, periodic_timer_update snapshotEnv owedRateExample snapshotEnv.now 32 true =
        some s' ∧ 0 ≤ r ∧ r < rtc_periodic_clock_ticks snapshotEnv owedRateExample :=
  ⟨by decide, by decide, by decide,
    (periodic_timer_update_conservation snapshotEnv owedRateExample snapshotEnv.now 32 true
      (by decide) (by decide) (by decide) (by decide) (by decide) (by decide)
      (by decide)).elim fun s' h => h.elim fun r h => ⟨s', r, h.1, h.2.2.1, h.2.2.2.1⟩⟩

theorem rtc_periodic_timer_deadline (env : Env) (s s1 : VIANVRAMState)
    (h1 : periodic_timer_update env s s.next_periodic_time s.period false = some s1) :
    ∃ s', rtc_periodic_timer env s = some s' ∧
      s'.next_periodic_time = s1.next_periodic_time ∧
      s'.periodic_timer = s1.periodic_timer := by
  unfold rtc_periodic_timer
  rw [h1]
  simp only [rtc_policy_slew_deliver_irq, rtc_coalesced_timer_update_eq]
  split_ifs <;> exact ⟨_, rfl, rfl, rfl⟩

theorem slew_remainder_zero (k p : Int) (hp : 0 < p)
    (h : (0 ≤ k ∧ k * p < 4294967296) ∨ p ∣ 4294967296) : (u32 (k * p)).tmod p = 0 := by
  rw [Int.tmod_eq_emod (u32_nonneg _) hp.le]
  rcases h with ⟨h0, h1⟩ | h
  · have hu : u32 (k * p) = k * p := by
      have := mul_nonneg h0 hp.le
      unfold u32
      omega
    rw [hu]
    exact Int.mul_emod_left k p
  · unfold u32
    rw [Int.emod_emod_of_dvd _ h]
    exact Int.mul_emod_left k p

theorem ns_of_clock_fit (x : Int) (h0 : 0 ≤ x)
    (h1 : x * 1000000000 / 32768 < 9223372036854775808) :
    periodic_clock_to_ns x = x * 1000000000 / 32768 := by
  have e1 : u64 x = x := by
    unfold u64
    omega
  have hb : 0 ≤ x * 1000000000 / 32768 := by omega
  have e2 : u64 (x * 1000000000 / 32768) = x * 1000000000 / 32768 := by
    unfold u64
    omega
  unfold periodic_clock_to_ns muldiv64
  simp only [NANOSECONDS_PER_SECOND]
  rw [e1, e2]
  exact i64_id _ (by omega) (by omega)

theorem tick_round_trip (x : Int) (_h0 : 0 ≤ x) :
    (x * 1000000000 / 32768 + 1) * 32768 / 1000000000 = x := by
  omega

/-- C35: periodic deadlines are tick-exact.  For every deadline `t ≥ 0` (a
64-bit value) and period `p > 0` with an unchanged period, the firing handler
`rtc_periodic_timer` completes and computes the new deadline
`t' = ((t * 32768 / 10^9 + p) * 10^9) / 32768 + 1` (integer divisions),
provided this value fits in 64 bits; converting `t'` back to 32.768 kHz ticks
gives exactly `t * 32768 / 10^9 + p`, and `t' > t`.  Under the slew policy
the carried remainder `(irq_coalesced * p mod 2^32) mod p` enters the deadline;
it is zero when `irq_coalesced * p` is below 2^32 and for every period that
divides 2^32, as all powers of two do. -/
theorem rtc_periodic_timer_tick_exact (env : Env) (s : VIANVRAMState)
    (ht : 0 ≤ s.next_periodic_time ∧ s.next_periodic_time < 9223372036854775808)
    (hp : rtc_periodic_clock_ticks env s ≠ 0)
    (hsame : s.period = rtc_periodic_clock_ticks env s)
    (hk : s.lost_tick_policy ≠ LostTickPolicy.SLEW ∨
      (0 ≤ s.irq_coalesced ∧ s.irq_coalesced * s.period < 4294967296) ∨
      s.period ∣ 4294967296)
    (hfit : (s.next_periodic_time * 32768 / 1000000000 + s.period) * 1000000000 / 32768 + 1 <
      9223372036854775808) :
    ∃ s', rtc_periodic_timer env s = some s' ∧
      s'.next_periodic_time =
        (s.next_periodic_time * 32768 / 1000000000 + s.period) * 1000000000 / 32768 + 1 ∧
      s'.next_periodic_time * 32768 / 1000000000 =
        s.next_periodic_time * 32768 / 1000000000 + s.period ∧
      periodic_cur_clock s'.next_periodic_time =
        periodic_cur_clock s.next_periodic_time + s.period ∧
      s.next_periodic_time < s'.next_periodic_time ∧
      s'.periodic_timer = some s'.next_periodic_time := by
  have hpos : 0 < s.period := by
    rw [hsame]
    exact lt_of_le_of_ne (rtc_periodic_clock_ticks_nonneg env s) (Ne.symm hp)
  have hlt : s.period < 4294967296 := by
    rw [hsame]
    exact rtc_periodic_clock_ticks_lt env s
  have hlost : periodic_lost_clock env s s.period 0 = 0 := by
    unfold periodic_lost_clock
    by_cases hpol : s.lost_tick_policy = LostTickPolicy.SLEW
    · rw [if_pos hpol, ← hsame, i64_u32]
      rcases hk with h | h
      · exact absurd hpol h
      · exact slew_remainder_zero _ _ hpos h
    · rw [if_neg hpol]
      exact min_eq_left (rtc_periodic_clock_ticks_nonneg env s)
  have hbase : (if s.period ≠ 0 ∧ false = true then
      periodic_elapsed_clock s s.next_periodic_time s.period else 0) = 0 :=
    if_neg (by simp)
  obtain ⟨s1, h1, hn, htm, -, -⟩ := periodic_timer_update_rearm env s s.next_periodic_time
    s.period false hp (Or.inl (by simp))
    (by rw [hbase, hlost]; exact ⟨le_refl 0, rtc_periodic_clock_ticks_nonneg env s⟩)
  rw [hbase, hlost, sub_zero, ← hsame] at hn
  unfold periodic_cur_clock at hn
  have hu : u64 s.next_periodic_time = s.next_periodic_time := by
    unfold u64
    omega
  have hcur : i64 (muldiv64 (u64 s.next_periodic_time) 32768 NANOSECONDS_PER_SECOND) =
      s.next_periodic_time * 32768 / 1000000000 := by
    have := (periodic_cur_clock_range s.next_periodic_time).2.2
    rw [hu] at this
    exact this
  rw [hcur] at hn
  have hc0 : 0 ≤ s.next_periodic_time * 32768 / 1000000000 ∧
      s.next_periodic_time * 32768 / 1000000000 < 302231454903658 := by
    omega
  have hback := tick_round_trip (s.next_periodic_time * 32768 / 1000000000 + s.period)
    (by omega)
  have hgt : s.next_periodic_time <
      (s.next_periodic_time * 32768 / 1000000000 + s.period) * 1000000000 / 32768 + 1 := by
    omega
  rw [i64_id (s.next_periodic_time * 32768 / 1000000000 + s.period) (by omega) (by omega),
    ns_of_clock_fit _ (by omega) (by omega)] at hn
  have hfit0 : 0 ≤ (s.next_periodic_time * 32768 / 1000000000 + s.period) * 1000000000 /
      32768 := by omega
  rw [i64_id _ (by omega) (by omega)] at hn
  obtain ⟨s', hs', e1, e2⟩ := rtc_periodic_timer_deadline env s s1 h1
  have hnp : s'.next_periodic_time =
      (s.next_periodic_time * 32768 / 1000000000 + s.period) * 1000000000 / 32768 + 1 := by
    rw [e1, hn]
  have hu' : u64 s'.next_periodic_time = s'.next_periodic_time := by
    unfold u64
    omega
  have hc' := (periodic_cur_clock_range s'.next_periodic_time).2.2
  have hc := (periodic_cur_clock_range s.next_periodic_time).2.2
  rw [hu'] at hc'
  rw [hu] at hc
  have hback' : s'.next_periodic_time * 32768 / 1000000000 =
      s.next_periodic_time * 32768 / 1000000000 + s.period := by
    rw [hnp]
    exact hback
  refine ⟨s', hs', hnp, hback', ?_, ?_, ?_⟩
  · rw [hc', hc, hback']
  · rw [hnp]
    exact hgt
  · rw [e2, htm, ← e1]
    unfold timer_mod
    rw [max_eq_left (by omega)]
set_option maxRecDepth 1000000 in
/-- The firing of the periodic timer in `enabledExample` (deadline 10000976563
ns, tick 327712, period 32): the new deadline is 10001953126 ns, tick
327744. -/
theorem rtc_periodic_timer_tick_exact_witness :
    enabledExample.next_periodic_time = 10000976563 ∧
    periodic_cur_clock enabledExample.next_periodic_time = 327712 ∧
    (rtc_periodic_timer exampleEnvLater enabledExample).map
      (fun s => (s.next_periodic_time, periodic_cur_clock s.next_periodic_time)) =
      some (10001953126, 327744) ∧
    ∃ s', rtc_periodic_timer exampleEnvLater enabledExample = some s' ∧
      enabledExample.next_periodic_time < s'.next_periodic_time :=
  ⟨by decide, by decide, by decide,
    (rtc_periodic_timer_tick_exact exampleEnvLater enabledExample (by decide) (by decide)
      (by decide) (Or.inr (Or.inl (by decide))) (by decide)).elim
      fun s' h => ⟨s', h.1, h.2.2.2.2.1⟩⟩

theorem check_update_timer_alarm_deadline (env : Env) (s : VIANVRAMState)
    (h : s.cmos_data RTC_REG_A &&& 0x60 ≠ 0x60) :
    ∃ s', check_update_timer env s = some s' ∧
      s'.next_alarm_time =
        u64 (next_update_time env s +
          i64 (i32 (i32 (get_next_alarm env s).2 - 1) * NANOSECONDS_PER_SECOND)) :=
  check_update_timer_next_alarm_time env s h

theorem check_update_timer_arms (env : Env) (s s' : VIANVRAMState)
    (hdiv : s.cmos_data RTC_REG_A &&& 0x60 ≠ 0x60)
    (hc : ¬ (s.cmos_data RTC_REG_A &&& REG_A_UIP = 0 ∧ s.cmos_data RTC_REG_C &&& REG_C_UF ≠ 0))
    (hfit : next_update_time env s < 9223372036854775808)
    (h : check_update_timer env s = some s') :
    u64 (timer_expire_time_ns s'.update_timer) = next_update_time env s := by
  have hu := rtc_update_time_updFrame env s
  have hA := hu.data RTC_REG_A (by decide) (by decide) (by decide) (by decide) (by decide)
    (by decide) (by decide) (by decide)
  have hC := hu.data RTC_REG_C (by decide) (by decide) (by decide) (by decide) (by decide)
    (by decide) (by decide) (by decide)
  have hn0 : 0 ≤ next_update_time env s := by
    unfold next_update_time u64
    simp only []
    omega
  unfold next_update_time at hfit hn0 ⊢
  simp only [] at hfit hn0 ⊢
  unfold check_update_timer at h
  rw [if_neg hdiv] at h
  simp only [get_next_alarm] at h
  rw [hA, hC, if_neg hc] at h
  generalize u64 (u64 env.now + NANOSECONDS_PER_SECOND -
    get_guest_rtc_ns env s % NANOSECONDS_PER_SECOND) = nut at *
  split_ifs at h with hne
  · simp only [Option.some.injEq] at h
    subst h
    simp only [timer_mod, timer_expire_time_ns]
    rw [i64_id nut (by omega) hfit, max_eq_left hn0]
    unfold u64
    omega
  · simp only [Option.some.injEq] at h
    subst h
    simp only [] at hne ⊢
    exact (not_not.mp hne).symm

/-- C31: the next update deadline is a guest second boundary.  With the
dividers not in reset, for every time base and clock value `now` for which
the guest time and `now + 10^9` do not overflow 64 bits, the value
`next_update_time` that `check_update_timer` computes satisfies
`now < next_update_time ≤ now + 10^9`, and the guest time at that instant,
`base_rtc * 10^9 + next_update_time - last_update + offset`, is a multiple of
10^9 ns.  `check_update_timer` completes and sets `next_alarm_time` to
`next_update_time + (get_next_alarm - 1) * 10^9` (computed in 64 bits, and
exactly so when the result of `get_next_alarm` is below 2^31 and the sum lies
in 0..2^64-1); unless the update-ended flag is set with UIP clear, the update
timer is left with `next_update_time` as its deadline. -/
theorem check_update_timer_second_boundary (env : Env) (s : VIANVRAMState)
    (hdiv : s.cmos_data RTC_REG_A &&& 0x60 ≠ 0x60)
    (hnow : 0 ≤ env.now ∧ env.now + 1000000000 < 9223372036854775808)
    (hG : 0 ≤ s.base_rtc * 1000000000 + env.now - s.last_update + s.offset ∧
      s.base_rtc * 1000000000 + env.now - s.last_update + s.offset < 18446744073709551616) :
    env.now < next_update_time env s ∧ next_update_time env s ≤ env.now + 1000000000 ∧
    (s.base_rtc * 1000000000 + next_update_time env s - s.last_update + s.offset) %
      1000000000 = 0 ∧
    ∃ s', check_update_timer env s = some s' ∧
      s'.next_alarm_time =
        u64 (next_update_time env s +
          i64 (i32 (i32 (get_next_alarm env s).2 - 1) * 1000000000)) ∧
      ((get_next_alarm env s).2 < 2147483648 →
        0 ≤ next_update_time env s + ((get_next_alarm env s).2 - 1) * 1000000000 →
        next_update_time env s + ((get_next_alarm env s).2 - 1) * 1000000000 <
          18446744073709551616 →
        s'.next_alarm_time =
          next_update_time env s + ((get_next_alarm env s).2 - 1) * 1000000000) ∧
      (¬ (s.cmos_data RTC_REG_A &&& REG_A_UIP = 0 ∧ s.cmos_data RTC_REG_C &&& REG_C_UF ≠ 0) →
        u64 (timer_expire_time_ns s'.update_timer) = next_update_time env s) := by
  have hg : get_guest_rtc_ns env s =
      s.base_rtc * 1000000000 + env.now - s.last_update + s.offset := by
    unfold get_guest_rtc_ns u64
    simp only [NANOSECONDS_PER_SECOND]
    omega
  have hnut : next_update_time env s = env.now + 1000000000 -
      (s.base_rtc * 1000000000 + env.now - s.last_update + s.offset) % 1000000000 := by
    unfold next_update_time
    simp only [NANOSECONDS_PER_SECOND]
    rw [hg]
    unfold u64
    omega
  have hgna : 0 ≤ (get_next_alarm env s).2 := by
    unfold get_next_alarm u64
    simp only []
    omega
  obtain ⟨s', hs', hal⟩ := check_update_timer_alarm_deadline env s hdiv
  simp only [NANOSECONDS_PER_SECOND] at hal
  refine ⟨by omega, by omega, by omega, s', hs', hal, fun h31 hlo hhi => ?_, fun hc => ?_⟩
  · rw [hal]
    have e1 : i32 (get_next_alarm env s).2 = (get_next_alarm env s).2 := by
      unfold i32
      omega
    have e2 : i32 ((get_next_alarm env s).2 - 1) = (get_next_alarm env s).2 - 1 := by
      unfold i32
      omega
    rw [e1, e2, i64_id _ (by omega) (by omega)]
    unfold u64
    omega
  · exact check_update_timer_arms env s s' hdiv hc (by omega) hs'

set_option maxRecDepth 1000000 in
/-- The deadline in `attachedExample` half a millisecond after attach: the
guest time is 500000 ns past a second, so the next update is due at 11 s. -/
theorem check_update_timer_second_boundary_witness :
    attachedExample.cmos_data RTC_REG_A &&& 0x60 ≠ 0x60 ∧
    next_update_time snapshotEnv attachedExample = 11000000000 ∧
    snapshotEnv.now < next_update_time snapshotEnv attachedExample ∧
    next_update_time snapshotEnv attachedExample ≤ snapshotEnv.now + 1000000000 :=
  ⟨by decide, by decide,
    (check_update_timer_second_boundary snapshotEnv attachedExample (by decide) (by decide)
      (by decide)).1,
    (check_update_timer_second_boundary snapshotEnv attachedExample (by decide) (by decide)
      (by decide)).2.1⟩

theorem cmos_ioport_write_at_calendar (env : Env) (s : VIANVRAMState) (addr d : Nat)
    (haddr : addr &&& 1 ≠ 0)
    (hidx : s.cmos_index = RTC_CENTURY ∨ s.cmos_index = RTC_SECONDS ∨
      s.cmos_index = RTC_MINUTES ∨ s.cmos_index = RTC_HOURS ∨
      s.cmos_index = RTC_DAY_OF_WEEK ∨ s.cmos_index = RTC_DAY_OF_MONTH ∨
      s.cmos_index = RTC_MONTH ∨ s.cmos_index = RTC_YEAR) :
    cmos_ioport_write env s addr d = cmos_write_calendar env s d ∧
    s.cmos_index ≠ RTC_REG_A ∧ s.cmos_index ≠ RTC_REG_B := by
  have h1 : ¬ (s.cmos_index = RTC_SECONDS_ALARM ∨ s.cmos_index = RTC_MINUTES_ALARM ∨
      s.cmos_index = RTC_HOURS_ALARM) := by
    rcases hidx with h | h | h | h | h | h | h | h <;> rw [h] <;> decide
  have h2 : ¬ s.cmos_index = RTC_IBM_PS2_CENTURY_BYTE := by
    rcases hidx with h | h | h | h | h | h | h | h <;> rw [h] <;> decide
  have h3 : s.cmos_index ≠ RTC_REG_A := by
    rcases hidx with h | h | h | h | h | h | h | h <;> rw [h] <;> decide
  have h4 : s.cmos_index ≠ RTC_REG_B := by
    rcases hidx with h | h | h | h | h | h | h | h <;> rw [h] <;> decide
  refine ⟨?_, h3, h4⟩
  unfold cmos_ioport_write
  rw [if_neg haddr, if_neg h1, if_neg h2, if_pos hidx]

theorem rtc_running_store (s : VIANVRAMState) (i v : Nat) (ha : i ≠ RTC_REG_A)
    (hb : i ≠ RTC_REG_B) : rtc_running (s.store i v) = rtc_running s := by
  unfold rtc_running
  rw [store_cmos_data, store_cmos_data, if_neg (Ne.symm hb), if_neg (Ne.symm ha)]

/-- C32: resync preserves the sub-second offset.  With a calendar field
selected, a data-port write at clock value `now` in a running state (set-mode
clear and `A & 0x70 ≤ 0x20`) completes; it stores the byte, sets `base_rtc`
to the epoch second decoded from the register file holding the new byte, sets
`last_update` to `now` and leaves `offset` unchanged, after which
`check_update_timer` brings the calendar registers up to date from the new
time base.  When the clock is not running the result is the state with the
byte stored and nothing else changed. -/
theorem cmos_ioport_write_calendar_resync (env : Env) (s : VIANVRAMState) (addr d : Nat)
    (haddr : addr &&& 1 ≠ 0)
    (hidx : s.cmos_index = RTC_CENTURY ∨ s.cmos_index = RTC_SECONDS ∨
      s.cmos_index = RTC_MINUTES ∨ s.cmos_index = RTC_HOURS ∨
      s.cmos_index = RTC_DAY_OF_WEEK ∨ s.cmos_index = RTC_DAY_OF_MONTH ∨
      s.cmos_index = RTC_MONTH ∨ s.cmos_index = RTC_YEAR) :
    (rtc_running s = true →
      ∃ s', cmos_ioport_write env s addr d = some s' ∧
        s'.base_rtc = u64 (env.mktimegm
          (rtc_get_time (s.store s.cmos_index d) ⟨0, 0, 0, 0, 0, 0, 0, 0, 0⟩)) ∧
        s'.last_update = u64 env.now ∧
        s'.offset = s.offset ∧
        s'.cmos_data =
          (rtc_update_time env (rtc_set_time env (s.store s.cmos_index d))).cmos_data) ∧
    (rtc_running s = false →
      cmos_ioport_write env s addr d = some (s.store s.cmos_index d) ∧
      (s.store s.cmos_index d).base_rtc = s.base_rtc ∧
      (s.store s.cmos_index d).last_update = s.last_update ∧
      (s.store s.cmos_index d).offset = s.offset ∧
      (s.store s.cmos_index d).cmos_data s.cmos_index = d % 256) := by
  obtain ⟨hw, ha, hb⟩ := cmos_ioport_write_at_calendar env s addr d haddr hidx
  have hrs := rtc_running_store s s.cmos_index d ha hb
  rw [hw]
  unfold cmos_write_calendar
  simp only []
  rw [hrs]
  constructor
  · intro hrun
    rw [if_pos hrun]
    have hdiv : (rtc_set_time env (s.store s.cmos_index d)).cmos_data RTC_REG_A &&& 0x60 ≠
        0x60 := by
      have := rtc_running_divider s hrun
      have e : (rtc_set_time env (s.store s.cmos_index d)).cmos_data RTC_REG_A =
          s.cmos_data RTC_REG_A := by
        show (s.store s.cmos_index d).cmos_data RTC_REG_A = _
        rw [store_cmos_data, if_neg (Ne.symm ha)]
      rw [e]
      exact this
    obtain ⟨s', hs'⟩ := check_update_timer_isSome env _ (fun hx => absurd hx hdiv)
    have hu := check_update_timer_updFrame _ _ _ hs'
    have hc := check_update_timer_cmos_data _ _ _ hs'
    rw [if_neg hdiv] at hc
    exact ⟨s', hs', hu.base_rtc, hu.last_update, hu.offset, hc⟩
  · intro hrun
    rw [if_neg (by rw [hrun]; simp)]
    refine ⟨rfl, rfl, rfl, rfl, ?_⟩
    rw [store_cmos_data, if_pos rfl]

set_option maxRecDepth 1000000 in
/-- A write of 0x30 to the seconds register of `attachedExample` half a
millisecond after attach: the clock is running, `last_update` becomes the
clock value and `offset` stays 0. -/
theorem cmos_ioport_write_calendar_resync_witness :
    attachedExample.cmos_index = RTC_SECONDS ∧ rtc_running attachedExample = true ∧
    (cmos_ioport_write snapshotEnv attachedExample 1 0x30).map
      (fun s => (s.last_update, s.offset, s.cmos_data RTC_SECONDS)) =
      some (10000500000, 0, 0x30) ∧
    ∃ s', cmos_ioport_write snapshotEnv attachedExample 1 0x30 = some s' ∧
      s'.last_update = u64 snapshotEnv.now ∧ s'.offset = attachedExample.offset :=
  ⟨by decide, by decide, by decide,
    ((cmos_ioport_write_calendar_resync snapshotEnv attachedExample 1 0x30 (by decide)
      (Or.inr (Or.inl (by decide)))).1 (by decide)).elim
      fun s' h => ⟨s', h.1, h.2.2.1, h.2.2.2.1⟩⟩

theorem next_update_time_congr (env : Env) (s s' : VIANVRAMState)
    (h1 : s'.base_rtc = s.base_rtc) (h2 : s'.last_update = s.last_update)
    (h3 : s'.offset = s.offset) : next_update_time env s' = next_update_time env s := by
  unfold next_update_time get_guest_rtc_ns
  rw [h1, h2, h3]

theorem cmos_write_reg_a_store_release (env : Env) (s : VIANVRAMState) (d : Nat)
    (hdiv : s.cmos_data RTC_REG_A &&& 0x60 = 0x60) (hd : d &&& 0x70 ≤ 0x20) :
    (cmos_write_reg_a_store env s d).cmos_data RTC_REG_A &&& 0x60 ≠ 0x60 ∧
    (cmos_write_reg_a_store env s d).cmos_data RTC_REG_A &&& REG_A_UIP = 0 ∧
    (s.cmos_data RTC_REG_B &&& REG_B_SET = 0 →
      (cmos_write_reg_a_store env s d).offset = 500000000 ∧
      (cmos_write_reg_a_store env s d).base_rtc =
        u64 (env.mktimegm (rtc_get_time s ⟨0, 0, 0, 0, 0, 0, 0, 0, 0⟩)) ∧
      (cmos_write_reg_a_store env s d).last_update = u64 env.now) ∧
    (s.cmos_data RTC_REG_B &&& REG_B_SET ≠ 0 →
      (cmos_write_reg_a_store env s d).offset = s.offset ∧
      (cmos_write_reg_a_store env s d).base_rtc = s.base_rtc ∧
      (cmos_write_reg_a_store env s d).last_update = s.last_update) := by
  have hd60 : ¬ d &&& 0x60 = 0x60 := not_divider_reset d hd
  have hbits : ∀ a1 : Nat,
      ((d &&& (0xffffffffffffffff ^^^ REG_A_UIP)) |||
        ((a1 &&& (0xff ^^^ REG_A_UIP)) % 256 &&& REG_A_UIP)) % 256 &&& 0x60 ≠ 0x60 ∧
      ((d &&& (0xffffffffffffffff ^^^ REG_A_UIP)) |||
        ((a1 &&& (0xff ^^^ REG_A_UIP)) % 256 &&& REG_A_UIP)) % 256 &&& REG_A_UIP = 0 := by
    intro a1
    have hd' := hd60
    simp +decide only [ne_eq, and_0x60_eq, and_0x80, testBit_mod_256, Nat.testBit_and,
      Nat.testBit_or, Nat.testBit_xor] at hd' ⊢
    generalize d.testBit 5 = d5 at *
    generalize d.testBit 6 = d6 at *
    generalize d.testBit 7 = d7 at *
    generalize a1.testBit 5 = a5 at *
    generalize a1.testBit 6 = a6 at *
    generalize a1.testBit 7 = a7 at *
    revert d5 d6 d7 a5 a6 a7
    decide
  unfold cmos_write_reg_a_store
  rw [if_neg hd60, if_pos ⟨hdiv, hd⟩]
  simp only [store_cmos_data, if_true, store_offset, store_base_rtc, store_last_update]
  by_cases hset : s.cmos_data RTC_REG_B &&& REG_B_SET = 0
  · rw [if_pos hset]
    exact ⟨(hbits _).1, (hbits _).2, fun _ => ⟨rfl, rfl, rfl⟩, fun h => absurd hset h⟩
  · rw [if_neg hset]
    exact ⟨(hbits _).1, (hbits _).2, fun h => absurd h hset, fun _ => ⟨rfl, rfl, rfl⟩⟩

/-- C33: removing the divider reset starts the first update half a second
later.  In a state with `(A & 0x60) = 0x60` and register A selected, a
data-port write whose data has `(data & 0x70) ≤ 0x20`, when it completes (as
it does whenever the rate selector is unchanged or PIE is clear), has the
following effect.  With set-mode clear it sets `offset` to 500000000 ns,
`base_rtc` to the epoch second decoded from the registers and `last_update` to
`now`, so that, without 64-bit overflow, the next second boundary computed by
`check_update_timer` is exactly `now + 500000000`, which is the deadline of
the update timer when the update-ended flag is clear.  With set-mode active
`offset`, `base_rtc` and `last_update` are unchanged. -/
theorem cmos_ioport_write_divider_release (env : Env) (s : VIANVRAMState) (addr d : Nat)
    (haddr : addr &&& 1 ≠ 0) (hidx : s.cmos_index = RTC_REG_A)
    (hdiv : s.cmos_data RTC_REG_A &&& 0x60 = 0x60) (hd : d &&& 0x70 ≤ 0x20) :
    ((s.cmos_data RTC_REG_A ^^^ d) &&& 0x0f = 0 ∨ s.cmos_data RTC_REG_B &&& REG_B_PIE = 0 →
      ∃ s', cmos_ioport_write env s addr d = some s') ∧
    ∀ s', cmos_ioport_write env s addr d = some s' →
      (s.cmos_data RTC_REG_B &&& REG_B_SET = 0 →
        s'.offset = 500000000 ∧
        s'.base_rtc = u64 (env.mktimegm (rtc_get_time s ⟨0, 0, 0, 0, 0, 0, 0, 0, 0⟩)) ∧
        s'.last_update = u64 env.now ∧
        (0 ≤ env.now ∧ env.now + 1000000000 < 9223372036854775808 →
          u64 (env.mktimegm (rtc_get_time s ⟨0, 0, 0, 0, 0, 0, 0, 0, 0⟩)) * 1000000000 +
            500000000 < 18446744073709551616 →
          next_update_time env s' = env.now + 500000000 ∧
          (s.cmos_data RTC_REG_C &&& REG_C_UF = 0 →
            u64 (timer_expire_time_ns s'.update_timer) = env.now + 500000000))) ∧
      (s.cmos_data RTC_REG_B &&& REG_B_SET ≠ 0 →
        s'.offset = s.offset ∧ s'.base_rtc = s.base_rtc ∧ s'.last_update = s.last_update) := by
  rw [cmos_ioport_write_at_reg_a env s addr d haddr hidx]
  refine ⟨cmos_write_reg_a_isSome env s d, fun s' h => ?_⟩
  obtain ⟨x1, x2, x3, x4⟩ := cmos_write_reg_a_store_release env s d hdiv hd
  obtain ⟨-, -, -, -, xC⟩ := cmos_write_reg_a_store_facts env s d
  rw [cmos_write_reg_a_eq] at h
  split at h
  · exact absurd h (by simp)
  · rename_i s2 h2
    have hf : PeriodicFrame (cmos_write_reg_a_store env s d) s2 := by
      split_ifs at h2
      · exact periodic_timer_update_frame _ _ _ _ _ _ h2
      · simp only [Option.some.injEq] at h2
        rw [← h2]
        exact periodicFrame_refl _
    have hu := check_update_timer_updFrame _ _ _ h
    have hoff : s'.offset = (cmos_write_reg_a_store env s d).offset :=
      hu.offset.trans hf.offset
    have hbase : s'.base_rtc = (cmos_write_reg_a_store env s d).base_rtc :=
      hu.base_rtc.trans hf.base_rtc
    have hlast : s'.last_update = (cmos_write_reg_a_store env s d).last_update :=
      hu.last_update.trans hf.last_update
    refine ⟨fun hset => ?_, fun hset => ?_⟩
    · obtain ⟨y1, y2, y3⟩ := x3 hset
      refine ⟨hoff.trans y1, hbase.trans y2, hlast.trans y3, fun hnow hfit => ?_⟩
      have hnut : next_update_time env s' = env.now + 500000000 := by
        unfold next_update_time get_guest_rtc_ns
        rw [hoff, hbase, hlast, y1, y2, y3]
        simp only [NANOSECONDS_PER_SECOND]
        have hb0 : 0 ≤ u64 (env.mktimegm (rtc_get_time s ⟨0, 0, 0, 0, 0, 0, 0, 0, 0⟩)) := by
          unfold u64
          omega
        generalize u64 (env.mktimegm (rtc_get_time s ⟨0, 0, 0, 0, 0, 0, 0, 0, 0⟩)) = b at *
        have e1 : u64 env.now = env.now := by
          unfold u64
          omega
        rw [e1]
        have e2 : u64 (b * 1000000000 + env.now - env.now + 500000000) =
            b * 1000000000 + 500000000 := by
          unfold u64
          omega
        rw [e2]
        unfold u64
        omega
      refine ⟨hnut, fun huf => ?_⟩
      have hn2 : next_update_time env s2 = env.now + 500000000 := by
        rw [← hnut]
        exact (next_update_time_congr env s2 s' hu.base_rtc hu.last_update hu.offset).symm
      rw [← hn2]
      refine check_update_timer_arms env s2 s' ?_ ?_ (by rw [hn2]; omega) h
      · rw [hf.cmos_data]
        exact x1
      · rw [hf.cmos_data, xC]
        exact fun hc => hc.2 huf
    · obtain ⟨y1, y2, y3⟩ := x4 hset
      exact ⟨hoff.trans y1, hbase.trans y2, hlast.trans y3⟩

set_option maxRecDepth 1000000 in
/-- The write of 0x26 to register A of `dividerResetExample` at clock value
11 s: the dividers leave reset, `offset` becomes 500000000 ns and the update
timer is armed for 11.5 s. -/
theorem cmos_ioport_write_divider_release_witness :
    dividerResetExample.cmos_index = RTC_REG_A ∧
    dividerResetExample.cmos_data RTC_REG_A &&& 0x60 = 0x60 ∧
    (cmos_ioport_write exampleEnvLater dividerResetExample 1 0x26).map
      (fun s => (s.offset, s.last_update, s.update_timer)) =
      some (500000000, 11000000000, some 11500000000) ∧
    ∃ s', cmos_ioport_write exampleEnvLater dividerResetExample 1 0x26 = some s' :=
  ⟨by decide, by decide, by decide,
    (cmos_ioport_write_divider_release exampleEnvLater dividerResetExample 1 0x26 (by decide)
      (by decide) (by decide) (by decide)).1 (Or.inl (by decide))⟩

end ViaNvram
